import Mathlib

/-!
# ggh: interactive picker, table layout and SSH tunnel records

A shallow embedding of the Go sources of `ggh` (packages `theme`, `tunnel`,
`interactive`) together with the properties proved about them.

Conventions of the embedding

* A Go `string` is its sequence of bytes (`GoString`); a string literal of the
  source is written `str "..."`, its UTF-8 encoding.
* A Go `int` is a Lean `Int`; the subtractions that can leave the 64-bit range
  are wrapped with `wrapInt64`, the other operations provably stay in range.
* A Go `float64` is modelled exactly: a finite double is an integer multiple of
  `2 ^ (-1074)`, and `F64` stores that integer.  Every arithmetic operation
  computes the exact rational result and rounds it to the nearest double, ties
  to even (`f64RoundMag`).  Infinities, NaN and the sign of zero are not
  represented; none of them is reachable from the integer inputs used here.
* A Go `panic` (index out of range) is the value `none`.
* The Go standard library (`strings`, `strconv`, `unicode/utf8`, `math`) and
  the table widget are modelled as far as the sources use them; what hangs on
  the Unicode case tables or on the release of the widget is a field of
  `GoLib`, over which the definitions and theorems are parametrised.
-/

set_option exponentiation.threshold 5000

/-! ## Go primitives -/

/-- A Go string: an immutable sequence of bytes. -/
abbrev GoString := List UInt8

/-- The bytes (UTF-8) of a string literal of the source. -/
def str (s : String) : GoString := s.data.flatMap String.utf8EncodeChar

/-- Two's-complement wrap-around of a 64-bit Go `int`. -/
def wrapInt64 (x : Int) : Int := (x + 2 ^ 63) % 2 ^ 64 - 2 ^ 63

/-! ## float64 -/

/-- A finite `float64`, stored as the integer `v` with value `v * 2 ^ (-1074)`. -/
abbrev F64 := Int

/-- The number of units (`2 ^ (-1074)`) in `1.0`. -/
def f64Unit : Nat := 2 ^ 1074

/-- Worker of `bitLength`: binary search over the given shifts. -/
def bitLengthAux : List Nat → Nat → Nat → Nat
  | [], n, acc => if n = 0 then acc else acc + 1
  | k :: ks, n, acc =>
    if 2 ^ k ≤ n then bitLengthAux ks (n / 2 ^ k) (acc + k) else bitLengthAux ks n acc

/-- The number of binary digits of `n` (for `n < 2 ^ 4096`, which covers every
quotient that is within the range of finite doubles). -/
def bitLength (n : Nat) : Nat :=
  bitLengthAux [2048, 1024, 512, 256, 128, 64, 32, 16, 8, 4, 2, 1] n 0

/-- The integer nearest to `n / d`, ties to the even one. -/
def roundNearestEven (n d : Nat) : Nat :=
  let q := n / d
  let r := n % d
  if 2 * r < d then q else if d < 2 * r then q + 1 else if q % 2 = 0 then q else q + 1

/-- IEEE 754 binary64 rounding (to nearest, ties to even) of the non-negative
rational `n / d`, given and returned in units of `2 ^ (-1074)`: the result keeps
at most 53 significant bits. -/
def f64RoundMag (n d : Nat) : Nat :=
  let s := bitLength (n / d) - 53
  roundNearestEven n (d * 2 ^ s) * 2 ^ s

/-- Rounding of a signed rational given by sign and magnitude. -/
def f64Round (neg : Bool) (n d : Nat) : F64 :=
  if neg then -((f64RoundMag n d : Nat) : Int) else ((f64RoundMag n d : Nat) : Int)

/-- The conversion `float64(x)` of an integer. -/
def f64OfInt (x : Int) : F64 := f64Round (decide (x < 0)) (x.natAbs * f64Unit) 1

/-- The float64 quotient `a / b` (for `b` other than zero). -/
def f64Div (a b : F64) : F64 :=
  f64Round (decide (a < 0) != decide (b < 0)) (a.natAbs * f64Unit) b.natAbs

/-- The float64 product `a * b`. -/
def f64Mul (a b : F64) : F64 :=
  f64Round (decide (a < 0) != decide (b < 0)) (a.natAbs * b.natAbs) f64Unit

/-- The conversion `int(x)` of a float64: truncation toward zero.  (Go leaves the
result open when the truncated value does not fit an `int`.) -/
def f64ToInt (x : F64) : Int :=
  if x < 0 then -((x.natAbs / f64Unit : Nat) : Int) else ((x.natAbs / f64Unit : Nat) : Int)

namespace math

/-- Go `math.Round`: the nearest integer, half away from zero. -/
def Round (x : F64) : F64 :=
  let k := (2 * x.natAbs + f64Unit) / (2 * f64Unit) * f64Unit
  if x < 0 then -(k : Int) else (k : Int)

/-- Go `math.Min` on finite values. -/
def Min (x y : F64) : F64 := if x ≤ y then x else y

/-- Go `math.Max` on finite values. -/
def Max (x y : F64) : F64 := if x ≤ y then y else x

end math

/-! ## bubbles/table: the data the sources touch -/

namespace table

/-- Go `table.Row`, `[]string`. -/
abbrev Row := List GoString

/-- Go `table.Column`. -/
structure Column where
  Title : GoString
  Width : Int
  deriving DecidableEq, Repr

end table

/-! ## package theme (internal/theme/tables.go) -/

namespace theme

/-- Go `TableStyle` (`ConfigTable`, `HistoryTable`, `TunnelTable`). -/
inductive TableStyle where
  | ConfigTable
  | HistoryTable
  | TunnelTable
  deriving DecidableEq, Repr

def marginWidth : Int := 3
def marginHeight : Int := 3
def minTableWidth : Int := 3
def contentExtraMargin : Int := 12
def preferredKeyExtraWidth : Int := 15
def maxKeyExtraWidth : Int := 30
def minTableHeight : Int := 3
def maxTableHeight : Int := 8

/-- Go `GetColumns`. -/
def GetColumns (what : TableStyle) : List table.Column :=
  match what with
  | .ConfigTable =>
    [⟨str "Name", 10⟩, ⟨str "Host", 15⟩, ⟨str "Port", 10⟩, ⟨str "User", 10⟩, ⟨str "Key", 10⟩]
  | .HistoryTable =>
    [⟨str "Name", 10⟩, ⟨str "Host", 15⟩, ⟨str "Port", 10⟩, ⟨str "User", 10⟩, ⟨str "Key", 10⟩,
      ⟨str "Last login", 15⟩]
  | .TunnelTable =>
    [⟨str "Name", 15⟩, ⟨str "Type", 10⟩, ⟨str "Local Port", 10⟩, ⟨str "Remote", 20⟩,
      ⟨str "Description", 25⟩]

/-- Go `GetTableHeight`; the process-wide `settings.Get().Fullscreen` is the
argument `fullscreen`. -/
def GetTableHeight (fullscreen : Bool) (tableHeight filteredRowsLen : Int) : Int :=
  let max := math.Min (f64OfInt maxTableHeight) (f64OfInt tableHeight)
  let expected :=
    if fullscreen then f64OfInt tableHeight
    else math.Min (f64OfInt (wrapInt64 (filteredRowsLen + 2))) max
  f64ToInt (math.Max (f64OfInt minTableHeight) expected)

/-- The assignment `cols[i].Width = w` (a no-op outside the slice; the
callers below only use indices below `len(cols)`). -/
def setWidth : List table.Column → Nat → Int → List table.Column
  | [], _, _ => []
  | c :: cs, 0, w => { c with Width := w } :: cs
  | c :: cs, i + 1, w => c :: setWidth cs i w

/-- The surplus loop of the config and history cases (`for leftover > 0`),
returning `(leftover, leftoverForKey, leftoverForName)`.  Each round lowers
`leftover`, so `leftover` rounds of fuel are enough. -/
def keyNameLoop : Nat → Int → Int → Int → Int × Int × Int
  | 0, leftover, leftoverForKey, leftoverForName => (leftover, leftoverForKey, leftoverForName)
  | fuel + 1, leftover, leftoverForKey, leftoverForName =>
    if leftover > 0 then
      if leftoverForKey < preferredKeyExtraWidth then
        keyNameLoop fuel (leftover - 1) (leftoverForKey + 1) leftoverForName
      else if leftoverForKey < maxKeyExtraWidth ∧ leftover > 1 then
        keyNameLoop fuel (leftover - 2) (leftoverForKey + 1) (leftoverForName + 1)
      else
        keyNameLoop fuel (leftover - 1) leftoverForKey (leftoverForName + 1)
    else (leftover, leftoverForKey, leftoverForName)

/-- The surplus loop of the tunnel table, returning
`(leftover, leftoverForDesc, leftoverForRemote)`. -/
def descRemoteLoop : Nat → Int → Int → Int → Int × Int × Int
  | 0, leftover, leftoverForDesc, leftoverForRemote => (leftover, leftoverForDesc, leftoverForRemote)
  | fuel + 1, leftover, leftoverForDesc, leftoverForRemote =>
    if leftover > 0 then
      if leftover ≥ 2 then
        descRemoteLoop fuel (leftover - 2) (leftoverForDesc + 1) (leftoverForRemote + 1)
      else
        descRemoteLoop fuel (leftover - 1) (leftoverForDesc + 1) leftoverForRemote
    else (leftover, leftoverForDesc, leftoverForRemote)

/-- The width `max(int(math.Round(float64(base)*ratio)), 1)` of one scaled column. -/
def scaledWidth (base : Int) (ratio : F64) : Int :=
  max (f64ToInt (math.Round (f64Mul (f64OfInt base) ratio))) 1

/-- The scale-down loop `for i := range cols`, from index `i` on; `baseWidths`
has as many entries as `cols` at every call site. -/
def scaleFrom (baseWidths : List Int) (ratio : F64) : Nat → List table.Column → List table.Column
  | _, [] => []
  | i, c :: cs =>
    { c with Width := scaledWidth (baseWidths.getD i 0) ratio } :: scaleFrom baseWidths ratio (i + 1) cs

/-- The variable `widthForTableContent` of `AdjustTableDimensions`. -/
def widthForTableContent (windowWidth : Int) : Int :=
  max (wrapInt64 (windowWidth - marginWidth)) minTableWidth - contentExtraMargin

/-- The body shared by `case 5` and `case 6` up to the base widths and the
trailing `Last login` assignment: both cases have `totalBase = 60`. -/
def adjustRecord (baseWidths : List Int) (lastLogin : Bool) (cols : List table.Column)
    (widthForTableContent : Int) : List table.Column :=
  let totalBase : Int := 60
  if widthForTableContent ≥ totalBase then
    let leftover := widthForTableContent - totalBase
    let r := keyNameLoop leftover.toNat leftover 0 0
    let leftoverForKey := r.2.1
    let leftoverForName := r.2.2
    let cols := setWidth cols 0 (baseWidths.getD 0 0 + leftoverForName)
    let cols := setWidth cols 1 (baseWidths.getD 1 0)
    let cols := setWidth cols 2 (baseWidths.getD 2 0)
    let cols := setWidth cols 3 (baseWidths.getD 3 0)
    let cols := setWidth cols 4 (baseWidths.getD 4 0 + leftoverForKey)
    if lastLogin then setWidth cols 5 (baseWidths.getD 5 0) else cols
  else
    let ratio := f64Div (f64OfInt widthForTableContent) (f64OfInt totalBase)
    scaleFrom baseWidths ratio 0 cols

/-- The special handling of the tunnel table (after the `switch`). -/
def adjustTunnel (cols : List table.Column) (widthForTableContent : Int) : List table.Column :=
  let baseWidths : List Int := [15, 10, 10, 20, 25]
  let totalBase : Int := 80
  if widthForTableContent ≥ totalBase then
    let leftover := widthForTableContent - totalBase
    let r := descRemoteLoop leftover.toNat leftover 0 0
    let leftoverForDesc := r.2.1
    let leftoverForRemote := r.2.2
    let cols := setWidth cols 0 (baseWidths.getD 0 0)
    let cols := setWidth cols 1 (baseWidths.getD 1 0)
    let cols := setWidth cols 2 (baseWidths.getD 2 0)
    let cols := setWidth cols 3 (baseWidths.getD 3 0 + leftoverForRemote)
    setWidth cols 4 (baseWidths.getD 4 0 + leftoverForDesc)
  else
    let ratio := f64Div (f64OfInt widthForTableContent) (f64OfInt totalBase)
    scaleFrom baseWidths ratio 0 cols

/-- The test `len(cols) == 5 && cols[0].Title == "Name" && cols[1].Title == "Type"`. -/
def isTunnelTable (cols : List table.Column) : Bool :=
  cols.length == 5 && (cols.get? 0).map (·.Title) == some (str "Name")
    && (cols.get? 1).map (·.Title) == some (str "Type")

/-- Go `AdjustTableDimensions`: returns `(tableWidth, tableHeight, cols)`. -/
def AdjustTableDimensions (cols : List table.Column) (windowWidth windowHeight : Int) :
    Int × Int × List table.Column :=
  let tableHeight := wrapInt64 (windowHeight - marginHeight)
  let tableWidth := max (wrapInt64 (windowWidth - marginWidth)) minTableWidth
  let widthForTableContent := tableWidth - contentExtraMargin
  let cols :=
    match cols.length with
    | 5 => adjustRecord [15, 20, 5, 10, 10] false cols widthForTableContent
    | 6 => adjustRecord [10, 20, 5, 10, 0, 15] true cols widthForTableContent
    | _ => cols
  let cols := if isTunnelTable cols then adjustTunnel cols widthForTableContent else cols
  (tableWidth, tableHeight, cols)

end theme

namespace theme

/-- The layout profile that `AdjustTableDimensions` applies to a column set: it is
chosen by the number of columns and, for five columns, by the first two titles. -/
def profileOf (cols : List table.Column) : Option TableStyle :=
  if isTunnelTable cols then some .TunnelTable
  else if cols.length = 5 then some .ConfigTable
  else if cols.length = 6 then some .HistoryTable
  else none

/-- The base widths each profile declares in `AdjustTableDimensions`. -/
def baseWidthsOf : TableStyle → List Int
  | .ConfigTable => [15, 20, 5, 10, 10]
  | .HistoryTable => [10, 20, 5, 10, 0, 15]
  | .TunnelTable => [15, 10, 10, 20, 25]

/-- The sum of the base widths of a profile. -/
def totalBaseOf : TableStyle → Int
  | .ConfigTable => 60
  | .HistoryTable => 60
  | .TunnelTable => 80

/-- The column widths of a layout result. -/
def widthsOf (r : Int × Int × List table.Column) : List Int := r.2.2.map (·.Width)

end theme

/-! ## The Go standard library, as far as the sources use it -/

deriving instance DecidableEq for Except

/-- What the embedding leaves open in the libraries outside the repository:
the Unicode case tables behind `strings.ToLower` (strings made of ASCII bytes
take a separate path, modelled in full below) and the cursor policy of the
`bubbles` table. -/
structure GoLib where
  /-- The non-ASCII path of `strings.ToLower`, `strings.Map(unicode.ToLower, s)`. -/
  unicodeToLower : GoString → GoString
  /-- The cursor of a `bubbles` table after `SetRows`, from the cursor before and the
  new number of rows (releases of the widget differ in whether they clamp it). -/
  cursorAfterSetRows : Int → Int → Int
  /-- The cursor of a `bubbles` table after its `Update` has handled a key, from
  the cursor before, the number of rows, the height and the name of the key
  (`msg.String()`): the widget moves the cursor on its navigation keys. -/
  cursorAfterKey : Int → Int → Int → GoString → Int
  /-- The number of lines of the header of a `bubbles` table as `lipgloss` renders
  it, `lipgloss.Height(m.headersView())`, from the columns. -/
  headerHeight : List table.Column → Int
  /-- Whether the key, given by its name, is one of the key bindings of a `bubbles`
  table, on which its `Update` moves the cursor (`MoveUp`, `MoveDown`) and renders
  the rows again. -/
  keyMoves : GoString → Bool

/-- A library whose Unicode case mapping is trivial, for evaluating examples
made of ASCII strings, on which it is never consulted; its table clamps the
cursor to the last row and moves it by one row on the arrow keys, its only key
bindings, and its header takes two lines (the titles and the border under them)
when a column has a positive width and one line otherwise. -/
def asciiLib : GoLib :=
  ⟨fun s => s, fun c n => min c (n - 1),
    fun c n _ key =>
      if key = str "down" then min (c + 1) (n - 1)
      else if key = str "up" then max (c - 1) 0 else c,
    fun cols => if cols.any (fun c => decide (c.Width > 0)) then 2 else 1,
    fun key => decide (key = str "up" ∨ key = str "down")⟩

/-- Every byte is below `utf8.RuneSelf` (0x80). -/
def isASCII (s : GoString) : Bool := s.all (fun c => c < 128)

namespace utf8

/-- Go `utf8.RuneError`. -/
def RuneError : Nat := 0xFFFD

/-- The table `first` of package utf8 for a leading byte of a multi-byte
sequence: the length of the sequence and the range accepted for its second
byte; `none` for a byte that cannot lead. -/
def firstByte (s0 : Nat) : Option (Nat × Nat × Nat) :=
  if 0xC2 ≤ s0 ∧ s0 ≤ 0xDF then some (2, 0x80, 0xBF)
  else if s0 = 0xE0 then some (3, 0xA0, 0xBF)
  else if s0 = 0xED then some (3, 0x80, 0x9F)
  else if 0xE1 ≤ s0 ∧ s0 ≤ 0xEF then some (3, 0x80, 0xBF)
  else if s0 = 0xF0 then some (4, 0x90, 0xBF)
  else if 0xF1 ≤ s0 ∧ s0 ≤ 0xF3 then some (4, 0x80, 0xBF)
  else if s0 = 0xF4 then some (4, 0x80, 0x8F)
  else none

/-- The byte `s[i]` as a number (0 outside the string, where the callers below
do not read). -/
def byteAt : GoString → Nat → Nat
  | [], _ => 0
  | b :: _, 0 => b.toNat
  | _ :: s, i + 1 => byteAt s i

/-- The part of `DecodeRuneInString` after the look-up in `first`, for a leading
byte `s0` of a sequence of `sz` bytes whose second byte must lie in `lo..hi`;
`rest` are the bytes after the leading one.  The bytes `s[1]`, `s[2]`, `s[3]`
are read after the length test, as in the source. -/
def decodeMulti (s0 sz lo hi : Nat) (rest : GoString) : Nat × Nat :=
  let s1 := byteAt rest 0
  let s2 := byteAt rest 1
  let s3 := byteAt rest 2
  if rest.length + 1 < sz then (RuneError, 1)
  else if s1 < lo ∨ hi < s1 then (RuneError, 1)
  else if sz ≤ 2 then (s0 % 32 * 64 + s1 % 64, 2)
  else if s2 < 0x80 ∨ 0xBF < s2 then (RuneError, 1)
  else if sz ≤ 3 then (s0 % 16 * 4096 + s1 % 64 * 64 + s2 % 64, 3)
  else if s3 < 0x80 ∨ 0xBF < s3 then (RuneError, 1)
  else (s0 % 8 * 262144 + s1 % 64 * 4096 + s2 % 64 * 64 + s3 % 64, 4)

/-- Go `utf8.DecodeRuneInString`, which is also how `for range` reads a string:
the first rune and its width in bytes; an invalid encoding is `RuneError` of
width 1. -/
def DecodeRune (s : GoString) : Nat × Nat :=
  match s with
  | [] => (RuneError, 0)
  | b0 :: rest =>
    if b0.toNat < 0x80 then (b0.toNat, 1)
    else
      match firstByte b0.toNat with
      | none => (RuneError, 1)
      | some (sz, lo, hi) => decodeMulti b0.toNat sz lo hi rest

end utf8

namespace unicode

/-- Go `unicode.IsSpace`: the code points with the property White_Space. -/
def IsSpace (r : Nat) : Bool :=
  (0x09 ≤ r && r ≤ 0x0D) || r == 0x20 || r == 0x85 || r == 0xA0 || r == 0x1680
    || (0x2000 ≤ r && r ≤ 0x200A) || r == 0x2028 || r == 0x2029 || r == 0x202F || r == 0x205F
    || r == 0x3000

end unicode

namespace strconv

/-- The decimal digit `d` as a byte. -/
def digitByte (d : Nat) : UInt8 := UInt8.ofNat (48 + d)

/-- The decimal digits of `n`, most significant first; `fuel` bounds the number
of digits and `n` itself is always enough. -/
def formatNatAux : Nat → Nat → GoString
  | 0, n => [digitByte (n % 10)]
  | fuel + 1, n =>
    if n < 10 then [digitByte n] else formatNatAux fuel (n / 10) ++ [digitByte (n % 10)]

/-- The decimal representation of a natural number. -/
def formatNat (n : Nat) : GoString := formatNatAux n n

/-- Go `strconv.Itoa`, which is also the verb `%d` of `fmt`: decimal, with a
leading `-` for negative numbers. -/
def Itoa (i : Int) : GoString :=
  if i < 0 then 45 :: formatNat i.natAbs else formatNat i.toNat

/-- The value of a string of decimal digits, `none` when a byte is not a digit. -/
def digitsValue (s : GoString) : Option Nat :=
  s.foldl (fun acc c =>
    match acc with
    | none => none
    | some n => if 48 ≤ c.toNat ∧ c.toNat ≤ 57 then some (n * 10 + (c.toNat - 48)) else none)
    (some 0)

/-- Go `strconv.Atoi` (`none` is an error): an optional sign followed by one or
more decimal digits, with a value that fits a 64-bit `int`. -/
def Atoi (s : GoString) : Option Int :=
  match s with
  | [] => none
  | c :: rest =>
    let neg := c == 45
    let ds := if c == 45 || c == 43 then rest else s
    if ds = [] then none
    else
      match digitsValue ds with
      | none => none
      | some n =>
        let v : Int := if neg then -(n : Int) else (n : Int)
        if -2 ^ 63 ≤ v ∧ v < 2 ^ 63 then some v else none

end strconv

namespace strings

/-- Go `strings.Contains`: `substr` occurs in `s` as a run of consecutive bytes. -/
def Contains : GoString → GoString → Bool
  | [], substr => substr.isEmpty
  | c :: s, substr => substr.isPrefixOf (c :: s) || Contains s substr

/-- Go `strings.Join`. -/
def Join : List GoString → GoString → GoString
  | [], _ => []
  | [a], _ => a
  | a :: b :: rest, sep => a ++ sep ++ Join (b :: rest) sep

/-- Go `strings.Split(s, sep)` for a separator of one byte, the only kind the
sources use: the pieces of `s` between the occurrences of `sep`. -/
def Split : GoString → UInt8 → List GoString
  | [], _ => [[]]
  | c :: s, sep =>
    if c = sep then [] :: Split s sep
    else
      match Split s sep with
      | [] => [[c]]
      | p :: ps => (c :: p) :: ps

/-- The loop of `strings.FieldsFunc` byte by byte: `skip` bytes of the rune
being read are still to come, `inSpace` tells whether that rune is a separator,
`cur` is the field being read. -/
def fieldsLoop (f : Nat → Bool) : Nat → Bool → GoString → GoString → List GoString
  | _, _, cur, [] => if cur.isEmpty then [] else [cur]
  | skip + 1, inSpace, cur, c :: s =>
    if inSpace then fieldsLoop f skip inSpace cur s else fieldsLoop f skip inSpace (cur ++ [c]) s
  | 0, _, cur, c :: s =>
    let d := utf8.DecodeRune (c :: s)
    if f d.1 then
      if cur.isEmpty then fieldsLoop f (d.2 - 1) true [] s
      else cur :: fieldsLoop f (d.2 - 1) true [] s
    else fieldsLoop f (d.2 - 1) false (cur ++ [c]) s

/-- Go `strings.FieldsFunc`. -/
def FieldsFunc (s : GoString) (f : Nat → Bool) : List GoString := fieldsLoop f 0 false [] s

/-- Go `strings.Fields`: the maximal runs of characters that are not white space
(`unicode.IsSpace`).  The implementation has a second path for strings of ASCII
bytes, which computes the same fields. -/
def Fields (s : GoString) : List GoString := FieldsFunc s unicode.IsSpace

/-- The ASCII path of `strings.ToLower`: `A`..`Z` become `a`..`z`. -/
def lowerASCII (c : UInt8) : UInt8 := if 65 ≤ c ∧ c ≤ 90 then c + 32 else c

/-- Go `strings.ToLower`. -/
def ToLower (L : GoLib) (s : GoString) : GoString :=
  if isASCII s then s.map lowerASCII else L.unicodeToLower s

end strings

/-! ## package tunnel (internal/tunnel/tunnel.go, ssh.go) -/

namespace tunnel

/-- Go `TunnelType`, a string. -/
abbrev TunnelType := GoString

def TypeLocal : TunnelType := str "local"
def TypeRemote : TunnelType := str "remote"
def TypeDynamic : TunnelType := str "dynamic"

/-- Go `Tunnel`. -/
structure Tunnel where
  ID : GoString := []
  Name : GoString := []
  Description : GoString := []
  Type_ : TunnelType := []
  LocalPort : Int := 0
  RemoteHost : GoString := []
  RemotePort : Int := 0
  BindAddress : GoString := []
  CreatedAt : GoString := []
  LastUsed : GoString := []
  deriving DecidableEq, Repr

/-- Go `(*Tunnel).Validate`; an error is the text of its message. -/
def Tunnel.Validate (t : Tunnel) : Except GoString Unit :=
  if t.Name = [] then .error (str "tunnel name cannot be empty")
  else if t.Type_ ≠ TypeLocal ∧ t.Type_ ≠ TypeRemote ∧ t.Type_ ≠ TypeDynamic then
    .error (str "invalid tunnel type: " ++ t.Type_)
  else if t.LocalPort < 1 ∨ t.LocalPort > 65535 then
    .error (str "invalid local port: " ++ strconv.Itoa t.LocalPort ++ str " (must be 1-65535)")
  else if t.Type_ = TypeLocal ∨ t.Type_ = TypeRemote then
    if t.RemoteHost = [] then .error (t.Type_ ++ str " forwarding requires remote host")
    else if t.RemotePort < 1 ∨ t.RemotePort > 65535 then
      .error (str "invalid remote port: " ++ strconv.Itoa t.RemotePort ++ str " (must be 1-65535)")
    else .ok ()
  else .ok ()

/-- The port specification `[bind_address:]port:host:hostport` of a local or
remote forwarding, as the `Sprintf` calls build it. -/
def forwardSpec (t : Tunnel) : GoString :=
  if t.BindAddress ≠ [] then
    t.BindAddress ++ str ":" ++ strconv.Itoa t.LocalPort ++ str ":" ++ t.RemoteHost ++ str ":"
      ++ strconv.Itoa t.RemotePort
  else
    strconv.Itoa t.LocalPort ++ str ":" ++ t.RemoteHost ++ str ":" ++ strconv.Itoa t.RemotePort

/-- The port specification `[bind_address:]port` of a dynamic forwarding. -/
def dynamicSpec (t : Tunnel) : GoString :=
  if t.BindAddress ≠ [] then t.BindAddress ++ str ":" ++ strconv.Itoa t.LocalPort
  else strconv.Itoa t.LocalPort

/-- Go `(*Tunnel).ToSSHFlag`. -/
def Tunnel.ToSSHFlag (t : Tunnel) : Except GoString GoString :=
  match t.Validate with
  | .error err => .error err
  | .ok () =>
    if t.Type_ = TypeLocal then .ok (str "-L " ++ forwardSpec t)
    else if t.Type_ = TypeRemote then .ok (str "-R " ++ forwardSpec t)
    else if t.Type_ = TypeDynamic then .ok (str "-D " ++ dynamicSpec t)
    else .error (str "unknown tunnel type: " ++ t.Type_)

/-- Go `(*Tunnel).ToSSHArgs` (ssh.go). -/
def Tunnel.ToSSHArgs (t : Tunnel) : Except GoString (List GoString) :=
  match t.Validate with
  | .error err => .error err
  | .ok () =>
    if t.Type_ = TypeLocal then .ok [str "-L", forwardSpec t]
    else if t.Type_ = TypeRemote then .ok [str "-R", forwardSpec t]
    else if t.Type_ = TypeDynamic then .ok [str "-D", dynamicSpec t]
    else .error (str "unknown tunnel type: " ++ t.Type_)

/-- Go `ParseSSHFlag`. -/
def ParseSSHFlag (flag : GoString) : Except GoString Tunnel :=
  match strings.Fields flag with
  | [] => .error (str "invalid flag format: " ++ flag)
  | [_] => .error (str "invalid flag format: " ++ flag)
  | kind :: spec :: _ =>
    if kind ≠ str "-L" ∧ kind ≠ str "-R" ∧ kind ≠ str "-D" then
      .error (str "unknown flag type: " ++ kind)
    else
      let tunnel : Tunnel :=
        { Type_ := if kind = str "-L" then TypeLocal
                  else if kind = str "-R" then TypeRemote else TypeDynamic }
      if tunnel.Type_ = TypeDynamic then
        if strings.Contains spec (str ":") then
          match strings.Split spec 58 with
          | bind :: port :: _ =>
            match strconv.Atoi port with
            | none => .error (str "invalid port: " ++ port)
            | some p => .ok { tunnel with BindAddress := bind, LocalPort := p }
          | _ => .error (str "invalid port: ")
        else
          match strconv.Atoi spec with
          | none => .error (str "invalid port: " ++ spec)
          | some p => .ok { tunnel with LocalPort := p }
      else
        match strings.Split spec 58 with
        | [port, host, hostport] =>
          match strconv.Atoi port with
          | none => .error (str "invalid port: " ++ port)
          | some p =>
            match strconv.Atoi hostport with
            | none => .error (str "invalid remote port: " ++ hostport)
            | some rp => .ok { tunnel with LocalPort := p, RemoteHost := host, RemotePort := rp }
        | [bind, port, host, hostport] =>
          match strconv.Atoi port with
          | none => .error (str "invalid port: " ++ port)
          | some p =>
            match strconv.Atoi hostport with
            | none => .error (str "invalid remote port: " ++ hostport)
            | some rp =>
              .ok { tunnel with BindAddress := bind, LocalPort := p, RemoteHost := host,
                                RemotePort := rp }
        | _ => .error (str "invalid port specification format: " ++ spec)

/-- The loop of `TunnelsToSSHArgs`, with the arguments collected so far. -/
def tunnelsToSSHArgsLoop : List Tunnel → List GoString → Except GoString (List GoString)
  | [], args => .ok args
  | tunnel :: rest, args =>
    match tunnel.ToSSHArgs with
    | .error err =>
      .error (str "failed to convert tunnel '" ++ tunnel.Name ++ str "': " ++ err)
    | .ok tunnelArgs => tunnelsToSSHArgsLoop rest (args ++ tunnelArgs)

/-- Go `TunnelsToSSHArgs` (ssh.go). -/
def TunnelsToSSHArgs (tunnels : List Tunnel) : Except GoString (List GoString) :=
  tunnelsToSSHArgsLoop tunnels []

end tunnel

/-! ## bubbles/table and bubbletea: the widget state the sources touch -/

namespace table

/-- The state of a `table.Model` that the sources read or write, and what its
rendering depends on: `height` and `width` are the values last given to
`SetHeight` and `SetWidth`, and `viewportHeight` is `m.viewport.Height`, the
number of lines for the rows, which `UpdateViewport` reads.  The rendering is
followed for the tunnel picker, whose rows have a cell more than its table has
columns.  The tables of the record picker have a column for every cell of their
rows, so that their rendering returns; the functions of the record picker are
given by what the calls of the widget assign to the other fields (`withRows`
for `SetRows`), and none of them reads `viewportHeight`. -/
structure Model where
  cols : List Column := []
  rows : List Row := []
  cursor : Int := 0
  height : Int := 0
  width : Int := 0
  viewportHeight : Int := 0
  deriving DecidableEq, Repr

/-- Go `(Model).Rows`. -/
def Model.Rows (m : Model) : List Row := m.rows

/-- Go `(Model).SelectedRow`: `nil` (here `none`) when the cursor is outside the rows. -/
def Model.SelectedRow (m : Model) : Option Row :=
  if m.cursor ≥ m.rows.length ∨ m.cursor < 0 then none else m.rows.get? m.cursor.toNat

/-- The table after the assignments of Go `(*Model).SetRows`, the rows and the
cursor, before `SetRows` renders it again: what `SetRows` returns when the
rendering returns, as it does when no row has more cells than the table has
columns. -/
def Model.withRows (L : GoLib) (m : Model) (r : List Row) : Model :=
  { m with rows := r, cursor := L.cursorAfterSetRows m.cursor r.length }

/-- The table after the assignment of Go `(Model).Update` of the focused widget
on a key message, given by the name of the key: the cursor moves.  It is what
`Update` returns when the rendering returns. -/
def Model.withKey (L : GoLib) (m : Model) (key : GoString) : Model :=
  { m with cursor := L.cursorAfterKey m.cursor m.rows.length m.height key }

/-- The function `clamp` of the widget. -/
def clamp (v low high : Int) : Int := min (max v low) high

/-- The first row that `UpdateViewport` renders (`m.start`). -/
def Model.renderStart (m : Model) : Int :=
  if m.cursor ≥ 0 then clamp (wrapInt64 (m.cursor - m.viewportHeight)) 0 m.cursor else 0

/-- The row before which `UpdateViewport` stops rendering (`m.end`). -/
def Model.renderEnd (m : Model) : Int :=
  clamp (wrapInt64 (m.cursor + m.viewportHeight)) m.cursor m.rows.length

/-- The rows that `UpdateViewport` renders, `m.rows[m.start:m.end]` (none when
`m.end` is not above `m.start`). -/
def Model.renderedRows (m : Model) : List Row :=
  (m.rows.drop m.renderStart.toNat).take (m.renderEnd - m.renderStart).toNat

/-- Go `(*Model).UpdateViewport`, in which every function of the widget that
changes it ends: it renders the rows from `m.start` up to `m.end`, around the
cursor, and `renderRow` reads `m.cols[i]` for every cell `i` of the row, so that
a rendered row with more cells than the table has columns is an index out of
range, the panic `none`.  The text rendered is not part of the state. -/
def Model.UpdateViewport (m : Model) : Option Model :=
  if m.renderedRows.all (fun row => decide (row.length ≤ m.cols.length)) then some m else none

/-- Go `(*Model).SetRows`: the rows and the cursor are assigned and the table is
rendered again. -/
def Model.SetRows (L : GoLib) (m : Model) (r : List Row) : Option Model :=
  (m.withRows L r).UpdateViewport

/-- Go `table.New(table.WithColumns(cols), table.WithRows(rows),
table.WithFocused(true))`: the viewport is 20 lines high. -/
def New (cols : List Column) (rows : List Row) : Option Model :=
  ({ cols := cols, rows := rows, viewportHeight := 20 } : Model).UpdateViewport

/-- Go `(*Model).SetStyles`; the styles are not part of the state. -/
def Model.SetStyles (m : Model) : Option Model := m.UpdateViewport

/-- Go `(*Model).SetColumns`. -/
def Model.SetColumns (m : Model) (c : List Column) : Option Model :=
  ({ m with cols := c }).UpdateViewport

/-- Go `(*Model).SetHeight`: the viewport gets the height less the lines of the
header. -/
def Model.SetHeight (L : GoLib) (m : Model) (h : Int) : Option Model :=
  ({ m with height := h, viewportHeight := wrapInt64 (h - L.headerHeight m.cols) }).UpdateViewport

/-- Go `(*Model).SetWidth`. -/
def Model.SetWidth (m : Model) (w : Int) : Option Model :=
  ({ m with width := w }).UpdateViewport

/-- Go `(Model).Update` of the focused widget on a key message in full: on a
key that is bound the cursor moves and the rows are rendered again. -/
def Model.Update (L : GoLib) (m : Model) (key : GoString) : Option Model :=
  if L.keyMoves key then (m.withKey L key).UpdateViewport else some (m.withKey L key)

end table

namespace tea

/-- The commands (`tea.Cmd`) that the pickers return. -/
inductive Cmd where
  | nil
  | Quit
  | EnterAltScreen
  | ExitAltScreen
  deriving DecidableEq, Repr

/-- Go `tea.KeyType`: the type of the rune keys, and every other key type under
the name that the library's table `keyNames` gives it. -/
inductive KeyType where
  | KeyRunes
  | named (name : GoString)
  deriving DecidableEq, Repr

def KeyBackspace : KeyType := .named (str "backspace")
def KeyEnter : KeyType := .named (str "enter")
def KeyEsc : KeyType := .named (str "esc")
def KeyCtrlC : KeyType := .named (str "ctrl+c")
def KeyCtrlS : KeyType := .named (str "ctrl+s")
def KeyTab : KeyType := .named (str "tab")
def KeyShiftTab : KeyType := .named (str "shift+tab")
def KeyUp : KeyType := .named (str "up")
def KeyDown : KeyType := .named (str "down")

/-- Go `tea.KeyMsg`. -/
structure KeyMsg where
  Type_ : KeyType := .KeyRunes
  Runes : List Char := []
  Alt : Bool := false
  Paste : Bool := false
  deriving DecidableEq, Repr

/-- Go `string(msg.Runes)`. -/
def runesString (runes : List Char) : GoString := runes.flatMap String.utf8EncodeChar

/-- Go `(Key).String`. -/
def KeyMsg.String (k : KeyMsg) : GoString :=
  (if k.Alt then str "alt+" else []) ++
    match k.Type_ with
    | .KeyRunes =>
      (if k.Paste then str "[" else []) ++ runesString k.Runes ++ (if k.Paste then str "]" else [])
    | .named name => name

/-- The messages (`tea.Msg`) that the pickers and the form tell apart. -/
inductive Msg where
  | WindowSizeMsg (Width Height : Int)
  | KeyMsg (msg : KeyMsg)
  deriving DecidableEq, Repr

end tea

/-! ## encoding/json: what a string is after it was written and read back -/

namespace json

/-- A Go string as `json.Unmarshal` reads it back from what `json.MarshalIndent`
has written for it.  The encoder goes through the string with
`utf8.DecodeRuneInString` and writes `\ufffd` for every byte at which there is
no valid encoding (`RuneError` of width 1); every other character is written
as it is or as an escape that the decoder undoes.  So each such byte comes back
as the three bytes of U+FFFD and the rest comes back unchanged.  `skip` counts
the bytes still to copy of the character last decoded. -/
def roundTripFrom : Nat → GoString → GoString
  | _, [] => []
  | skip + 1, c :: s => c :: roundTripFrom skip s
  | 0, c :: s =>
    let r := utf8.DecodeRune (c :: s)
    if r.1 = utf8.RuneError ∧ r.2 = 1 then [0xEF, 0xBF, 0xBD] ++ roundTripFrom 0 s
    else c :: roundTripFrom (r.2 - 1) s

/-- The string read back from the file for the string `s` written to it. -/
def roundTrip (s : GoString) : GoString := roundTripFrom 0 s

end json

/-! ## package tunnel: the store (internal/tunnel/file.go, save.go, fetch.go) -/

namespace tunnel

/-- The file `~/.ggh/tunnels.json` as the store sees it: the tunnels that
`json.Unmarshal` reads from it, and the error, if any, with which reading or
writing it fails. -/
structure TunnelFile where
  tunnels : List Tunnel := []
  loadError : Option GoString := none
  saveError : Option GoString := none
  deriving DecidableEq, Repr

/-- The record that is read back from the file for a record written to it with
`json.MarshalIndent`: every string field goes through the encoder and the
decoder, and the two ports, which are integers, come back as they are (an
omitted empty field is read as empty). -/
def Tunnel.roundTrip (t : Tunnel) : Tunnel :=
  { ID := json.roundTrip t.ID, Name := json.roundTrip t.Name,
    Description := json.roundTrip t.Description, Type_ := json.roundTrip t.Type_,
    LocalPort := t.LocalPort, RemoteHost := json.roundTrip t.RemoteHost,
    RemotePort := t.RemotePort, BindAddress := json.roundTrip t.BindAddress,
    CreatedAt := json.roundTrip t.CreatedAt, LastUsed := json.roundTrip t.LastUsed }

/-- Go `LoadTunnels`. -/
def LoadTunnels (f : TunnelFile) : Except GoString (List Tunnel) :=
  match f.loadError with
  | some e => .error e
  | none => .ok f.tunnels

/-- Go `SaveTunnels`: the error and the file afterwards, which holds what
`json.MarshalIndent` has written for the tunnels, read back. -/
def SaveTunnels (f : TunnelFile) (tunnels : List Tunnel) : Except GoString Unit × TunnelFile :=
  match f.saveError with
  | some e => (.error e, f)
  | none => (.ok (), { f with tunnels := tunnels.map Tunnel.roundTrip })

/-- The loop of `Delete`: the tunnels kept and whether `id` was found. -/
def deleteLoop (id : GoString) : List Tunnel → List Tunnel → Bool → List Tunnel × Bool
  | [], newTunnels, found => (newTunnels, found)
  | tunnel :: rest, newTunnels, found =>
    if tunnel.ID = id then deleteLoop id rest newTunnels true
    else deleteLoop id rest (newTunnels ++ [tunnel]) found

/-- Go `Delete` (save.go). -/
def Delete (f : TunnelFile) (id : GoString) : Except GoString Unit × TunnelFile :=
  match LoadTunnels f with
  | .error err => (.error err, f)
  | .ok tunnels =>
    let r := deleteLoop id tunnels [] false
    if !r.2 then (.error (str "tunnel not found: " ++ id), f)
    else SaveTunnels f r.1

/-- The record that `Create` appends for `tunnel`: the tunnel with a generated
ID `uuid` when it has none and the creation time `now`. -/
def createdRecord (uuid now : GoString) (tunnel : Tunnel) : Tunnel :=
  let tunnel := if tunnel.ID = [] then { tunnel with ID := uuid } else tunnel
  { tunnel with CreatedAt := now }

/-- Go `Create` (save.go): the error and the file afterwards.  `uuid` is the
string that `uuid.New().String()` returns and `now` the formatted `time.Now()`.
The caller's tunnel, which also receives the ID and the timestamp, is not read
again by any caller. -/
def Create (f : TunnelFile) (uuid now : GoString) (tunnel : Tunnel) :
    Except GoString Unit × TunnelFile :=
  match tunnel.Validate with
  | .error err => (.error (str "invalid tunnel: " ++ err), f)
  | .ok () =>
    match LoadTunnels f with
    | .error err => (.error err, f)
    | .ok tunnels =>
      if tunnels.any (fun t => decide (t.Name = tunnel.Name)) then
        (.error (str "tunnel with name '" ++ tunnel.Name ++ str "' already exists"), f)
      else SaveTunnels f (tunnels ++ [createdRecord uuid now tunnel])

/-- The loop of `Update`: the list with the first tunnel that has the ID of
`tunnel` replaced, and whether one was found. -/
def updateLoop (tunnel : Tunnel) : List Tunnel → List Tunnel × Bool
  | [] => ([], false)
  | t :: rest =>
    if t.ID = tunnel.ID then ({ tunnel with CreatedAt := t.CreatedAt } :: rest, true)
    else
      let r := updateLoop tunnel rest
      (t :: r.1, r.2)

/-- Go `Update` (save.go). -/
def Update (f : TunnelFile) (tunnel : Tunnel) : Except GoString Unit × TunnelFile :=
  match tunnel.Validate with
  | .error err => (.error (str "invalid tunnel: " ++ err), f)
  | .ok () =>
    match LoadTunnels f with
    | .error err => (.error err, f)
    | .ok tunnels =>
      let r := updateLoop tunnel tunnels
      if !r.2 then (.error (str "tunnel not found: " ++ tunnel.ID), f)
      else SaveTunnels f r.1

/-- Go `UpdateLastUsedBatch` (save.go), with `now` the formatted `time.Now()`. -/
def UpdateLastUsedBatch (f : TunnelFile) (now : GoString) (ids : List GoString) :
    Except GoString Unit × TunnelFile :=
  match LoadTunnels f with
  | .error err => (.error err, f)
  | .ok tunnels =>
    SaveTunnels f
      (tunnels.map (fun tunnel => if tunnel.ID ∈ ids then { tunnel with LastUsed := now } else tunnel))

/-- Go `<` on strings: the bytes compared in order. -/
def stringLess : GoString → GoString → Bool
  | [], [] => false
  | [], _ :: _ => true
  | _ :: _, [] => false
  | a :: s, b :: t => if a < b then true else if b < a then false else stringLess s t

/-- The comparison that `FetchAll` passes to `sort.Slice`. -/
def fetchLess (a b : Tunnel) : Bool :=
  if a.LastUsed ≠ b.LastUsed then stringLess b.LastUsed a.LastUsed
  else stringLess a.Name b.Name

/-- One step of the insertion sort: `x` goes before the first element that is
not less than it. -/
def insertSorted (x : Tunnel) : List Tunnel → List Tunnel
  | [] => [x]
  | y :: ys => if fetchLess y x then y :: insertSorted x ys else x :: y :: ys

/-- The list that `sort.Slice` leaves in `FetchAll`, as an insertion sort.  The
library does not fix the order of tunnels that compare equal (same `LastUsed`
and same `Name`); here they keep their order. -/
def sortTunnels (tunnels : List Tunnel) : List Tunnel := tunnels.foldr insertSorted []

/-- Go `FetchAll` (fetch.go). -/
def FetchAll (f : TunnelFile) : Except GoString (List Tunnel) :=
  match LoadTunnels f with
  | .error err => .error (str "failed to fetch tunnels: " ++ err)
  | .ok tunnels => .ok (sortTunnels tunnels)

end tunnel

/-! ## package settings (internal/settings/settings.go) -/

namespace settings

/-- Go `Settings`. -/
structure Settings where
  Fullscreen : Bool := false
  deriving DecidableEq, Repr

/-- Go `json.Unmarshal` into a `Settings` value, which is the library's: `none`
is an error. -/
abbrev Decoder := GoString → Option Settings

/-- What the package keeps, once the load that `init` starts has finished: the
value of the atomic `S`, and the settings file as the package sees it, its
content (`none` when it cannot be read, as when it is missing) and the error,
if any, with which writing it fails. -/
structure State where
  S : Settings := {}
  file : Option GoString := none
  writeError : Option GoString := none
  deriving DecidableEq, Repr

/-- Go `Get`. -/
def Get (st : State) : Settings := st.S

/-- Go `getFile`. -/
def getFile (st : State) : GoString :=
  match st.file with
  | some settings => settings
  | none => []

/-- Go `fetch`. -/
def fetch (unmarshal : Decoder) (file : GoString) : Settings :=
  if file.length = 0 then {}
  else
    match unmarshal file with
    | none => {}
    | some s => s

/-- Go `fetchWithDefaultFile`. -/
def fetchWithDefaultFile (unmarshal : Decoder) (st : State) : Settings :=
  fetch unmarshal (getFile st)

/-- Go `json.MarshalIndent(s, "", "  ")` of a `Settings` value, which never fails. -/
def MarshalIndent (s : Settings) : GoString :=
  if s.Fullscreen then str "\x7b\n  \"fullscreen\": true\n\x7d"
  else str "\x7b\n  \"fullscreen\": false\n\x7d"

/-- Go `Save`: the error (`none` for `nil`) and the state afterwards; a write
that fails leaves the file as it is. -/
def Save (st : State) (s : Settings) : Option GoString × State :=
  let b := MarshalIndent s
  match st.writeError with
  | some err => (some err, st)
  | none => (none, { st with file := some b, S := s })

end settings

/-! ## package interactive (internal/interactive/select.go, tunnel_select.go) -/

namespace config

/-- The fields of Go `config.SSHConfig` that the picker fills. -/
structure SSHConfig where
  Name : GoString := []
  Host : GoString := []
  Port : GoString := []
  User : GoString := []
  Key : GoString := []
  deriving DecidableEq, Repr

end config

namespace interactive

/-- Go `Row`; the pickers have a field named `table`. -/
abbrev Row := table.Row

/-- Go `table.Model`. -/
abbrev TableModel := table.Model

/-- Go `model`, the state of the record picker. -/
structure model where
  table : TableModel := {}
  allRows : List Row := []
  filteredRows : List Row := []
  filtering : Bool := false
  filterText : GoString := []
  choice : config.SSHConfig := {}
  exit : Bool := false
  windowWidth : Int := 0
  windowHeight : Int := 0
  tableWidth : Int := 0
  tableHeight : Int := 0
  deriving DecidableEq, Repr

/-- The loop of `model.applyFilter` (`for _, row := range m.allRows`), with the
rows kept so far in `out`. -/
def model.filterLoop (L : GoLib) (lowerFilter : GoString) :
    List Row → List Row → List Row
  | [], out => out
  | row :: rest, out =>
    let rowStr := strings.ToLower L (strings.Join row (str " "))
    if strings.Contains rowStr lowerFilter then model.filterLoop L lowerFilter rest (out ++ [row])
    else model.filterLoop L lowerFilter rest out

/-- Go `(*model).applyFilter`; `SetRows` is given by what it assigns, the rows of
the record picker having a column for every cell. -/
def model.applyFilter (L : GoLib) (m : model) : model :=
  let m :=
    if m.filterText = [] then { m with filteredRows := m.allRows }
    else
      let lowerFilter := strings.ToLower L m.filterText
      { m with filteredRows := model.filterLoop L lowerFilter m.allRows [] }
  { m with table := m.table.withRows L m.filteredRows }

/-- The loop of `case "d"` and `case "r"` of `model.Update`, which keeps the rows
whose field `col` differs from that of the selected row; `none` is the panic of
an index out of range. -/
def model.removeLoop (col : Nat) (selectedRow : Row) :
    List Row → List Row → Option (List Row)
  | [], rows => some rows
  | row :: rest, rows =>
    match row.get? col, selectedRow.get? col with
    | some a, some b =>
      if a ≠ b then model.removeLoop col selectedRow rest (rows ++ [row])
      else model.removeLoop col selectedRow rest rows
    | _, _ => none

/-- The body shared by `case "d"` (`col = 1`, after `history.RemoveByIP`) and
`case "r"` (`col = 0`, after `history.RemoveByName`) of `model.Update`, reached
when the picker is not filtering.  The history file that the two calls rewrite
is not part of the session state.  `m.table.Update("")` leaves the table as it
is and returns no command, and `SetRows` is given by what it assigns, the rows
of the record picker having a column for every cell. -/
def model.updateRemove (L : GoLib) (col : Nat) (m : model) : Option (model × tea.Cmd) :=
  match m.table.SelectedRow with
  | none => some (m, .nil)
  | some selectedRow =>
    match model.removeLoop col selectedRow m.table.Rows [] with
    | none => none
    | some rows =>
      let m := { m with allRows := rows }
      let m := { m with table := m.table.withRows L m.allRows }
      if m.table.Rows.length = 0 then some ({ m with exit := true }, .Quit)
      else some (m, .nil)

/-- The `case "d"` of `model.Update`. -/
def model.updateKeyD (L : GoLib) (m : model) : Option (model × tea.Cmd) :=
  model.updateRemove L 1 m

/-- The `case "r"` of `model.Update`. -/
def model.updateKeyR (L : GoLib) (m : model) : Option (model × tea.Cmd) :=
  model.updateRemove L 0 m

/-- Go `formInput`. -/
structure formInput where
  label : GoString := []
  value : GoString := []
  placeholder : GoString := []
  required : Bool := false
  deriving DecidableEq, Repr

/-- Go `tunnelFormModel`; the pointer `tunnel` is `none` when it is `nil`. -/
structure tunnelFormModel where
  tunnel : Option tunnel.Tunnel := none
  editing : Bool := false
  focusIndex : Int := 0
  inputs : List formInput := []
  err : GoString := []
  submitted : Bool := false
  cancelled : Bool := false
  deriving DecidableEq, Repr

def inputName : Nat := 0
def inputType : Nat := 1
def inputLocalPort : Nat := 2
def inputRemoteHost : Nat := 3
def inputRemotePort : Nat := 4
def inputBindAddress : Nat := 5
def inputDescription : Nat := 6

/-- Go `newTunnelForm`. -/
def newTunnelForm (t : Option tunnel.Tunnel) : tunnelFormModel :=
  let editing := t.isSome
  let inputs : List formInput :=
    match t with
    | none =>
      [{ label := str "Name", placeholder := str "my-tunnel", required := true },
       { label := str "Type", placeholder := str "local/remote/dynamic", required := true },
       { label := str "Local Port", placeholder := str "8080", required := true },
       { label := str "Remote Host", placeholder := str "localhost" },
       { label := str "Remote Port", placeholder := str "80" },
       { label := str "Bind Address", placeholder := str "0.0.0.0 (optional)" },
       { label := str "Description", placeholder := str "Tunnel description" }]
    | some t =>
      [{ label := str "Name", placeholder := str "my-tunnel", required := true, value := t.Name },
       { label := str "Type", placeholder := str "local/remote/dynamic", required := true,
         value := t.Type_ },
       { label := str "Local Port", placeholder := str "8080", required := true,
         value := strconv.Itoa t.LocalPort },
       { label := str "Remote Host", placeholder := str "localhost", value := t.RemoteHost },
       { label := str "Remote Port", placeholder := str "80",
         value := strconv.Itoa t.RemotePort },
       { label := str "Bind Address", placeholder := str "0.0.0.0 (optional)",
         value := t.BindAddress },
       { label := str "Description", placeholder := str "Tunnel description",
         value := t.Description }]
  { tunnel := t, editing := editing, inputs := inputs }

/-- Go `m.inputs[i].value`; `none` is the panic of an index out of range. -/
def tunnelFormModel.valueAt (m : tunnelFormModel) (i : Nat) : Option GoString :=
  (m.inputs.get? i).map (fun input => input.value)

/-- The end of `submit`, once the inputs are validated: the tunnel is built and
created or updated in the store. -/
def tunnelFormModel.store (m : tunnelFormModel) (f : tunnel.TunnelFile) (uuid now : GoString)
    (tunnelType : GoString) (localPort remotePort : Int) :
    Option (tunnelFormModel × tea.Cmd × tunnel.TunnelFile) := do
  let name ← m.valueAt inputName
  let remoteHost ← m.valueAt inputRemoteHost
  let bindAddress ← m.valueAt inputBindAddress
  let description ← m.valueAt inputDescription
  let t : tunnel.Tunnel :=
    { Name := name, Type_ := tunnelType, LocalPort := localPort, RemoteHost := remoteHost,
      RemotePort := remotePort, BindAddress := bindAddress, Description := description }
  let r :=
    match m.editing, m.tunnel with
    | true, some old => tunnel.Update f { t with ID := old.ID, CreatedAt := old.CreatedAt }
    | _, _ => tunnel.Create f uuid now t
  match r with
  | (.error err, f) => pure ({ m with err := err }, .nil, f)
  | (.ok (), f) => pure ({ m with submitted := true }, .Quit, f)

/-- Go `(*tunnelFormModel).submit`: the form, the command and the store
afterwards; `uuid` and `now` are what `tunnel.Create` draws. -/
def tunnelFormModel.submit (m : tunnelFormModel) (f : tunnel.TunnelFile) (uuid now : GoString) :
    Option (tunnelFormModel × tea.Cmd × tunnel.TunnelFile) := do
  let name ← m.valueAt inputName
  if name = [] then pure ({ m with err := str "Name is required" }, .nil, f) else
  let tunnelType ← m.valueAt inputType
  if tunnelType ≠ str "local" ∧ tunnelType ≠ str "remote" ∧ tunnelType ≠ str "dynamic" then
    pure ({ m with err := str "Type must be 'local', 'remote', or 'dynamic'" }, .nil, f) else
  let localPortText ← m.valueAt inputLocalPort
  if localPortText = [] then pure ({ m with err := str "Local port is required" }, .nil, f) else
  match strconv.Atoi localPortText with
  | none =>
    pure ({ m with err := str "Local port must be a number between 1 and 65535" }, .nil, f)
  | some localPort =>
    if localPort < 1 ∨ localPort > 65535 then
      pure ({ m with err := str "Local port must be a number between 1 and 65535" }, .nil, f)
    else if tunnelType = str "local" ∨ tunnelType = str "remote" then do
      let remoteHost ← m.valueAt inputRemoteHost
      if remoteHost = [] then
        let err := str "Remote host is required for " ++ tunnelType ++ str " forwarding"
        pure ({ m with err := err }, .nil, f) else
      let remotePortText ← m.valueAt inputRemotePort
      if remotePortText = [] then
        let err := str "Remote port is required for " ++ tunnelType ++ str " forwarding"
        pure ({ m with err := err }, .nil, f) else
      match strconv.Atoi remotePortText with
      | none =>
        pure ({ m with err := str "Remote port must be a number between 1 and 65535" }, .nil, f)
      | some remotePort =>
        if remotePort < 1 ∨ remotePort > 65535 then
          pure ({ m with err := str "Remote port must be a number between 1 and 65535" }, .nil, f)
        else m.store f uuid now tunnelType localPort remotePort
    else m.store f uuid now tunnelType localPort 0

/-- The focus moved to the next input, `(m.focusIndex + 1) % len(m.inputs)`;
`none` is the panic of a division by zero. -/
def tunnelFormModel.focusNext (m : tunnelFormModel) : Option tunnelFormModel :=
  if m.inputs.length = 0 then none
  else some { m with focusIndex := (wrapInt64 (m.focusIndex + 1)).tmod m.inputs.length }

/-- The focused input replaced by `g` of it; `none` is the panic of an index out
of range. -/
def tunnelFormModel.editFocused (m : tunnelFormModel) (g : GoString → GoString) :
    Option tunnelFormModel :=
  if m.focusIndex < 0 then none
  else
    match m.inputs.get? m.focusIndex.toNat with
    | none => none
    | some input =>
      some { m with inputs := m.inputs.set m.focusIndex.toNat { input with value := g input.value } }

/-- Go `(*tunnelFormModel).Update`. -/
def tunnelFormModel.Update (m : tunnelFormModel) (f : tunnel.TunnelFile) (uuid now : GoString)
    (msg : tea.Msg) : Option (tunnelFormModel × tea.Cmd × tunnel.TunnelFile) :=
  match msg with
  | .KeyMsg msg =>
    let key := msg.String
    if key = str "ctrl+c" ∨ key = str "esc" then some ({ m with cancelled := true }, .Quit, f)
    else if key = str "tab" ∨ key = str "down" then m.focusNext.map (fun m => (m, .nil, f))
    else if key = str "shift+tab" ∨ key = str "up" then
      let m := { m with focusIndex := wrapInt64 (m.focusIndex - 1) }
      let m := if m.focusIndex < 0 then { m with focusIndex := m.inputs.length - 1 } else m
      some (m, .nil, f)
    else if key = str "enter" then
      if msg.Alt then m.submit f uuid now
      else m.focusNext.map (fun m => (m, .nil, f))
    else if key = str "ctrl+s" then m.submit f uuid now
    else if key = str "backspace" then
      (m.editFocused (fun value => value.dropLast)).map (fun m => ({ m with err := [] }, .nil, f))
    else if msg.Runes.length > 0 then
      (m.editFocused (fun value => value ++ tea.runesString msg.Runes)).map
        (fun m => ({ m with err := [] }, .nil, f))
    else some (m, .nil, f)
  | _ => some (m, .nil, f)

/-- Go `tunnelModel`, the state of the tunnel picker; `selectedIDs` lists the keys
of the Go map, each once, and `formModel` is `none` for the `nil` pointer. -/
structure tunnelModel where
  table : TableModel := {}
  allRows : List Row := []
  filteredRows : List Row := []
  filtering : Bool := false
  filterText : GoString := []
  selectedIDs : List GoString := []
  tunnels : List tunnel.Tunnel := []
  exit : Bool := false
  windowWidth : Int := 0
  windowHeight : Int := 0
  tableWidth : Int := 0
  tableHeight : Int := 0
  multiSelect : Bool := false
  showingForm : Bool := false
  formModel : Option tunnelFormModel := none
  deriving DecidableEq, Repr

/-- The loop of `tunnelModel.applyFilter`; `row[:len(row)-1]` panics (`none`) on
a row without fields. -/
def tunnelModel.filterLoop (L : GoLib) (lowerFilter : GoString) :
    List Row → List Row → Option (List Row)
  | [], out => some out
  | row :: rest, out =>
    if row.length = 0 then none
    else
      let rowStr := strings.ToLower L (strings.Join (row.take (row.length - 1)) (str " "))
      if strings.Contains rowStr lowerFilter then
        tunnelModel.filterLoop L lowerFilter rest (out ++ [row])
      else tunnelModel.filterLoop L lowerFilter rest out

/-- Go `(*tunnelModel).applyFilter`. -/
def tunnelModel.applyFilter (L : GoLib) (m : tunnelModel) : Option tunnelModel :=
  let filtered : Option (List Row) :=
    if m.filterText = [] then some m.allRows
    else tunnelModel.filterLoop L (strings.ToLower L m.filterText) m.allRows []
  match filtered with
  | none => none
  | some rows =>
    let m := { m with filteredRows := rows }
    (m.table.SetRows L m.filteredRows).map (fun t => { m with table := t })

/-- The loop of `case "d"` of `tunnelModel.Update` over the rows from index `i`
on: the rows and tunnels kept; `none` is the panic of an index out of range. -/
def tunnelModel.deleteLoop (tunnelID : GoString) (tunnels : List tunnel.Tunnel) :
    Nat → List Row → List Row → List tunnel.Tunnel →
      Option (List Row × List tunnel.Tunnel)
  | _, [], rows, newTunnels => some (rows, newTunnels)
  | i, row :: rest, rows, newTunnels =>
    match row.getLast? with
    | none => none
    | some id =>
      if id ≠ tunnelID then
        match tunnels.get? i with
        | none => none
        | some t =>
          tunnelModel.deleteLoop tunnelID tunnels (i + 1) rest (rows ++ [row]) (newTunnels ++ [t])
      else tunnelModel.deleteLoop tunnelID tunnels (i + 1) rest rows newTunnels

/-- The `case "d"` of `tunnelModel.Update`, reached when the form is closed and
the picker is not filtering: the session, the command and the store afterwards. -/
def tunnelModel.updateKeyD (L : GoLib) (m : tunnelModel) (f : tunnel.TunnelFile) :
    Option (tunnelModel × tea.Cmd × tunnel.TunnelFile) :=
  match m.table.SelectedRow with
  | none => some (m, .nil, f)
  | some selectedRow =>
    match selectedRow.getLast? with
    | none => none
    | some tunnelID =>
      match tunnel.Delete f tunnelID with
      | (.error _, f) => some (m, .nil, f)
      | (.ok (), f) =>
        match tunnelModel.deleteLoop tunnelID m.tunnels 0 m.table.Rows [] [] with
        | none => none
        | some (rows, newTunnels) =>
          let m := { m with allRows := rows, tunnels := newTunnels }
          match m.table.SetRows L m.allRows with
          | none => none
          | some t =>
            let m := { m with table := t }
            if m.table.Rows.length = 0 then some ({ m with exit := true }, .Quit, f)
            else some (m, .nil, f)

/-- Go `tunnelsToRows`. -/
def tunnelsToRows (tunnels : List tunnel.Tunnel) : List Row :=
  tunnels.map (fun t =>
    let remote :=
      if t.Type_ ≠ tunnel.TypeDynamic then t.RemoteHost ++ str ":" ++ strconv.Itoa t.RemotePort
      else str "-"
    let desc :=
      if t.Description.length > 40 then t.Description.take 37 ++ str "..." else t.Description
    [t.Name, t.Type_, strconv.Itoa t.LocalPort, remote, desc, t.ID])

/-- Go `delete(m.selectedIDs, id)` on the keys of the map. -/
def mapDelete (ids : List GoString) (id : GoString) : List GoString :=
  ids.filter (fun x => decide (x ≠ id))

/-- Go `m.selectedIDs[id] = true` on the keys of the map. -/
def mapSet (ids : List GoString) (id : GoString) : List GoString :=
  if id ∈ ids then ids else ids ++ [id]

/-- The `case " "` of `tunnelModel.Update`; `none` is the panic of an index out
of range on a row without fields. -/
def tunnelModel.updateKeySpace (m : tunnelModel) : Option (tunnelModel × tea.Cmd) :=
  if m.multiSelect then
    match m.table.SelectedRow with
    | none => some (m, .nil)
    | some selectedRow =>
      match selectedRow.getLast? with
      | none => none
      | some tunnelID =>
        if tunnelID ∈ m.selectedIDs then
          some ({ m with selectedIDs := mapDelete m.selectedIDs tunnelID }, .nil)
        else some ({ m with selectedIDs := mapSet m.selectedIDs tunnelID }, .nil)
  else some (m, .nil)

/-- Go `(*tunnelModel).stopFiltering`; `none` is the panic of the table's
rendering. -/
def tunnelModel.stopFiltering (L : GoLib) (m : tunnelModel) : Option tunnelModel :=
  let m := { m with filtering := false, filterText := [], filteredRows := m.allRows }
  (m.table.SetRows L m.filteredRows).map (fun t => { m with table := t })

/-- The `case "q", "ctrl+c", "esc"` of `tunnelModel.Update`. -/
def tunnelModel.updateKeyQuit (L : GoLib) (m : tunnelModel) : Option (tunnelModel × tea.Cmd) :=
  if m.filtering then (m.stopFiltering L).map (fun m => (m, .nil))
  else some ({ m with exit := true }, .Quit)

/-- The `case "enter"` of `tunnelModel.Update`. -/
def tunnelModel.updateKeyEnter (m : tunnelModel) : Option (tunnelModel × tea.Cmd) :=
  if m.multiSelect ∧ m.selectedIDs.length > 0 then some (m, .Quit)
  else
    match m.table.SelectedRow with
    | none => some (m, .Quit)
    | some selectedRow =>
      match selectedRow.getLast? with
      | none => none
      | some tunnelID => some ({ m with selectedIDs := mapSet m.selectedIDs tunnelID }, .Quit)

/-- The `case "n"` of `tunnelModel.Update`. -/
def tunnelModel.updateKeyN (m : tunnelModel) : tunnelModel × tea.Cmd :=
  ({ m with showingForm := true, formModel := some (newTunnelForm none) }, .nil)

/-- The `case "e"` of `tunnelModel.Update`. -/
def tunnelModel.updateKeyE (m : tunnelModel) : Option (tunnelModel × tea.Cmd) :=
  match m.table.SelectedRow with
  | none => some (m, .nil)
  | some selectedRow =>
    match selectedRow.getLast? with
    | none => none
    | some tunnelID =>
      match m.tunnels.find? (fun t => decide (t.ID = tunnelID)) with
      | some t => some ({ m with showingForm := true, formModel := some (newTunnelForm (some t)) }, .nil)
      | none => some (m, .nil)

/-- Go `tunnelModel.updateForm` (tunnel_form.go), which `tunnelModel.Update`
calls for every message while `showingForm` is set and `formModel` is not `nil`;
`none` is a panic. -/
def tunnelModel.updateForm (L : GoLib) (m : tunnelModel) (f : tunnel.TunnelFile)
    (uuid now : GoString) (msg : tea.Msg) : Option (tunnelModel × tea.Cmd × tunnel.TunnelFile) :=
  match m.formModel with
  | none => none
  | some form =>
    match form.Update f uuid now msg with
    | none => none
    | some (form, cmd, f) =>
      if form.submitted ∨ form.cancelled then
        let m := { m with showingForm := false }
        let m :=
          if form.submitted then
            match tunnel.FetchAll f with
            | .ok tunnels =>
              let m := { m with tunnels := tunnels, allRows := tunnelsToRows tunnels }
              let m := { m with filteredRows := m.allRows }
              (m.table.SetRows L m.allRows).map (fun t => { m with table := t })
            | .error _ => some m
          else some m
        m.map (fun m => ({ m with formModel := none }, cmd, f))
      else some ({ m with formModel := some form }, cmd, f)

/-- What Go `SelectTunnels` returns once the program has ended with the final
model `m`. -/
def SelectTunnels.returned (m : tunnelModel) : List tunnel.Tunnel :=
  if m.exit then []
  else m.tunnels.filter (fun t => decide (t.ID ∈ m.selectedIDs))

/-- How Go `Select` ends once the program has ended: it returns a
configuration, or the process ends in `os.Exit` with a status. -/
inductive SelectOutcome where
  | returns (choice : config.SSHConfig)
  | exits (status : Int)
  deriving DecidableEq, Repr

/-- The end of Go `Select` for the final model `m` of the program. -/
def Select.outcome (m : model) : SelectOutcome :=
  if m.choice.Host ≠ [] then .returns m.choice
  else if m.exit then .exits 0
  else .returns {}

/-- Go `(*model).stopFiltering`; `SetRows` is given by what it assigns. -/
def model.stopFiltering (L : GoLib) (m : model) : model :=
  let m := { m with filtering := false, filterText := [], filteredRows := m.allRows }
  { m with table := m.table.withRows L m.filteredRows }

/-- Go `(*model).resetTableHeight`; `height` and `width` of the table are the
values last given to `SetHeight` and `SetWidth`. -/
def model.resetTableHeight (st : settings.State) (m : model) : model :=
  { m with table :=
    { m.table with
      height := theme.GetTableHeight (settings.Get st).Fullscreen m.tableHeight
        m.filteredRows.length,
      width := m.tableWidth } }

/-- Go `setConfig`; `none` is the panic of an index out of range. -/
def setConfig (row : Row) : Option config.SSHConfig :=
  match row with
  | name :: host :: port :: user :: key :: _ =>
    some { Name := name, Host := host, Port := port, User := user, Key := key }
  | _ => none

/-- The `case tea.WindowSizeMsg` of `model.Update`. -/
def model.updateWindowSize (st : settings.State) (m : model) (Width Height : Int) :
    model × tea.Cmd :=
  let m := { m with windowWidth := Width, windowHeight := Height }
  let r := theme.AdjustTableDimensions m.table.cols m.windowWidth m.windowHeight
  let m := { m with tableWidth := r.1, tableHeight := r.2.1 }
  let m := { m with table := { m.table with cols := r.2.2 } }
  let m := m.resetTableHeight st
  if (settings.Get st).Fullscreen then (m, .EnterAltScreen) else (m, .ExitAltScreen)

/-- The `case "w"` of `model.Update`. -/
def model.updateKeyW (m : model) (st : settings.State) : model × tea.Cmd × settings.State :=
  let newsettings : settings.Settings :=
    { settings.Get st with Fullscreen := !(settings.Get st).Fullscreen }
  match settings.Save st newsettings with
  | (none, st) =>
    (m.resetTableHeight st, if newsettings.Fullscreen then .EnterAltScreen else .ExitAltScreen, st)
  | (some _, st) => (m, .nil, st)

/-- The `case "/"` of `model.Update`. -/
def model.updateKeySlash (L : GoLib) (m : model) : model × tea.Cmd :=
  if !m.filtering then
    let m := { m with filtering := true, filterText := [] }
    (m.applyFilter L, .nil)
  else (m, .nil)

/-- The `case "q", "ctrl+c", "esc"` of `model.Update`. -/
def model.updateKeyQuit (L : GoLib) (m : model) : model × tea.Cmd :=
  if m.filtering then (m.stopFiltering L, .nil)
  else ({ m with exit := true }, .Quit)

/-- The `case "enter"` of `model.Update`. -/
def model.updateKeyEnter (m : model) : Option (model × tea.Cmd) :=
  match m.table.SelectedRow with
  | none => some (m, .nil)
  | some selectedRow =>
    match setConfig selectedRow with
    | none => none
    | some choice => some ({ m with choice := choice }, .Quit)

/-- Go `model.Update`: the session, the command and the settings afterwards;
`none` is a panic.  The history file that `d` and `r` rewrite is not part of
the state.  The `Update` of the table is given by what it assigns, the rows of
the record picker having a column for every cell. -/
def model.Update (L : GoLib) (m : model) (st : settings.State) (msg : tea.Msg) :
    Option (model × tea.Cmd × settings.State) :=
  match msg with
  | .WindowSizeMsg Width Height =>
    let r := m.updateWindowSize st Width Height
    some (r.1, r.2, st)
  | .KeyMsg msg =>
    if m.filtering ∧ msg.Type_ = .KeyRunes then
      let m := { m with filterText := m.filterText ++ tea.runesString msg.Runes }
      some (m.applyFilter L, .nil, st)
    else if m.filtering ∧ msg.Type_ = tea.KeyBackspace then
      if m.filterText.length > 0 then
        let m := { m with filterText := m.filterText.dropLast }
        some (m.applyFilter L, .nil, st)
      else some (m, .nil, st)
    else
      let key := msg.String
      if key = str "/" then some ((m.updateKeySlash L).1, (m.updateKeySlash L).2, st)
      else if key = str "d" then (m.updateKeyD L).map (fun r => (r.1, r.2, st))
      else if key = str "r" then (m.updateKeyR L).map (fun r => (r.1, r.2, st))
      else if key = str "w" then some (m.updateKeyW st)
      else if key = str "q" ∨ key = str "ctrl+c" ∨ key = str "esc" then
        some ((m.updateKeyQuit L).1, (m.updateKeyQuit L).2, st)
      else if key = str "enter" then m.updateKeyEnter.map (fun r => (r.1, r.2, st))
      else some ({ m with table := m.table.withKey L key }, .nil, st)

/-- Go `(*tunnelModel).resetTableHeight`: `SetHeight` and then `SetWidth` of the
table; `none` is the panic of the table's rendering. -/
def tunnelModel.resetTableHeight (L : GoLib) (st : settings.State) (m : tunnelModel) :
    Option tunnelModel :=
  match m.table.SetHeight L
      (theme.GetTableHeight (settings.Get st).Fullscreen m.tableHeight m.filteredRows.length) with
  | none => none
  | some t => (t.SetWidth m.tableWidth).map (fun t => { m with table := t })

/-- The `case tea.WindowSizeMsg` of `tunnelModel.Update`; `none` is the panic of
the table's rendering. -/
def tunnelModel.updateWindowSize (L : GoLib) (st : settings.State) (m : tunnelModel)
    (Width Height : Int) : Option (tunnelModel × tea.Cmd) :=
  let m := { m with windowWidth := Width, windowHeight := Height }
  let r := theme.AdjustTableDimensions m.table.cols m.windowWidth m.windowHeight
  let m := { m with tableWidth := r.1, tableHeight := r.2.1 }
  match m.table.SetColumns r.2.2 with
  | none => none
  | some t =>
    let m := { m with table := t }
    match m.resetTableHeight L st with
    | none => none
    | some m =>
      if (settings.Get st).Fullscreen then some (m, .EnterAltScreen) else some (m, .ExitAltScreen)

/-- The `case "w"` of `tunnelModel.Update`; `none` is the panic of the table's
rendering, which comes after the settings are saved. -/
def tunnelModel.updateKeyW (L : GoLib) (m : tunnelModel) (st : settings.State) :
    Option (tunnelModel × tea.Cmd × settings.State) :=
  let newsettings : settings.Settings :=
    { settings.Get st with Fullscreen := !(settings.Get st).Fullscreen }
  match settings.Save st newsettings with
  | (none, st) =>
    (m.resetTableHeight L st).map (fun m =>
      (m, if newsettings.Fullscreen then .EnterAltScreen else .ExitAltScreen, st))
  | (some _, st) => some (m, .nil, st)

/-- The `case "/"` of `tunnelModel.Update`. -/
def tunnelModel.updateKeySlash (L : GoLib) (m : tunnelModel) : Option (tunnelModel × tea.Cmd) :=
  if !m.filtering then
    let m := { m with filtering := true, filterText := [] }
    (m.applyFilter L).map (fun m => (m, .nil))
  else some (m, .nil)

/-- Go `tunnelModel.Update`: the session, the command, the settings and the
store afterwards; `none` is a panic.  `uuid` and `now` are what `tunnel.Create`
draws when the form is submitted. -/
def tunnelModel.Update (L : GoLib) (m : tunnelModel) (st : settings.State)
    (f : tunnel.TunnelFile) (uuid now : GoString) (msg : tea.Msg) :
    Option (tunnelModel × tea.Cmd × settings.State × tunnel.TunnelFile) :=
  if m.showingForm ∧ m.formModel ≠ none then
    (m.updateForm L f uuid now msg).map (fun r => (r.1, r.2.1, st, r.2.2))
  else
    match msg with
    | .WindowSizeMsg Width Height =>
      (m.updateWindowSize L st Width Height).map (fun r => (r.1, r.2, st, f))
    | .KeyMsg msg =>
      if m.filtering ∧ msg.Type_ = .KeyRunes then
        let m := { m with filterText := m.filterText ++ tea.runesString msg.Runes }
        (m.applyFilter L).map (fun m => (m, .nil, st, f))
      else if m.filtering ∧ msg.Type_ = tea.KeyBackspace then
        if m.filterText.length > 0 then
          let m := { m with filterText := m.filterText.dropLast }
          (m.applyFilter L).map (fun m => (m, .nil, st, f))
        else some (m, .nil, st, f)
      else
        let key := msg.String
        if key = str "/" then (m.updateKeySlash L).map (fun r => (r.1, r.2, st, f))
        else if key = str "n" then some (m.updateKeyN.1, m.updateKeyN.2, st, f)
        else if key = str "e" then m.updateKeyE.map (fun r => (r.1, r.2, st, f))
        else if key = str "d" then (m.updateKeyD L f).map (fun r => (r.1, r.2.1, st, r.2.2))
        else if key = str " " then m.updateKeySpace.map (fun r => (r.1, r.2, st, f))
        else if key = str "w" then (m.updateKeyW L st).map (fun r => (r.1, r.2.1, r.2.2, f))
        else if key = str "q" ∨ key = str "ctrl+c" ∨ key = str "esc" then
          (m.updateKeyQuit L).map (fun r => (r.1, r.2, st, f))
        else if key = str "enter" then m.updateKeyEnter.map (fun r => (r.1, r.2, st, f))
        else (m.table.Update L key).map (fun t => ({ m with table := t }, .nil, st, f))

end interactive

/-! ## Notions used to state the properties -/

/-- The decimal numeral of a positive number: its base-10 digits, most
significant first, as ASCII bytes. -/
def decimalOf (n : Nat) : GoString := (Nat.digits 10 n).reverse.map strconv.digitByte

/-- Whether a white-space character (`unicode.IsSpace`) is read from `s`, the
way `for range` reads it, once `skip` more bytes of the current rune have been
passed over. -/
def hasSpaceRune : Nat → GoString → Bool
  | _, [] => false
  | skip + 1, _ :: s => hasSpaceRune skip s
  | 0, c :: s =>
    unicode.IsSpace (utf8.DecodeRune (c :: s)).1 || hasSpaceRune ((utf8.DecodeRune (c :: s)).2 - 1) s

/-- The number of characters of a string, the way `for range` reads them (an
invalid byte counts as one character), once `skip` more bytes of the current
character have been passed over. -/
def runeCount : Nat → GoString → Nat
  | _, [] => 0
  | skip + 1, _ :: s => runeCount skip s
  | 0, c :: s => 1 + runeCount ((utf8.DecodeRune (c :: s)).2 - 1) s

/-- A string with neither a colon nor a white-space character in it. -/
def plainField (s : GoString) : Bool := s.all (fun c => c != 58) && !hasSpaceRune 0 s

/-- The names of the tunnels are pairwise distinct. -/
def tunnel.uniqueNames (tunnels : List tunnel.Tunnel) : Prop :=
  (tunnels.map (fun t => t.Name)).Nodup

instance (tunnels : List tunnel.Tunnel) : Decidable (tunnel.uniqueNames tunnels) :=
  inferInstanceAs (Decidable (List.Nodup _))

namespace interactive

/-- The ID in the hidden last field of the row that is highlighted once the
cursor is at `cursor`. -/
def highlightedID (m : tunnelModel) (cursor : Int) : Option GoString :=
  ({ m.table with cursor := cursor }).SelectedRow.bind (fun row => row.getLast?)

/-- The selection-toggle key pressed with the cursor at each of `cursors` in
turn; how the cursor gets there (the table widget moves it) is left open. -/
def toggleRun : tunnelModel → List Int → Option tunnelModel
  | m, [] => some m
  | m, cursor :: rest =>
    match ({ m with table := { m.table with cursor := cursor } }).updateKeySpace with
    | none => none
    | some r => toggleRun r.1 rest

/-- The IDs on which the selection-toggle key was pressed, in order. -/
def toggledIDs (m : tunnelModel) (cursors : List Int) : List GoString :=
  cursors.filterMap (highlightedID m)

/-- Whether the text is an integer in 1..65535, as `strconv.Atoi` reads integers. -/
def isPortText (s : GoString) : Bool :=
  match strconv.Atoi s with
  | some v => decide (1 ≤ v ∧ v ≤ 65535)
  | none => false

/-- The validation rules of the tunnel form in the order of the specification:
whether each holds, and the message shown when it does not. -/
def formRules (name kind localPort remoteHost remotePort : GoString) : List (Bool × GoString) :=
  [(decide (name ≠ []), str "Name is required"),
   (decide (kind = str "local" ∨ kind = str "remote" ∨ kind = str "dynamic"),
     str "Type must be 'local', 'remote', or 'dynamic'"),
   (decide (localPort ≠ []), str "Local port is required"),
   (isPortText localPort, str "Local port must be a number between 1 and 65535")] ++
  (if kind = str "local" ∨ kind = str "remote" then
    [(decide (remoteHost ≠ []), str "Remote host is required for " ++ kind ++ str " forwarding"),
     (decide (remotePort ≠ []), str "Remote port is required for " ++ kind ++ str " forwarding"),
     (isPortText remotePort, str "Remote port must be a number between 1 and 65535")]
   else [])

/-- The message of the first rule that fails, if one does. -/
def firstFailure (name kind localPort remoteHost remotePort : GoString) : Option GoString :=
  ((formRules name kind localPort remoteHost remotePort).find? (fun r => !r.1)).map (fun r => r.2)

end interactive

/-- The digits of an integer text: the text without its sign, if it has one. -/
def unsignedPart (s : GoString) : GoString :=
  match s with
  | c :: rest => if c == 45 || c == 43 then rest else s
  | [] => []

/-- A decimal integer: an optional sign followed by one or more decimal digits. -/
def isDecimalInteger (s : GoString) : Bool :=
  unsignedPart s != [] && (unsignedPart s).all (fun c => decide (48 ≤ c.toNat ∧ c.toNat ≤ 57))

/-- The number that a decimal integer denotes. -/
def decimalValue (s : GoString) : Int :=
  let n : Nat := (unsignedPart s).foldl (fun n c => n * 10 + (c.toNat - 48)) 0
  match s with
  | c :: _ => if c == 45 then -(n : Int) else (n : Int)
  | [] => 0

/-- A decimal integer whose value a 64-bit `int` holds. -/
def isIntText (s : GoString) : Bool :=
  isDecimalInteger s && decide (-2 ^ 63 ≤ decimalValue s ∧ decimalValue s < 2 ^ 63)

/-- The inputs on which the specification has `ParseSSHFlag` fail, for a given
reading `isInt` of "is a decimal integer": fewer than two tokens; a first token
other than `-L`, `-R`, `-D`; for `-L` and `-R`, a second token that does not
split on `:` into 3 or 4 parts, or whose local-port part (the third from the
end) or remote-port part (the last) is not an integer; for `-D`, a port part
(the token without `:`, else its second part) that is not an integer. -/
def tunnel.parseFails (isInt : GoString → Bool) (flag : GoString) : Bool :=
  match strings.Fields flag with
  | first :: second :: _ =>
    let parts := strings.Split second 58
    if first = str "-L" ∨ first = str "-R" then
      !(decide (parts.length = 3 ∨ parts.length = 4)) ||
        !(isInt ((parts.get? (parts.length - 3)).getD [])) ||
        !(isInt ((parts.get? (parts.length - 1)).getD []))
    else if first = str "-D" then
      !(isInt (if strings.Contains second (str ":") then (parts.get? 1).getD [] else second))
    else true
  | _ => true

/-- The key message of a typed character. -/
def tea.keyRune (c : Char) : tea.KeyMsg := { Type_ := .KeyRunes, Runes := [c] }

/-- The key message of the backspace key. -/
def tea.keyBackspace : tea.KeyMsg := { Type_ := tea.KeyBackspace }

/-- The program's loop over the record picker: the messages are handled in turn
until a handler panics (`none`) or returns `tea.Quit`; the session and the
settings at the end, and whether the program has quit. -/
def interactive.model.run (L : GoLib) :
    interactive.model → settings.State → List tea.Msg →
      Option (interactive.model × settings.State × Bool)
  | m, st, [] => some (m, st, false)
  | m, st, msg :: rest =>
    match m.Update L st msg with
    | none => none
    | some r => if r.2.1 = .Quit then some (r.1, r.2.2, true) else interactive.model.run L r.1 r.2.2 rest

/-- Whether the lower-cased text of a row, its fields joined by spaces, contains `text`. -/
def interactive.rowHas (L : GoLib) (row : interactive.Row) (text : GoString) : Bool :=
  strings.Contains (strings.ToLower L (strings.Join row (str " "))) text

/-- The arguments of one tunnel, none when `ToSSHArgs` fails. -/
def tunnel.argsOf (t : tunnel.Tunnel) : List GoString :=
  match t.ToSSHArgs with
  | .ok args => args
  | .error _ => []

/-- The order of the specification between a tunnel `a` and a tunnel `b` that
stands after it: last-used descending and, among tunnels with equal last-used,
name ascending, the texts compared as Go compares strings. -/
def tunnel.fetchOrdered (a b : tunnel.Tunnel) : Prop :=
  tunnel.stringLess b.LastUsed a.LastUsed = true ∨
    (a.LastUsed = b.LastUsed ∧ (tunnel.stringLess a.Name b.Name = true ∨ a.Name = b.Name))

namespace tunnel

/-- The tunnel `db` of the specification's first scenario. -/
def dbTunnel : Tunnel :=
  { Name := str "db", Type_ := TypeLocal, LocalPort := 5432, RemoteHost := str "localhost",
    RemotePort := 5432 }

/-- The tunnel `socks` of the specification's second scenario. -/
def socksTunnel : Tunnel :=
  { Name := str "socks", Type_ := TypeDynamic, LocalPort := 1080, BindAddress := str "127.0.0.1" }

/-- A remote forwarding with a bind address. -/
def apiTunnel : Tunnel :=
  { Name := str "api", Type_ := TypeRemote, LocalPort := 8080, RemoteHost := str "localhost",
    RemotePort := 3000, BindAddress := str "0.0.0.0" }

/-- A local forwarding to the IPv6 loopback address. -/
def v6Tunnel : Tunnel :=
  { Name := str "v6", Type_ := TypeLocal, LocalPort := 8080, RemoteHost := str "::1",
    RemotePort := 80 }

/-- A local forwarding to a host name with a space in it. -/
def spaceHostTunnel : Tunnel :=
  { Name := str "sp", Type_ := TypeLocal, LocalPort := 8080, RemoteHost := str "my host",
    RemotePort := 80 }

/-- A dynamic forwarding bound to the IPv6 loopback address. -/
def v6BindTunnel : Tunnel :=
  { Name := str "v6socks", Type_ := TypeDynamic, LocalPort := 1080, BindAddress := str "::1" }

/-- A dynamic forwarding that still carries a remote host and port, which
`Validate` does not look at. -/
def staleDynamicTunnel : Tunnel :=
  { Name := str "proxy", Type_ := TypeDynamic, LocalPort := 1080, RemoteHost := str "localhost",
    RemotePort := 80 }

end tunnel

namespace interactive

/-- Two history rows with different names and hosts. -/
def alphaRow : Row :=
  [str "alpha", str "10.0.0.1", str "22", str "root", str "", str "1 hour ago"]

def betaRow : Row :=
  [str "Beta", str "10.0.0.2", str "22", str "root", str "", str "2 hours ago"]

/-- A record picker in Browse over the two history rows, the first one highlighted. -/
def historySession : model :=
  { table := { cols := theme.GetColumns .HistoryTable, rows := [alphaRow, betaRow], cursor := 0 },
    allRows := [alphaRow, betaRow], filteredRows := [alphaRow, betaRow] }

/-- Two stored tunnels and their rows, as `tunnelsToRows` builds them (hidden ID last). -/
def dbStored : tunnel.Tunnel := { tunnel.dbTunnel with ID := str "id-a" }

def webStored : tunnel.Tunnel :=
  { ID := str "id-b", Name := str "web", Type_ := tunnel.TypeLocal, LocalPort := 8080,
    RemoteHost := str "localhost", RemotePort := 80 }

def dbRow : Row :=
  [str "db", str "local", str "5432", str "localhost:5432", str "", str "id-a"]

def webRow : Row :=
  [str "web", str "local", str "8080", str "localhost:80", str "", str "id-b"]

/-- A tunnel picker in Browse over the two tunnels, the first one highlighted. -/
def tunnelSession : tunnelModel :=
  { table := { cols := theme.GetColumns .TunnelTable, rows := [dbRow, webRow], cursor := 0 },
    allRows := [dbRow, webRow], filteredRows := [dbRow, webRow], tunnels := [dbStored, webStored] }

/-- The store holding the two tunnels. -/
def tunnelStore : tunnel.TunnelFile := { tunnels := [dbStored, webStored] }

end interactive

namespace interactive

/-- The record picker filtering on `BET`. -/
def betSession : model := { historySession with filtering := true, filterText := str "BET" }

end interactive

namespace interactive

/-- A tunnel named `db`, as the stored one is, with a local port that is out of range. -/
def portlessDb : tunnel.Tunnel := { tunnel.dbTunnel with LocalPort := 0 }

/-- A valid tunnel whose name is not stored, and the record that `Create` stores for it. -/
def cacheTunnel : tunnel.Tunnel :=
  { Name := str "cache", Type_ := tunnel.TypeLocal, LocalPort := 6379,
    RemoteHost := str "localhost", RemotePort := 6379 }

def cacheStored : tunnel.Tunnel :=
  { cacheTunnel with ID := str "id-c", CreatedAt := str "2024-05-01T10:00:00Z" }

/-- The stored tunnel `web` under the name of the stored tunnel `db`. -/
def renamedWeb : tunnel.Tunnel := { webStored with Name := str "db" }

/-- The stored tunnel `web` with another local port and a creation time of its own. -/
def editedWeb : tunnel.Tunnel :=
  { webStored with LocalPort := 9090, CreatedAt := str "2030-01-01T00:00:00Z" }

/-- A valid tunnel whose ID is not stored. -/
def strayTunnel : tunnel.Tunnel := { cacheTunnel with ID := str "id-z" }

/-- The tunnel picker in multi-select mode in Browse. -/
def multiSession : tunnelModel := { tunnelSession with multiSelect := true }

/-- The multi-select picker after the first row was toggled into the selected set. -/
def toggledSession : tunnelModel := { multiSession with selectedIDs := [str "id-a"] }

/-- The store holding a tunnel that the session does not show. -/
def otherStore : tunnel.TunnelFile := { tunnels := [cacheStored] }

def lastStore : tunnel.TunnelFile := { tunnels := [dbStored] }

/-- The form for a new tunnel with the fields of `cache` typed in. -/
def cacheForm : tunnelFormModel :=
  { newTunnelForm (some cacheTunnel) with tunnel := none, editing := false }

/-- The form for a new tunnel with local port `0` and no remote host typed in. -/
def badPortForm : tunnelFormModel :=
  { newTunnelForm (some { cacheTunnel with LocalPort := 0, RemoteHost := [] }) with
    tunnel := none, editing := false }

/-- The form for a new tunnel with the fields of `db`, whose name is stored, typed in. -/
def dbForm : tunnelFormModel :=
  { newTunnelForm (some tunnel.dbTunnel) with tunnel := none, editing := false }

/-- The tunnel picker with the form for `cache` open. -/
def formSession : tunnelModel :=
  { tunnelSession with showingForm := true, formModel := some cacheForm }

/-- The tunnel picker with the form for a second `db` open. -/
def dbFormSession : tunnelModel :=
  { tunnelSession with showingForm := true, formModel := some dbForm }

/-- The keys ctrl+s and esc. -/
def ctrlS : tea.KeyMsg := { Type_ := tea.KeyCtrlS }

def escKey : tea.KeyMsg := { Type_ := tea.KeyEsc }

end interactive

namespace tunnel

/-- Four stored tunnels: two used, on different days, and two never used. -/
def neverCache : Tunnel :=
  { ID := str "id-1", Name := str "cache", Type_ := TypeDynamic, LocalPort := 1081 }

def usedDb : Tunnel :=
  { ID := str "id-2", Name := str "db", Type_ := TypeDynamic, LocalPort := 1082,
    LastUsed := str "2024-05-01T10:00:00Z" }

def neverApi : Tunnel :=
  { ID := str "id-3", Name := str "api", Type_ := TypeDynamic, LocalPort := 1083 }

def usedWeb : Tunnel :=
  { ID := str "id-4", Name := str "web", Type_ := TypeDynamic, LocalPort := 1084,
    LastUsed := str "2024-06-01T10:00:00Z" }

def usedStore : TunnelFile := { tunnels := [neverCache, usedDb, neverApi, usedWeb] }

end tunnel

namespace interactive

/-- A tunnel whose description has 21 characters of two bytes each. -/
def accentTunnel : tunnel.Tunnel :=
  { cacheStored with Description := str "ééééééééééééééééééééé" }

/-- A tunnel whose description has 41 ASCII characters. -/
def longTunnel : tunnel.Tunnel :=
  { tunnel.socksTunnel with ID := str "id-s",
                            Description := str "SOCKS proxy for the office network, floor" }

end interactive

namespace tunnel

/-- The two tunnels of the test of `TunnelsToSSHArgs`. -/
def webTunnel : Tunnel :=
  { Name := str "web", Type_ := TypeLocal, LocalPort := 8080, RemoteHost := str "localhost",
    RemotePort := 80 }

def socksPlain : Tunnel := { Name := str "socks", Type_ := TypeDynamic, LocalPort := 1080 }

end tunnel

namespace settings

/-- A decoder that reads the two texts that `MarshalIndent` writes and fails on
every other text, for evaluating examples. -/
def plainDecoder : Decoder := fun file =>
  if file = MarshalIndent { Fullscreen := true } then some { Fullscreen := true }
  else if file = MarshalIndent { Fullscreen := false } then some { Fullscreen := false }
  else none

/-- The settings of a first start: nothing saved, no file. -/
def freshState : State := {}

/-- Settings in a place where the file cannot be written. -/
def readOnlyState : State := { writeError := some (str "permission denied") }

end settings

namespace interactive

/-- Two config rows named `db` and `web`, and a record picker in Browse over them. -/
def dbRec : Row := [str "db", str "10.0.0.5", str "5432", str "root", str ""]

def webRec : Row := [str "web", str "10.0.0.6", str "22", str "root", str ""]

def recordSession : model :=
  { table := { cols := theme.GetColumns .ConfigTable, rows := [dbRec, webRec], cursor := 0 },
    allRows := [dbRec, webRec], filteredRows := [dbRec, webRec] }

/-- A config row without a host, and a record picker in Browse over it. -/
def hostlessRec : Row := [str "alias", str "", str "22", str "root", str ""]

def hostlessSession : model :=
  { table := { cols := theme.GetColumns .ConfigTable, rows := [hostlessRec], cursor := 0 },
    allRows := [hostlessRec], filteredRows := [hostlessRec] }

/-- The keys enter, esc and ctrl+c. -/
def enterKey : tea.KeyMsg := { Type_ := tea.KeyEnter }

def ctrlC : tea.KeyMsg := { Type_ := tea.KeyCtrlC }

/-- The record picker over the two history rows, filtering on an empty text. -/
def slashSession : model := { historySession with filtering := true }

end interactive

/-! ## The form's drawing, the form's loop and further examples -/

namespace interactive

/-- The test of `(*tunnelFormModel).View` under which the input at index `i` is
not drawn (`continue`): the remote host and the remote port of a form whose type
reads `dynamic`; `none` is the panic of an index out of range. -/
def tunnelFormModel.skippedInView (m : tunnelFormModel) (i : Nat) : Option Bool :=
  if i = inputRemoteHost ∨ i = inputRemotePort then
    (m.valueAt inputType).map (fun value => decide (value = str "dynamic"))
  else some false

/-- The form's part of the program's loop: the messages are handled in turn by
`Update` until it panics (`none`) or returns `tea.Quit`, on which the picker
closes the form; the form and the store at the end, and whether the form has
quit.  `uuid` and `now` are what the one `tunnel.Create` that succeeds draws. -/
def tunnelFormModel.run (uuid now : GoString) :
    tunnelFormModel → tunnel.TunnelFile → List tea.Msg →
      Option (tunnelFormModel × tunnel.TunnelFile × Bool)
  | m, f, [] => some (m, f, false)
  | m, f, msg :: rest =>
    match m.Update f uuid now msg with
    | none => none
    | some r =>
      if r.2.1 = .Quit then some (r.1, r.2.2, true)
      else tunnelFormModel.run uuid now r.1 r.2.2 rest

/-- A tunnel picker over no tunnels, where no row is highlighted. -/
def emptyTunnelSession : tunnelModel := { table := { cols := theme.GetColumns .TunnelTable } }

/-- A record picker over no rows. -/
def emptyRecordSession : model := { table := { cols := theme.GetColumns .ConfigTable } }

/-- The keys tab and shift+tab, and the keys up and down. -/
def tabKey : tea.KeyMsg := { Type_ := tea.KeyTab }

def shiftTabKey : tea.KeyMsg := { Type_ := tea.KeyShiftTab }

def upKey : tea.KeyMsg := { Type_ := tea.KeyUp }

def downKey : tea.KeyMsg := { Type_ := tea.KeyDown }

/-- The form for a new tunnel with the type `dynamic` typed in and the focus on
the local port. -/
def socksForm : tunnelFormModel :=
  { newTunnelForm (some tunnel.socksPlain) with
    tunnel := none, editing := false, focusIndex := 2 }

end interactive

namespace theme

/-- The extra width of the Key column that the surplus policy of the record
tables states for a surplus `s`: all of it up to 15, then half of what is
beyond 15, rounded down, up to 15 more. -/
def keyShare (s : Int) : Int :=
  if s ≤ 15 then s else 15 + min 15 ((s - 15) / 2)

end theme

namespace interactive

/-- The model with which Go `SelectTunnels` starts the program, for the tunnels
that `tunnel.FetchAll` has returned: the table is made by `table.New` and given
its styles by `SetStyles`, both of which render the rows; `none` is the panic of
that rendering. -/
def SelectTunnels.initial (multiSelect : Bool) (tunnels : List tunnel.Tunnel) :
    Option tunnelModel :=
  let rows := tunnelsToRows tunnels
  match table.New (theme.GetColumns .TunnelTable) rows with
  | none => none
  | some t =>
    match t.SetStyles with
    | none => none
    | some t =>
      some { table := t, allRows := rows, filteredRows := rows, tunnels := tunnels,
             multiSelect := multiSelect }

/-- The program's loop over the tunnel picker: the messages are handled in turn
until a handler panics (`none`) or returns `tea.Quit`; the session, the settings
and the store at the end, and whether the program has quit.  `uuid` and `now`
are what the one `tunnel.Create` that succeeds draws: the program quits on it. -/
def tunnelModel.run (L : GoLib) (uuid now : GoString) :
    tunnelModel → settings.State → tunnel.TunnelFile → List tea.Msg →
      Option (tunnelModel × settings.State × tunnel.TunnelFile × Bool)
  | m, st, f, [] => some (m, st, f, false)
  | m, st, f, msg :: rest =>
    match m.Update L st f uuid now msg with
    | none => none
    | some r =>
      if r.2.1 = .Quit then some (r.1, r.2.2.1, r.2.2.2, true)
      else tunnelModel.run L uuid now r.1 r.2.2.1 r.2.2.2 rest

/-- Whether the rows of the table are index-aligned with the tunnels of the
session: there are as many rows as tunnels, and the row at each index ends in
the ID of the tunnel at that index. -/
def tunnelModel.rowsAligned (m : tunnelModel) : Bool :=
  m.table.rows.map (fun row => row.getLast?) == m.tunnels.map (fun t => some t.ID)

/-- Whether the form of the session, if there is one, has its seven inputs and
the focus on one of them. -/
def tunnelModel.formInRange (m : tunnelModel) : Bool :=
  match m.formModel with
  | none => true
  | some form => decide (form.inputs.length = 7 ∧ 0 ≤ form.focusIndex ∧ form.focusIndex ≤ 6)

/-- What every state of the tunnel picker that the program reaches satisfies:
the row cache is that of the session's tunnels, the table shows the row cache
outside Filtering and rows of it in Filtering, and the form is in range. -/
@[reducible] def tunnelModel.consistent (m : tunnelModel) : Prop :=
  m.allRows = tunnelsToRows m.tunnels ∧ (m.filtering = false → m.table.rows = m.allRows) ∧
    (∀ row ∈ m.table.rows, row ∈ m.allRows) ∧ m.formInRange = true

instance (m : tunnelModel) : Decidable m.consistent := by
  unfold tunnelModel.consistent
  infer_instance

end interactive

/-- Whether the message is one that the terminal reader of bubbletea makes: a
key whose text is `d` is the rune key, since no key type has the name `d` in
the library's table `keyNames`. -/
@[reducible] def tea.Msg.fromTerminal : tea.Msg → Prop
  | .KeyMsg k => k.String = str "d" → k.Type_ = .KeyRunes
  | _ => True

instance (msg : tea.Msg) : Decidable msg.fromTerminal := by
  cases msg <;> unfold tea.Msg.fromTerminal <;> infer_instance

namespace interactive

/-- The tunnel picker over the two tunnels with the viewport of the table twenty
lines high, as `table.New` leaves it: its rows are rendered. -/
def drawnSession : tunnelModel :=
  { tunnelSession with table := { tunnelSession.table with viewportHeight := 20 } }

end interactive

namespace tunnel

/-- Whether the records are as `json.Unmarshal` reads them from a file: going
through the JSON text again leaves each of them as it is.  What `LoadTunnels`
returns is of this kind. -/
@[reducible] def asRead (l : List Tunnel) : Prop := l.map Tunnel.roundTrip = l

instance (l : List Tunnel) : Decidable (asRead l) := by
  unfold asRead
  infer_instance

end tunnel

namespace interactive

/-- The name `caf` followed by the byte C3, the first byte of an `é` whose second
byte the form's backspace has removed: not valid UTF-8. -/
def cutName : GoString := str "caf" ++ [0xC3]

/-- The name that the JSON text gives back for `cutName`: U+FFFD for the byte C3. -/
def coercedName : GoString := str "caf" ++ [0xEF, 0xBF, 0xBD]

/-- The tunnel `cache` under the cut name, and the stored tunnel `web` under it. -/
def cutTunnel : tunnel.Tunnel := { cacheTunnel with Name := cutName }

def cutWeb : tunnel.Tunnel := { webStored with Name := cutName }

/-- A store that holds one tunnel, named `caf` and U+FFFD. -/
def coercedStore : tunnel.TunnelFile :=
  { tunnels := [{ dbStored with Name := coercedName }] }

end interactive

namespace interactive

/-- The selection-toggle key `k` handled by `tunnelModel.Update` with the cursor
at each of `cursors` in turn; how the cursor gets there (the table widget moves
it) is left open. -/
def toggleKeys (L : GoLib) (st : settings.State) (f : tunnel.TunnelFile) (uuid now : GoString)
    (k : tea.KeyMsg) : tunnelModel → List Int → Option tunnelModel
  | m, [] => some m
  | m, cursor :: rest =>
    match ({ m with table := { m.table with cursor := cursor } }).Update L st f uuid now
        (.KeyMsg k) with
    | none => none
    | some r => toggleKeys L st f uuid now k r.1 rest

/-- The key space (`tea.KeySpace`, whose name is a blank). -/
def spaceKey : tea.KeyMsg := { Type_ := .named (str " ") }

end interactive

namespace interactive

/-- The keys with which the user opens the form (`n`), types the name `socks`,
the type `dynamic` and the local port `1080`, each field in one message, and
moves on with tab. -/
def socksKeys : List tea.Msg :=
  [.KeyMsg (tea.keyRune 'n'),
   .KeyMsg { Runes := ['s', 'o', 'c', 'k', 's'] }, .KeyMsg tabKey,
   .KeyMsg { Runes := ['d', 'y', 'n', 'a', 'm', 'i', 'c'] }, .KeyMsg tabKey,
   .KeyMsg { Runes := ['1', '0', '8', '0'] }]

/-- The tunnel that the form makes of these fields, as `Create` stores it. -/
def socksStored : tunnel.Tunnel :=
  { ID := str "id-s", Name := str "socks", Type_ := tunnel.TypeDynamic, LocalPort := 1080,
    CreatedAt := str "2024-05-01T10:00:00Z" }

/-- The store file without tunnels. -/
def emptyStore : tunnel.TunnelFile := {}

end interactive

namespace interactive

/-- The tunnel picker over `db` and `web` after `web` was deleted in Browse: the
table and `allRows` hold the row of `db`, and `filteredRows` is as it was. -/
def afterDeleteSession : tunnelModel :=
  { tunnelSession with
    table := { tunnelSession.table with rows := [dbRow], cursor := 0 },
    allRows := [dbRow], tunnels := [dbStored] }

/-- The keys `/`, `w`, esc, down and `d`, which filter on `w`, leave the filter,
move down a row and delete it. -/
def deleteWebKeys : List tea.Msg :=
  [.KeyMsg (tea.keyRune '/'), .KeyMsg (tea.keyRune 'w'), .KeyMsg escKey, .KeyMsg downKey,
    .KeyMsg (tea.keyRune 'd')]

end interactive

/-! # Properties -/

namespace theme

theorem isTunnelTable_length {cols : List table.Column} (h : isTunnelTable cols = true) :
    cols.length = 5 := by
  simp only [isTunnelTable, Bool.and_eq_true, beq_iff_eq] at h
  exact h.1.1

/-- A layout pass over five columns reads their titles only. -/
theorem adjust_five (a b c d e : table.Column) (w h wa wb wc wd we : Int) :
    AdjustTableDimensions
      [⟨a.Title, wa⟩, ⟨b.Title, wb⟩, ⟨c.Title, wc⟩, ⟨d.Title, wd⟩, ⟨e.Title, we⟩] w h
      = AdjustTableDimensions [a, b, c, d, e] w h := by
  simp only [AdjustTableDimensions, List.length_cons, List.length_nil, adjustRecord, adjustTunnel,
    isTunnelTable, setWidth, scaleFrom, List.get?]

/-- A layout pass over six columns reads their titles only. -/
theorem adjust_six (a b c d e f : table.Column) (w h wa wb wc wd we wf : Int) :
    AdjustTableDimensions
      [⟨a.Title, wa⟩, ⟨b.Title, wb⟩, ⟨c.Title, wc⟩, ⟨d.Title, wd⟩, ⟨e.Title, we⟩, ⟨f.Title, wf⟩] w h
      = AdjustTableDimensions [a, b, c, d, e, f] w h := by
  simp [AdjustTableDimensions, adjustRecord, isTunnelTable, setWidth, scaleFrom]

/-- A layout pass over five columns keeps the titles. -/
theorem adjust_five_shape (a b c d e : table.Column) (w h : Int) :
    ∃ wa wb wc wd we : Int, (AdjustTableDimensions [a, b, c, d, e] w h).2.2
      = [⟨a.Title, wa⟩, ⟨b.Title, wb⟩, ⟨c.Title, wc⟩, ⟨d.Title, wd⟩, ⟨e.Title, we⟩] := by
  simp only [AdjustTableDimensions, List.length_cons, List.length_nil, adjustRecord, adjustTunnel,
    isTunnelTable, setWidth, scaleFrom, List.get?]
  split_ifs <;> exact ⟨_, _, _, _, _, rfl⟩

/-- A layout pass over six columns keeps the titles. -/
theorem adjust_six_shape (a b c d e f : table.Column) (w h : Int) :
    ∃ wa wb wc wd we wf : Int, (AdjustTableDimensions [a, b, c, d, e, f] w h).2.2
      = [⟨a.Title, wa⟩, ⟨b.Title, wb⟩, ⟨c.Title, wc⟩, ⟨d.Title, wd⟩, ⟨e.Title, we⟩,
          ⟨f.Title, wf⟩] := by
  simp only [AdjustTableDimensions, List.length_cons, List.length_nil, adjustRecord,
    isTunnelTable, setWidth, scaleFrom, List.get?]
  split_ifs <;> first | exact ⟨_, _, _, _, _, _, rfl⟩ | (exfalso; simp_all)

/-- Columns that are neither five nor six are returned as they are. -/
theorem adjust_other (cols : List table.Column) (w h : Int) (h5 : cols.length ≠ 5)
    (h6 : cols.length ≠ 6) : (AdjustTableDimensions cols w h).2.2 = cols := by
  have ht : isTunnelTable cols = false := by
    cases hq : isTunnelTable cols
    · rfl
    · exact absurd (isTunnelTable_length hq) h5
  unfold AdjustTableDimensions
  split
  · contradiction
  · contradiction
  · simp [ht]

/-- C7: `AdjustTableDimensions` is idempotent: a second pass with the same window size over the
columns returned by the first pass returns the same table width, table height and columns (titles
and widths) as the first pass. -/
theorem C7_adjustTableDimensions_idempotent (cols : List table.Column) (w h : Int) :
    AdjustTableDimensions (AdjustTableDimensions cols w h).2.2 w h
      = AdjustTableDimensions cols w h := by
  by_cases h5 : cols.length = 5
  · match cols, h5 with
    | [a, b, c, d, e], _ =>
      obtain ⟨wa, wb, wc, wd, we, hs⟩ := adjust_five_shape a b c d e w h
      rw [hs, adjust_five]
  · by_cases h6 : cols.length = 6
    · match cols, h6 with
      | [a, b, c, d, e, f], _ =>
        obtain ⟨wa, wb, wc, wd, we, wf, hs⟩ := adjust_six_shape a b c d e f w h
        rw [hs, adjust_six]
    · rw [adjust_other cols w h h5 h6]

end theme

theorem f64Unit_pos : 0 < f64Unit := by unfold f64Unit; positivity

theorem bitLengthAux_le (ks : List Nat) : ∀ (n acc k : Nat), n < 2 ^ k →
    bitLengthAux ks n acc ≤ acc + k := by
  induction ks with
  | nil =>
    intro n acc k hn
    unfold bitLengthAux
    split
    · omega
    · have hk : k ≠ 0 := by
        rintro rfl
        simp at hn
        omega
      omega
  | cons j ks ih =>
    intro n acc k hn
    unfold bitLengthAux
    split
    · rename_i hj
      have hjk : j < k := (Nat.pow_lt_pow_iff_right (by norm_num : 1 < 2)).1 (lt_of_le_of_lt hj hn)
      have hdiv : n / 2 ^ j < 2 ^ (k - j) := by
        rw [Nat.div_lt_iff_lt_mul (by positivity), ← pow_add]
        rwa [Nat.sub_add_cancel hjk.le]
      have := ih (n / 2 ^ j) (acc + j) (k - j) hdiv
      omega
    · exact ih n acc k hn

theorem bitLength_le {n k : Nat} (hn : n < 2 ^ k) : bitLength n ≤ k := by
  have := bitLengthAux_le [2048, 1024, 512, 256, 128, 64, 32, 16, 8, 4, 2, 1] n 0 k hn
  simpa [bitLength] using this

/-- Rounding leaves an integer below `2 ^ 53` as it is. -/
theorem f64RoundMag_exact {a : Nat} (ha : a < 2 ^ 53) : f64RoundMag (a * f64Unit) 1 = a * f64Unit := by
  have hlt : a * f64Unit < 2 ^ 1127 := by
    have : (2 : Nat) ^ 1127 = 2 ^ 53 * f64Unit := by
      unfold f64Unit
      rw [← pow_add]
    rw [this]
    exact Nat.mul_lt_mul_of_pos_right ha f64Unit_pos
  have hs : bitLength (a * f64Unit / 1) - 53 ≤ 1074 := by
    have := bitLength_le hlt
    rw [Nat.div_one]
    omega
  have hdvd : 2 ^ (bitLength (a * f64Unit / 1) - 53) ∣ a * f64Unit :=
    Dvd.dvd.mul_left (by unfold f64Unit; exact pow_dvd_pow 2 hs) a
  unfold f64RoundMag roundNearestEven
  simp only [one_mul]
  rw [Nat.mod_eq_zero_of_dvd hdvd]
  have hpos : 2 * 0 < 2 ^ (bitLength (a * f64Unit / 1) - 53) := by positivity
  rw [if_pos hpos]
  exact Nat.div_mul_cancel hdvd

theorem f64OfInt_exact {x : Int} (hx : x.natAbs < 2 ^ 53) : f64OfInt x = x * (f64Unit : Int) := by
  unfold f64OfInt f64Round
  rw [f64RoundMag_exact hx]
  by_cases h : x < 0
  · simp only [h, decide_True, if_true]
    push_cast
    rw [abs_of_neg h]
    ring
  · simp only [h, decide_False]
    push_cast
    rw [abs_of_nonneg (not_lt.1 h)]

theorem f64ToInt_exact (x : Int) : f64ToInt (x * (f64Unit : Int)) = x := by
  have hU : (0 : Int) < (f64Unit : Int) := by exact_mod_cast f64Unit_pos
  unfold f64ToInt
  rw [Int.natAbs_mul, Int.natAbs_ofNat, Nat.mul_div_cancel _ f64Unit_pos]
  by_cases h : x < 0
  · have : x * (f64Unit : Int) < 0 := Int.mul_neg_of_neg_of_pos h hU
    rw [if_pos this, Int.ofNat_natAbs_of_nonpos h.le]
    ring
  · have : ¬ x * (f64Unit : Int) < 0 := by
      have := mul_nonneg (not_lt.1 h) hU.le
      omega
    rw [if_neg this, Int.natAbs_of_nonneg (not_lt.1 h)]

theorem math_Min_scaled (a b : Int) :
    math.Min (a * (f64Unit : Int)) (b * (f64Unit : Int)) = min a b * (f64Unit : Int) := by
  have hU : (0 : Int) < (f64Unit : Int) := by exact_mod_cast f64Unit_pos
  unfold math.Min
  by_cases h : a ≤ b
  · rw [if_pos (mul_le_mul_of_nonneg_right h hU.le), min_eq_left h]
  · have h2 : ¬ a * (f64Unit : Int) ≤ b * (f64Unit : Int) := by
      intro hc
      exact h (le_of_mul_le_mul_right hc hU)
    rw [if_neg h2, min_eq_right (not_le.1 h).le]

theorem math_Max_scaled (a b : Int) :
    math.Max (a * (f64Unit : Int)) (b * (f64Unit : Int)) = max a b * (f64Unit : Int) := by
  have hU : (0 : Int) < (f64Unit : Int) := by exact_mod_cast f64Unit_pos
  unfold math.Max
  by_cases h : a ≤ b
  · rw [if_pos (mul_le_mul_of_nonneg_right h hU.le), max_eq_right h]
  · have h2 : ¬ a * (f64Unit : Int) ≤ b * (f64Unit : Int) := by
      intro hc
      exact h (le_of_mul_le_mul_right hc hU)
    rw [if_neg h2, max_eq_left (not_le.1 h).le]

theorem wrapInt64_id {x : Int} (h1 : -2 ^ 63 ≤ x) (h2 : x < 2 ^ 63) : wrapInt64 x = x := by
  unfold wrapInt64
  omega

namespace theme

/-- The value of `GetTableHeight` on heights and row counts that `float64` represents exactly. -/
theorem GetTableHeight_eq (fullscreen : Bool) (tableHeight n : Int)
    (hh : tableHeight.natAbs < 2 ^ 53) (hn0 : 0 ≤ n) (hn : n + 2 < 2 ^ 53) :
    GetTableHeight fullscreen tableHeight n
      = if fullscreen then max 3 tableHeight else max 3 (min (n + 2) (min 8 tableHeight)) := by
  have hw : wrapInt64 (n + 2) = n + 2 := wrapInt64_id (by omega) (by omega)
  have h8 : f64OfInt maxTableHeight = 8 * (f64Unit : Int) := f64OfInt_exact (by decide)
  have h3 : f64OfInt minTableHeight = 3 * (f64Unit : Int) := f64OfInt_exact (by decide)
  have hn2 : f64OfInt (n + 2) = (n + 2) * (f64Unit : Int) := f64OfInt_exact (by omega)
  unfold GetTableHeight
  simp only [hw, h8, h3, hn2, f64OfInt_exact hh, math_Min_scaled, math_Max_scaled]
  cases fullscreen
  · simp only [Bool.false_eq_true, if_false, math_Min_scaled, math_Max_scaled, f64ToInt_exact]
  · simp only [if_true, math_Max_scaled, f64ToInt_exact]

end theme

namespace theme

theorem profileOf_GetColumns (p : TableStyle) : profileOf (GetColumns p) = some p := by
  cases p <;> decide

theorem widthForTableContent_ge (w : Int) : -9 ≤ widthForTableContent w := by
  unfold widthForTableContent minTableWidth contentExtraMargin
  have := le_max_right (wrapInt64 (w - marginWidth)) 3
  omega

theorem keyNameLoop_zero (fuel : Nat) (k n : Int) : keyNameLoop fuel 0 k n = (0, k, n) := by
  cases fuel <;> simp [keyNameLoop]

theorem descRemoteLoop_zero (fuel : Nat) (k n : Int) : descRemoteLoop fuel 0 k n = (0, k, n) := by
  cases fuel <;> simp [descRemoteLoop]

theorem setWidth_titles (cols : List table.Column) (i : Nat) (w : Int) :
    (setWidth cols i w).map (·.Title) = cols.map (·.Title) := by
  induction cols generalizing i with
  | nil => rfl
  | cons c cs ih =>
    cases i with
    | zero => rfl
    | succ i => simp [setWidth, ih]

theorem scaleFrom_titles (bw : List Int) (ratio : F64) (cols : List table.Column) (i : Nat) :
    (scaleFrom bw ratio i cols).map (·.Title) = cols.map (·.Title) := by
  induction cols generalizing i with
  | nil => rfl
  | cons c cs ih => simp [scaleFrom, ih]

theorem adjustRecord_titles (bw : List Int) (ll : Bool) (cols : List table.Column) (cw : Int) :
    (adjustRecord bw ll cols cw).map (·.Title) = cols.map (·.Title) := by
  unfold adjustRecord
  simp only
  split_ifs <;> simp only [setWidth_titles, scaleFrom_titles]

theorem isTunnelTable_congr {cols cols2 : List table.Column}
    (h : cols.map (·.Title) = cols2.map (·.Title)) : isTunnelTable cols = isTunnelTable cols2 := by
  have hl : cols.length = cols2.length := by
    simpa using congrArg List.length h
  have h0 : (cols.get? 0).map (·.Title) = (cols2.get? 0).map (·.Title) := by
    have := congrArg (fun l => l[0]?) h
    simp only [List.getElem?_map] at this
    simpa [List.get?_eq_getElem?] using this
  have h1 : (cols.get? 1).map (·.Title) = (cols2.get? 1).map (·.Title) := by
    have := congrArg (fun l => l[1]?) h
    simp only [List.getElem?_map] at this
    simpa [List.get?_eq_getElem?] using this
  unfold isTunnelTable
  rw [hl, h0, h1]

theorem adjustRecord_widths5 (bw : List Int) (a b c d e : table.Column) (cw : Int) :
    (adjustRecord bw false [a, b, c, d, e] cw).map (·.Width)
      = if cw ≥ 60 then
          [bw.getD 0 0 + (keyNameLoop (cw - 60).toNat (cw - 60) 0 0).2.2, bw.getD 1 0, bw.getD 2 0,
            bw.getD 3 0, bw.getD 4 0 + (keyNameLoop (cw - 60).toNat (cw - 60) 0 0).2.1]
        else [0, 1, 2, 3, 4].map (fun i =>
          scaledWidth (bw.getD i 0) (f64Div (f64OfInt cw) (f64OfInt 60))) := by
  unfold adjustRecord
  simp only
  split_ifs <;> simp [setWidth, scaleFrom]

theorem adjustRecord_widths6 (bw : List Int) (a b c d e f : table.Column) (cw : Int) :
    (adjustRecord bw true [a, b, c, d, e, f] cw).map (·.Width)
      = if cw ≥ 60 then
          [bw.getD 0 0 + (keyNameLoop (cw - 60).toNat (cw - 60) 0 0).2.2, bw.getD 1 0, bw.getD 2 0,
            bw.getD 3 0, bw.getD 4 0 + (keyNameLoop (cw - 60).toNat (cw - 60) 0 0).2.1, bw.getD 5 0]
        else [0, 1, 2, 3, 4, 5].map (fun i =>
          scaledWidth (bw.getD i 0) (f64Div (f64OfInt cw) (f64OfInt 60))) := by
  unfold adjustRecord
  simp only
  split_ifs <;> simp [setWidth, scaleFrom]

theorem adjustTunnel_widths5 (a b c d e : table.Column) (cw : Int) :
    (adjustTunnel [a, b, c, d, e] cw).map (·.Width)
      = if cw ≥ 80 then
          [15, 10, 10, 20 + (descRemoteLoop (cw - 80).toNat (cw - 80) 0 0).2.2,
            25 + (descRemoteLoop (cw - 80).toNat (cw - 80) 0 0).2.1]
        else [15, 10, 10, 20, 25].map (fun b =>
          scaledWidth b (f64Div (f64OfInt cw) (f64OfInt 80))) := by
  unfold adjustTunnel
  simp only
  split_ifs <;> simp [setWidth, scaleFrom]

/-- The layout of a column set with a profile, in terms of the content width. -/
theorem widthsOf_adjust (cols : List table.Column) (p : TableStyle) (w h : Int)
    (hp : profileOf cols = some p) :
    widthsOf (AdjustTableDimensions cols w h)
      = if widthForTableContent w ≥ totalBaseOf p then
          (match p with
            | .TunnelTable =>
              let r := descRemoteLoop (widthForTableContent w - 80).toNat
                (widthForTableContent w - 80) 0 0
              [15, 10, 10, 20 + r.2.2, 25 + r.2.1]
            | .ConfigTable =>
              let r := keyNameLoop (widthForTableContent w - 60).toNat
                (widthForTableContent w - 60) 0 0
              [15 + r.2.2, 20, 5, 10, 10 + r.2.1]
            | .HistoryTable =>
              let r := keyNameLoop (widthForTableContent w - 60).toNat
                (widthForTableContent w - 60) 0 0
              [10 + r.2.2, 20, 5, 10, 0 + r.2.1, 15])
        else (baseWidthsOf p).map (fun b =>
          scaledWidth b (f64Div (f64OfInt (widthForTableContent w)) (f64OfInt (totalBaseOf p)))) := by
  have hcw : max (wrapInt64 (w - marginWidth)) minTableWidth - contentExtraMargin
      = widthForTableContent w := rfl
  unfold profileOf at hp
  split_ifs at hp with ht h5 h6
  · have hl := isTunnelTable_length ht
    cases hp
    match cols, hl with
    | [a, b, c, d, e], _ =>
      have ht1 : isTunnelTable (adjustRecord [15, 20, 5, 10, 10] false [a, b, c, d, e]
          (widthForTableContent w)) = true := by
        rw [isTunnelTable_congr (adjustRecord_titles _ _ _ _)]
        exact ht
      have hlen : (adjustRecord [15, 20, 5, 10, 10] false [a, b, c, d, e]
          (widthForTableContent w)).length = 5 := isTunnelTable_length ht1
      simp only [AdjustTableDimensions, widthsOf, List.length_cons, List.length_nil, hcw, ht1,
        if_true]
      generalize adjustRecord [15, 20, 5, 10, 10] false [a, b, c, d, e]
        (widthForTableContent w) = c1 at hlen
      match c1, hlen with
      | [a1, b1, c1, d1, e1], _ =>
        rw [adjustTunnel_widths5]
        rfl
  · cases hp
    match cols, h5 with
    | [a, b, c, d, e], _ =>
      have ht1 : isTunnelTable (adjustRecord [15, 20, 5, 10, 10] false [a, b, c, d, e]
          (widthForTableContent w)) = false := by
        rw [isTunnelTable_congr (adjustRecord_titles _ _ _ _)]
        simpa using ht
      simp only [AdjustTableDimensions, widthsOf, List.length_cons, List.length_nil, hcw, ht1,
        Bool.false_eq_true, if_false]
      rw [adjustRecord_widths5]
      rfl
  · cases hp
    match cols, h6 with
    | [a, b, c, d, e, f], _ =>
      have ht1 : isTunnelTable (adjustRecord [10, 20, 5, 10, 0, 15] true [a, b, c, d, e, f]
          (widthForTableContent w)) = false := by
        rw [isTunnelTable_congr (adjustRecord_titles _ _ _ _)]
        simpa using ht
      simp only [AdjustTableDimensions, widthsOf, List.length_cons, List.length_nil, hcw, ht1,
        Bool.false_eq_true, if_false]
      rw [adjustRecord_widths6]
      rfl

end theme

namespace theme

/-- Rounding a quotient of integers to the nearest integer, in integer arithmetic. -/
theorem round_div_eq (a T : Int) (hT : 0 < T) :
    round ((a : ℚ) / (T : ℚ)) = (2 * a + T) / (2 * T) := by
  rw [round_eq]
  have h2 : (a : ℚ) / (T : ℚ) + 1 / 2 = ((2 * a + T : Int) : ℚ) / (((2 * T).toNat : Nat) : ℚ) := by
    have hT0 : (T : ℚ) ≠ 0 := by exact_mod_cast hT.ne.symm
    have : (((2 * T).toNat : Nat) : ℚ) = 2 * (T : ℚ) := by
      have : (((2 * T).toNat : Nat) : Int) = 2 * T := Int.toNat_of_nonneg (by omega)
      exact_mod_cast this
    rw [this]
    push_cast
    field_simp
    ring
  rw [h2, Rat.floor_intCast_div_natCast, Int.toNat_of_nonneg (by omega)]

/-- The scaled widths computed in float64 agree with exact rounding, for every content width
that reaches the scale-down branch. -/
theorem scaledWidth_exact60 (cw : Int) (h1 : -9 ≤ cw) (h2 : cw < 60) :
    ∀ b ∈ [15, 20, 5, 10, 0], scaledWidth b (f64Div (f64OfInt cw) (f64OfInt 60))
      = max ((2 * (b * cw) + 60) / (2 * 60)) 1 := by
  interval_cases cw <;> decide

theorem scaledWidth_exact80 (cw : Int) (h1 : -9 ≤ cw) (h2 : cw < 80) :
    ∀ b ∈ [15, 10, 20, 25], scaledWidth b (f64Div (f64OfInt cw) (f64OfInt 80))
      = max ((2 * (b * cw) + 80) / (2 * 80)) 1 := by
  interval_cases cw <;> decide

theorem scaledWidth_round (p : TableStyle) (cw : Int) (h2 : cw < totalBaseOf p) (h1 : -9 ≤ cw) :
    ∀ b ∈ baseWidthsOf p,
      scaledWidth b (f64Div (f64OfInt cw) (f64OfInt (totalBaseOf p)))
        = max (round (((b * cw : Int) : ℚ) / ((totalBaseOf p : Int) : ℚ))) 1 := by
  intro b hb
  cases p
  · rw [round_div_eq _ _ (by decide)]
    exact scaledWidth_exact60 cw h1 h2 b (by
      simp only [baseWidthsOf, List.mem_cons, List.mem_singleton, List.not_mem_nil, or_false] at hb ⊢
      omega)
  · rw [round_div_eq _ _ (by decide)]
    exact scaledWidth_exact60 cw h1 h2 b (by
      simp only [baseWidthsOf, List.mem_cons, List.mem_singleton, List.not_mem_nil, or_false] at hb ⊢
      omega)
  · rw [round_div_eq _ _ (by decide)]
    exact scaledWidth_exact80 cw h1 h2 b (by
      simp only [baseWidthsOf, List.mem_cons, List.mem_singleton, List.not_mem_nil, or_false] at hb ⊢
      omega)

/-- Without wrap-around the content width is `max(windowWidth - 3, 3) - 12`. -/
theorem widthForTableContent_eq (w : Int) (h1 : -2 ^ 63 + 3 ≤ w) (h2 : w < 2 ^ 63) :
    widthForTableContent w = max (w - 3) 3 - 12 := by
  unfold widthForTableContent marginWidth minTableWidth contentExtraMargin
  rw [wrapInt64_id (by omega) (by omega)]

/-- C8: when the content width `max(windowWidth - 3, 3) - 12` equals the `totalBase` of the
profile that applies to the columns (60 for config and history, 80 for the tunnel table),
`AdjustTableDimensions` returns exactly the base widths of the profile:
config `[15,20,5,10,10]`, history `[10,20,5,10,0,15]`, tunnel `[15,10,10,20,25]`. -/
theorem C8_base_widths_at_totalBase (cols : List table.Column) (p : TableStyle) (w h : Int)
    (hp : profileOf cols = some p) (hw : max (w - 3) 3 - 12 = totalBaseOf p) :
    widthsOf (AdjustTableDimensions cols w h) = baseWidthsOf p
      ∧ baseWidthsOf p = (match p with
          | .ConfigTable => [15, 20, 5, 10, 10]
          | .HistoryTable => [10, 20, 5, 10, 0, 15]
          | .TunnelTable => [15, 10, 10, 20, 25]) := by
  have hwr : -2 ^ 63 + 3 ≤ w ∧ w < 2 ^ 63 := by
    cases p <;> simp only [totalBaseOf] at hw <;> omega
  have hcw : widthForTableContent w = totalBaseOf p := by
    rw [widthForTableContent_eq w hwr.1 hwr.2, hw]
  refine ⟨?_, by cases p <;> rfl⟩
  rw [widthsOf_adjust cols p w h hp, if_pos (by rw [hcw]), hcw]
  cases p <;>
    simp [totalBaseOf, baseWidthsOf, keyNameLoop_zero, descRemoteLoop_zero]

/-- The three column sets of `GetColumns` at the window widths 75, 75 and 95, whose content
widths are 60, 60 and 80. -/
theorem C8_base_widths_witness :
    widthsOf (AdjustTableDimensions (GetColumns .ConfigTable) 75 24) = [15, 20, 5, 10, 10]
      ∧ widthsOf (AdjustTableDimensions (GetColumns .HistoryTable) 75 24) = [10, 20, 5, 10, 0, 15]
      ∧ widthsOf (AdjustTableDimensions (GetColumns .TunnelTable) 95 24) = [15, 10, 10, 20, 25] :=
  ⟨(C8_base_widths_at_totalBase (GetColumns .ConfigTable) .ConfigTable 75 24
      (profileOf_GetColumns _) (by decide)).1,
    (C8_base_widths_at_totalBase (GetColumns .HistoryTable) .HistoryTable 75 24
      (profileOf_GetColumns _) (by decide)).1,
    (C8_base_widths_at_totalBase (GetColumns .TunnelTable) .TunnelTable 95 24
      (profileOf_GetColumns _) (by decide)).1⟩

/-- C9: for every profile and every window width whose content width (`widthForTableContent`,
possibly zero or negative) is below the `totalBase` of the profile, every column width returned by
`AdjustTableDimensions` is `max(round(base_i * contentWidth / totalBase), 1)`, computed here with
exact rational rounding, and is therefore at least 1, the history Key column of base width 0
included. -/
theorem C9_scale_down_widths (cols : List table.Column) (p : TableStyle) (w h : Int)
    (hp : profileOf cols = some p) (hw : widthForTableContent w < totalBaseOf p) :
    widthsOf (AdjustTableDimensions cols w h)
        = (baseWidthsOf p).map (fun b =>
            max (round (((b * widthForTableContent w : Int) : ℚ) / ((totalBaseOf p : Int) : ℚ))) 1)
      ∧ ∀ x ∈ widthsOf (AdjustTableDimensions cols w h), 1 ≤ x := by
  have heq : widthsOf (AdjustTableDimensions cols w h)
        = (baseWidthsOf p).map (fun b =>
            max (round (((b * widthForTableContent w : Int) : ℚ) / ((totalBaseOf p : Int) : ℚ))) 1) := by
    rw [widthsOf_adjust cols p w h hp, if_neg (not_le.2 hw)]
    apply List.map_congr_left
    intro b hb
    exact scaledWidth_round p _ hw (widthForTableContent_ge w) b hb
  refine ⟨heq, ?_⟩
  intro x hx
  rw [heq, List.mem_map] at hx
  obtain ⟨b, _, rfl⟩ := hx
  exact le_max_right _ _

/-- The history columns in a window 10 characters wide (content width -5) and in a window
40 characters wide (content width 25). -/
theorem C9_scale_down_witness :
    widthForTableContent 10 = -5
      ∧ widthsOf (AdjustTableDimensions (GetColumns .HistoryTable) 10 24) = [1, 1, 1, 1, 1, 1]
      ∧ widthsOf (AdjustTableDimensions (GetColumns .HistoryTable) 40 24) = [4, 8, 2, 4, 1, 6]
      ∧ ∀ x ∈ widthsOf (AdjustTableDimensions (GetColumns .HistoryTable) 10 24), 1 ≤ x :=
  ⟨by decide, by decide, by decide,
    (C9_scale_down_widths (GetColumns .HistoryTable) .HistoryTable 10 24
      (profileOf_GetColumns _) (by decide)).2⟩

/-- C10 fails as stated: in fullscreen an available height of 2 gives 3, and outside
fullscreen 10 rows in an available height of 5 give 5, not `max(3, min(10 + 2, 8)) = 8`. -/
theorem C10_counterexample :
    GetTableHeight true 2 0 = 3 ∧ GetTableHeight true 2 0 ≠ 2
      ∧ GetTableHeight false 5 10 = 5 ∧ GetTableHeight false 5 10 ≠ max 3 (min (10 + 2) 8) :=
  ⟨by decide, by decide, by decide, by decide⟩

/-- C10, amended: with the fullscreen preference active `GetTableHeight` returns the available
height floored at 3; otherwise it returns `min(n + 2, 8, available)` floored at 3.  Heights and
row counts are taken of magnitude below `2 ^ 53`, where `float64` represents them exactly. -/
theorem C10_getTableHeight (fullscreen : Bool) (available n : Int)
    (hh : available.natAbs < 2 ^ 53) (hn0 : 0 ≤ n) (hn : n + 2 < 2 ^ 53) :
    GetTableHeight fullscreen available n
      = if fullscreen then max 3 available else max 3 (min (n + 2) (min 8 available)) :=
  GetTableHeight_eq fullscreen available n hh hn0 hn

/-- Twenty lines available and four rows: 20 in fullscreen, 6 otherwise. -/
theorem C10_getTableHeight_witness :
    GetTableHeight true 20 4 = 20 ∧ GetTableHeight false 20 4 = 6 :=
  ⟨C10_getTableHeight true 20 4 (by decide) (by decide) (by decide),
    C10_getTableHeight false 20 4 (by decide) (by decide) (by decide)⟩

end theme

namespace theme

/-- With `leftover` rounds of fuel the config/history surplus loop runs to its exit
(`leftover > 0` false). -/
theorem keyNameLoop_done (fuel : Nat) : ∀ l k n : Int, l.toNat ≤ fuel →
    (keyNameLoop fuel l k n).1 ≤ 0 := by
  induction fuel with
  | zero =>
    intro l k n h
    simp only [keyNameLoop]
    omega
  | succ fuel ih =>
    intro l k n h
    unfold keyNameLoop
    split_ifs with h1 h2 h3
    · exact ih _ _ _ (by omega)
    · exact ih _ _ _ (by omega)
    · exact ih _ _ _ (by omega)
    · simpa using h1

/-- With `leftover` rounds of fuel the tunnel surplus loop runs to its exit. -/
theorem descRemoteLoop_done (fuel : Nat) : ∀ l k n : Int, l.toNat ≤ fuel →
    (descRemoteLoop fuel l k n).1 ≤ 0 := by
  induction fuel with
  | zero =>
    intro l k n h
    simp only [descRemoteLoop]
    omega
  | succ fuel ih =>
    intro l k n h
    unfold descRemoteLoop
    split_ifs with h1 h2
    · exact ih _ _ _ (by omega)
    · exact ih _ _ _ (by omega)
    · simpa using h1

end theme

namespace strconv

theorem digitByte_toNat : ∀ d, d < 10 → (digitByte d).toNat = 48 + d := by decide

theorem digitByte_not_plus : ∀ d, d < 10 → (digitByte d == 43) = false := by decide

theorem digitByte_not_minus : ∀ d, d < 10 → (digitByte d == 45) = false := by decide

/-- The bytes of `formatNatAux` are decimal digits. -/
theorem formatNatAux_digits (fuel : Nat) : ∀ n, ∀ c ∈ formatNatAux fuel n,
    ∃ d, d < 10 ∧ c = digitByte d := by
  induction fuel with
  | zero =>
    intro n c hc
    simp only [formatNatAux, List.mem_singleton] at hc
    exact ⟨n % 10, Nat.mod_lt _ (by norm_num), hc⟩
  | succ fuel ih =>
    intro n c hc
    unfold formatNatAux at hc
    split_ifs at hc with h
    · simp only [List.mem_singleton] at hc
      exact ⟨n, h, hc⟩
    · rw [List.mem_append, List.mem_singleton] at hc
      rcases hc with hc | hc
      · exact ih _ c hc
      · exact ⟨n % 10, Nat.mod_lt _ (by norm_num), hc⟩

theorem formatNatAux_ne_nil (fuel n : Nat) : formatNatAux fuel n ≠ [] := by
  cases fuel with
  | zero => simp [formatNatAux]
  | succ fuel =>
    unfold formatNatAux
    split_ifs <;> simp

theorem digitsValue_append (s : GoString) (c : UInt8) :
    digitsValue (s ++ [c]) = match digitsValue s with
      | none => none
      | some n => if 48 ≤ c.toNat ∧ c.toNat ≤ 57 then some (n * 10 + (c.toNat - 48)) else none := by
  simp only [digitsValue, List.foldl_append, List.foldl_cons, List.foldl_nil]

theorem digitsValue_digit (n d : Nat) (hd : d < 10) (s : GoString) (hs : digitsValue s = some n) :
    digitsValue (s ++ [digitByte d]) = some (n * 10 + d) := by
  rw [digitsValue_append, hs]
  simp only [digitByte_toNat d hd]
  rw [if_pos (by omega)]
  congr 2
  omega

/-- Reading back the digits that `formatNatAux` writes. -/
theorem digitsValue_formatNatAux (fuel : Nat) : ∀ n, n ≤ fuel →
    digitsValue (formatNatAux fuel n) = some n := by
  induction fuel with
  | zero =>
    intro n hn
    have : n = 0 := by omega
    subst this
    decide
  | succ fuel ih =>
    intro n hn
    unfold formatNatAux
    split_ifs with h
    · have := digitsValue_digit 0 n h [] rfl
      simpa using this
    · have h1 := ih (n / 10) (by omega)
      have := digitsValue_digit (n / 10) (n % 10) (Nat.mod_lt _ (by norm_num)) _ h1
      rw [this]
      congr 1
      omega

/-- The function `Atoi` reads back what `Itoa` writes, for every non-negative 64-bit `int`. -/
theorem Atoi_Itoa (p : Int) (h0 : 0 ≤ p) (h1 : p < 2 ^ 63) : Atoi (Itoa p) = some p := by
  obtain ⟨n, rfl⟩ := Int.eq_ofNat_of_zero_le h0
  have hI : Itoa (n : Int) = formatNat n := by
    unfold Itoa
    rw [if_neg (by omega)]
    simp
  have hne := formatNatAux_ne_nil n n
  have hv := digitsValue_formatNatAux n n le_rfl
  rw [hI]
  unfold formatNat
  cases hf : formatNatAux n n with
  | nil => exact absurd hf hne
  | cons c rest =>
    have hc : ∃ d, d < 10 ∧ c = digitByte d :=
      formatNatAux_digits n n c (by rw [hf]; exact List.mem_cons_self _ _)
    obtain ⟨d, hd, rfl⟩ := hc
    have hplus : (digitByte d == 43) = false := digitByte_not_plus d hd
    have hneg : (digitByte d == 45) = false := digitByte_not_minus d hd
    rw [hf] at hv
    simp only [Atoi, hplus, hneg, Bool.or_false, Bool.false_eq_true, if_false, hv, reduceCtorEq]
    rw [if_pos ⟨by omega, h1⟩]

end strconv

namespace strconv

/-- The function `formatNat` writes the base-10 digits of a positive number. -/
theorem formatNatAux_eq_decimalOf (fuel : Nat) : ∀ n, 0 < n → n ≤ fuel →
    formatNatAux fuel n = decimalOf n := by
  induction fuel with
  | zero =>
    intro n h0 hn
    omega
  | succ fuel ih =>
    intro n h0 hn
    unfold formatNatAux decimalOf
    split_ifs with h
    · rw [Nat.digits_of_lt 10 n (by omega) h]
      rfl
    · rw [Nat.digits_def' (by norm_num) h0, List.reverse_cons, List.map_append,
        ih (n / 10) (by omega) (by omega)]
      rfl

theorem Itoa_eq_decimalOf (p : Int) (hp : 0 < p) : Itoa p = decimalOf p.toNat := by
  unfold Itoa
  rw [if_neg (by omega)]
  exact formatNatAux_eq_decimalOf _ _ (by omega) le_rfl

end strconv

namespace tunnel

/-- The exact condition under which `Validate` accepts a tunnel. -/
theorem validate_ok_iff (t : Tunnel) :
    t.Validate = .ok () ↔
        t.Name ≠ [] ∧ (t.Type_ = TypeLocal ∨ t.Type_ = TypeRemote ∨ t.Type_ = TypeDynamic)
          ∧ (1 ≤ t.LocalPort ∧ t.LocalPort ≤ 65535)
          ∧ (t.Type_ = TypeLocal ∨ t.Type_ = TypeRemote →
              t.RemoteHost ≠ [] ∧ 1 ≤ t.RemotePort ∧ t.RemotePort ≤ 65535) := by
  unfold Tunnel.Validate
  split_ifs with h1 h2 h3 h4 h5 h6
  · simp [h1]
  · simp only [reduceCtorEq, false_iff]
    rintro ⟨_, h, _⟩
    rcases h with h | h | h
    · exact h2.1 h
    · exact h2.2.1 h
    · exact h2.2.2 h
  · simp only [reduceCtorEq, false_iff]
    rintro ⟨_, _, h, _⟩
    omega
  · simp only [reduceCtorEq, false_iff]
    rintro ⟨_, _, _, h⟩
    exact (h h4).1 h5
  · simp only [reduceCtorEq, false_iff]
    rintro ⟨_, _, _, h⟩
    have := (h h4).2
    omega
  · simp only [true_iff]
    refine ⟨h1, ?_, by omega, fun _ => ⟨h5, by omega⟩⟩
    rcases h4 with h | h
    · exact Or.inl h
    · exact Or.inr (Or.inl h)
  · simp only [true_iff]
    refine ⟨h1, ?_, by omega, fun h => absurd h h4⟩
    by_contra hc
    exact h2 ⟨fun h => hc (Or.inl h), fun h => hc (Or.inr (Or.inl h)),
      fun h => hc (Or.inr (Or.inr h))⟩

theorem validate_ports {t : Tunnel} (hv : t.Validate = .ok ()) :
    0 < t.LocalPort ∧ (t.Type_ ≠ TypeDynamic → 0 < t.RemotePort ∧ t.RemoteHost ≠ []) := by
  have h := (validate_ok_iff t).1 hv
  refine ⟨by omega, fun hd => ?_⟩
  have : t.Type_ = TypeLocal ∨ t.Type_ = TypeRemote := by
    rcases h.2.1 with h1 | h1 | h1
    · exact Or.inl h1
    · exact Or.inr h1
    · exact absurd h1 hd
  have := h.2.2.2 this
  exact ⟨by omega, this.1⟩

/-- C4: `Validate` returns no error exactly when the name is non-empty, the type is one of
local, remote and dynamic, the local port is in 1..65535 and, for local and remote only, the
remote host is non-empty and the remote port is in 1..65535.  In particular a local or remote
tunnel without remote host or with a remote port outside 1..65535 (such as the absent port 0) is
rejected, and a dynamic tunnel with a name and a valid local port is accepted whatever its other
fields. -/
theorem C4_validate_iff (t : Tunnel) :
    (t.Validate = .ok () ↔
        t.Name ≠ [] ∧ (t.Type_ = TypeLocal ∨ t.Type_ = TypeRemote ∨ t.Type_ = TypeDynamic)
          ∧ (1 ≤ t.LocalPort ∧ t.LocalPort ≤ 65535)
          ∧ (t.Type_ = TypeLocal ∨ t.Type_ = TypeRemote →
              t.RemoteHost ≠ [] ∧ 1 ≤ t.RemotePort ∧ t.RemotePort ≤ 65535))
      ∧ ((t.Type_ = TypeLocal ∨ t.Type_ = TypeRemote) →
          (t.RemoteHost = [] ∨ t.RemotePort < 1 ∨ 65535 < t.RemotePort) →
          ∃ e, t.Validate = .error e)
      ∧ (t.Type_ = TypeDynamic → t.Name ≠ [] → 1 ≤ t.LocalPort → t.LocalPort ≤ 65535 →
          t.Validate = .ok ()) := by
  have hLD : TypeLocal ≠ TypeDynamic := by decide
  have hRD : TypeRemote ≠ TypeDynamic := by decide
  have key := validate_ok_iff t
  refine ⟨key, ?_, ?_⟩
  · intro hk hbad
    cases hv : t.Validate with
    | error e => exact ⟨e, rfl⟩
    | ok u =>
      have := (key.1 hv).2.2.2 hk
      rcases hbad with hb | hb | hb
      · exact absurd hb this.1
      · omega
      · omega
  · intro hd hn h1 h2
    refine key.2 ⟨hn, Or.inr (Or.inr hd), ⟨h1, h2⟩, ?_⟩
    rintro (h | h)
    · exact absurd (h.symm.trans hd) hLD
    · exact absurd (h.symm.trans hd) hRD

end tunnel

namespace tunnel

/-- C5: for a tunnel accepted by `Validate`, `ToSSHArgs` returns exactly two arguments: the flag
`-L`, `-R` or `-D` for local, remote or dynamic, then `[bind:]localPort:remoteHost:remotePort`
(local, remote) or `[bind:]localPort` (dynamic), the ports as decimal numerals and the bind
prefix present exactly when `BindAddress` is non-empty; for a tunnel rejected by `Validate` it
returns the error and no arguments.  The tunnels `db` and `socks` of the specification give
`["-L","5432:localhost:5432"]` and `["-D","127.0.0.1:1080"]`. -/
theorem C5_toSSHArgs (t : Tunnel) :
    (t.Validate = .ok () →
        t.ToSSHArgs = .ok
          [ if t.Type_ = TypeLocal then str "-L" else if t.Type_ = TypeRemote then str "-R"
              else str "-D",
            (if t.BindAddress = [] then [] else t.BindAddress ++ str ":")
              ++ decimalOf t.LocalPort.toNat
              ++ (if t.Type_ = TypeDynamic then []
                  else str ":" ++ t.RemoteHost ++ str ":" ++ decimalOf t.RemotePort.toNat) ])
      ∧ (∀ e, t.Validate = .error e → t.ToSSHArgs = .error e)
      ∧ dbTunnel.ToSSHArgs = .ok [str "-L", str "5432:localhost:5432"]
      ∧ socksTunnel.ToSSHArgs = .ok [str "-D", str "127.0.0.1:1080"] := by
  have hLD : TypeLocal ≠ TypeDynamic := by decide
  have hRD : TypeRemote ≠ TypeDynamic := by decide
  have hLR : TypeLocal ≠ TypeRemote := by decide
  refine ⟨?_, ?_, by decide, by decide⟩
  · intro hv
    have hp := validate_ports hv
    have hty := ((validate_ok_iff t).1 hv).2.1
    have hl := strconv.Itoa_eq_decimalOf t.LocalPort hp.1
    unfold Tunnel.ToSSHArgs
    rw [hv]
    simp only
    rcases hty with h | h | h
    · have hr := strconv.Itoa_eq_decimalOf t.RemotePort (hp.2 (by rw [h]; exact hLD)).1
      rw [if_pos h]
      by_cases hb : t.BindAddress = [] <;>
        simp [h, hLD, forwardSpec, hb, hl, hr, List.append_assoc]
    · have hr := strconv.Itoa_eq_decimalOf t.RemotePort (hp.2 (by rw [h]; exact hRD)).1
      rw [if_neg (by rw [h]; exact hLR.symm), if_pos h]
      by_cases hb : t.BindAddress = [] <;>
        simp [h, hRD, hLR.symm, forwardSpec, hb, hl, hr, List.append_assoc]
    · rw [if_neg (by rw [h]; exact hLD.symm), if_neg (by rw [h]; exact hRD.symm), if_pos h]
      by_cases hb : t.BindAddress = [] <;>
        simp [h, hLD.symm, hRD.symm, dynamicSpec, hb, hl]
  · intro e he
    unfold Tunnel.ToSSHArgs
    rw [he]

/-- The remote forwarding `api` with a bind address. -/
theorem C5_toSSHArgs_witness :
    apiTunnel.Validate = .ok ()
      ∧ apiTunnel.ToSSHArgs = .ok [str "-R", str "0.0.0.0:8080:localhost:3000"] := by
  have h := (C5_toSSHArgs apiTunnel).1 (by decide)
  have h1 : decimalOf apiTunnel.LocalPort.toNat = str "8080" :=
    (strconv.Itoa_eq_decimalOf _ (by decide)).symm.trans (by decide)
  have h2 : decimalOf apiTunnel.RemotePort.toNat = str "3000" :=
    (strconv.Itoa_eq_decimalOf _ (by decide)).symm.trans (by decide)
  rw [h1, h2] at h
  exact ⟨by decide, h.trans (by decide)⟩

end tunnel

/-! ### Reading runes -/

namespace utf8

theorem firstByte_spec {s0 sz lo hi : Nat} (h : firstByte s0 = some (sz, lo, hi)) :
    (sz = 2 ∨ sz = 3 ∨ sz = 4) ∧ 0x80 ≤ lo := by
  unfold firstByte at h
  split_ifs at h <;> simp only [Option.some.injEq, Prod.mk.injEq, reduceCtorEq] at h <;>
    (obtain ⟨rfl, rfl, rfl⟩ := h; decide)

theorem decodeMulti_size (s0 sz lo hi : Nat) (rest : GoString)
    (hsz : sz = 2 ∨ sz = 3 ∨ sz = 4) :
    1 ≤ (decodeMulti s0 sz lo hi rest).2 ∧ (decodeMulti s0 sz lo hi rest).2 ≤ rest.length + 1 := by
  unfold decodeMulti
  simp only
  split_ifs <;> simp <;> omega

/-- The width of a rune is at least 1 and at most the bytes that are there. -/
theorem DecodeRune_size (c : UInt8) (s : GoString) :
    1 ≤ (DecodeRune (c :: s)).2 ∧ (DecodeRune (c :: s)).2 ≤ s.length + 1 := by
  simp only [DecodeRune]
  split_ifs with h0
  · simp
  · cases hf : firstByte c.toNat with
    | none => simp
    | some v =>
      obtain ⟨sz, lo, hi⟩ := v
      exact decodeMulti_size _ _ _ _ _ (firstByte_spec hf).1

theorem decodeMulti_append (s0 sz lo hi : Nat) (u : GoString) (x : UInt8) (rest : GoString)
    (hx : x.toNat < 128) (hsz : sz = 2 ∨ sz = 3 ∨ sz = 4) (hlo : 0x80 ≤ lo) :
    decodeMulti s0 sz lo hi (u ++ x :: rest) = decodeMulti s0 sz lo hi u := by
  unfold decodeMulti
  match u with
  | [] =>
    simp only [List.nil_append, List.length_cons, List.length_nil, byteAt]
    split_ifs <;> first | (exfalso; omega) | rfl
  | [s1] =>
    simp only [List.cons_append, List.nil_append, List.length_cons, List.length_nil, byteAt]
    split_ifs <;> first | (exfalso; omega) | rfl
  | [s1, s2] =>
    simp only [List.cons_append, List.nil_append, List.length_cons, List.length_nil, byteAt]
    split_ifs <;> first | (exfalso; omega) | rfl
  | s1 :: s2 :: s3 :: u =>
    have h1 : ¬ ((s1 :: s2 :: s3 :: u ++ x :: rest).length + 1 < sz) := by
      simp only [List.cons_append, List.length_cons]
      omega
    have h2 : ¬ ((s1 :: s2 :: s3 :: u).length + 1 < sz) := by
      simp only [List.length_cons]
      omega
    simp only [if_neg h1, if_neg h2]
    simp only [List.cons_append, byteAt]

/-- An ASCII byte that follows does not change how the bytes before it are read. -/
theorem DecodeRune_append (c : UInt8) (u : GoString) (x : UInt8) (rest : GoString)
    (hx : x.toNat < 128) :
    DecodeRune (c :: (u ++ x :: rest)) = DecodeRune (c :: u) := by
  simp only [DecodeRune]
  split_ifs with h0
  · rfl
  · cases hf : firstByte c.toNat with
    | none => rfl
    | some v =>
      obtain ⟨sz, lo, hi⟩ := v
      obtain ⟨hsz, hlo⟩ := firstByte_spec hf
      exact decodeMulti_append _ _ _ _ _ _ _ hx hsz hlo

theorem DecodeRune_ascii (x : UInt8) (rest : GoString) (hx : x.toNat < 128) :
    DecodeRune (x :: rest) = (x.toNat, 1) := by
  simp only [DecodeRune, hx, if_true]

end utf8

theorem hasSpaceRune_succ (k : Nat) (c : UInt8) (s : GoString) :
    hasSpaceRune (k + 1) (c :: s) = hasSpaceRune k s := rfl

theorem hasSpaceRune_zero (c : UInt8) (s : GoString) :
    hasSpaceRune 0 (c :: s)
      = (unicode.IsSpace (utf8.DecodeRune (c :: s)).1
          || hasSpaceRune ((utf8.DecodeRune (c :: s)).2 - 1) s) := rfl

theorem hasSpaceRune_append (a : GoString) : ∀ (skip : Nat) (x : UInt8) (rest : GoString),
    x.toNat < 128 → skip ≤ a.length →
    hasSpaceRune skip (a ++ x :: rest) = (hasSpaceRune skip a || hasSpaceRune 0 (x :: rest)) := by
  induction a with
  | nil =>
    intro skip x rest _ hs
    have : skip = 0 := by simpa using hs
    subst this
    simp [hasSpaceRune]
  | cons c a ih =>
    intro skip x rest hx hs
    cases skip with
    | succ k =>
      rw [List.cons_append, hasSpaceRune_succ, hasSpaceRune_succ]
      exact ih k x rest hx (by simpa using hs)
    | zero =>
      rw [List.cons_append, hasSpaceRune_zero, hasSpaceRune_zero c a,
        utf8.DecodeRune_append c a x rest hx,
        ih _ x rest hx (by have := (utf8.DecodeRune_size c a).2; omega), Bool.or_assoc]

theorem hasSpaceRune_cons_ascii (x : UInt8) (rest : GoString) (hx : x.toNat < 128) :
    hasSpaceRune 0 (x :: rest) = (unicode.IsSpace x.toNat || hasSpaceRune 0 rest) := by
  rw [hasSpaceRune_zero, utf8.DecodeRune_ascii x rest hx]
  rfl

/-- Joining two strings without white space by a colon gives a string without white space. -/
theorem hasSpaceRune_join (a rest : GoString) (ha : hasSpaceRune 0 a = false)
    (hr : hasSpaceRune 0 rest = false) : hasSpaceRune 0 (a ++ 58 :: rest) = false := by
  rw [hasSpaceRune_append a 0 58 rest (by decide) (Nat.zero_le _), ha,
    hasSpaceRune_cons_ascii 58 rest (by decide), hr]
  decide

theorem hasSpaceRune_of_ascii (s : GoString)
    (h : ∀ c ∈ s, c.toNat < 128 ∧ unicode.IsSpace c.toNat = false) : hasSpaceRune 0 s = false := by
  induction s with
  | nil => rfl
  | cons c s ih =>
    have hc := h c (List.mem_cons_self _ _)
    rw [hasSpaceRune_cons_ascii c s hc.1, hc.2, ih (fun d hd => h d (List.mem_cons_of_mem _ hd))]
    rfl

theorem plainField_colon {s : GoString} (h : plainField s = true) : ∀ c ∈ s, c ≠ 58 := by
  unfold plainField at h
  rw [Bool.and_eq_true, List.all_eq_true] at h
  intro c hc
  simpa using h.1 c hc

theorem plainField_space {s : GoString} (h : plainField s = true) : hasSpaceRune 0 s = false := by
  unfold plainField at h
  rw [Bool.and_eq_true] at h
  simpa using h.2

theorem digitByte_plain : ∀ d, d < 10 →
    (strconv.digitByte d).toNat < 128 ∧ unicode.IsSpace (strconv.digitByte d).toNat = false
      ∧ strconv.digitByte d ≠ 58 := by
  decide

theorem Itoa_space (p : Int) (hp : 0 ≤ p) : hasSpaceRune 0 (strconv.Itoa p) = false := by
  unfold strconv.Itoa
  rw [if_neg (by omega)]
  apply hasSpaceRune_of_ascii
  intro c hc
  obtain ⟨d, hd, rfl⟩ := strconv.formatNatAux_digits _ _ c hc
  exact ⟨(digitByte_plain d hd).1, (digitByte_plain d hd).2.1⟩

theorem Itoa_colon (p : Int) (hp : 0 ≤ p) : ∀ c ∈ strconv.Itoa p, c ≠ 58 := by
  unfold strconv.Itoa
  rw [if_neg (by omega)]
  intro c hc
  obtain ⟨d, hd, rfl⟩ := strconv.formatNatAux_digits _ _ c hc
  exact (digitByte_plain d hd).2.2

theorem Itoa_ne_nil (p : Int) (hp : 0 ≤ p) : strconv.Itoa p ≠ [] := by
  unfold strconv.Itoa
  rw [if_neg (by omega)]
  exact strconv.formatNatAux_ne_nil _ _

namespace strings

theorem fieldsLoop_zero_flag (f : Nat → Bool) (sp : Bool) (cur s : GoString) :
    fieldsLoop f 0 sp cur s = fieldsLoop f 0 false cur s := by
  cases s <;> simp [fieldsLoop]

theorem fieldsLoop_succ (f : Nat → Bool) (k : Nat) (cur : GoString) (c : UInt8) (s : GoString) :
    fieldsLoop f (k + 1) false cur (c :: s) = fieldsLoop f k false (cur ++ [c]) s := by
  simp [fieldsLoop]

theorem fieldsLoop_zero_word (f : Nat → Bool) (sp : Bool) (cur : GoString) (c : UInt8)
    (s : GoString) (h : f (utf8.DecodeRune (c :: s)).1 = false) :
    fieldsLoop f 0 sp cur (c :: s)
      = fieldsLoop f ((utf8.DecodeRune (c :: s)).2 - 1) false (cur ++ [c]) s := by
  simp [fieldsLoop, h]

theorem fieldsLoop_zero_space (f : Nat → Bool) (sp : Bool) (cur : GoString) (c : UInt8)
    (s : GoString) (h : f (utf8.DecodeRune (c :: s)).1 = true) (hc : cur ≠ []) :
    fieldsLoop f 0 sp cur (c :: s)
      = cur :: fieldsLoop f ((utf8.DecodeRune (c :: s)).2 - 1) true [] s := by
  have : cur.isEmpty = false := by
    cases cur with
    | nil => exact absurd rfl hc
    | cons _ _ => rfl
  simp [fieldsLoop, h, this]

/-- Reading a run of bytes without white space that an ASCII byte follows adds the run to the
field being read. -/
theorem fieldsLoop_word (a : GoString) : ∀ (skip : Nat) (cur : GoString) (x : UInt8)
    (rest : GoString), x.toNat < 128 → hasSpaceRune skip a = false → skip ≤ a.length →
    fieldsLoop unicode.IsSpace skip false cur (a ++ x :: rest)
      = fieldsLoop unicode.IsSpace 0 false (cur ++ a) (x :: rest) := by
  induction a with
  | nil =>
    intro skip cur x rest _ _ hs
    have : skip = 0 := by simpa using hs
    subst this
    simp
  | cons c a ih =>
    intro skip cur x rest hx hno hs
    cases skip with
    | succ k =>
      rw [List.cons_append, fieldsLoop_succ,
        ih k (cur ++ [c]) x rest hx (by rwa [hasSpaceRune_succ] at hno) (by simpa using hs)]
      simp
    | zero =>
      rw [hasSpaceRune_zero, Bool.or_eq_false_iff] at hno
      rw [List.cons_append, fieldsLoop_zero_word _ _ _ _ _
          (by rw [utf8.DecodeRune_append c a x rest hx]; exact hno.1),
        utf8.DecodeRune_append c a x rest hx,
        ih _ (cur ++ [c]) x rest hx hno.2 (by have := (utf8.DecodeRune_size c a).2; omega)]
      simp

/-- Reading a run of bytes without white space at the end of the string. -/
theorem fieldsLoop_word_end (a : GoString) : ∀ (skip : Nat) (cur : GoString),
    hasSpaceRune skip a = false → skip ≤ a.length →
    fieldsLoop unicode.IsSpace skip false cur a
      = if (cur ++ a).isEmpty then [] else [cur ++ a] := by
  induction a with
  | nil =>
    intro skip cur _ _
    cases skip <;> simp [fieldsLoop]
  | cons c a ih =>
    intro skip cur hno hs
    cases skip with
    | succ k =>
      rw [fieldsLoop_succ,
        ih k (cur ++ [c]) (by rwa [hasSpaceRune_succ] at hno) (by simpa using hs)]
      simp
    | zero =>
      rw [hasSpaceRune_zero, Bool.or_eq_false_iff] at hno
      rw [fieldsLoop_zero_word _ _ _ _ _ hno.1,
        ih _ (cur ++ [c]) hno.2 (by have := (utf8.DecodeRune_size c a).2; omega)]
      simp

/-- Two non-empty words without white space, separated by one space, are the two fields. -/
theorem Fields_pair (a b : GoString) (ha : a ≠ []) (hb : b ≠ [])
    (hsa : hasSpaceRune 0 a = false) (hsb : hasSpaceRune 0 b = false) :
    Fields (a ++ 32 :: b) = [a, b] := by
  have hd : utf8.DecodeRune (32 :: b) = (32, 1) := utf8.DecodeRune_ascii 32 b (by decide)
  have h32 : unicode.IsSpace (utf8.DecodeRune (32 :: b)).1 = true := by
    rw [hd]
    decide
  have hbe : b.isEmpty = false := by
    cases b with
    | nil => exact absurd rfl hb
    | cons _ _ => rfl
  unfold Fields FieldsFunc
  rw [fieldsLoop_word a 0 [] 32 b (by decide) hsa (Nat.zero_le _), List.nil_append,
    fieldsLoop_zero_space _ _ _ _ _ h32 ha, hd]
  show a :: fieldsLoop unicode.IsSpace 0 true [] b = [a, b]
  rw [fieldsLoop_zero_flag, fieldsLoop_word_end b 0 [] hsb (Nat.zero_le _), List.nil_append]
  simp [hbe]

/-- A string without the separator is a single piece. -/
theorem Split_none (a : GoString) (sep : UInt8) (h : ∀ c ∈ a, c ≠ sep) : Split a sep = [a] := by
  induction a with
  | nil => rfl
  | cons x a ih =>
    have hx : x ≠ sep := h x (List.mem_cons_self _ _)
    rw [Split, if_neg hx, ih (fun c hc => h c (List.mem_cons_of_mem _ hc))]

/-- The first piece of a split ends at the first separator. -/
theorem Split_append (a rest : GoString) (sep : UInt8) (h : ∀ c ∈ a, c ≠ sep) :
    Split (a ++ sep :: rest) sep = a :: Split rest sep := by
  induction a with
  | nil => simp [Split]
  | cons x a ih =>
    have hx : x ≠ sep := h x (List.mem_cons_self _ _)
    rw [List.cons_append, Split, if_neg hx, ih (fun c hc => h c (List.mem_cons_of_mem _ hc))]

theorem Contains_singleton (s : GoString) (c : UInt8) : Contains s [c] = decide (c ∈ s) := by
  induction s with
  | nil => rfl
  | cons x s ih =>
    rw [Contains, ih]
    by_cases hx : c = x
    · subst hx
      simp [List.isPrefixOf]
    · simp [List.isPrefixOf, hx]

end strings

namespace tunnel

theorem parse_forward (kind : GoString) (ty : TunnelType)
    (hkind : (kind = str "-L" ∧ ty = TypeLocal) ∨ (kind = str "-R" ∧ ty = TypeRemote))
    (bind host : GoString) (lp rp : Int) (hlp : 0 ≤ lp ∧ lp < 2 ^ 63) (hrp : 0 ≤ rp ∧ rp < 2 ^ 63)
    (hb : plainField bind = true) (hh : plainField host = true) :
    ParseSSHFlag (kind ++ 32 :: (strconv.Itoa lp ++ 58 :: (host ++ 58 :: strconv.Itoa rp)))
        = .ok { Type_ := ty, LocalPort := lp, RemoteHost := host, RemotePort := rp }
      ∧ (bind ≠ [] →
        ParseSSHFlag
            (kind ++ 32 :: (bind ++ 58 :: (strconv.Itoa lp ++ 58 :: (host ++ 58 :: strconv.Itoa rp))))
          = .ok { Type_ := ty, LocalPort := lp, RemoteHost := host, RemotePort := rp,
                  BindAddress := bind }) := by
  have hLD : TypeLocal ≠ TypeDynamic := by decide
  have hRD : TypeRemote ≠ TypeDynamic := by decide
  have hal := strconv.Atoi_Itoa lp hlp.1 hlp.2
  have har := strconv.Atoi_Itoa rp hrp.1 hrp.2
  have hkw : kind ≠ [] ∧ hasSpaceRune 0 kind = false := by
    rcases hkind with ⟨rfl, _⟩ | ⟨rfl, _⟩ <;> exact ⟨by decide, by decide⟩
  have hspec3 : hasSpaceRune 0 (strconv.Itoa lp ++ 58 :: (host ++ 58 :: strconv.Itoa rp))
      = false :=
    hasSpaceRune_join _ _ (Itoa_space lp hlp.1)
      (hasSpaceRune_join _ _ (plainField_space hh) (Itoa_space rp hrp.1))
  have hsplit3 : strings.Split (strconv.Itoa lp ++ 58 :: (host ++ 58 :: strconv.Itoa rp)) 58
      = [strconv.Itoa lp, host, strconv.Itoa rp] := by
    rw [strings.Split_append _ _ _ (Itoa_colon lp hlp.1),
      strings.Split_append _ _ _ (plainField_colon hh),
      strings.Split_none _ _ (Itoa_colon rp hrp.1)]
  have hty : (if kind = str "-L" then TypeLocal else if kind = str "-R" then TypeRemote
      else TypeDynamic) = ty := by
    rcases hkind with ⟨rfl, rfl⟩ | ⟨rfl, rfl⟩
    · rfl
    · decide
  have hknd : ¬ (kind ≠ str "-L" ∧ kind ≠ str "-R" ∧ kind ≠ str "-D") := by
    rcases hkind with ⟨rfl, _⟩ | ⟨rfl, _⟩ <;> decide
  have htd : ty ≠ TypeDynamic := by
    rcases hkind with ⟨_, rfl⟩ | ⟨_, rfl⟩
    · exact hLD
    · exact hRD
  constructor
  · unfold ParseSSHFlag
    rw [strings.Fields_pair kind _ hkw.1 (by simp) hkw.2 hspec3]
    simp only [hknd, if_false, hty, htd, hsplit3, hal, har]
  · intro _
    unfold ParseSSHFlag
    rw [strings.Fields_pair kind _ hkw.1 (by simp) hkw.2
      (hasSpaceRune_join _ _ (plainField_space hb) hspec3)]
    simp only [hknd, if_false, hty, htd,
      strings.Split_append _ _ _ (plainField_colon hb), hsplit3, hal, har]

theorem parse_dynamic (bind : GoString) (lp : Int) (hlp : 0 ≤ lp ∧ lp < 2 ^ 63)
    (hb : plainField bind = true) :
    ParseSSHFlag (str "-D" ++ 32 :: strconv.Itoa lp) = .ok { Type_ := TypeDynamic, LocalPort := lp }
      ∧ (bind ≠ [] →
        ParseSSHFlag (str "-D" ++ 32 :: (bind ++ 58 :: strconv.Itoa lp))
          = .ok { Type_ := TypeDynamic, LocalPort := lp, BindAddress := bind }) := by
  have hal := strconv.Atoi_Itoa lp hlp.1 hlp.2
  have hknd : ¬ (str "-D" ≠ str "-L" ∧ str "-D" ≠ str "-R" ∧ str "-D" ≠ str "-D") := by decide
  have hty : (if str "-D" = str "-L" then TypeLocal else if str "-D" = str "-R" then TypeRemote
      else TypeDynamic) = TypeDynamic := by decide
  have hcolon : str ":" = [58] := by decide
  constructor
  · have hnc : strings.Contains (strconv.Itoa lp) [58] = false := by
      rw [strings.Contains_singleton]
      simp only [decide_eq_false_iff_not]
      intro hc
      exact Itoa_colon lp hlp.1 58 hc rfl
    unfold ParseSSHFlag
    rw [strings.Fields_pair (str "-D") _ (by decide) (Itoa_ne_nil lp hlp.1) (by decide)
      (Itoa_space lp hlp.1)]
    simp only [hknd, if_false, hty, if_true, hcolon, hnc, Bool.false_eq_true, hal]
  · intro _
    have hc : strings.Contains (bind ++ 58 :: strconv.Itoa lp) [58] = true := by
      rw [strings.Contains_singleton]
      simp
    unfold ParseSSHFlag
    rw [strings.Fields_pair (str "-D") _ (by decide) (by simp) (by decide)
      (hasSpaceRune_join _ _ (plainField_space hb) (Itoa_space lp hlp.1))]
    simp only [hknd, if_false, hty, if_true, hcolon, hc,
      strings.Split_append _ _ _ (plainField_colon hb),
      strings.Split_none _ _ (Itoa_colon lp hlp.1), hal]

/-- The round trip through `ToSSHFlag` and `ParseSSHFlag` for tunnels whose bind address and
remote host contain neither a colon nor white space. -/
theorem roundtrip_plain (t : Tunnel) (hv : t.Validate = .ok ())
    (hb : plainField t.BindAddress = true)
    (hh : t.Type_ ≠ TypeDynamic → plainField t.RemoteHost = true) :
    ∃ flag p, t.ToSSHFlag = .ok flag ∧ ParseSSHFlag flag = .ok p
      ∧ p.Type_ = t.Type_ ∧ p.LocalPort = t.LocalPort ∧ p.BindAddress = t.BindAddress
      ∧ (if t.Type_ = TypeDynamic then p.RemoteHost = [] ∧ p.RemotePort = 0
          else p.RemoteHost = t.RemoteHost ∧ p.RemotePort = t.RemotePort) := by
  have hLD : TypeLocal ≠ TypeDynamic := by decide
  have hRD : TypeRemote ≠ TypeDynamic := by decide
  have hLR : TypeLocal ≠ TypeRemote := by decide
  have hcolon : str ":" = [58] := by decide
  have hL : str "-L " = str "-L" ++ [32] := by decide
  have hR : str "-R " = str "-R" ++ [32] := by decide
  have hD : str "-D " = str "-D" ++ [32] := by decide
  have hiff := (validate_ok_iff t).1 hv
  have hlp : 0 ≤ t.LocalPort ∧ t.LocalPort < 2 ^ 63 := by
    have := hiff.2.2.1
    constructor <;> omega
  rcases hiff.2.1 with hty | hty | hty
  · have hnd : t.Type_ ≠ TypeDynamic := by rw [hty]; exact hLD
    have hr := hiff.2.2.2 (Or.inl hty)
    have hrp : 0 ≤ t.RemotePort ∧ t.RemotePort < 2 ^ 63 := by constructor <;> omega
    have hp := parse_forward (str "-L") TypeLocal (Or.inl ⟨rfl, rfl⟩) t.BindAddress
      t.RemoteHost t.LocalPort t.RemotePort hlp hrp hb (hh hnd)
    by_cases hbe : t.BindAddress = []
    · refine ⟨_, _, ?_, hp.1, ?_⟩
      · simp [Tunnel.ToSSHFlag, hv, hty, forwardSpec, hbe, hcolon, hL]
      · simp [hty, hbe, hLD]
    · refine ⟨_, _, ?_, hp.2 hbe, ?_⟩
      · simp [Tunnel.ToSSHFlag, hv, hty, forwardSpec, hbe, hcolon, hL]
      · simp [hty, hLD]
  · have hnd : t.Type_ ≠ TypeDynamic := by rw [hty]; exact hRD
    have hr := hiff.2.2.2 (Or.inr hty)
    have hrp : 0 ≤ t.RemotePort ∧ t.RemotePort < 2 ^ 63 := by constructor <;> omega
    have hp := parse_forward (str "-R") TypeRemote (Or.inr ⟨rfl, rfl⟩) t.BindAddress
      t.RemoteHost t.LocalPort t.RemotePort hlp hrp hb (hh hnd)
    by_cases hbe : t.BindAddress = []
    · refine ⟨_, _, ?_, hp.1, ?_⟩
      · simp [Tunnel.ToSSHFlag, hv, hty, hLR.symm, forwardSpec, hbe, hcolon, hR]
      · simp [hty, hbe, hRD]
    · refine ⟨_, _, ?_, hp.2 hbe, ?_⟩
      · simp [Tunnel.ToSSHFlag, hv, hty, hLR.symm, forwardSpec, hbe, hcolon, hR]
      · simp [hty, hRD]
  · have hp := parse_dynamic t.BindAddress t.LocalPort hlp hb
    by_cases hbe : t.BindAddress = []
    · refine ⟨_, _, ?_, hp.1, ?_⟩
      · simp [Tunnel.ToSSHFlag, hv, hty, hLD.symm, hRD.symm, dynamicSpec, hbe, hD]
      · simp [hty, hbe]
    · refine ⟨_, _, ?_, hp.2 hbe, ?_⟩
      · simp [Tunnel.ToSSHFlag, hv, hty, hLD.symm, hRD.symm, dynamicSpec, hbe, hcolon, hD]
      · simp [hty]

end tunnel

/-! ### The filter -/

namespace strings

theorem isPrefixOf_iff (a s : GoString) : a.isPrefixOf s = true ↔ a <+: s := by
  simp

/-- The function `Contains` decides the substring relation. -/
theorem Contains_iff (s substr : GoString) : Contains s substr = true ↔ substr <:+: s := by
  induction s with
  | nil =>
    rw [Contains]
    simp [List.isEmpty_iff, List.infix_nil]
  | cons c s ih =>
    rw [Contains, Bool.or_eq_true, ih, List.infix_cons_iff, isPrefixOf_iff]

end strings

namespace table

/-- The rendering returns the table as it is, or panics. -/
theorem UpdateViewport_some (m t : Model) (h : m.UpdateViewport = some t) : t = m := by
  unfold Model.UpdateViewport at h
  split_ifs at h
  exact (Option.some.inj h).symm

/-- A table without rows is rendered. -/
theorem UpdateViewport_nil (m : Model) (h : m.rows = []) : m.UpdateViewport = some m := by
  unfold Model.UpdateViewport Model.renderedRows
  simp [h]

/-- A table whose rows have no more cells than it has columns is rendered: the
tables of the record picker are of this kind. -/
theorem UpdateViewport_fit (m : Model) (h : ∀ row ∈ m.rows, row.length ≤ m.cols.length) :
    m.UpdateViewport = some m := by
  unfold Model.UpdateViewport Model.renderedRows
  rw [if_pos]
  rw [List.all_eq_true]
  intro row hrow
  have := h row (List.drop_subset _ _ (List.take_subset _ _ hrow))
  simpa using this

/-- What `SetRows` returns when it returns is the table with the rows assigned. -/
theorem SetRows_some (L : GoLib) (m t : Model) (r : List Row) (h : m.SetRows L r = some t) :
    t = m.withRows L r :=
  UpdateViewport_some _ _ h

/-- Without rows `SetRows` returns. -/
theorem SetRows_nil (L : GoLib) (m : Model) : m.SetRows L [] = some (m.withRows L []) :=
  UpdateViewport_nil _ rfl

/-- On rows that have no more cells than the table has columns `SetRows` returns
the table with the rows assigned: the rows of the record picker are of this
kind. -/
theorem SetRows_fit (L : GoLib) (m : Model) (r : List Row)
    (h : ∀ row ∈ r, row.length ≤ m.cols.length) : m.SetRows L r = some (m.withRows L r) :=
  UpdateViewport_fit _ h

end table

namespace interactive

theorem model_filterLoop_eq (L : GoLib) (lowerFilter : GoString) (rows : List Row) :
    ∀ out, model.filterLoop L lowerFilter rows out
      = out ++ rows.filter (fun row =>
          strings.Contains (strings.ToLower L (strings.Join row (str " "))) lowerFilter) := by
  induction rows with
  | nil =>
    intro out
    simp [model.filterLoop]
  | cons row rest ih =>
    intro out
    unfold model.filterLoop
    simp only
    split_ifs with h
    · rw [ih]
      simp [List.filter_cons, h]
    · rw [ih]
      simp [List.filter_cons, h]

theorem tunnelModel_filterLoop_eq (L : GoLib) (lowerFilter : GoString) (rows : List Row)
    (hrows : ∀ row ∈ rows, row ≠ []) :
    ∀ out, tunnelModel.filterLoop L lowerFilter rows out
      = some (out ++ rows.filter (fun row =>
          strings.Contains (strings.ToLower L (strings.Join row.dropLast (str " "))) lowerFilter)) := by
  induction rows with
  | nil =>
    intro out
    simp [tunnelModel.filterLoop]
  | cons row rest ih =>
    intro out
    have hne : row.length ≠ 0 := by
      have := hrows row (List.mem_cons_self _ _)
      simpa using this
    have ih2 := ih (fun r hr => hrows r (List.mem_cons_of_mem _ hr))
    unfold tunnelModel.filterLoop
    simp only [hne, if_false, ← List.dropLast_eq_take]
    split_ifs with h
    · rw [ih2]
      simp [List.filter_cons, h]
    · rw [ih2]
      simp [List.filter_cons, h]

/-- The rows `model.applyFilter` keeps. -/
theorem model_applyFilter_filteredRows (L : GoLib) (m : model) :
    (m.applyFilter L).filteredRows
      = if m.filterText = [] then m.allRows
        else m.allRows.filter (fun row =>
          strings.Contains (strings.ToLower L (strings.Join row (str " ")))
            (strings.ToLower L m.filterText)) := by
  unfold model.applyFilter
  split_ifs with h
  · rfl
  · simp [model_filterLoop_eq]

theorem model_applyFilter_allRows (L : GoLib) (m : model) :
    (m.applyFilter L).allRows = m.allRows := by
  unfold model.applyFilter
  split_ifs <;> rfl

/-- The tunnel picker's `applyFilter`: the rows it keeps, which it hands to the
table; it returns when the table renders them. -/
theorem tunnelModel_applyFilter_eq (L : GoLib) (m : tunnelModel)
    (hrows : m.filterText ≠ [] → ∀ row ∈ m.allRows, row ≠ []) :
    m.applyFilter L
      = (m.table.SetRows L
            (if m.filterText = [] then m.allRows
              else m.allRows.filter (fun row =>
                strings.Contains (strings.ToLower L (strings.Join row.dropLast (str " ")))
                  (strings.ToLower L m.filterText)))).map
          (fun t => { m with
            filteredRows :=
              if m.filterText = [] then m.allRows
              else m.allRows.filter (fun row =>
                strings.Contains (strings.ToLower L (strings.Join row.dropLast (str " ")))
                  (strings.ToLower L m.filterText)),
            table := t }) := by
  unfold tunnelModel.applyFilter
  by_cases h : m.filterText = []
  · simp [h]
  · simp [h, tunnelModel_filterLoop_eq L _ _ (hrows h)]

end interactive

namespace interactive

/-- C3 fails on the code: the delete handlers replace `allRows` and the table's rows and leave
`filteredRows` as it was.  Deleting the highlighted first row of a two-row picker in Browse
leaves that row in `filteredRows` while it is gone from `allRows`, for `d` and `r` in the record
picker and for `d` in the tunnel picker (where the store and the tunnel list do lose it). -/
theorem C3_delete_leaves_filteredRows_stale :
    ((model.updateKeyD asciiLib historySession).map (fun r => r.1.allRows) = some [betaRow]
        ∧ (model.updateKeyD asciiLib historySession).map (fun r => r.1.filteredRows)
          = some [alphaRow, betaRow]
        ∧ (model.updateKeyD asciiLib historySession).map (fun r => r.2) = some tea.Cmd.nil)
      ∧ ((model.updateKeyR asciiLib historySession).map (fun r => r.1.allRows) = some [betaRow]
        ∧ (model.updateKeyR asciiLib historySession).map (fun r => r.1.filteredRows)
          = some [alphaRow, betaRow])
      ∧ ((tunnelModel.updateKeyD asciiLib tunnelSession tunnelStore).map (fun r => r.1.allRows)
          = some [webRow]
        ∧ (tunnelModel.updateKeyD asciiLib tunnelSession tunnelStore).map
            (fun r => r.1.filteredRows) = some [dbRow, webRow]
        ∧ (tunnelModel.updateKeyD asciiLib tunnelSession tunnelStore).map (fun r => r.1.tunnels)
          = some [webStored]
        ∧ (tunnelModel.updateKeyD asciiLib tunnelSession tunnelStore).map
            (fun r => r.2.2.tunnels) = some [webStored])
      ∧ alphaRow ∉ [betaRow] ∧ dbRow ∉ [webRow] := by
  refine ⟨⟨by decide, by decide, by decide⟩, ⟨by decide, by decide⟩,
    ⟨by decide, by decide, by decide, by decide⟩, by decide, by decide⟩

end interactive

namespace tunnel

/-- C6 fails as stated, on four tunnels that `Validate` accepts: the flag of the local tunnel
to the IPv6 host `::1`, `-L 8080:::1:80`, and the flag of the local tunnel to the host `my host`
are rejected by `ParseSSHFlag`, as is the flag `-D ::1:1080` of the dynamic tunnel bound to
`::1`; the flag `-D 1080` of the dynamic tunnel that carries a remote host parses to a tunnel
without remote host. -/
theorem C6_roundtrip_counterexample :
    (v6Tunnel.Validate = .ok ()
        ∧ v6Tunnel.ToSSHFlag = .ok (str "-L 8080:::1:80")
        ∧ ParseSSHFlag (str "-L 8080:::1:80")
            = .error (str "invalid port specification format: 8080:::1:80"))
      ∧ (spaceHostTunnel.Validate = .ok ()
        ∧ spaceHostTunnel.ToSSHFlag = .ok (str "-L 8080:my host:80")
        ∧ ParseSSHFlag (str "-L 8080:my host:80")
            = .error (str "invalid port specification format: 8080:my"))
      ∧ (v6BindTunnel.Validate = .ok ()
        ∧ v6BindTunnel.ToSSHFlag = .ok (str "-D ::1:1080")
        ∧ ParseSSHFlag (str "-D ::1:1080") = .error (str "invalid port: "))
      ∧ (staleDynamicTunnel.Validate = .ok ()
        ∧ staleDynamicTunnel.ToSSHFlag = .ok (str "-D 1080")
        ∧ ParseSSHFlag (str "-D 1080") = .ok { Type_ := TypeDynamic, LocalPort := 1080 }
        ∧ staleDynamicTunnel.RemoteHost ≠ []) := by
  refine ⟨⟨by decide, by decide, by decide⟩, ⟨by decide, by decide, by decide⟩,
    ⟨by decide, by decide, by decide⟩, ⟨by decide, by decide, by decide, by decide⟩⟩

/-- C6, amended: for every tunnel accepted by `Validate` whose bind address and, unless it is
dynamic, remote host contain neither a colon nor a white-space character, `ParseSSHFlag` applied
to the flag that `ToSSHFlag` produces succeeds and returns a tunnel with the same type, local
port and bind address, with the same remote host and remote port when the tunnel is local or
remote, and with no remote host and remote port 0 when it is dynamic. -/
theorem C6_roundtrip (t : Tunnel) (hv : t.Validate = .ok ())
    (hb : plainField t.BindAddress = true)
    (hh : t.Type_ ≠ TypeDynamic → plainField t.RemoteHost = true) :
    ∃ flag p, t.ToSSHFlag = .ok flag ∧ ParseSSHFlag flag = .ok p
      ∧ p.Type_ = t.Type_ ∧ p.LocalPort = t.LocalPort ∧ p.BindAddress = t.BindAddress
      ∧ (if t.Type_ = TypeDynamic then p.RemoteHost = [] ∧ p.RemotePort = 0
          else p.RemoteHost = t.RemoteHost ∧ p.RemotePort = t.RemotePort) :=
  roundtrip_plain t hv hb hh

/-- The remote forwarding `api` with a bind address, and the dynamic tunnel `socks`. -/
theorem C6_roundtrip_witness :
    apiTunnel.ToSSHFlag = .ok (str "-R 0.0.0.0:8080:localhost:3000")
      ∧ ParseSSHFlag (str "-R 0.0.0.0:8080:localhost:3000")
          = .ok { Type_ := TypeRemote, LocalPort := 8080, RemoteHost := str "localhost",
                  RemotePort := 3000, BindAddress := str "0.0.0.0" }
      ∧ (∃ flag p, apiTunnel.ToSSHFlag = .ok flag ∧ ParseSSHFlag flag = .ok p
          ∧ p.Type_ = apiTunnel.Type_ ∧ p.LocalPort = apiTunnel.LocalPort
          ∧ p.BindAddress = apiTunnel.BindAddress
          ∧ (if apiTunnel.Type_ = TypeDynamic then p.RemoteHost = [] ∧ p.RemotePort = 0
              else p.RemoteHost = apiTunnel.RemoteHost ∧ p.RemotePort = apiTunnel.RemotePort))
      ∧ (∃ flag p, socksTunnel.ToSSHFlag = .ok flag ∧ ParseSSHFlag flag = .ok p
          ∧ p.Type_ = socksTunnel.Type_ ∧ p.LocalPort = socksTunnel.LocalPort
          ∧ p.BindAddress = socksTunnel.BindAddress
          ∧ (if socksTunnel.Type_ = TypeDynamic then p.RemoteHost = [] ∧ p.RemotePort = 0
              else p.RemoteHost = socksTunnel.RemoteHost
                ∧ p.RemotePort = socksTunnel.RemotePort)) :=
  ⟨by decide, by decide,
    C6_roundtrip apiTunnel (by decide) (by decide) (by decide),
    C6_roundtrip socksTunnel (by decide) (by decide) (by decide)⟩

end tunnel

/-! ## The store operations (save.go) -/

namespace tunnel

theorem LoadTunnels_ok {f : TunnelFile} (hl : f.loadError = none) :
    LoadTunnels f = .ok f.tunnels := by
  simp [LoadTunnels, hl]

theorem asRead_mem {l : List Tunnel} (h : asRead l) {t : Tunnel} (ht : t ∈ l) :
    t.roundTrip = t := by
  induction l with
  | nil => cases ht
  | cons s rest ih =>
    have h2 : s.roundTrip :: rest.map Tunnel.roundTrip = s :: rest := h
    rcases List.mem_cons.mp ht with rfl | hr
    · exact (List.cons.inj h2).1
    · exact ih (List.cons.inj h2).2 hr

theorem asRead_of_mem {l : List Tunnel} (h : ∀ t ∈ l, t.roundTrip = t) : asRead l := by
  induction l with
  | nil => rfl
  | cons s rest ih =>
    show s.roundTrip :: rest.map Tunnel.roundTrip = s :: rest
    rw [h s (List.mem_cons_self _ _)]
    exact congrArg _ (ih (fun t ht => h t (List.mem_cons_of_mem _ ht)))

theorem asRead_filter {l : List Tunnel} (h : asRead l) (p : Tunnel → Bool) :
    asRead (l.filter p) :=
  asRead_of_mem (fun _ ht => asRead_mem h (List.mem_filter.mp ht).1)

theorem SaveTunnels_ok {f : TunnelFile} (hs : f.saveError = none) (l : List Tunnel) :
    SaveTunnels f l = (.ok (), { f with tunnels := l.map Tunnel.roundTrip }) := by
  simp [SaveTunnels, hs]

theorem SaveTunnels_error_unchanged (f : TunnelFile) (l : List Tunnel) (e : GoString)
    (h : (SaveTunnels f l).1 = .error e) : (SaveTunnels f l).2 = f := by
  unfold SaveTunnels at h ⊢
  cases hs : f.saveError with
  | none => simp [hs] at h
  | some e2 => simp

theorem SaveTunnels_ok_tunnels (f : TunnelFile) (l : List Tunnel)
    (h : (SaveTunnels f l).1 = .ok ()) :
    (SaveTunnels f l).2.tunnels = l.map Tunnel.roundTrip := by
  unfold SaveTunnels at h ⊢
  cases hs : f.saveError with
  | none => simp
  | some e2 => simp [hs] at h

theorem deleteLoop_eq (id : GoString) : ∀ (l acc : List Tunnel) (found : Bool),
    deleteLoop id l acc found =
      (acc ++ l.filter (fun t => decide (t.ID ≠ id)),
        found || l.any (fun t => decide (t.ID = id))) := by
  intro l
  induction l with
  | nil => intro acc found; simp [deleteLoop]
  | cons t rest ih =>
    intro acc found
    by_cases h : t.ID = id
    · simp [deleteLoop, h, ih]
    · simp [deleteLoop, h, ih]

theorem Delete_found (f : TunnelFile) (id : GoString) (hl : f.loadError = none)
    (hs : f.saveError = none) (h : ∃ t ∈ f.tunnels, t.ID = id) :
    Delete f id =
      (.ok (), { f with tunnels :=
        (f.tunnels.filter (fun t => decide (t.ID ≠ id))).map Tunnel.roundTrip }) := by
  obtain ⟨t, ht, hid⟩ := h
  have hany : f.tunnels.any (fun t => decide (t.ID = id)) = true :=
    List.any_eq_true.mpr ⟨t, ht, by simpa using hid⟩
  simp [Delete, LoadTunnels_ok hl, deleteLoop_eq, hany, SaveTunnels_ok hs]

/-- On records as they are read from the file, `Delete` keeps the others as they are. -/
theorem Delete_found_asRead (f : TunnelFile) (id : GoString) (hl : f.loadError = none)
    (hs : f.saveError = none) (h : ∃ t ∈ f.tunnels, t.ID = id) (hst : asRead f.tunnels) :
    Delete f id =
      (.ok (), { f with tunnels := f.tunnels.filter (fun t => decide (t.ID ≠ id)) }) := by
  rw [Delete_found f id hl hs h]
  have := asRead_filter hst (fun t => decide (t.ID ≠ id))
  unfold asRead at this
  rw [this]

theorem Delete_missing (f : TunnelFile) (id : GoString) (hl : f.loadError = none)
    (h : ∀ t ∈ f.tunnels, t.ID ≠ id) :
    Delete f id = (.error (str "tunnel not found: " ++ id), f) := by
  have hany : f.tunnels.any (fun t => decide (t.ID = id)) = false := by
    rw [List.any_eq_false]
    intro t ht
    simpa using h t ht
  simp [Delete, LoadTunnels_ok hl, deleteLoop_eq, hany]

theorem Delete_ok_tunnels (f : TunnelFile) (id : GoString) (h : (Delete f id).1 = .ok ()) :
    (Delete f id).2.tunnels
      = (f.tunnels.filter (fun t => decide (t.ID ≠ id))).map Tunnel.roundTrip := by
  unfold Delete at h ⊢
  cases hl : f.loadError with
  | some e => simp [LoadTunnels, hl] at h
  | none =>
    simp only [LoadTunnels, hl, deleteLoop_eq] at h ⊢
    split_ifs at h ⊢ with hf
    simp only [List.nil_append, decide_not] at h ⊢
    exact SaveTunnels_ok_tunnels f _ h

theorem Create_invalid (f : TunnelFile) (uuid now : GoString) (t : Tunnel) (e : GoString)
    (h : t.Validate = .error e) :
    Create f uuid now t = (.error (str "invalid tunnel: " ++ e), f) := by
  simp [Create, h]

theorem Create_duplicate (f : TunnelFile) (uuid now : GoString) (t : Tunnel)
    (hv : t.Validate = .ok ()) (hl : f.loadError = none)
    (hd : ∃ s ∈ f.tunnels, s.Name = t.Name) :
    Create f uuid now t =
      (.error (str "tunnel with name '" ++ t.Name ++ str "' already exists"), f) := by
  obtain ⟨s, hs, hn⟩ := hd
  have hany : f.tunnels.any (fun s => decide (s.Name = t.Name)) = true :=
    List.any_eq_true.mpr ⟨s, hs, by simpa using hn⟩
  simp [Create, hv, LoadTunnels_ok hl, hany]

theorem Create_new (f : TunnelFile) (uuid now : GoString) (t : Tunnel)
    (hv : t.Validate = .ok ()) (hl : f.loadError = none) (hs : f.saveError = none)
    (hn : ∀ s ∈ f.tunnels, s.Name ≠ t.Name) :
    Create f uuid now t =
      (.ok (), { f with tunnels :=
        (f.tunnels ++ [createdRecord uuid now t]).map Tunnel.roundTrip }) := by
  have hany : f.tunnels.any (fun s => decide (s.Name = t.Name)) = false := by
    rw [List.any_eq_false]
    intro s hs
    simpa using hn s hs
  simp [Create, hv, LoadTunnels_ok hl, hany, SaveTunnels_ok hs]

theorem Create_error_unchanged (f : TunnelFile) (uuid now : GoString) (t : Tunnel)
    (e : GoString) (h : (Create f uuid now t).1 = .error e) : (Create f uuid now t).2 = f := by
  unfold Create at h ⊢
  cases hv : t.Validate with
  | error e1 => simp
  | ok u =>
    cases hl : LoadTunnels f with
    | error e2 => simp
    | ok tunnels =>
      simp only [hv, hl] at h ⊢
      split_ifs at h ⊢ with hd
      · rfl
      · exact SaveTunnels_error_unchanged f _ e h

theorem Create_ok_tunnels (f : TunnelFile) (uuid now : GoString) (t : Tunnel)
    (h : (Create f uuid now t).1 = .ok ()) :
    (∀ s ∈ f.tunnels, s.Name ≠ t.Name) ∧
      (Create f uuid now t).2.tunnels
        = (f.tunnels ++ [createdRecord uuid now t]).map Tunnel.roundTrip := by
  unfold Create at h ⊢
  cases hv : t.Validate with
  | error e1 => simp [hv] at h
  | ok u =>
    cases hl : f.loadError with
    | some e2 => simp [hv, LoadTunnels, hl] at h
    | none =>
      simp only [hv, LoadTunnels, hl] at h ⊢
      split_ifs at h ⊢ with hd
      refine ⟨?_, SaveTunnels_ok_tunnels f _ h⟩
      intro s hs hn
      exact hd (List.any_eq_true.mpr ⟨s, hs, by simpa using hn⟩)

theorem createdRecord_fields (uuid now : GoString) (t : Tunnel) :
    createdRecord uuid now t =
      { t with ID := if t.ID = [] then uuid else t.ID, CreatedAt := now } := by
  unfold createdRecord
  split_ifs <;> rfl

end tunnel

namespace tunnel

theorem updateLoop_found (t : Tunnel) (old : Tunnel) (post : List Tunnel) (hid : old.ID = t.ID) :
    ∀ pre : List Tunnel, (∀ s ∈ pre, s.ID ≠ t.ID) →
      updateLoop t (pre ++ old :: post) =
        (pre ++ { t with CreatedAt := old.CreatedAt } :: post, true) := by
  intro pre
  induction pre with
  | nil => intro _; simp [updateLoop, hid]
  | cons s rest ih =>
    intro h
    have hs : s.ID ≠ t.ID := h s (List.mem_cons_self _ _)
    have hr := ih (fun x hx => h x (List.mem_cons_of_mem _ hx))
    simp [updateLoop, hs, hr]

theorem updateLoop_missing (t : Tunnel) :
    ∀ l : List Tunnel, (∀ s ∈ l, s.ID ≠ t.ID) → updateLoop t l = (l, false) := by
  intro l
  induction l with
  | nil => intro _; rfl
  | cons s rest ih =>
    intro h
    have hs : s.ID ≠ t.ID := h s (List.mem_cons_self _ _)
    have hr := ih (fun x hx => h x (List.mem_cons_of_mem _ hx))
    simp [updateLoop, hs, hr]

theorem Update_found (f : TunnelFile) (t old : Tunnel) (pre post : List Tunnel)
    (hv : t.Validate = .ok ()) (hl : f.loadError = none) (hs : f.saveError = none)
    (hf : f.tunnels = pre ++ old :: post) (hpre : ∀ s ∈ pre, s.ID ≠ t.ID)
    (hid : old.ID = t.ID) :
    Update f t =
      (.ok (), { f with tunnels :=
        (pre ++ { t with CreatedAt := old.CreatedAt } :: post).map Tunnel.roundTrip }) := by
  simp [Update, hv, LoadTunnels_ok hl, hf, updateLoop_found t old post hid pre hpre,
    SaveTunnels_ok hs]

theorem Update_missing (f : TunnelFile) (t : Tunnel) (hv : t.Validate = .ok ())
    (hl : f.loadError = none) (h : ∀ s ∈ f.tunnels, s.ID ≠ t.ID) :
    Update f t = (.error (str "tunnel not found: " ++ t.ID), f) := by
  simp [Update, hv, LoadTunnels_ok hl, updateLoop_missing t f.tunnels h]

theorem Update_invalid (f : TunnelFile) (t : Tunnel) (e : GoString)
    (h : t.Validate = .error e) : Update f t = (.error (str "invalid tunnel: " ++ e), f) := by
  simp [Update, h]

theorem Update_error_unchanged (f : TunnelFile) (t : Tunnel) (e : GoString)
    (h : (Update f t).1 = .error e) : (Update f t).2 = f := by
  unfold Update at h ⊢
  cases hv : t.Validate with
  | error e1 => simp
  | ok u =>
    cases hl : LoadTunnels f with
    | error e2 => simp
    | ok tunnels =>
      simp only [hv, hl] at h ⊢
      split_ifs at h ⊢ with hd
      · rfl
      · exact SaveTunnels_error_unchanged f _ e h

theorem Delete_error_unchanged (f : TunnelFile) (id : GoString) (e : GoString)
    (h : (Delete f id).1 = .error e) : (Delete f id).2 = f := by
  unfold Delete at h ⊢
  cases hl : LoadTunnels f with
  | error e2 => simp
  | ok tunnels =>
    simp only [hl] at h ⊢
    split_ifs at h ⊢ with hd
    · rfl
    · exact SaveTunnels_error_unchanged f _ e h

theorem uniqueNames_append_new (l : List Tunnel) (r : Tunnel) (h : uniqueNames l)
    (hn : ∀ s ∈ l, s.Name ≠ r.Name) : uniqueNames (l ++ [r]) := by
  unfold uniqueNames at h ⊢
  rw [List.map_append, List.nodup_append]
  refine ⟨h, by simp, ?_⟩
  intro a ha hb
  simp only [List.map_cons, List.map_nil, List.mem_singleton] at hb
  obtain ⟨s, hs, rfl⟩ := List.mem_map.mp ha
  exact hn s hs hb

theorem createdRecord_Name (uuid now : GoString) (t : Tunnel) :
    (createdRecord uuid now t).Name = t.Name := by
  unfold createdRecord
  split_ifs <;> rfl

theorem Create_uniqueNames (f : TunnelFile) (uuid now : GoString) (t : Tunnel)
    (h : uniqueNames f.tunnels) (hst : asRead f.tunnels) (hname : json.roundTrip t.Name = t.Name)
    (hok : (Create f uuid now t).1 = .ok ()) :
    uniqueNames (Create f uuid now t).2.tunnels := by
  obtain ⟨hn, he⟩ := Create_ok_tunnels f uuid now t hok
  have hst2 : f.tunnels.map Tunnel.roundTrip = f.tunnels := hst
  rw [he, List.map_append, hst2]
  refine uniqueNames_append_new _ _ h (fun s hs => ?_)
  have : (createdRecord uuid now t).roundTrip.Name = t.Name := by
    show json.roundTrip (createdRecord uuid now t).Name = t.Name
    rw [createdRecord_Name, hname]
  rw [this]
  exact hn s hs

theorem Delete_uniqueNames (f : TunnelFile) (id : GoString)
    (h : uniqueNames f.tunnels) (hst : asRead f.tunnels) (hok : (Delete f id).1 = .ok ()) :
    uniqueNames (Delete f id).2.tunnels := by
  have := asRead_filter hst (fun t => decide (t.ID ≠ id))
  unfold asRead at this
  rw [Delete_ok_tunnels f id hok, this]
  exact List.Nodup.sublist (List.Sublist.map _ (List.filter_sublist _)) h

theorem UpdateLastUsedBatch_ok_tunnels (f : TunnelFile) (now : GoString) (ids : List GoString)
    (hok : (UpdateLastUsedBatch f now ids).1 = .ok ()) :
    (UpdateLastUsedBatch f now ids).2.tunnels =
      (f.tunnels.map (fun t => if t.ID ∈ ids then { t with LastUsed := now } else t)).map
        Tunnel.roundTrip := by
  unfold UpdateLastUsedBatch at hok ⊢
  cases hl : f.loadError with
  | some e => simp [LoadTunnels, hl] at hok
  | none =>
    simp only [LoadTunnels, hl] at hok ⊢
    exact SaveTunnels_ok_tunnels f _ hok

theorem UpdateLastUsedBatch_uniqueNames (f : TunnelFile) (now : GoString) (ids : List GoString)
    (h : uniqueNames f.tunnels) (hst : asRead f.tunnels)
    (hok : (UpdateLastUsedBatch f now ids).1 = .ok ()) :
    uniqueNames (UpdateLastUsedBatch f now ids).2.tunnels := by
  rw [UpdateLastUsedBatch_ok_tunnels f now ids hok]
  unfold uniqueNames at h ⊢
  have : ((f.tunnels.map
        (fun t : Tunnel => if t.ID ∈ ids then { t with LastUsed := now } else t)).map
          Tunnel.roundTrip).map (fun t : Tunnel => t.Name) =
      f.tunnels.map (fun t : Tunnel => t.Name) := by
    rw [List.map_map, List.map_map]
    apply List.map_congr_left
    intro t ht
    have ht2 : json.roundTrip t.Name = t.Name := congrArg Tunnel.Name (asRead_mem hst ht)
    simp only [Function.comp]
    split_ifs
    · exact ht2
    · exact ht2
  rw [this]
  exact h

end tunnel

namespace interactive

/-- C17 (counterexample): the store holds a tunnel named `db`, and creating a
tunnel of that name whose local port is 0 fails with the validation error, which
is not the duplicate-name error; and the record that `Create` stores for a valid
tunnel named `caf` and the byte C3 carries the name `caf` and U+FFFD, which is
not the tunnel's name. -/
theorem C17_counterexample :
    ((∃ s ∈ tunnelStore.tunnels, s.Name = portlessDb.Name) ∧
      tunnel.Create tunnelStore (str "id-c") (str "2024-05-01T10:00:00Z") portlessDb =
        (.error (str "invalid tunnel: invalid local port: 0 (must be 1-65535)"), tunnelStore) ∧
      str "invalid tunnel: invalid local port: 0 (must be 1-65535)" ≠
        str "tunnel with name '" ++ portlessDb.Name ++ str "' already exists") ∧
    (cutTunnel.Validate = .ok () ∧
      (tunnel.Create tunnelStore (str "id-c") (str "2024-05-01T10:00:00Z") cutTunnel).1 = .ok () ∧
      (tunnel.Create tunnelStore (str "id-c") (str "2024-05-01T10:00:00Z") cutTunnel).2.tunnels.map
          (fun t => t.Name) = [str "db", str "web", coercedName] ∧
      coercedName ≠ cutTunnel.Name) :=
  ⟨⟨⟨dbStored, by decide, by decide⟩, by decide, by decide⟩,
    by decide, by decide, by decide, by decide⟩

/-- C17 (amended): on a store file that can be read, `Create` of a valid tunnel
whose name is already stored fails with the duplicate-name error and leaves the
store as it is; `Create` of a valid tunnel whose name is new (the file being
writable) writes the stored records followed by one record, the tunnel with the
creation time set and the generated ID when it had none, and the file then holds
these records as JSON text gives them back, each byte of a string that is not
valid UTF-8 replaced by U+FFFD: when the stored records are as they were read
and the new record is one that JSON text gives back as it is, the stored records
are kept as they are and the new record is appended as it is; `Create` of an
invalid tunnel fails with the validation error and leaves the store as it is. -/
theorem C17_create (f : tunnel.TunnelFile) (uuid now : GoString) (t : tunnel.Tunnel)
    (hl : f.loadError = none) :
    (t.Validate = .ok () → (∃ s ∈ f.tunnels, s.Name = t.Name) →
      tunnel.Create f uuid now t =
        (.error (str "tunnel with name '" ++ t.Name ++ str "' already exists"), f)) ∧
    (t.Validate = .ok () → f.saveError = none → (∀ s ∈ f.tunnels, s.Name ≠ t.Name) →
      tunnel.Create f uuid now t =
          (.ok (), { f with tunnels := List.map tunnel.Tunnel.roundTrip (f.tunnels ++
            [{ t with ID := if t.ID = [] then uuid else t.ID, CreatedAt := now }]) }) ∧
        (tunnel.asRead f.tunnels →
          ({ t with ID := if t.ID = [] then uuid else t.ID,
                    CreatedAt := now } : tunnel.Tunnel).roundTrip
            = { t with ID := if t.ID = [] then uuid else t.ID, CreatedAt := now } →
          tunnel.Create f uuid now t =
            (.ok (), { f with tunnels := f.tunnels ++
              [{ t with ID := if t.ID = [] then uuid else t.ID, CreatedAt := now }] }))) ∧
    (∀ e, t.Validate = .error e →
      tunnel.Create f uuid now t = (.error (str "invalid tunnel: " ++ e), f)) := by
  refine ⟨fun hv hd => tunnel.Create_duplicate f uuid now t hv hl hd, fun hv hs hn => ?_,
    fun e he => tunnel.Create_invalid f uuid now t e he⟩
  have h := tunnel.Create_new f uuid now t hv hl hs hn
  rw [tunnel.createdRecord_fields] at h
  refine ⟨h, fun hst hrec => ?_⟩
  have hst2 : f.tunnels.map tunnel.Tunnel.roundTrip = f.tunnels := hst
  rw [h, List.map_append, hst2, List.map_cons, List.map_nil, hrec]

theorem C17_create_witness :
    tunnel.Create tunnelStore (str "id-c") (str "2024-05-01T10:00:00Z") tunnel.dbTunnel =
      (.error (str "tunnel with name '" ++ tunnel.dbTunnel.Name ++ str "' already exists"),
        tunnelStore) ∧
    tunnel.Create tunnelStore (str "id-c") (str "2024-05-01T10:00:00Z") cacheTunnel =
      (.ok (), { tunnelStore with tunnels := tunnelStore.tunnels ++
        [{ cacheTunnel with ID := if cacheTunnel.ID = [] then str "id-c" else cacheTunnel.ID,
                            CreatedAt := str "2024-05-01T10:00:00Z" }] }) ∧
    tunnel.Create tunnelStore (str "id-c") (str "2024-05-01T10:00:00Z") portlessDb =
      (.error (str "invalid tunnel: " ++ str "invalid local port: 0 (must be 1-65535)"),
        tunnelStore) :=
  ⟨(C17_create tunnelStore _ _ tunnel.dbTunnel rfl).1 (by decide) ⟨dbStored, by decide, by decide⟩,
   ((C17_create tunnelStore _ _ cacheTunnel rfl).2.1 (by decide) rfl (by decide)).2
      (by decide) (by decide),
   (C17_create tunnelStore _ _ portlessDb rfl).2.2 _ (by decide)⟩

/-- C18: on stored records that are as they were read from the file, `Delete`
and `UpdateLastUsedBatch` keep stored names pairwise distinct whenever they
succeed, and so does `Create` of a tunnel whose name JSON text gives back as it
is; but `Update` does not: on the store holding `db` and `web`, the update that
gives the tunnel `web` the name `db` succeeds and leaves two tunnels named `db`.
Nor does `Create` of a name that is not valid UTF-8: on the store holding the
name `caf` and U+FFFD, creating the tunnel named `caf` and the byte C3 succeeds
and leaves two tunnels of the first name. -/
theorem C18_update_breaks_unique_names :
    (∀ (f : tunnel.TunnelFile) (uuid now : GoString) (t : tunnel.Tunnel),
      tunnel.uniqueNames f.tunnels → tunnel.asRead f.tunnels → json.roundTrip t.Name = t.Name →
        (tunnel.Create f uuid now t).1 = .ok () →
          tunnel.uniqueNames (tunnel.Create f uuid now t).2.tunnels) ∧
    (∀ (f : tunnel.TunnelFile) (id : GoString),
      tunnel.uniqueNames f.tunnels → tunnel.asRead f.tunnels → (tunnel.Delete f id).1 = .ok () →
        tunnel.uniqueNames (tunnel.Delete f id).2.tunnels) ∧
    (∀ (f : tunnel.TunnelFile) (now : GoString) (ids : List GoString),
      tunnel.uniqueNames f.tunnels → tunnel.asRead f.tunnels →
        (tunnel.UpdateLastUsedBatch f now ids).1 = .ok () →
          tunnel.uniqueNames (tunnel.UpdateLastUsedBatch f now ids).2.tunnels) ∧
    (tunnel.uniqueNames tunnelStore.tunnels ∧ tunnel.asRead tunnelStore.tunnels ∧
      renamedWeb.Validate = .ok () ∧
      (tunnel.Update tunnelStore renamedWeb).1 = .ok () ∧
      (tunnel.Update tunnelStore renamedWeb).2.tunnels.map (fun t => t.Name) =
        [str "db", str "db"] ∧
      ¬ tunnel.uniqueNames (tunnel.Update tunnelStore renamedWeb).2.tunnels) ∧
    (tunnel.uniqueNames coercedStore.tunnels ∧ tunnel.asRead coercedStore.tunnels ∧
      cutTunnel.Validate = .ok () ∧
      (tunnel.Create coercedStore (str "id-c") (str "2024-05-01T10:00:00Z") cutTunnel).1
        = .ok () ∧
      (tunnel.Create coercedStore (str "id-c") (str "2024-05-01T10:00:00Z") cutTunnel).2.tunnels.map
          (fun t => t.Name) = [coercedName, coercedName] ∧
      ¬ tunnel.uniqueNames
          (tunnel.Create coercedStore (str "id-c") (str "2024-05-01T10:00:00Z")
            cutTunnel).2.tunnels) :=
  ⟨tunnel.Create_uniqueNames, tunnel.Delete_uniqueNames, tunnel.UpdateLastUsedBatch_uniqueNames,
    ⟨by decide, by decide, by decide, by decide, by decide, by decide⟩,
    by decide, by decide, by decide, by decide, by decide, by decide⟩

/-- C19 (counterexample): the update that gives the stored tunnel `web` the name
`caf` and the byte C3 is valid and succeeds, and the record stored in the place
of `web` carries the name `caf` and U+FFFD, which is not the name given. -/
theorem C19_counterexample :
    cutWeb.Validate = .ok () ∧
    (tunnel.Update tunnelStore cutWeb).1 = .ok () ∧
    (tunnel.Update tunnelStore cutWeb).2.tunnels.map (fun t => t.Name)
      = [str "db", coercedName] ∧
    coercedName ≠ cutWeb.Name :=
  ⟨by decide, by decide, by decide, by decide⟩

/-- C19 (amended): on a store file that can be read, `Update` of a valid tunnel
whose ID is stored (the file being writable) writes the stored records with the
tunnel in the place of the first record with that ID, under that record's ID and
creation time, and the file then holds these records as JSON text gives them
back, each byte of a string that is not valid UTF-8 replaced by U+FFFD: when the
stored records are as they were read and the tunnel is one that JSON text gives
back as it is, the tunnel stands in that place as it is and the records before
and after it are kept, so also the length of the list; when no stored record has
the ID, or the tunnel is invalid, `Update` fails and the store is as it was. -/
theorem C19_update (f : tunnel.TunnelFile) (t : tunnel.Tunnel) (hl : f.loadError = none) :
    (t.Validate = .ok () → f.saveError = none →
      ∀ (pre : List tunnel.Tunnel) (old : tunnel.Tunnel) (post : List tunnel.Tunnel),
        f.tunnels = pre ++ old :: post → (∀ s ∈ pre, s.ID ≠ t.ID) → old.ID = t.ID →
          tunnel.Update f t =
              (.ok (), { f with tunnels := (List.map tunnel.Tunnel.roundTrip
                (pre ++ { t with ID := old.ID, CreatedAt := old.CreatedAt } :: post)) }) ∧
            (tunnel.asRead f.tunnels → t.roundTrip = t →
              tunnel.Update f t =
                (.ok (), { f with tunnels :=
                  pre ++ { t with ID := old.ID, CreatedAt := old.CreatedAt } :: post }))) ∧
    (t.Validate = .ok () → (∀ s ∈ f.tunnels, s.ID ≠ t.ID) →
      tunnel.Update f t = (.error (str "tunnel not found: " ++ t.ID), f)) ∧
    (∀ e, t.Validate = .error e →
      tunnel.Update f t = (.error (str "invalid tunnel: " ++ e), f)) := by
  refine ⟨fun hv hs pre old post hf hpre hid => ?_,
    fun hv hn => tunnel.Update_missing f t hv hl hn,
    fun e he => tunnel.Update_invalid f t e he⟩
  have h := tunnel.Update_found f t old pre post hv hl hs hf hpre hid
  rw [hid]
  refine ⟨h, fun hst ht => ?_⟩
  rw [h]
  have hst2 : (pre ++ old :: post).map tunnel.Tunnel.roundTrip = pre ++ old :: post := by
    rw [← hf]
    exact hst
  rw [List.map_append, List.map_cons] at hst2 ⊢
  have hpre2 := List.append_inj hst2 (by simp)
  have hold : old.roundTrip = old := (List.cons.inj hpre2.2).1
  have hrec : ({ t with ID := t.ID, CreatedAt := old.CreatedAt } : tunnel.Tunnel).roundTrip
      = { t with ID := t.ID, CreatedAt := old.CreatedAt } := by
    have h1 : json.roundTrip old.CreatedAt = old.CreatedAt :=
      congrArg tunnel.Tunnel.CreatedAt hold
    have h2 := ht
    cases t
    simp only [tunnel.Tunnel.roundTrip, tunnel.Tunnel.mk.injEq] at h2 ⊢
    simp only [h2, h1, and_self]
  rw [hpre2.1, (List.cons.inj hpre2.2).2]
  have : ({ t with CreatedAt := old.CreatedAt } : tunnel.Tunnel)
      = { t with ID := t.ID, CreatedAt := old.CreatedAt } := rfl
  rw [this, hrec]

theorem C19_update_witness :
    tunnel.Update tunnelStore editedWeb =
      (.ok (), { tunnelStore with tunnels :=
        [dbStored] ++ { editedWeb with ID := webStored.ID, CreatedAt := webStored.CreatedAt } :: [] }) ∧
    tunnel.Update tunnelStore strayTunnel =
      (.error (str "tunnel not found: " ++ strayTunnel.ID), tunnelStore) ∧
    tunnel.Update tunnelStore portlessDb =
      (.error (str "invalid tunnel: " ++ str "invalid local port: 0 (must be 1-65535)"),
        tunnelStore) :=
  ⟨((C19_update tunnelStore editedWeb rfl).1 (by decide) rfl [dbStored] webStored [] rfl
      (by decide) (by decide)).2 (by decide) (by decide),
   (C19_update tunnelStore strayTunnel rfl).2.1 (by decide) (by decide),
   (C19_update tunnelStore portlessDb rfl).2.2 _ (by decide)⟩

end interactive
/-! ## The tunnel picker and the record picker: delete, toggle, confirm, quit -/

namespace interactive

theorem SelectedRow_mem {t : TableModel} {row : Row} (h : t.SelectedRow = some row) :
    row ∈ t.rows := by
  unfold table.Model.SelectedRow at h
  split_ifs at h
  obtain ⟨hlt, hget⟩ := List.get?_eq_some.mp h
  exact hget ▸ List.get_mem _ _ _

theorem model_Update_browse (L : GoLib) (m : model) (st : settings.State) (k : tea.KeyMsg)
    (hf : m.filtering = false) :
    m.Update L st (.KeyMsg k) =
      if k.String = str "/" then some ((m.updateKeySlash L).1, (m.updateKeySlash L).2, st)
      else if k.String = str "d" then (m.updateKeyD L).map (fun r => (r.1, r.2, st))
      else if k.String = str "r" then (m.updateKeyR L).map (fun r => (r.1, r.2, st))
      else if k.String = str "w" then some (m.updateKeyW st)
      else if k.String = str "q" ∨ k.String = str "ctrl+c" ∨ k.String = str "esc" then
        some ((m.updateKeyQuit L).1, (m.updateKeyQuit L).2, st)
      else if k.String = str "enter" then m.updateKeyEnter.map (fun r => (r.1, r.2, st))
      else some ({ m with table := m.table.withKey L k.String }, .nil, st) := by
  unfold model.Update
  simp only
  rw [if_neg (by simp [hf]), if_neg (by simp [hf])]

theorem tunnelModel_Update_browse (L : GoLib) (m : tunnelModel) (st : settings.State)
    (f : tunnel.TunnelFile) (uuid now : GoString) (k : tea.KeyMsg)
    (hform : m.showingForm = false) (hf : m.filtering = false) :
    m.Update L st f uuid now (.KeyMsg k) =
      if k.String = str "/" then (m.updateKeySlash L).map (fun r => (r.1, r.2, st, f))
      else if k.String = str "n" then some (m.updateKeyN.1, m.updateKeyN.2, st, f)
      else if k.String = str "e" then m.updateKeyE.map (fun r => (r.1, r.2, st, f))
      else if k.String = str "d" then (m.updateKeyD L f).map (fun r => (r.1, r.2.1, st, r.2.2))
      else if k.String = str " " then m.updateKeySpace.map (fun r => (r.1, r.2, st, f))
      else if k.String = str "w" then
        (m.updateKeyW L st).map (fun r => (r.1, r.2.1, r.2.2, f))
      else if k.String = str "q" ∨ k.String = str "ctrl+c" ∨ k.String = str "esc" then
        (m.updateKeyQuit L).map (fun r => (r.1, r.2, st, f))
      else if k.String = str "enter" then m.updateKeyEnter.map (fun r => (r.1, r.2, st, f))
      else (m.table.Update L k.String).map
        (fun t => ({ m with table := t }, .nil, st, f)) := by
  unfold tunnelModel.Update
  rw [if_neg (by simp [hform])]
  simp only
  rw [if_neg (by simp [hf]), if_neg (by simp [hf])]

/-- The rows that the loop of `d` in the tunnel picker keeps. -/
theorem tunnelModel_deleteLoop_rows (tunnelID : GoString) (tunnels : List tunnel.Tunnel) :
    ∀ (rows : List Row) (i : Nat) (acc : List Row) (accT : List tunnel.Tunnel),
      (∀ row ∈ rows, row ≠ []) → i + rows.length ≤ tunnels.length →
        ∃ newTunnels, tunnelModel.deleteLoop tunnelID tunnels i rows acc accT
          = some (acc ++ rows.filter (fun row => decide (row.getLast? ≠ some tunnelID)),
              newTunnels) := by
  intro rows
  induction rows with
  | nil => intro i acc accT _ _; exact ⟨accT, by simp [tunnelModel.deleteLoop]⟩
  | cons row rest ih =>
    intro i acc accT h hlen
    have hr : row ≠ [] := h row (List.mem_cons_self _ _)
    have hrest : ∀ r ∈ rest, r ≠ [] := fun r hr => h r (List.mem_cons_of_mem _ hr)
    simp only [List.length_cons] at hlen
    obtain ⟨id, hid⟩ : ∃ id, row.getLast? = some id := by
      cases hrow : row.getLast? with
      | none => exact absurd (List.getLast?_eq_none_iff.mp hrow) hr
      | some id => exact ⟨id, rfl⟩
    have hi : i < tunnels.length := by omega
    have ht : tunnels.get? i = some (tunnels.get ⟨i, hi⟩) := List.get?_eq_get hi
    unfold tunnelModel.deleteLoop
    simp only [hid, ht]
    split_ifs with hc
    · obtain ⟨nt, hnt⟩ := ih (i + 1) (acc ++ [row]) (accT ++ [tunnels.get ⟨i, hi⟩]) hrest
        (by omega)
      refine ⟨nt, ?_⟩
      rw [hnt]
      simp [List.filter_cons, hid, hc]
    · obtain ⟨nt, hnt⟩ := ih (i + 1) acc accT hrest (by omega)
      refine ⟨nt, ?_⟩
      rw [hnt]
      simp [List.filter_cons, hid, hc]

/-- The handler of `d` in the tunnel picker on a highlighted row that the store
deletes: the rows kept are handed to the table, and the handler returns when the
table renders them; with no row kept it quits. -/
theorem tunnelModel_updateKeyD_eq (L : GoLib) (m : tunnelModel) (f : tunnel.TunnelFile)
    (sel : Row) (id : GoString) (hsel : m.table.SelectedRow = some sel)
    (hid : sel.getLast? = some id) (hok : (tunnel.Delete f id).1 = .ok ())
    (hrows : ∀ row ∈ m.table.rows, row ≠ []) (hlen : m.table.rows.length ≤ m.tunnels.length) :
    ∃ newTunnels,
      tunnelModel.deleteLoop id m.tunnels 0 m.table.rows [] []
        = some (m.table.rows.filter (fun row => decide (row.getLast? ≠ some id)), newTunnels) ∧
      m.updateKeyD L f =
        if m.table.rows.filter (fun row => decide (row.getLast? ≠ some id)) = [] then
          some ({ m with allRows := [], tunnels := newTunnels, table := m.table.withRows L [],
                         exit := true }, tea.Cmd.Quit, (tunnel.Delete f id).2)
        else
          (m.table.SetRows L
              (m.table.rows.filter (fun row => decide (row.getLast? ≠ some id)))).map
            (fun t =>
              ({ m with
                  allRows := m.table.rows.filter (fun row => decide (row.getLast? ≠ some id)),
                  tunnels := newTunnels, table := t }, tea.Cmd.nil, (tunnel.Delete f id).2)) := by
  obtain ⟨newTunnels, hr⟩ := tunnelModel_deleteLoop_rows id m.tunnels m.table.rows 0 [] []
    hrows (by omega)
  rw [List.nil_append] at hr
  refine ⟨newTunnels, hr, ?_⟩
  unfold tunnelModel.updateKeyD
  rcases hD : tunnel.Delete f id with ⟨res, f2⟩
  rw [hD] at hok
  simp only at hok
  subst hok
  simp only [hsel, hid, hD, table.Model.Rows, hr]
  by_cases he : m.table.rows.filter (fun row => decide (row.getLast? ≠ some id)) = []
  · rw [if_pos he, he, table.SetRows_nil]
    rfl
  · rw [if_neg he]
    cases hu : m.table.SetRows L
        (m.table.rows.filter (fun row => decide (row.getLast? ≠ some id))) with
    | none => rfl
    | some t =>
      have ht := table.UpdateViewport_some _ _ hu
      subst ht
      simp only [Option.map_some']
      rw [if_neg]
      simpa [table.Model.withRows] using he

theorem tunnelModel_updateKeyD_delete_error (L : GoLib) (m : tunnelModel)
    (f : tunnel.TunnelFile) (sel : Row) (id e : GoString)
    (hsel : m.table.SelectedRow = some sel) (hid : sel.getLast? = some id)
    (herr : (tunnel.Delete f id).1 = .error e) : m.updateKeyD L f = some (m, .nil, f) := by
  have h2 := tunnel.Delete_error_unchanged f id e herr
  unfold tunnelModel.updateKeyD
  rcases hD : tunnel.Delete f id with ⟨res, f2⟩
  rw [hD] at herr h2
  simp only at herr h2
  subst herr h2
  simp only [hsel, hid, hD]

end interactive

namespace interactive

theorem mem_mapDelete (ids : List GoString) (id x : GoString) :
    x ∈ mapDelete ids id ↔ x ∈ ids ∧ x ≠ id := by
  simp [mapDelete]

theorem mem_mapSet (ids : List GoString) (id x : GoString) :
    x ∈ mapSet ids id ↔ x ∈ ids ∨ x = id := by
  unfold mapSet
  split_ifs with h
  · constructor
    · exact fun hx => Or.inl hx
    · rintro (hx | rfl)
      · exact hx
      · exact h
  · simp

theorem highlightedID_congr (m1 m2 : tunnelModel) (h : m1.table.rows = m2.table.rows)
    (c : Int) : highlightedID m1 c = highlightedID m2 c := by
  simp [highlightedID, table.Model.SelectedRow, h]

theorem toggle_parity (a b o : Prop) (x id : GoString) (n : Nat)
    (hb : b ↔ if x = id then ¬ a else a) (ho : o ↔ n % 2 = 1) :
    ((b ↔ ¬ o) ↔ (a ↔ ¬ ((n + if id = x then 1 else 0) % 2 = 1))) := by
  by_cases hx : x = id
  · subst hx
    simp only [if_true] at hb ⊢
    have : (n + 1) % 2 = 1 ↔ ¬ n % 2 = 1 := by omega
    rw [this, hb, ho]
    tauto
  · have hx2 : ¬ id = x := fun h => hx h.symm
    simp only [hx, hx2, if_false, Nat.add_zero] at hb ⊢
    rw [hb, ho]

theorem updateKeySpace_single (m : tunnelModel) (hm : m.multiSelect = false) :
    m.updateKeySpace = some (m, .nil) := by
  unfold tunnelModel.updateKeySpace
  rw [if_neg (by simp [hm])]

theorem updateKeySpace_none (m : tunnelModel) (hm : m.multiSelect = true)
    (hsel : m.table.SelectedRow = none) : m.updateKeySpace = some (m, .nil) := by
  unfold tunnelModel.updateKeySpace
  rw [if_pos hm]
  simp only [hsel]

theorem updateKeySpace_some (m : tunnelModel) (row : Row) (id : GoString)
    (hm : m.multiSelect = true) (hsel : m.table.SelectedRow = some row)
    (hid : row.getLast? = some id) :
    m.updateKeySpace =
      some ({ m with selectedIDs :=
        if id ∈ m.selectedIDs then mapDelete m.selectedIDs id else mapSet m.selectedIDs id },
        .nil) := by
  unfold tunnelModel.updateKeySpace
  rw [if_pos hm]
  simp only [hsel, hid]
  split_ifs <;> rfl

theorem toggleRun_cons (m : tunnelModel) (c : Int) (rest : List Int) (r : tunnelModel × tea.Cmd)
    (h : ({ m with table := { m.table with cursor := c } } : tunnelModel).updateKeySpace = some r) :
    toggleRun m (c :: rest) = toggleRun r.1 rest := by
  rw [toggleRun]
  simp only [h]

theorem mem_toggle (ids : List GoString) (id x : GoString) :
    x ∈ (if id ∈ ids then mapDelete ids id else mapSet ids id) ↔
      if x = id then ¬ x ∈ ids else x ∈ ids := by
  by_cases hin : id ∈ ids
  · simp only [hin, if_true, mem_mapDelete]
    by_cases hx : x = id
    · subst hx; simp [hin]
    · simp [hx]
  · simp only [hin, if_false, mem_mapSet]
    by_cases hx : x = id
    · subst hx; simp [hin]
    · simp [hx]

theorem toggleRun_multi (m0 : tunnelModel) (hrows : ∀ row ∈ m0.table.rows, row ≠ []) :
    ∀ (cursors : List Int) (m : tunnelModel), m.table.rows = m0.table.rows →
      m.multiSelect = true →
      ∃ m1, toggleRun m cursors = some m1 ∧ m1.table.rows = m0.table.rows ∧
        m1.tunnels = m.tunnels ∧ m1.multiSelect = true ∧ m1.exit = m.exit ∧
        ∀ x, x ∈ m1.selectedIDs ↔
          (x ∈ m.selectedIDs ↔ ¬ ((toggledIDs m0 cursors).count x % 2 = 1)) := by
  intro cursors
  induction cursors with
  | nil =>
    intro m hr hm
    exact ⟨m, rfl, hr, rfl, hm, rfl, fun x => by simp [toggledIDs]⟩
  | cons c rest ih =>
    intro m hr hm
    have hh : highlightedID m0 c = highlightedID m c := highlightedID_congr m0 m hr.symm c
    cases hsel : ({ m.table with cursor := c } : TableModel).SelectedRow with
    | none =>
      have hnone : highlightedID m0 c = none := by
        rw [hh]; simp [highlightedID, hsel]
      have hstep := toggleRun_cons m c rest _
        (updateKeySpace_none { m with table := { m.table with cursor := c } } hm hsel)
      obtain ⟨m1, h1, h2, h3, h4, h5, h6⟩ :=
        ih { m with table := { m.table with cursor := c } } hr hm
      refine ⟨m1, hstep.trans h1, h2, h3, h4, h5, fun x => ?_⟩
      rw [h6 x]
      simp [toggledIDs, List.filterMap_cons, hnone]
    | some row =>
      have hmem : row ∈ m0.table.rows := by
        have := SelectedRow_mem hsel
        simpa [hr] using this
      obtain ⟨id, hid⟩ : ∃ id, row.getLast? = some id := by
        cases hrow : row.getLast? with
        | none => exact absurd (List.getLast?_eq_none_iff.mp hrow) (hrows row hmem)
        | some id => exact ⟨id, rfl⟩
      have hsome : highlightedID m0 c = some id := by
        rw [hh]; simp [highlightedID, hsel, hid]
      have hcount : ∀ x, (toggledIDs m0 (c :: rest)).count x =
          (toggledIDs m0 rest).count x + if id = x then 1 else 0 := by
        intro x
        simp only [toggledIDs, List.filterMap_cons, hsome, List.count_cons, beq_iff_eq]
      have hstep := toggleRun_cons m c rest _
        (updateKeySpace_some { m with table := { m.table with cursor := c } } row id hm hsel hid)
      obtain ⟨m1, h1, h2, h3, h4, h5, h6⟩ :=
        ih { m with table := { m.table with cursor := c },
                    selectedIDs := if id ∈ m.selectedIDs then mapDelete m.selectedIDs id
                      else mapSet m.selectedIDs id } hr hm
      refine ⟨m1, hstep.trans h1, h2, h3, h4, h5, fun x => ?_⟩
      rw [h6 x, hcount x]
      exact toggle_parity _ _ _ x id _ (mem_toggle m.selectedIDs id x) Iff.rfl

theorem toggleRun_single :
    ∀ (cursors : List Int) (m : tunnelModel), m.multiSelect = false →
      ∃ m1, toggleRun m cursors = some m1 ∧ m1.table.rows = m.table.rows ∧
        m1.tunnels = m.tunnels ∧ m1.multiSelect = false ∧ m1.exit = m.exit ∧
        m1.selectedIDs = m.selectedIDs := by
  intro cursors
  induction cursors with
  | nil => intro m hm; exact ⟨m, rfl, rfl, rfl, hm, rfl, rfl⟩
  | cons c rest ih =>
    intro m hm
    have hstep := toggleRun_cons m c rest _
      (updateKeySpace_single { m with table := { m.table with cursor := c } } hm)
    obtain ⟨m1, h1, h2, h3, h4, h5, h6⟩ :=
      ih { m with table := { m.table with cursor := c } } hm
    exact ⟨m1, hstep.trans h1, h2, h3, h4, h5, h6⟩

end interactive

namespace interactive

theorem updateKeySpace_flags (m : tunnelModel) (r : tunnelModel × tea.Cmd)
    (h : m.updateKeySpace = some r) :
    r.1.showingForm = m.showingForm ∧ r.1.filtering = m.filtering := by
  unfold tunnelModel.updateKeySpace at h
  split_ifs at h with hm
  · cases hsel : m.table.SelectedRow with
    | none =>
      simp only [hsel] at h
      cases h
      exact ⟨rfl, rfl⟩
    | some row =>
      simp only [hsel] at h
      cases hid : row.getLast? with
      | none => simp [hid] at h
      | some id =>
        simp only [hid] at h
        split_ifs at h
        · cases h
          exact ⟨rfl, rfl⟩
        · cases h
          exact ⟨rfl, rfl⟩
  · cases h
    exact ⟨rfl, rfl⟩

theorem toggleRun_flags :
    ∀ (cursors : List Int) (m m1 : tunnelModel), toggleRun m cursors = some m1 →
      m1.showingForm = m.showingForm ∧ m1.filtering = m.filtering := by
  intro cursors
  induction cursors with
  | nil =>
    intro m m1 h
    cases h
    exact ⟨rfl, rfl⟩
  | cons c rest ih =>
    intro m m1 h
    rw [toggleRun] at h
    cases hs : ({ m with table := { m.table with cursor := c } } : tunnelModel).updateKeySpace with
    | none => simp [hs] at h
    | some r =>
      simp only [hs] at h
      have h1 := updateKeySpace_flags _ r hs
      have h2 := ih r.1 m1 h
      exact ⟨h2.1.trans h1.1, h2.2.trans h1.2⟩

/-- In Browse the key whose text is a blank reaches the toggle handler of
`tunnelModel.Update`. -/
theorem toggleKeys_eq_toggleRun (L : GoLib) (st : settings.State) (f : tunnel.TunnelFile)
    (uuid now : GoString) (k : tea.KeyMsg) (hk : k.String = str " ") :
    ∀ (cursors : List Int) (m : tunnelModel), m.showingForm = false → m.filtering = false →
      toggleKeys L st f uuid now k m cursors = toggleRun m cursors := by
  intro cursors
  induction cursors with
  | nil => intro m _ _; rfl
  | cons c rest ih =>
    intro m hform hf
    have hu : ({ m with table := { m.table with cursor := c } } : tunnelModel).Update L st f
          uuid now (.KeyMsg k)
        = ({ m with table := { m.table with cursor := c } } : tunnelModel).updateKeySpace.map
            (fun r => (r.1, r.2, st, f)) := by
      rw [tunnelModel_Update_browse L
        ({ m with table := { m.table with cursor := c } } : tunnelModel) st f uuid now k hform hf,
        hk, if_neg (by decide), if_neg (by decide), if_neg (by decide), if_neg (by decide),
        if_pos rfl]
    rw [toggleKeys, toggleRun, hu]
    cases hs : ({ m with table := { m.table with cursor := c } } : tunnelModel).updateKeySpace with
    | none => rfl
    | some r =>
      have h1 := updateKeySpace_flags _ r hs
      simp only [Option.map_some']
      exact ih r.1 (h1.1.trans hform) (h1.2.trans hf)

theorem tunnelModel_Update_enter (L : GoLib) (m : tunnelModel) (st : settings.State)
    (f : tunnel.TunnelFile) (uuid now : GoString) (k : tea.KeyMsg)
    (hk : k.String = str "enter") (hform : m.showingForm = false) (hf : m.filtering = false) :
    m.Update L st f uuid now (.KeyMsg k) = m.updateKeyEnter.map (fun r => (r.1, r.2, st, f)) := by
  rw [tunnelModel_Update_browse L m st f uuid now k hform hf, hk, if_neg (by decide),
    if_neg (by decide), if_neg (by decide), if_neg (by decide), if_neg (by decide),
    if_neg (by decide), if_neg (by decide), if_pos rfl]

theorem updateKeyEnter_multi (m : tunnelModel) (hm : m.multiSelect = true)
    (hne : m.selectedIDs ≠ []) : m.updateKeyEnter = some (m, .Quit) := by
  unfold tunnelModel.updateKeyEnter
  rw [if_pos ⟨hm, List.length_pos.mpr hne⟩]

theorem updateKeyEnter_one (m : tunnelModel) (row : Row) (id : GoString)
    (h : m.multiSelect = false ∨ m.selectedIDs = [])
    (hsel : m.table.SelectedRow = some row) (hid : row.getLast? = some id) :
    m.updateKeyEnter = some ({ m with selectedIDs := mapSet m.selectedIDs id }, .Quit) := by
  unfold tunnelModel.updateKeyEnter
  have hc : ¬ (m.multiSelect = true ∧ m.selectedIDs.length > 0) := by
    rintro ⟨h1, h2⟩
    rcases h with h | h
    · simp [h] at h1
    · simp [h] at h2
  rw [if_neg hc]
  simp only [hsel, hid]

theorem confirm_after_toggles (m : tunnelModel) (cursors : List Int)
    (hrows : ∀ row ∈ m.table.rows, row ≠ []) (h0 : m.selectedIDs = [])
    (hexit : m.exit = false) :
    ∃ m1, toggleRun m cursors = some m1 ∧
      (∀ x, x ∈ m1.selectedIDs ↔
        (m.multiSelect = true ∧ (toggledIDs m cursors).count x % 2 = 1)) ∧
      ((m.multiSelect = true ∧ m1.selectedIDs ≠ []) →
        m1.updateKeyEnter = some (m1, .Quit) ∧
        SelectTunnels.returned m1 =
          m.tunnels.filter (fun t => decide ((toggledIDs m cursors).count t.ID % 2 = 1))) ∧
      ((m.multiSelect = false ∨ m1.selectedIDs = []) →
        ∀ row id, m1.table.SelectedRow = some row → row.getLast? = some id →
          ∃ m2, m1.updateKeyEnter = some (m2, .Quit) ∧ m2.selectedIDs = [id] ∧
            SelectTunnels.returned m2 = m.tunnels.filter (fun t => decide (t.ID = id))) := by
  have key : ∃ m1, toggleRun m cursors = some m1 ∧ m1.tunnels = m.tunnels ∧
      m1.multiSelect = m.multiSelect ∧ m1.exit = false ∧
      (∀ x, x ∈ m1.selectedIDs ↔
        (m.multiSelect = true ∧ (toggledIDs m cursors).count x % 2 = 1)) := by
    by_cases hm : m.multiSelect = true
    · obtain ⟨m1, h1, _, h3, h4, h5, h6⟩ := toggleRun_multi m hrows cursors m rfl hm
      refine ⟨m1, h1, h3, h4.trans hm.symm, h5.trans hexit, fun x => ?_⟩
      rw [h6 x, h0]
      simp [hm]
    · have hm2 : m.multiSelect = false := by simpa using hm
      obtain ⟨m1, h1, _, h3, h4, h5, h6⟩ := toggleRun_single cursors m hm2
      refine ⟨m1, h1, h3, h4.trans hm2.symm, h5.trans hexit, fun x => ?_⟩
      rw [h6, h0]
      simp [hm2]
  obtain ⟨m1, h1, ht, hms, hex, hmem⟩ := key
  refine ⟨m1, h1, hmem, ?_, ?_⟩
  · rintro ⟨hm, hne⟩
    refine ⟨updateKeyEnter_multi m1 (hms.trans hm) hne, ?_⟩
    unfold SelectTunnels.returned
    rw [if_neg (by simp [hex]), ht]
    apply List.filter_congr
    intro t _
    have := hmem t.ID
    simp only [hm, true_and] at this
    simp only [decide_eq_decide]
    exact this
  · intro h row id hsel hid
    have hempty : m1.selectedIDs = [] := by
      rcases h with h | h
      · apply List.eq_nil_iff_forall_not_mem.mpr
        intro x hx
        have := (hmem x).mp hx
        simp [h] at this
      · exact h
    refine ⟨_, updateKeyEnter_one m1 row id (Or.inr hempty) hsel hid, ?_, ?_⟩
    · simp [hempty, mapSet]
    · unfold SelectTunnels.returned
      simp only [hex, Bool.false_eq_true, if_false, ht, hempty, mapSet, List.not_mem_nil,
        List.nil_append, List.mem_singleton]

/-- C11: in a running tunnel picker in Browse whose selected set is empty, after
`tunnelModel.Update` has handled the toggle key (the key whose text is a blank)
on any rows, an ID is in the selected set exactly when the picker is in
multi-select mode and the key was pressed on that ID an odd number of times; if
the picker is in multi-select mode and that set is not empty, `Update` on enter
leaves it as it is and quits, and `SelectTunnels` returns the session's tunnels
with an ID in it, in list order; otherwise `Update` on enter makes the
highlighted row's ID the one member of the set and quits, and `SelectTunnels`
returns the session's tunnels with that ID. -/
theorem C11_confirm_commits (L : GoLib) (st : settings.State) (f : tunnel.TunnelFile)
    (uuid now : GoString) (m : tunnelModel) (cursors : List Int) (kt ke : tea.KeyMsg)
    (hkt : kt.String = str " ") (hke : ke.String = str "enter")
    (hform : m.showingForm = false) (hfilt : m.filtering = false)
    (hrows : ∀ row ∈ m.table.rows, row ≠ []) (h0 : m.selectedIDs = [])
    (hexit : m.exit = false) :
    ∃ m1, toggleKeys L st f uuid now kt m cursors = some m1 ∧
      (∀ x, x ∈ m1.selectedIDs ↔
        (m.multiSelect = true ∧ (toggledIDs m cursors).count x % 2 = 1)) ∧
      ((m.multiSelect = true ∧ m1.selectedIDs ≠ []) →
        m1.Update L st f uuid now (.KeyMsg ke) = some (m1, .Quit, st, f) ∧
        SelectTunnels.returned m1 =
          m.tunnels.filter (fun t => decide ((toggledIDs m cursors).count t.ID % 2 = 1))) ∧
      ((m.multiSelect = false ∨ m1.selectedIDs = []) →
        ∀ row id, m1.table.SelectedRow = some row → row.getLast? = some id →
          ∃ m2, m1.Update L st f uuid now (.KeyMsg ke) = some (m2, .Quit, st, f) ∧
            m2.selectedIDs = [id] ∧
            SelectTunnels.returned m2 = m.tunnels.filter (fun t => decide (t.ID = id))) := by
  obtain ⟨m1, h1, h2, h3, h4⟩ := confirm_after_toggles m cursors hrows h0 hexit
  have hfl := toggleRun_flags cursors m m1 h1
  have hen := tunnelModel_Update_enter L m1 st f uuid now ke hke (hfl.1.trans hform)
    (hfl.2.trans hfilt)
  refine ⟨m1, ?_, h2, fun hc => ?_, fun hc row id hsel hid => ?_⟩
  · rw [toggleKeys_eq_toggleRun L st f uuid now kt hkt cursors m hform hfilt, h1]
  · obtain ⟨h5, h6⟩ := h3 hc
    refine ⟨?_, h6⟩
    rw [hen, h5]
    rfl
  · obtain ⟨m2, h5, h6, h7⟩ := h4 hc row id hsel hid
    refine ⟨m2, ?_, h6, h7⟩
    rw [hen, h5]
    rfl

/-- The multi-select picker over two tunnels: the toggle key on the first row,
on the second and on the first again leaves the second tunnel selected, and
enter commits it. -/
theorem C11_confirm_commits_witness :
    (toggledIDs multiSession [0, 1, 0] = [str "id-a", str "id-b", str "id-a"]) ∧
    (toggleKeys asciiLib settings.freshState tunnelStore [] [] spaceKey multiSession
        [0, 1, 0]).map (fun m1 => m1.selectedIDs) = some [str "id-b"] ∧
    ∃ m1, toggleKeys asciiLib settings.freshState tunnelStore [] [] spaceKey multiSession
        [0, 1, 0] = some m1 ∧
      (∀ x, x ∈ m1.selectedIDs ↔
        (multiSession.multiSelect = true ∧ (toggledIDs multiSession [0, 1, 0]).count x % 2 = 1)) ∧
      ((multiSession.multiSelect = true ∧ m1.selectedIDs ≠ []) →
        m1.Update asciiLib settings.freshState tunnelStore [] [] (.KeyMsg enterKey)
          = some (m1, .Quit, settings.freshState, tunnelStore) ∧
        SelectTunnels.returned m1 =
          multiSession.tunnels.filter
            (fun t => decide ((toggledIDs multiSession [0, 1, 0]).count t.ID % 2 = 1))) ∧
      ((multiSession.multiSelect = false ∨ m1.selectedIDs = []) →
        ∀ row id, m1.table.SelectedRow = some row → row.getLast? = some id →
          ∃ m2, m1.Update asciiLib settings.freshState tunnelStore [] [] (.KeyMsg enterKey)
              = some (m2, .Quit, settings.freshState, tunnelStore) ∧
            m2.selectedIDs = [id] ∧
            SelectTunnels.returned m2 =
              multiSession.tunnels.filter (fun t => decide (t.ID = id))) :=
  ⟨by decide, by decide,
    C11_confirm_commits asciiLib settings.freshState tunnelStore [] [] multiSession [0, 1, 0]
      spaceKey enterKey (by decide) (by decide) (by decide) (by decide) (by decide) (by decide)
      (by decide)⟩

/-- C12: when `tunnelModel.Update` handles one of the keys `q`, `ctrl+c` and
`esc` in a tunnel picker in Browse (the form closed, not filtering), it sets the
exit flag and issues quit, whatever the selected set holds; the program ends
there, and `SelectTunnels` returns no tunnels for that final model. -/
theorem C12_quit_returns_nothing (L : GoLib) (m : tunnelModel) (st : settings.State)
    (f : tunnel.TunnelFile) (uuid now : GoString) (k : tea.KeyMsg)
    (hk : k.String = str "q" ∨ k.String = str "ctrl+c" ∨ k.String = str "esc")
    (hform : m.showingForm = false) (hf : m.filtering = false) :
    m.Update L st f uuid now (.KeyMsg k) = some ({ m with exit := true }, .Quit, st, f) ∧
    (∀ rest, tunnelModel.run L uuid now m st f (.KeyMsg k :: rest)
      = some ({ m with exit := true }, st, f, true)) ∧
    SelectTunnels.returned { m with exit := true } = [] := by
  have h : m.Update L st f uuid now (.KeyMsg k)
      = some ({ m with exit := true }, .Quit, st, f) := by
    have hq : m.updateKeyQuit L = some ({ m with exit := true }, .Quit) := by
      unfold tunnelModel.updateKeyQuit
      rw [if_neg (by simp [hf])]
    rw [tunnelModel_Update_browse L m st f uuid now k hform hf]
    rcases hk with hk | hk | hk
    · rw [hk, if_neg (by decide), if_neg (by decide), if_neg (by decide), if_neg (by decide),
        if_neg (by decide), if_neg (by decide), if_pos (by decide), hq]
      rfl
    · rw [hk, if_neg (by decide), if_neg (by decide), if_neg (by decide), if_neg (by decide),
        if_neg (by decide), if_neg (by decide), if_pos (by decide), hq]
      rfl
    · rw [hk, if_neg (by decide), if_neg (by decide), if_neg (by decide), if_neg (by decide),
        if_neg (by decide), if_neg (by decide), if_pos (by decide), hq]
      rfl
  refine ⟨h, fun rest => ?_, by simp [SelectTunnels.returned]⟩
  rw [tunnelModel.run, h]
  rfl

/-- The picker with the first tunnel toggled into the selected set, quit with
`q`, with ctrl+c and with esc. -/
theorem C12_quit_returns_nothing_witness :
    toggledSession.selectedIDs = [str "id-a"] ∧
    (toggledSession.Update asciiLib settings.freshState tunnelStore [] []
        (.KeyMsg (tea.keyRune 'q'))
      = some ({ toggledSession with exit := true }, .Quit, settings.freshState, tunnelStore) ∧
    (∀ rest, tunnelModel.run asciiLib [] [] toggledSession settings.freshState tunnelStore
        (.KeyMsg (tea.keyRune 'q') :: rest)
      = some ({ toggledSession with exit := true }, settings.freshState, tunnelStore, true)) ∧
    SelectTunnels.returned { toggledSession with exit := true } = []) ∧
    (toggledSession.Update asciiLib settings.freshState tunnelStore [] [] (.KeyMsg ctrlC)).map
        (fun r => (r.1.exit, r.2.1)) = some (true, .Quit) ∧
    (toggledSession.Update asciiLib settings.freshState tunnelStore [] [] (.KeyMsg escKey)).map
        (fun r => (r.1.exit, r.2.1)) = some (true, .Quit) :=
  ⟨by decide,
    C12_quit_returns_nothing asciiLib toggledSession settings.freshState tunnelStore [] []
      (tea.keyRune 'q') (Or.inl (by decide)) (by decide) (by decide),
    by decide, by decide⟩

end interactive

namespace interactive

/-- C20: on a store file that can be read and written, `Delete` of an ID that is
stored writes exactly the stored records with another ID, in their order, and
the file then holds them as JSON text gives them back, which for records that
were read from the file is as they are: the remaining records are unchanged; on
a store file that can be read, `Delete` of an ID that no stored record has
returns the not-found error and leaves the store as it is; and when the delete
of the highlighted tunnel fails in the tunnel picker, the handler returns the
session as it was, without a command. -/
theorem C20_delete (L : GoLib) (m : tunnelModel) (f : tunnel.TunnelFile) (id : GoString)
    (hl : f.loadError = none) :
    (f.saveError = none → (∃ t ∈ f.tunnels, t.ID = id) →
      tunnel.Delete f id =
          (.ok (), { f with tunnels :=
            (f.tunnels.filter (fun t => decide (t.ID ≠ id))).map tunnel.Tunnel.roundTrip }) ∧
        (tunnel.asRead f.tunnels →
          tunnel.Delete f id =
            (.ok (), { f with tunnels := f.tunnels.filter (fun t => decide (t.ID ≠ id)) }))) ∧
    ((∀ t ∈ f.tunnels, t.ID ≠ id) →
      tunnel.Delete f id = (.error (str "tunnel not found: " ++ id), f)) ∧
    (∀ row e, m.table.SelectedRow = some row → row.getLast? = some id →
      (tunnel.Delete f id).1 = .error e → m.updateKeyD L f = some (m, .nil, f)) :=
  ⟨fun hs h => ⟨tunnel.Delete_found f id hl hs h,
      fun hst => tunnel.Delete_found_asRead f id hl hs h hst⟩,
   fun h => tunnel.Delete_missing f id hl h,
   fun row e hsel hid herr => tunnelModel_updateKeyD_delete_error L m f row id e hsel hid herr⟩

theorem C20_delete_witness :
    tunnel.Delete tunnelStore (str "id-a") =
      (.ok (), { tunnelStore with tunnels :=
        tunnelStore.tunnels.filter (fun t => decide (t.ID ≠ str "id-a")) }) ∧
    tunnelStore.tunnels.filter (fun t => decide (t.ID ≠ str "id-a")) = [webStored] ∧
    tunnel.Delete otherStore (str "id-a") =
      (.error (str "tunnel not found: " ++ str "id-a"), otherStore) ∧
    tunnelSession.updateKeyD asciiLib otherStore = some (tunnelSession, .nil, otherStore) :=
  ⟨((C20_delete asciiLib tunnelSession tunnelStore (str "id-a") rfl).1 rfl
      ⟨dbStored, by decide, by decide⟩).2 (by decide),
   by decide,
   (C20_delete asciiLib tunnelSession otherStore (str "id-a") rfl).2.1 (by decide),
   (C20_delete asciiLib tunnelSession otherStore (str "id-a") rfl).2.2 dbRow
      (str "tunnel not found: " ++ str "id-a") (by decide) (by decide) (by decide)⟩

end interactive
/-! ## The tunnel form (tunnel_form.go) -/

namespace interactive

theorem store_eq (m : tunnelFormModel) (f : tunnel.TunnelFile) (uuid now : GoString)
    (tunnelType : GoString) (localPort remotePort : Int)
    (i0 i1 i2 i3 i4 i5 i6 : formInput) (h : m.inputs = [i0, i1, i2, i3, i4, i5, i6]) :
    m.store f uuid now tunnelType localPort remotePort =
      some (
        match (match m.editing, m.tunnel with
          | true, some old =>
            tunnel.Update f
              { Name := i0.value, Type_ := tunnelType, LocalPort := localPort,
                RemoteHost := i3.value, RemotePort := remotePort, BindAddress := i5.value,
                Description := i6.value, ID := old.ID, CreatedAt := old.CreatedAt }
          | _, _ =>
            tunnel.Create f uuid now
              { Name := i0.value, Type_ := tunnelType, LocalPort := localPort,
                RemoteHost := i3.value, RemotePort := remotePort, BindAddress := i5.value,
                Description := i6.value }) with
        | (.error err, f1) => ({ m with err := err }, tea.Cmd.nil, f1)
        | (.ok (), f1) => ({ m with submitted := true }, tea.Cmd.Quit, f1)) := by
  unfold tunnelFormModel.store
  simp only [tunnelFormModel.valueAt, h, inputName, inputRemoteHost, inputBindAddress,
    inputDescription, List.get?, Option.map_some', Option.bind_eq_bind, Option.some_bind]
  have key : ∀ r : Except GoString Unit × tunnel.TunnelFile,
      (match r with
        | (.error err, f1) =>
          (pure ({ m with err := err }, tea.Cmd.nil, f1) :
            Option (tunnelFormModel × tea.Cmd × tunnel.TunnelFile))
        | (.ok (), f1) => pure ({ m with submitted := true }, tea.Cmd.Quit, f1))
      = some (match r with
        | (.error err, f1) => ({ m with err := err }, tea.Cmd.nil, f1)
        | (.ok (), f1) => ({ m with submitted := true }, tea.Cmd.Quit, f1)) := by
    rintro ⟨(e | u), f1⟩ <;> rfl
  first
    | exact key _
    | (rw [← h]; exact key _)

end interactive

namespace interactive

theorem isPortText_eq (s : GoString) :
    isPortText s = true ↔ ∃ v, strconv.Atoi s = some v ∧ ¬ (v < 1 ∨ v > 65535) := by
  unfold isPortText
  cases strconv.Atoi s with
  | none => simp
  | some v =>
    simp only [decide_eq_true_eq, Option.some.injEq, exists_eq_left']
    constructor
    · intro h; omega
    · intro h; omega

theorem submit_failure (m : tunnelFormModel) (f : tunnel.TunnelFile) (uuid now : GoString)
    (i0 i1 i2 i3 i4 i5 i6 : formInput) (h : m.inputs = [i0, i1, i2, i3, i4, i5, i6])
    (msg : GoString)
    (hmsg : firstFailure i0.value i1.value i2.value i3.value i4.value = some msg) :
    m.submit f uuid now = some ({ m with err := msg }, .nil, f) := by
  unfold firstFailure formRules at hmsg
  unfold tunnelFormModel.submit
  simp only [tunnelFormModel.valueAt, h, inputName, inputType, inputLocalPort, inputRemoteHost,
    inputRemotePort, List.get?, Option.map_some', Option.bind_eq_bind, Option.some_bind]
  by_cases hn : i0.value = []
  · simp [hn] at hmsg
    simp [hn, ← hmsg]
  · rw [if_neg hn]
    by_cases ht : i1.value ≠ str "local" ∧ i1.value ≠ str "remote" ∧ i1.value ≠ str "dynamic"
    · have ht2 : ¬ (i1.value = str "local" ∨ i1.value = str "remote" ∨ i1.value = str "dynamic") := by
        tauto
      simp [hn, ht2] at hmsg
      simp [ht, ← hmsg]
    · rw [if_neg ht]
      have ht2 : i1.value = str "local" ∨ i1.value = str "remote" ∨ i1.value = str "dynamic" := by
        tauto
      by_cases hl : i2.value = []
      · simp [hn, ht2, hl] at hmsg
        simp [hl, ← hmsg]
      · rw [if_neg hl]
        by_cases hp : isPortText i2.value = true
        · obtain ⟨lp, hlp, hrange⟩ := (isPortText_eq _).mp hp
          simp only [hlp, if_neg hrange]
          by_cases hk : i1.value = str "local" ∨ i1.value = str "remote"
          · rw [if_pos hk]
            by_cases hh : i3.value = []
            · simp [hn, ht2, hl, hp, hk, hh] at hmsg
              simp [hh, ← hmsg]
            · rw [if_neg hh]
              by_cases hr : i4.value = []
              · simp [hn, ht2, hl, hp, hk, hh, hr] at hmsg
                simp [hr, ← hmsg]
              · rw [if_neg hr]
                by_cases hq : isPortText i4.value = true
                · simp [hn, ht2, hl, hp, hk, hh, hr, hq] at hmsg
                · simp [hn, ht2, hl, hp, hk, hh, hr, hq] at hmsg
                  cases hrp : strconv.Atoi i4.value with
                  | none => simp [← hmsg]
                  | some rp =>
                    have hbad : rp < 1 ∨ rp > 65535 := by
                      by_contra hc
                      exact hq ((isPortText_eq _).mpr ⟨rp, hrp, hc⟩)
                    simp [hbad, ← hmsg]
          · simp [hn, ht2, hl, hp, hk] at hmsg
        · simp [hn, ht2, hl, hp] at hmsg
          cases hlp : strconv.Atoi i2.value with
          | none => simp [← hmsg]
          | some lp =>
            have hbad : lp < 1 ∨ lp > 65535 := by
              by_contra hc
              exact hp ((isPortText_eq _).mpr ⟨lp, hlp, hc⟩)
            simp [hbad, ← hmsg]

end interactive

namespace interactive

theorem submit_success (m : tunnelFormModel) (f : tunnel.TunnelFile) (uuid now : GoString)
    (i0 i1 i2 i3 i4 i5 i6 : formInput) (h : m.inputs = [i0, i1, i2, i3, i4, i5, i6])
    (hok : firstFailure i0.value i1.value i2.value i3.value i4.value = none) :
    ∃ localPort remotePort, strconv.Atoi i2.value = some localPort ∧
      ((i1.value = str "local" ∨ i1.value = str "remote") →
        strconv.Atoi i4.value = some remotePort) ∧
      (¬ (i1.value = str "local" ∨ i1.value = str "remote") → remotePort = 0) ∧
      m.submit f uuid now = m.store f uuid now i1.value localPort remotePort := by
  unfold firstFailure formRules at hok
  unfold tunnelFormModel.submit
  simp only [tunnelFormModel.valueAt, h, inputName, inputType, inputLocalPort, inputRemoteHost,
    inputRemotePort, List.get?, Option.map_some', Option.bind_eq_bind, Option.some_bind]
  by_cases hn : i0.value = []
  · simp [hn] at hok
  by_cases ht2 : i1.value = str "local" ∨ i1.value = str "remote" ∨ i1.value = str "dynamic"
  swap
  · simp [hn, ht2] at hok
  by_cases hl : i2.value = []
  · simp [hn, ht2, hl] at hok
  by_cases hp : isPortText i2.value = true
  swap
  · simp [hn, ht2, hl, hp] at hok
  have ht : ¬ (i1.value ≠ str "local" ∧ i1.value ≠ str "remote" ∧ i1.value ≠ str "dynamic") := by
    tauto
  obtain ⟨lp, hlp, hrange⟩ := (isPortText_eq _).mp hp
  rw [if_neg hn, if_neg ht, if_neg hl]
  simp only [hlp, if_neg hrange]
  by_cases hk : i1.value = str "local" ∨ i1.value = str "remote"
  · rw [if_pos hk]
    by_cases hh : i3.value = []
    · simp [hn, ht2, hl, hp, hk, hh] at hok
    by_cases hr : i4.value = []
    · simp [hn, ht2, hl, hp, hk, hh, hr] at hok
    by_cases hq : isPortText i4.value = true
    swap
    · simp [hn, ht2, hl, hp, hk, hh, hr, hq] at hok
    obtain ⟨rp, hrp, hrrange⟩ := (isPortText_eq _).mp hq
    refine ⟨lp, rp, rfl, fun _ => hrp, fun hc => absurd hk hc, ?_⟩
    simp only [hrp, if_neg hh, if_neg hr, if_neg hrrange, Option.some_bind]
  · rw [if_neg hk]
    exact ⟨lp, 0, rfl, fun hc => absurd hc hk, fun _ => rfl, rfl⟩

/-- C14: for a form with its seven inputs, when a rule of the specification's
list fails, `submit` sets the error to the message of the first rule that fails
and returns no command, and the submitted flag and the store are as before; when
no rule fails, the ports are read as integers (the remote port is 0 for a dynamic
forwarding) and `submit` ends as the store call ends: `Update` when a tunnel is
being edited, `Create` otherwise. -/
theorem C14_submit_validation (m : tunnelFormModel) (f : tunnel.TunnelFile)
    (uuid now : GoString) (i0 i1 i2 i3 i4 i5 i6 : formInput)
    (h : m.inputs = [i0, i1, i2, i3, i4, i5, i6]) :
    (∀ msg, firstFailure i0.value i1.value i2.value i3.value i4.value = some msg →
      m.submit f uuid now = some ({ m with err := msg }, .nil, f)) ∧
    (firstFailure i0.value i1.value i2.value i3.value i4.value = none →
      ∃ localPort remotePort, strconv.Atoi i2.value = some localPort ∧
        ((i1.value = str "local" ∨ i1.value = str "remote") →
          strconv.Atoi i4.value = some remotePort) ∧
        (¬ (i1.value = str "local" ∨ i1.value = str "remote") → remotePort = 0) ∧
        m.submit f uuid now =
          some (
            match (match m.editing, m.tunnel with
              | true, some old =>
                tunnel.Update f
                  { Name := i0.value, Type_ := i1.value, LocalPort := localPort,
                    RemoteHost := i3.value, RemotePort := remotePort, BindAddress := i5.value,
                    Description := i6.value, ID := old.ID, CreatedAt := old.CreatedAt }
              | _, _ =>
                tunnel.Create f uuid now
                  { Name := i0.value, Type_ := i1.value, LocalPort := localPort,
                    RemoteHost := i3.value, RemotePort := remotePort, BindAddress := i5.value,
                    Description := i6.value }) with
            | (.error err, f1) => ({ m with err := err }, tea.Cmd.nil, f1)
            | (.ok (), f1) => ({ m with submitted := true }, tea.Cmd.Quit, f1))) := by
  refine ⟨fun msg hmsg => submit_failure m f uuid now i0 i1 i2 i3 i4 i5 i6 h msg hmsg,
    fun hok => ?_⟩
  obtain ⟨lp, rp, h1, h2, h3, h4⟩ := submit_success m f uuid now i0 i1 i2 i3 i4 i5 i6 h hok
  exact ⟨lp, rp, h1, h2, h3, h4.trans (store_eq m f uuid now i1.value lp rp i0 i1 i2 i3 i4 i5 i6 h)⟩

end interactive

namespace interactive

theorem form_Update_submit (form : tunnelFormModel) (f : tunnel.TunnelFile)
    (uuid now : GoString) (k : tea.KeyMsg) (hk : k.String = str "ctrl+s") :
    form.Update f uuid now (.KeyMsg k) = form.submit f uuid now := by
  unfold tunnelFormModel.Update
  simp only [hk]
  rw [if_neg (by decide), if_neg (by decide), if_neg (by decide), if_neg (by decide)]
  exact if_pos trivial

theorem form_Update_cancel (form : tunnelFormModel) (f : tunnel.TunnelFile)
    (uuid now : GoString) (k : tea.KeyMsg)
    (hk : k.String = str "esc" ∨ k.String = str "ctrl+c") :
    form.Update f uuid now (.KeyMsg k) = some ({ form with cancelled := true }, .Quit, f) := by
  unfold tunnelFormModel.Update
  simp only
  rw [if_pos (by tauto)]

theorem submit_cases (form : tunnelFormModel) (f : tunnel.TunnelFile) (uuid now : GoString)
    (i0 i1 i2 i3 i4 i5 i6 : formInput) (h : form.inputs = [i0, i1, i2, i3, i4, i5, i6]) :
    (∃ e, form.submit f uuid now = some ({ form with err := e }, .nil, f)) ∨
    (∃ f1, form.submit f uuid now = some ({ form with submitted := true }, .Quit, f1)) := by
  cases hff : firstFailure i0.value i1.value i2.value i3.value i4.value with
  | some msg => exact Or.inl ⟨msg, submit_failure form f uuid now i0 i1 i2 i3 i4 i5 i6 h msg hff⟩
  | none =>
    obtain ⟨lp, rp, _, _, _, h4⟩ := submit_success form f uuid now i0 i1 i2 i3 i4 i5 i6 h hff
    rw [h4, store_eq form f uuid now i1.value lp rp i0 i1 i2 i3 i4 i5 i6 h]
    generalize hr : (match form.editing, form.tunnel with
        | true, some old => tunnel.Update f _
        | _, _ => tunnel.Create f uuid now _) = r
    have hunch : ∀ e, r.1 = .error e → r.2 = f := by
      intro e he
      subst hr
      revert he
      cases form.editing <;> cases form.tunnel <;> intro he <;>
        first
        | exact tunnel.Update_error_unchanged f _ e he
        | exact tunnel.Create_error_unchanged f uuid now _ e he
    rcases r with ⟨res, f1⟩
    cases res with
    | error e =>
      have := hunch e rfl
      simp only at this
      subst this
      exact Or.inl ⟨e, rfl⟩
    | ok u => exact Or.inr ⟨f1, rfl⟩

end interactive

namespace interactive

theorem updateForm_submitted (L : GoLib) (m : tunnelModel) (form : tunnelFormModel)
    (f f1 : tunnel.TunnelFile) (uuid now : GoString) (msg : tea.Msg) (cmd : tea.Cmd)
    (hform : m.formModel = some form)
    (hup : form.Update f uuid now msg = some ({ form with submitted := true }, cmd, f1)) :
    m.updateForm L f uuid now msg =
      match tunnel.FetchAll f1 with
      | .ok ts =>
        (m.table.SetRows L (tunnelsToRows ts)).map (fun t =>
          ({ m with showingForm := false, formModel := none, tunnels := ts,
                    allRows := tunnelsToRows ts, filteredRows := tunnelsToRows ts, table := t },
            cmd, f1))
      | .error _ => some ({ m with showingForm := false, formModel := none }, cmd, f1) := by
  unfold tunnelModel.updateForm
  simp only [hform, hup, true_or, if_true]
  cases hfa : tunnel.FetchAll f1 with
  | error e => rfl
  | ok ts0 =>
    simp only [Option.map_map]
    rfl

theorem updateForm_pending (L : GoLib) (m : tunnelModel) (form form1 : tunnelFormModel)
    (f f1 : tunnel.TunnelFile) (uuid now : GoString) (msg : tea.Msg) (cmd : tea.Cmd)
    (hform : m.formModel = some form)
    (hup : form.Update f uuid now msg = some (form1, cmd, f1))
    (hs : form1.submitted = false) (hc : form1.cancelled = false) :
    m.updateForm L f uuid now msg = some ({ m with formModel := some form1 }, cmd, f1) := by
  unfold tunnelModel.updateForm
  simp only [hform, hup, hs, hc, Bool.false_eq_true, or_self, if_false]

theorem updateForm_cancelled (L : GoLib) (m : tunnelModel) (form : tunnelFormModel)
    (f : tunnel.TunnelFile) (uuid now : GoString) (k : tea.KeyMsg)
    (hform : m.formModel = some form) (hs : form.submitted = false)
    (hk : k.String = str "esc" ∨ k.String = str "ctrl+c") :
    m.updateForm L f uuid now (.KeyMsg k) =
      some ({ m with showingForm := false, formModel := none }, .Quit, f) := by
  unfold tunnelModel.updateForm
  simp only [hform, form_Update_cancel form f uuid now k hk, hs, Bool.false_eq_true, or_true,
    if_true, if_false, Option.map_some']

/-- C15: with the form open on its seven inputs, `tunnelModel.Update` on ctrl+s
runs `submit`.  When `submit` marks the form submitted (the inputs were valid
and the store accepted the tunnel), the tunnels that `FetchAll` returns and
their rows are handed to the table: `Update` panics when the table, rendering
them, reads a column that it does not have, and otherwise returns with the form
closed and the rows, all and filtered and the table's, those of the tunnels, but
with the command quit, so the program ends; it does not go on in Browse.  When
`submit` does not mark it submitted, the error message is set, the store and the
session apart from the form are as before, the form stays open, and no command
is returned. -/
theorem C15_submit_in_form (L : GoLib) (m : tunnelModel) (form : tunnelFormModel)
    (st : settings.State) (f : tunnel.TunnelFile) (uuid now : GoString) (k : tea.KeyMsg)
    (i0 i1 i2 i3 i4 i5 i6 : formInput) (hshow : m.showingForm = true)
    (hform : m.formModel = some form) (hin : form.inputs = [i0, i1, i2, i3, i4, i5, i6])
    (hs : form.submitted = false) (hc : form.cancelled = false)
    (hk : k.String = str "ctrl+s") :
    ∃ form1 cmd f1, form.submit f uuid now = some (form1, cmd, f1) ∧
      (form1.submitted = true →
        (∀ ts, tunnel.FetchAll f1 = .ok ts →
          m.Update L st f uuid now (.KeyMsg k) =
            (m.table.SetRows L (tunnelsToRows ts)).map (fun t =>
              ({ m with
                  showingForm := false, formModel := none, tunnels := ts,
                  allRows := tunnelsToRows ts, filteredRows := tunnelsToRows ts, table := t },
                .Quit, st, f1))) ∧
        (∀ e, tunnel.FetchAll f1 = .error e →
          m.Update L st f uuid now (.KeyMsg k) =
            some ({ m with showingForm := false, formModel := none }, .Quit, st, f1))) ∧
      (form1.submitted = false →
        ∃ e, form1 = { form with err := e } ∧ f1 = f ∧
          m.Update L st f uuid now (.KeyMsg k) =
            some ({ m with formModel := some form1 }, .nil, st, f)) := by
  have hupd := form_Update_submit form f uuid now k hk
  have hU : m.Update L st f uuid now (.KeyMsg k)
      = (m.updateForm L f uuid now (.KeyMsg k)).map (fun r => (r.1, r.2.1, st, r.2.2)) := by
    unfold tunnelModel.Update
    rw [if_pos ⟨hshow, by simp [hform]⟩]
  rcases submit_cases form f uuid now i0 i1 i2 i3 i4 i5 i6 hin with ⟨e, he⟩ | ⟨f1, hf1⟩
  · refine ⟨_, _, _, he, fun hsub => ?_, fun _ => ⟨e, rfl, rfl, ?_⟩⟩
    · simp [hs] at hsub
    · rw [hU, updateForm_pending L m form _ f f uuid now _ _ hform (hupd.trans he) hs hc]
      rfl
  · have hsubm := updateForm_submitted L m form f f1 uuid now _ _ hform (hupd.trans hf1)
    refine ⟨_, _, _, hf1, fun _ => ⟨fun ts hts => ?_, fun e hfe => ?_⟩, fun hsub => ?_⟩
    · rw [hU, hsubm, hts]
      simp only [Option.map_map]
      rfl
    · rw [hU, hsubm, hfe]
      rfl
    · simp at hsub

/-- The picker that `SelectTunnels` starts on the empty store, after the form was
opened with `n` and filled in for the tunnel `socks`: ctrl+s stores the tunnel
and `Update` panics, the table rendering the row of six cells over five columns;
so does the same session after a resize to 80 by 24.  On the picker with the
form for `cache` open, whose table renders no row, ctrl+s returns quit with the
tunnels of the store as the rows; with the form for a second `db` it sets the
error and stays in the form. -/
theorem C15_submit_in_form_witness :
    ((SelectTunnels.initial false []).bind (fun m0 =>
        tunnelModel.run asciiLib (str "id-s") (str "2024-05-01T10:00:00Z") m0
          settings.freshState emptyStore socksKeys)).bind
        (fun r => r.1.formModel.bind (fun form =>
          (form.submit r.2.2.1 (str "id-s") (str "2024-05-01T10:00:00Z")).map
            (fun s => (r.1.showingForm, r.2.2.2, s.1.submitted, s.2.1, s.2.2.tunnels))))
      = some (true, false, true, .Quit, [socksStored]) ∧
    (SelectTunnels.initial false []).bind (fun m0 =>
        tunnelModel.run asciiLib (str "id-s") (str "2024-05-01T10:00:00Z") m0
          settings.freshState emptyStore (socksKeys ++ [.KeyMsg ctrlS])) = none ∧
    (SelectTunnels.initial false []).bind (fun m0 =>
        tunnelModel.run asciiLib (str "id-s") (str "2024-05-01T10:00:00Z") m0
          settings.freshState emptyStore
          (.WindowSizeMsg 80 24 :: socksKeys ++ [.KeyMsg ctrlS])) = none ∧
    (formSession.Update asciiLib settings.freshState tunnelStore (str "id-c")
        (str "2024-05-01T10:00:00Z") (.KeyMsg ctrlS)).map
        (fun r => (r.2.1, r.1.showingForm, r.1.exit, r.1.tunnels, r.2.2.2.tunnels)) =
      some (.Quit, false, false, [cacheStored, dbStored, webStored],
        [dbStored, webStored, cacheStored]) ∧
    (dbFormSession.Update asciiLib settings.freshState tunnelStore (str "id-c")
        (str "2024-05-01T10:00:00Z") (.KeyMsg ctrlS)).map
        (fun r => (r.2.1, r.1.showingForm, r.1.tunnels,
          r.1.formModel.map (fun form => form.err))) =
      some (.nil, true, [dbStored, webStored],
        some (str "tunnel with name 'db' already exists")) ∧
    ∃ form1 cmd f1, cacheForm.submit tunnelStore (str "id-c") (str "2024-05-01T10:00:00Z") =
        some (form1, cmd, f1) ∧
      (form1.submitted = true →
        (∀ ts, tunnel.FetchAll f1 = .ok ts →
          formSession.Update asciiLib settings.freshState tunnelStore (str "id-c")
              (str "2024-05-01T10:00:00Z") (.KeyMsg ctrlS) =
            (formSession.table.SetRows asciiLib (tunnelsToRows ts)).map (fun t =>
              ({ formSession with
                  showingForm := false, formModel := none, tunnels := ts,
                  allRows := tunnelsToRows ts, filteredRows := tunnelsToRows ts, table := t },
                .Quit, settings.freshState, f1))) ∧
        (∀ e, tunnel.FetchAll f1 = .error e →
          formSession.Update asciiLib settings.freshState tunnelStore (str "id-c")
              (str "2024-05-01T10:00:00Z") (.KeyMsg ctrlS) =
            some ({ formSession with showingForm := false, formModel := none }, .Quit,
              settings.freshState, f1))) ∧
      (form1.submitted = false →
        ∃ e, form1 = { cacheForm with err := e } ∧ f1 = tunnelStore ∧
          formSession.Update asciiLib settings.freshState tunnelStore (str "id-c")
              (str "2024-05-01T10:00:00Z") (.KeyMsg ctrlS) =
            some ({ formSession with formModel := some form1 }, .nil, settings.freshState,
              tunnelStore)) :=
  ⟨by decide, by decide, by decide, by decide, by decide,
    C15_submit_in_form asciiLib formSession cacheForm settings.freshState tunnelStore _ _ ctrlS
      _ _ _ _ _ _ _ rfl rfl rfl rfl rfl (by decide)⟩

/-- C16: with the form open, esc or ctrl+c closes the form and leaves the rows,
the tunnel list, the selected set and the store as they are, but the command
returned is quit, so the program ends. -/
theorem C16_cancel_in_form (L : GoLib) (m : tunnelModel) (form : tunnelFormModel)
    (f : tunnel.TunnelFile) (uuid now : GoString) (k : tea.KeyMsg)
    (hform : m.formModel = some form) (hs : form.submitted = false)
    (hk : k.String = str "esc" ∨ k.String = str "ctrl+c") :
    m.updateForm L f uuid now (.KeyMsg k) =
      some ({ m with showingForm := false, formModel := none }, .Quit, f) :=
  updateForm_cancelled L m form f uuid now k hform hs hk

theorem C16_cancel_in_form_witness :
    formSession.updateForm asciiLib tunnelStore (str "id-c") (str "2024-05-01T10:00:00Z")
        (.KeyMsg escKey) =
      some ({ formSession with showingForm := false, formModel := none }, .Quit, tunnelStore) :=
  C16_cancel_in_form asciiLib formSession cacheForm tunnelStore _ _ escKey rfl rfl
    (Or.inl (by decide))

theorem C14_submit_validation_witness :
    badPortForm.submit tunnelStore (str "id-c") (str "2024-05-01T10:00:00Z") =
      some ({ badPortForm with err := str "Local port must be a number between 1 and 65535" },
        .nil, tunnelStore) ∧
    (cacheForm.submit tunnelStore (str "id-c") (str "2024-05-01T10:00:00Z")).map
      (fun r => (r.1.submitted, r.2.1, r.2.2.tunnels)) =
      some (true, .Quit, [dbStored, webStored, cacheStored]) := by
  have h1 := (C14_submit_validation badPortForm tunnelStore (str "id-c")
    (str "2024-05-01T10:00:00Z") _ _ _ _ _ _ _ rfl).1
    (str "Local port must be a number between 1 and 65535") (by decide)
  have h2 := (C14_submit_validation cacheForm tunnelStore (str "id-c")
    (str "2024-05-01T10:00:00Z") _ _ _ _ _ _ _ rfl).2 (by decide)
  obtain ⟨lp, rp, hlp, hrp, _, hsub⟩ := h2
  obtain rfl : lp = 6379 := by
    have : strconv.Atoi (str "6379") = some 6379 := by decide
    exact (Option.some.inj (hlp.symm.trans this))
  obtain rfl : rp = 6379 := by
    have : strconv.Atoi (str "6379") = some 6379 := by decide
    exact (Option.some.inj ((hrp (Or.inl (by decide))).symm.trans this))
  refine ⟨h1, ?_⟩
  rw [hsub]
  decide

end interactive

/-! ## The order of `FetchAll` (fetch.go) -/

namespace tunnel

theorem stringLess_cons (a b : UInt8) (s t : GoString) :
    stringLess (a :: s) (b :: t) =
      if a.toNat < b.toNat then true else if b.toNat < a.toNat then false else stringLess s t := by
  rw [stringLess]
  rfl

theorem stringLess_irrefl : ∀ a : GoString, stringLess a a = false := by
  intro a
  induction a with
  | nil => rfl
  | cons x s ih => rw [stringLess_cons]; simp [ih]

theorem stringLess_asymm : ∀ a b : GoString, stringLess a b = true → stringLess b a = false := by
  intro a
  induction a with
  | nil => intro b _; cases b <;> rfl
  | cons x s ih =>
    intro b h
    cases b with
    | nil => simp [stringLess] at h
    | cons y t =>
      rw [stringLess_cons] at h ⊢
      split_ifs at h ⊢ with h1 h2 h3 <;> first | rfl | omega | exact ih t h

theorem stringLess_trans : ∀ a b c : GoString, stringLess a b = true → stringLess b c = true →
    stringLess a c = true := by
  intro a
  induction a with
  | nil =>
    intro b c h1 h2
    cases b with
    | nil => simp [stringLess] at h1
    | cons y t =>
      cases c with
      | nil => simp [stringLess] at h2
      | cons z u => rfl
  | cons x s ih =>
    intro b c h1 h2
    cases b with
    | nil => simp [stringLess] at h1
    | cons y t =>
      cases c with
      | nil => simp [stringLess] at h2
      | cons z u =>
        rw [stringLess_cons] at h1 h2 ⊢
        split_ifs at h1 h2 ⊢ with p1 p2 p3 p4 p5 p6 <;>
          first | rfl | omega | exact ih t u h1 h2

theorem stringLess_connex : ∀ a b : GoString, stringLess a b = false → stringLess b a = false →
    a = b := by
  intro a
  induction a with
  | nil =>
    intro b h1 _
    cases b with
    | nil => rfl
    | cons y t => simp [stringLess] at h1
  | cons x s ih =>
    intro b h1 h2
    cases b with
    | nil => simp [stringLess] at h2
    | cons y t =>
      rw [stringLess_cons] at h1 h2
      split_ifs at h1 h2 with p1 p2
      have hxy : x = y := UInt8.ext (by omega)
      rw [hxy, ih t h1 h2]

theorem fetchLess_iff (a b : Tunnel) :
    fetchLess a b = true ↔
      stringLess b.LastUsed a.LastUsed = true ∨
        (a.LastUsed = b.LastUsed ∧ stringLess a.Name b.Name = true) := by
  unfold fetchLess
  by_cases h : a.LastUsed = b.LastUsed
  · simp [h, stringLess_irrefl]
  · simp [h]

theorem fetchLess_total (a b : Tunnel) : fetchLess b a = false ∨ fetchLess a b = false := by
  by_contra hc
  push_neg at hc
  simp only [ne_eq, Bool.not_eq_false] at hc
  obtain ⟨h1, h2⟩ := hc
  rw [fetchLess_iff] at h1 h2
  rcases h1 with h1 | ⟨e1, n1⟩ <;> rcases h2 with h2 | ⟨e2, n2⟩
  · have := stringLess_asymm _ _ h1; simp [h2] at this
  · rw [e2, stringLess_irrefl] at h1; simp at h1
  · rw [e1, stringLess_irrefl] at h2; simp at h2
  · have := stringLess_asymm _ _ n1; simp [n2] at this

theorem fetchLess_trans (a b c : Tunnel) (h1 : fetchLess b a = false)
    (h2 : fetchLess c b = false) : fetchLess c a = false := by
  by_contra hc
  simp only [Bool.not_eq_false] at hc
  rw [fetchLess_iff] at hc
  have n1 : ¬ _ := fun h => by rw [(fetchLess_iff b a).mpr h] at h1; exact absurd h1 (by simp)
  have n2 : ¬ _ := fun h => by rw [(fetchLess_iff c b).mpr h] at h2; exact absurd h2 (by simp)
  push_neg at n1 n2
  obtain ⟨p1, q1⟩ := n1
  obtain ⟨p2, q2⟩ := n2
  simp only [ne_eq, Bool.not_eq_true] at p1 p2 q1 q2
  -- p1 : ¬ a.LU < b.LU ; p2 : ¬ b.LU < c.LU
  by_cases eab : a.LastUsed = b.LastUsed
  · by_cases ebc : b.LastUsed = c.LastUsed
    · rcases hc with hc | ⟨_, hn⟩
      · rw [eab, ebc, stringLess_irrefl] at hc; simp at hc
      · have hbc := q2 ebc.symm
        have hab := q1 eab.symm
        -- ¬ c.Name < b.Name... ; hn : c.Name < a.Name
        by_cases hba : stringLess b.Name a.Name = true
        · simp [hba] at hab
        · simp only [Bool.not_eq_true] at hba
          have : stringLess a.Name b.Name = true ∨ a.Name = b.Name := by
            by_cases h : stringLess a.Name b.Name = true
            · exact Or.inl h
            · exact Or.inr (stringLess_connex _ _ (by simpa using h) hba)
          rcases this with h | h
          · have := stringLess_trans _ _ _ hn h; simp [this] at hbc
          · rw [h] at hn; simp [hn] at hbc
    · rcases hc with hc | ⟨e, _⟩
      · rw [eab] at hc; simp [hc] at p2
      · exact ebc (eab ▸ e.symm)
  · have hba : stringLess b.LastUsed a.LastUsed = true := by
      by_contra h
      exact eab (stringLess_connex _ _ p1 (by simpa using h))
    rcases hc with hc | ⟨e, _⟩
    · have := stringLess_trans _ _ _ hba hc; simp [this] at p2
    · rw [← e] at hba; simp [hba] at p2

theorem insertSorted_perm (x : Tunnel) : ∀ l : List Tunnel, (insertSorted x l).Perm (x :: l) := by
  intro l
  induction l with
  | nil => exact List.Perm.refl _
  | cons y ys ih =>
    rw [insertSorted]
    split_ifs
    · exact ((List.Perm.cons y ih).trans (List.Perm.swap x y ys))
    · exact List.Perm.refl _

theorem sortTunnels_perm : ∀ l : List Tunnel, (sortTunnels l).Perm l := by
  intro l
  induction l with
  | nil => exact List.Perm.refl _
  | cons x xs ih =>
    have : sortTunnels (x :: xs) = insertSorted x (sortTunnels xs) := rfl
    rw [this]
    exact (insertSorted_perm x _).trans (List.Perm.cons x ih)

theorem insertSorted_pairwise (x : Tunnel) : ∀ l : List Tunnel,
    l.Pairwise (fun a b => fetchLess b a = false) →
      (insertSorted x l).Pairwise (fun a b => fetchLess b a = false) := by
  intro l
  induction l with
  | nil => intro _; simp [insertSorted]
  | cons y ys ih =>
    intro h
    rw [insertSorted]
    obtain ⟨hy, hys⟩ := List.pairwise_cons.mp h
    split_ifs with hlt
    · refine List.pairwise_cons.mpr ⟨?_, ih hys⟩
      intro z hz
      rcases (List.mem_cons.mp ((insertSorted_perm x ys).mem_iff.mp hz)) with rfl | hz
      · rcases fetchLess_total y z with h1 | h1
        · exact h1
        · simp [h1] at hlt
      · exact hy z hz
    · refine List.pairwise_cons.mpr ⟨?_, h⟩
      intro z hz
      have hxy : fetchLess y x = false := by simpa using hlt
      rcases List.mem_cons.mp hz with rfl | hz
      · exact hxy
      · exact fetchLess_trans x y z hxy (hy z hz)

theorem sortTunnels_pairwise : ∀ l : List Tunnel,
    (sortTunnels l).Pairwise (fun a b => fetchLess b a = false) := by
  intro l
  induction l with
  | nil => exact List.Pairwise.nil
  | cons x xs ih =>
    have : sortTunnels (x :: xs) = insertSorted x (sortTunnels xs) := rfl
    rw [this]
    exact insertSorted_pairwise x _ ih

theorem fetchOrdered_of_not_less (a b : Tunnel) (h : fetchLess b a = false) :
    fetchOrdered a b ∧ (a.LastUsed = [] → b.LastUsed = []) := by
  have n1 : ¬ _ := fun hh => by rw [(fetchLess_iff b a).mpr hh] at h; exact absurd h (by simp)
  push_neg at n1
  obtain ⟨p, q⟩ := n1
  simp only [ne_eq, Bool.not_eq_true] at p q
  constructor
  · unfold fetchOrdered
    by_cases e : a.LastUsed = b.LastUsed
    · right
      refine ⟨e, ?_⟩
      have hq := q e.symm
      by_cases hn : stringLess a.Name b.Name = true
      · exact Or.inl hn
      · exact Or.inr (stringLess_connex _ _ (by simpa using hn) hq)
    · left
      by_contra hc
      exact e (stringLess_connex _ _ p (by simpa using hc))
  · intro ha
    rw [ha] at p
    cases hb : b.LastUsed with
    | nil => rfl
    | cons c s => rw [hb] at p; simp [stringLess] at p

theorem FetchAll_sorted (f : TunnelFile) (hl : f.loadError = none) :
    ∃ ts, FetchAll f = .ok ts ∧ ts.Perm f.tunnels ∧ ts.Pairwise fetchOrdered ∧
      ts.Pairwise (fun a b => a.LastUsed = [] → b.LastUsed = []) := by
  refine ⟨sortTunnels f.tunnels, by simp [FetchAll, LoadTunnels, hl], sortTunnels_perm _, ?_, ?_⟩
  · exact (sortTunnels_pairwise f.tunnels).imp (fun h => (fetchOrdered_of_not_less _ _ h).1)
  · exact (sortTunnels_pairwise f.tunnels).imp (fun h => (fetchOrdered_of_not_less _ _ h).2)

/-- C21: on a store file that can be read, `FetchAll` returns a permutation of
the stored tunnels in which every tunnel stands before the tunnels of smaller
last-used text and, among tunnels of equal last-used text, before those of
greater or equal name; so a tunnel with an empty last-used text is followed only
by such tunnels. -/
theorem C21_fetchAll_order (f : TunnelFile) (hl : f.loadError = none) :
    ∃ ts, FetchAll f = .ok ts ∧ ts.Perm f.tunnels ∧ ts.Pairwise fetchOrdered ∧
      ts.Pairwise (fun a b => a.LastUsed = [] → b.LastUsed = []) :=
  FetchAll_sorted f hl

theorem C21_fetchAll_order_witness :
    FetchAll usedStore = .ok [usedWeb, usedDb, neverApi, neverCache] ∧
    ∃ ts, FetchAll usedStore = .ok ts ∧ ts.Perm usedStore.tunnels ∧ ts.Pairwise fetchOrdered ∧
      ts.Pairwise (fun a b => a.LastUsed = [] → b.LastUsed = []) :=
  ⟨by decide, C21_fetchAll_order usedStore rfl⟩

end tunnel

/-! ## The rows of the tunnel picker (`tunnelsToRows`) -/

theorem runeCount_ascii : ∀ s : GoString, isASCII s = true → runeCount 0 s = s.length := by
  intro s
  induction s with
  | nil => intro _; rfl
  | cons c rest ih =>
    intro h
    simp only [isASCII, List.all_cons, Bool.and_eq_true, decide_eq_true_eq] at h
    have hc : c.toNat < 128 := h.1
    have hd : utf8.DecodeRune (c :: rest) = (c.toNat, 1) := by
      simp only [utf8.DecodeRune, hc, if_true]
    rw [runeCount, hd]
    simp only [Nat.sub_self, List.length_cons]
    rw [ih (by simpa [isASCII] using h.2)]
    omega

namespace interactive

theorem tunnelsToRows_get (tunnels : List tunnel.Tunnel) (i : Nat) (t : tunnel.Tunnel)
    (h : tunnels.get? i = some t) :
    (tunnelsToRows tunnels).get? i =
      some [t.Name, t.Type_, strconv.Itoa t.LocalPort,
        if t.Type_ ≠ tunnel.TypeDynamic then t.RemoteHost ++ str ":" ++ strconv.Itoa t.RemotePort
        else str "-",
        if t.Description.length > 40 then t.Description.take 37 ++ str "..." else t.Description,
        t.ID] := by
  unfold tunnelsToRows
  simp only [List.get?_eq_getElem?, List.getElem?_map] at h ⊢
  rw [h]
  rfl

theorem tunnelsToRows_spec (tunnels : List tunnel.Tunnel) :
    (tunnelsToRows tunnels).length = tunnels.length ∧
    ∀ i t, tunnels.get? i = some t →
      ∃ remote desc,
        (tunnelsToRows tunnels).get? i =
          some [t.Name, t.Type_, strconv.Itoa t.LocalPort, remote, desc, t.ID] ∧
        (t.Type_ ≠ tunnel.TypeDynamic →
          remote = t.RemoteHost ++ str ":" ++ strconv.Itoa t.RemotePort) ∧
        (t.Type_ = tunnel.TypeDynamic → remote = str "-") ∧
        (t.Description.length ≤ 40 → desc = t.Description) ∧
        (40 < t.Description.length → desc = t.Description.take 37 ++ str "...") ∧
        desc.length ≤ 40 ∧
        (isASCII t.Description = true → runeCount 0 t.Description = t.Description.length) := by
  refine ⟨by simp [tunnelsToRows], fun i t h => ?_⟩
  refine ⟨_, _, tunnelsToRows_get tunnels i t h, fun hd => if_pos hd, fun hd => if_neg (by simp [hd]),
    fun hl => if_neg (by omega), fun hl => if_pos hl, ?_, runeCount_ascii _⟩
  split_ifs with hl
  · have : (str "...").length = 3 := by decide
    rw [List.length_append, List.length_take, this]
    omega
  · omega

/-- C22 (counterexample): a description of 21 characters that takes 42 bytes is
not shown as it is: its cell is the first 37 bytes, which end in the middle of a
character, followed by three dots. -/
theorem C22_counterexample :
    runeCount 0 accentTunnel.Description = 21 ∧
    accentTunnel.Description.length = 42 ∧
    (tunnelsToRows [accentTunnel]).map (fun row => row.get? 4) =
      [some (accentTunnel.Description.take 37 ++ str "...")] ∧
    accentTunnel.Description.take 37 ++ str "..." ≠ accentTunnel.Description ∧
    runeCount 0 (accentTunnel.Description.take 37 ++ str "...") = 22 :=
  ⟨by decide, by decide, by decide, by decide, by decide⟩

/-- C22 (amended): `tunnelsToRows` gives as many rows as tunnels, row `i` for
tunnel `i`, each with the six fields name, type, local port in decimal, remote,
description and ID; the remote cell is `host:port` when the type is not
`dynamic` and `-` otherwise; the description cell is the description when it
is at most 40 bytes long and otherwise its first 37 bytes followed by `...`, so
it is never longer than 40 bytes; an ASCII description has as many characters
as bytes. -/
theorem C22_tunnelsToRows (tunnels : List tunnel.Tunnel) :
    (tunnelsToRows tunnels).length = tunnels.length ∧
    ∀ i t, tunnels.get? i = some t →
      ∃ remote desc,
        (tunnelsToRows tunnels).get? i =
          some [t.Name, t.Type_, strconv.Itoa t.LocalPort, remote, desc, t.ID] ∧
        (t.Type_ ≠ tunnel.TypeDynamic →
          remote = t.RemoteHost ++ str ":" ++ strconv.Itoa t.RemotePort) ∧
        (t.Type_ = tunnel.TypeDynamic → remote = str "-") ∧
        (t.Description.length ≤ 40 → desc = t.Description) ∧
        (40 < t.Description.length → desc = t.Description.take 37 ++ str "...") ∧
        desc.length ≤ 40 ∧
        (isASCII t.Description = true → runeCount 0 t.Description = t.Description.length) :=
  tunnelsToRows_spec tunnels

theorem C22_tunnelsToRows_witness :
    tunnelsToRows [dbStored, longTunnel] =
      [[str "db", str "local", str "5432", str "localhost:5432", str "", str "id-a"],
       [str "socks", str "dynamic", str "1080", str "-",
        str "SOCKS proxy for the office network, f...", str "id-s"]] ∧
    ∃ remote desc,
      (tunnelsToRows [dbStored, longTunnel]).get? 1 =
        some [longTunnel.Name, longTunnel.Type_, strconv.Itoa longTunnel.LocalPort, remote, desc,
          longTunnel.ID] ∧
      (longTunnel.Type_ ≠ tunnel.TypeDynamic →
        remote = longTunnel.RemoteHost ++ str ":" ++ strconv.Itoa longTunnel.RemotePort) ∧
      (longTunnel.Type_ = tunnel.TypeDynamic → remote = str "-") ∧
      (longTunnel.Description.length ≤ 40 → desc = longTunnel.Description) ∧
      (40 < longTunnel.Description.length →
        desc = longTunnel.Description.take 37 ++ str "...") ∧
      desc.length ≤ 40 ∧
      (isASCII longTunnel.Description = true →
        runeCount 0 longTunnel.Description = longTunnel.Description.length) :=
  ⟨by decide, (C22_tunnelsToRows [dbStored, longTunnel]).2 1 longTunnel rfl⟩

end interactive

/-! ## `TunnelsToSSHArgs` (ssh.go) -/

namespace tunnel

theorem ToSSHArgs_valid (t : Tunnel) (hv : t.Validate = .ok ()) :
    ∃ a b, t.ToSSHArgs = .ok [a, b] := by
  have ht := ((validate_ok_iff t).mp hv).2.1
  unfold Tunnel.ToSSHArgs
  rw [hv]
  simp only
  rcases ht with h | h | h
  · exact ⟨_, _, by rw [if_pos h]⟩
  · by_cases h1 : t.Type_ = TypeLocal
    · exact ⟨_, _, by rw [if_pos h1]⟩
    · exact ⟨_, _, by rw [if_neg h1, if_pos h]⟩
  · by_cases h1 : t.Type_ = TypeLocal
    · exact ⟨_, _, by rw [if_pos h1]⟩
    · by_cases h2 : t.Type_ = TypeRemote
      · exact ⟨_, _, by rw [if_neg h1, if_pos h2]⟩
      · exact ⟨_, _, by rw [if_neg h1, if_neg h2, if_pos h]⟩

theorem ToSSHArgs_invalid (t : Tunnel) (hv : t.Validate ≠ .ok ()) :
    ∃ e, t.ToSSHArgs = .error e := by
  unfold Tunnel.ToSSHArgs
  cases h : t.Validate with
  | error e => exact ⟨e, rfl⟩
  | ok u => exact absurd h hv

theorem tunnelsToSSHArgsLoop_valid : ∀ (tunnels : List Tunnel) (args : List GoString),
    (∀ t ∈ tunnels, t.Validate = .ok ()) →
      tunnelsToSSHArgsLoop tunnels args = .ok (args ++ tunnels.flatMap argsOf) ∧
      (tunnels.flatMap argsOf).length = 2 * tunnels.length := by
  intro tunnels
  induction tunnels with
  | nil => intro args _; simp [tunnelsToSSHArgsLoop]
  | cons t rest ih =>
    intro args h
    obtain ⟨a, b, hab⟩ := ToSSHArgs_valid t (h t (List.mem_cons_self _ _))
    have hof : argsOf t = [a, b] := by simp [argsOf, hab]
    obtain ⟨h1, h2⟩ := ih (args ++ [a, b]) (fun x hx => h x (List.mem_cons_of_mem _ hx))
    constructor
    · rw [tunnelsToSSHArgsLoop]
      simp only [hab, h1, List.flatMap_cons, hof, List.append_assoc]
    · simp only [List.flatMap_cons, hof, List.length_append, h2, List.length_cons,
        List.length_nil]
      omega

theorem tunnelsToSSHArgsLoop_invalid : ∀ (tunnels : List Tunnel) (args : List GoString),
    (∃ t ∈ tunnels, t.Validate ≠ .ok ()) → ∃ e, tunnelsToSSHArgsLoop tunnels args = .error e := by
  intro tunnels
  induction tunnels with
  | nil => intro args h; obtain ⟨t, ht, _⟩ := h; simp at ht
  | cons t rest ih =>
    intro args h
    rw [tunnelsToSSHArgsLoop]
    cases hr : t.ToSSHArgs with
    | error e => exact ⟨_, rfl⟩
    | ok tunnelArgs =>
      simp only
      apply ih
      obtain ⟨x, hx, hxv⟩ := h
      rcases List.mem_cons.mp hx with rfl | hx
      · obtain ⟨e, he⟩ := ToSSHArgs_invalid x hxv
        rw [he] at hr
        simp at hr
      · exact ⟨x, hx, hxv⟩

/-- C24: for tunnels that are all valid, `TunnelsToSSHArgs` returns the
arguments of each tunnel's `ToSSHArgs`, which succeeds, joined in list order,
two for each tunnel; when some tunnel of the list is invalid it returns an
error. -/
theorem C24_tunnelsToSSHArgs (tunnels : List Tunnel) :
    ((∀ t ∈ tunnels, t.Validate = .ok ()) →
      TunnelsToSSHArgs tunnels = .ok (tunnels.flatMap argsOf) ∧
      (∀ t ∈ tunnels, t.ToSSHArgs = .ok (argsOf t)) ∧
      (tunnels.flatMap argsOf).length = 2 * tunnels.length) ∧
    ((∃ t ∈ tunnels, t.Validate ≠ .ok ()) → ∃ e, TunnelsToSSHArgs tunnels = .error e) := by
  refine ⟨fun h => ?_, fun h => tunnelsToSSHArgsLoop_invalid tunnels [] h⟩
  obtain ⟨h1, h2⟩ := tunnelsToSSHArgsLoop_valid tunnels [] h
  refine ⟨by simpa [TunnelsToSSHArgs] using h1, fun t ht => ?_, h2⟩
  obtain ⟨a, b, hab⟩ := ToSSHArgs_valid t (h t ht)
  simp [argsOf, hab]

theorem C24_tunnelsToSSHArgs_witness :
    TunnelsToSSHArgs [webTunnel, socksPlain] =
      .ok [str "-L", str "8080:localhost:80", str "-D", str "1080"] ∧
    (TunnelsToSSHArgs [webTunnel, socksPlain] = .ok ([webTunnel, socksPlain].flatMap argsOf) ∧
      (∀ t ∈ [webTunnel, socksPlain], t.ToSSHArgs = .ok (argsOf t)) ∧
      ([webTunnel, socksPlain].flatMap argsOf).length = 2 * [webTunnel, socksPlain].length) ∧
    ∃ e, TunnelsToSSHArgs [webTunnel, { socksPlain with LocalPort := 0 }] = .error e :=
  ⟨by decide, (C24_tunnelsToSSHArgs [webTunnel, socksPlain]).1 (by decide),
    (C24_tunnelsToSSHArgs [webTunnel, { socksPlain with LocalPort := 0 }]).2
      ⟨{ socksPlain with LocalPort := 0 }, by decide, by decide⟩⟩

end tunnel

/-! ## The inputs that `ParseSSHFlag` rejects -/

namespace strconv

theorem digitsValue_foldl (ds : GoString) : ∀ n : Nat,
    ds.foldl (fun acc c =>
      match acc with
      | none => none
      | some n => if 48 ≤ c.toNat ∧ c.toNat ≤ 57 then some (n * 10 + (c.toNat - 48)) else none)
      (some n) =
      if ds.all (fun c => decide (48 ≤ c.toNat ∧ c.toNat ≤ 57)) = true then
        some (ds.foldl (fun n c => n * 10 + (c.toNat - 48)) n)
      else none := by
  induction ds with
  | nil => intro n; simp
  | cons c rest ih =>
    intro n
    simp only [List.foldl_cons, List.all_cons]
    by_cases hc : 48 ≤ c.toNat ∧ c.toNat ≤ 57
    · simp only [hc, and_self, if_true, ih, decide_True, Bool.true_and]
    · have hnone : ∀ l : GoString, l.foldl (fun acc c =>
          match acc with
          | none => none
          | some n =>
            if 48 ≤ c.toNat ∧ c.toNat ≤ 57 then some (n * 10 + (c.toNat - 48)) else none)
          (none : Option Nat) = none := by
        intro l
        induction l with
        | nil => rfl
        | cons d l ihl => simpa using ihl
      simp only [hc, if_false, hnone, decide_False, Bool.false_and, Bool.false_eq_true]

theorem digitsValue_eq (ds : GoString) :
    digitsValue ds =
      if ds.all (fun c => decide (48 ≤ c.toNat ∧ c.toNat ≤ 57)) = true then
        some (ds.foldl (fun n c => n * 10 + (c.toNat - 48)) 0)
      else none :=
  digitsValue_foldl ds 0

end strconv

theorem Atoi_isSome_aux (ds : GoString) (neg : Bool) :
    (if ds = [] then (none : Option Int)
      else
        match strconv.digitsValue ds with
        | none => none
        | some n =>
          let v : Int := if neg then -(n : Int) else (n : Int)
          if -2 ^ 63 ≤ v ∧ v < 2 ^ 63 then some v else none).isSome =
      ((ds != [] && ds.all (fun c => decide (48 ≤ c.toNat ∧ c.toNat ≤ 57))) &&
        decide (-2 ^ 63 ≤ (if neg then
            -((ds.foldl (fun n c => n * 10 + (c.toNat - 48)) 0 : Nat) : Int)
            else ((ds.foldl (fun n c => n * 10 + (c.toNat - 48)) 0 : Nat) : Int)) ∧
          (if neg then -((ds.foldl (fun n c => n * 10 + (c.toNat - 48)) 0 : Nat) : Int)
            else ((ds.foldl (fun n c => n * 10 + (c.toNat - 48)) 0 : Nat) : Int)) < 2 ^ 63)) := by
  rw [strconv.digitsValue_eq]
  by_cases hd : ds = []
  · simp [hd]
  · by_cases hall : ds.all (fun c => decide (48 ≤ c.toNat ∧ c.toNat ≤ 57)) = true
    · have hne : (ds != []) = true := by simpa using hd
      simp only [hd, if_false, hall, if_true, hne, Bool.and_self, Bool.true_and]
      generalize List.foldl (fun n c => n * 10 + (c.toNat - 48)) 0 ds = N
      cases neg
      · simp only [Bool.false_eq_true, if_false]
        by_cases hr : -2 ^ 63 ≤ (N : Int) ∧ (N : Int) < 2 ^ 63
        · rw [if_pos hr, decide_eq_true hr]; rfl
        · rw [if_neg hr, decide_eq_false hr]; rfl
      · simp only [if_true]
        by_cases hr : -2 ^ 63 ≤ -(N : Int) ∧ -(N : Int) < 2 ^ 63
        · rw [if_pos hr, decide_eq_true hr]; rfl
        · rw [if_neg hr, decide_eq_false hr]; rfl
    · simp only [hd, if_false, hall, Bool.false_eq_true, Bool.and_false, Bool.false_and,
        Option.isSome_none]

theorem Atoi_isSome (s : GoString) : (strconv.Atoi s).isSome = isIntText s := by
  cases s with
  | nil => rfl
  | cons c rest =>
    exact Atoi_isSome_aux (if c == 45 || c == 43 then rest else c :: rest) (c == 45)

namespace tunnel

theorem isSome_cases {α : Type} (o : Option α) : (∃ v, o = some v ∧ o.isSome = true) ∨
    (o = none ∧ o.isSome = false) := by
  cases o with
  | none => exact Or.inr ⟨rfl, rfl⟩
  | some v => exact Or.inl ⟨v, rfl, rfl⟩

theorem parse_forward_result (kind spec : GoString) (rest : List GoString) (flag : GoString)
    (hf : strings.Fields flag = kind :: spec :: rest)
    (hk : kind = str "-L" ∨ kind = str "-R") :
    (parseFails isIntText flag = true → ∃ e, ParseSSHFlag flag = .error e) ∧
    (parseFails isIntText flag = false → ∃ t, ParseSSHFlag flag = .ok t) := by
  have hne : ¬ (kind ≠ str "-L" ∧ kind ≠ str "-R" ∧ kind ≠ str "-D") := by tauto
  have hty : (if kind = str "-L" then TypeLocal
      else if kind = str "-R" then TypeRemote else TypeDynamic) ≠ TypeDynamic := by
    rcases hk with h | h <;> subst h <;> decide
  unfold parseFails ParseSSHFlag
  simp only [hf, hk, if_true, hne, if_false, hty, ← Atoi_isSome]
  rcases hsp : strings.Split spec 58 with _ | ⟨a, _ | ⟨b, _ | ⟨c, _ | ⟨d, _ | ⟨e, more⟩⟩⟩⟩⟩
  · simp
  · simp
  · simp
  · rcases isSome_cases (strconv.Atoi a) with ⟨p, hp, hps⟩ | ⟨hp, hps⟩ <;>
      rcases isSome_cases (strconv.Atoi c) with ⟨q, hq, hqs⟩ | ⟨hq, hqs⟩ <;>
      simp [hp, hq]
  · rcases isSome_cases (strconv.Atoi b) with ⟨p, hp, hps⟩ | ⟨hp, hps⟩ <;>
      rcases isSome_cases (strconv.Atoi d) with ⟨q, hq, hqs⟩ | ⟨hq, hqs⟩ <;>
      simp [hp, hq]
  · simp

theorem parse_dynamic_result (spec : GoString) (rest : List GoString) (flag : GoString)
    (hf : strings.Fields flag = str "-D" :: spec :: rest) :
    (parseFails isIntText flag = true → ∃ e, ParseSSHFlag flag = .error e) ∧
    (parseFails isIntText flag = false → ∃ t, ParseSSHFlag flag = .ok t) := by
  have h1 : ¬ (str "-D" = str "-L" ∨ str "-D" = str "-R") := by decide
  have h2 : ¬ (str "-D" ≠ str "-L" ∧ str "-D" ≠ str "-R" ∧ str "-D" ≠ str "-D") := by decide
  have h3 : (if str "-D" = str "-L" then TypeLocal
      else if str "-D" = str "-R" then TypeRemote else TypeDynamic) = TypeDynamic := by decide
  unfold parseFails ParseSSHFlag
  simp only [hf, h1, h2, h3, if_true, if_false, ← Atoi_isSome]
  by_cases hc : strings.Contains spec (str ":") = true
  · simp only [hc, if_true]
    rcases hsp : strings.Split spec 58 with _ | ⟨a, _ | ⟨b, more⟩⟩
    · simp [strconv.Atoi]
    · simp [strconv.Atoi]
    · rcases isSome_cases (strconv.Atoi b) with ⟨p, hp, hps⟩ | ⟨hp, hps⟩ <;> simp [hp]
  · simp only [hc, Bool.false_eq_true, if_false]
    rcases isSome_cases (strconv.Atoi spec) with ⟨p, hp, hps⟩ | ⟨hp, hps⟩ <;> simp [hp]

theorem parse_result (flag : GoString) :
    (parseFails isIntText flag = true → ∃ e, ParseSSHFlag flag = .error e) ∧
    (parseFails isIntText flag = false → ∃ t, ParseSSHFlag flag = .ok t) := by
  rcases hf : strings.Fields flag with _ | ⟨kind, _ | ⟨spec, rest⟩⟩
  · simp [parseFails, ParseSSHFlag, hf]
  · simp [parseFails, ParseSSHFlag, hf]
  · by_cases hk : kind = str "-L" ∨ kind = str "-R"
    · exact parse_forward_result kind spec rest flag hf hk
    · by_cases hd : kind = str "-D"
      · subst hd
        exact parse_dynamic_result spec rest flag hf
      · have hne : kind ≠ str "-L" ∧ kind ≠ str "-R" ∧ kind ≠ str "-D" := by tauto
        simp [parseFails, ParseSSHFlag, hf, hk, hd, hne]

/-- C25 (counterexample): the second token of `-D 99999999999999999999` is a
decimal integer, so the input is none of those that the claim has fail, and
`ParseSSHFlag` returns an error on it. -/
theorem C25_counterexample :
    strings.Fields (str "-D 99999999999999999999") = [str "-D", str "99999999999999999999"] ∧
    isDecimalInteger (str "99999999999999999999") = true ∧
    parseFails isDecimalInteger (str "-D 99999999999999999999") = false ∧
    ParseSSHFlag (str "-D 99999999999999999999") =
      .error (str "invalid port: 99999999999999999999") :=
  ⟨by decide, by decide, by decide, by decide⟩

/-- C25 (amended): `ParseSSHFlag` returns an error on the inputs that the claim
lists, with "is not a decimal integer" read as "is not a decimal integer that a
64-bit `int` holds", and it returns a tunnel on every other input; a text is
such an integer exactly when `strconv.Atoi` reads it. -/
theorem C25_parse_fails (flag : GoString) :
    (parseFails isIntText flag = true → ∃ e, ParseSSHFlag flag = .error e) ∧
    (parseFails isIntText flag = false → ∃ t, ParseSSHFlag flag = .ok t) ∧
    (∀ s, isIntText s = (strconv.Atoi s).isSome) :=
  ⟨(parse_result flag).1, (parse_result flag).2, fun s => (Atoi_isSome s).symm⟩

theorem C25_parse_fails_witness :
    (∃ e, ParseSSHFlag (str "-X invalid") = .error e) ∧
    (∃ e, ParseSSHFlag (str "-L") = .error e) ∧
    (∃ e, ParseSSHFlag (str "-L 8080:localhost") = .error e) ∧
    (∃ e, ParseSSHFlag (str "-R 8080:localhost:http") = .error e) ∧
    (∃ e, ParseSSHFlag (str "-D 99999999999999999999") = .error e) ∧
    (∃ t, ParseSSHFlag (str "-L 8080:localhost:80") = .ok t) ∧
    (∃ t, ParseSSHFlag (str "-D 127.0.0.1:1080:x") = .ok t) :=
  ⟨(C25_parse_fails (str "-X invalid")).1 (by decide),
   (C25_parse_fails (str "-L")).1 (by decide),
   (C25_parse_fails (str "-L 8080:localhost")).1 (by decide),
   (C25_parse_fails (str "-R 8080:localhost:http")).1 (by decide),
   (C25_parse_fails (str "-D 99999999999999999999")).1 (by decide),
   (C25_parse_fails (str "-L 8080:localhost:80")).2.1 (by decide),
   (C25_parse_fails (str "-D 127.0.0.1:1080:x")).2.1 (by decide)⟩

end tunnel

/-! ## The settings (settings.go) -/

namespace settings

theorem MarshalIndent_length (s : Settings) : (MarshalIndent s).length ≠ 0 := by
  unfold MarshalIndent
  split_ifs <;> decide

theorem Save_ok (st : State) (s : Settings) (h : (Save st s).1 = none) :
    (Save st s).2 = { st with file := some (MarshalIndent s), S := s } := by
  unfold Save at h ⊢
  cases hw : st.writeError with
  | none => rfl
  | some e => simp [hw] at h

theorem Save_round_trip (unmarshal : Decoder) (st : State) (s : Settings)
    (hrt : ∀ s, unmarshal (MarshalIndent s) = some s) (h : (Save st s).1 = none) :
    fetchWithDefaultFile unmarshal (Save st s).2 = s ∧ Get (Save st s).2 = s := by
  rw [Save_ok st s h]
  refine ⟨?_, rfl⟩
  simp only [fetchWithDefaultFile, getFile, fetch, MarshalIndent_length, if_false, hrt]

theorem fetch_default (unmarshal : Decoder) (st : State)
    (h : st.file = none ∨ st.file = some [] ∨ ∃ b, st.file = some b ∧ unmarshal b = none) :
    fetchWithDefaultFile unmarshal st = { Fullscreen := false } := by
  unfold fetchWithDefaultFile getFile fetch
  rcases h with h | h | ⟨b, h, hb⟩
  · simp [h]
  · simp [h]
  · simp only [h, hb]
    split_ifs <;> rfl

/-- C26: for a decoder that reads back what `MarshalIndent` writes, after a
`Save` of `s` that returns no error, `fetchWithDefaultFile` returns `s` and
`Get` returns `s`; and for a settings file that is missing, empty or rejected
by the decoder, `fetchWithDefaultFile` returns the default, fullscreen off. -/
theorem C26_settings_round_trip (unmarshal : Decoder) (st : State) (s : Settings)
    (hrt : ∀ s, unmarshal (MarshalIndent s) = some s) :
    ((Save st s).1 = none →
      fetchWithDefaultFile unmarshal (Save st s).2 = s ∧ Get (Save st s).2 = s) ∧
    (st.file = none ∨ st.file = some [] ∨ (∃ b, st.file = some b ∧ unmarshal b = none) →
      fetchWithDefaultFile unmarshal st = { Fullscreen := false }) :=
  ⟨fun h => Save_round_trip unmarshal st s hrt h, fun h => fetch_default unmarshal st h⟩

theorem C26_settings_round_trip_witness :
    (Save freshState { Fullscreen := true }).1 = none ∧
    (fetchWithDefaultFile plainDecoder (Save freshState { Fullscreen := true }).2 =
        { Fullscreen := true } ∧
      Get (Save freshState { Fullscreen := true }).2 = { Fullscreen := true }) ∧
    fetchWithDefaultFile plainDecoder freshState = { Fullscreen := false } :=
  ⟨by decide,
   (C26_settings_round_trip plainDecoder freshState { Fullscreen := true }
      (by intro s; cases s with | mk b => cases b <;> decide)).1 (by decide),
   (C26_settings_round_trip plainDecoder freshState { Fullscreen := true }
      (by intro s; cases s with | mk b => cases b <;> decide)).2 (Or.inl rfl)⟩

end settings

/-! ## `model.Update` and `tunnelModel.Update` on the filter and quit keys -/

namespace interactive

theorem KeyMsg_String_named (k : tea.KeyMsg) (name : GoString) (ht : k.Type_ = .named name)
    (ha : k.Alt = false) : k.String = name := by
  simp [tea.KeyMsg.String, ht, ha]

theorem model_Update_runes (L : GoLib) (m : model) (st : settings.State) (k : tea.KeyMsg)
    (hf : m.filtering = true) (hk : k.Type_ = .KeyRunes) :
    m.Update L st (.KeyMsg k) =
      some (({ m with filterText := m.filterText ++ tea.runesString k.Runes }).applyFilter L,
        .nil, st) := by
  unfold model.Update
  simp only
  rw [if_pos ⟨hf, hk⟩]

theorem model_Update_backspace (L : GoLib) (m : model) (st : settings.State) (k : tea.KeyMsg)
    (hf : m.filtering = true) (hk : k.Type_ = tea.KeyBackspace) :
    m.Update L st (.KeyMsg k) =
      if m.filterText.length > 0 then
        some (({ m with filterText := m.filterText.dropLast }).applyFilter L, .nil, st)
      else some (m, .nil, st) := by
  unfold model.Update
  simp only
  rw [if_neg (by rw [hk]; simp [tea.KeyBackspace]), if_pos ⟨hf, hk⟩]

theorem model_Update_quit (L : GoLib) (m : model) (st : settings.State) (k : tea.KeyMsg)
    (hf : ¬ (m.filtering = true ∧ k.Type_ = .KeyRunes))
    (hb : ¬ (m.filtering = true ∧ k.Type_ = tea.KeyBackspace))
    (hk : k.String = str "q" ∨ k.String = str "ctrl+c" ∨ k.String = str "esc") :
    m.Update L st (.KeyMsg k) = some ((m.updateKeyQuit L).1, (m.updateKeyQuit L).2, st) := by
  unfold model.Update
  simp only
  rw [if_neg hf, if_neg hb]
  rcases hk with h | h | h <;> rw [h] <;>
    rw [if_neg (by decide), if_neg (by decide), if_neg (by decide), if_neg (by decide),
      if_pos (by decide)]

theorem model_Update_slash (L : GoLib) (m : model) (st : settings.State) (k : tea.KeyMsg)
    (hf : m.filtering = false) (hk : k.String = str "/") :
    m.Update L st (.KeyMsg k) = some ((m.updateKeySlash L).1, (m.updateKeySlash L).2, st) := by
  unfold model.Update
  simp only
  rw [if_neg (by simp [hf]), if_neg (by simp [hf]), hk, if_pos rfl]

theorem model_Update_enter (L : GoLib) (m : model) (st : settings.State) (k : tea.KeyMsg)
    (hf : ¬ (m.filtering = true ∧ k.Type_ = .KeyRunes))
    (hb : ¬ (m.filtering = true ∧ k.Type_ = tea.KeyBackspace))
    (hk : k.String = str "enter") :
    m.Update L st (.KeyMsg k) = m.updateKeyEnter.map (fun r => (r.1, r.2, st)) := by
  unfold model.Update
  simp only
  rw [if_neg hf, if_neg hb, hk]
  rw [if_neg (by decide), if_neg (by decide), if_neg (by decide), if_neg (by decide),
    if_neg (by decide), if_pos rfl]

theorem model_stopFiltering_spec (L : GoLib) (m : model) :
    (m.stopFiltering L).filtering = false ∧ (m.stopFiltering L).filterText = [] ∧
    (m.stopFiltering L).filteredRows = m.allRows ∧ (m.stopFiltering L).allRows = m.allRows ∧
    (m.stopFiltering L).table.rows = m.allRows ∧ (m.stopFiltering L).exit = m.exit ∧
    (m.stopFiltering L).choice = m.choice :=
  ⟨rfl, rfl, rfl, rfl, rfl, rfl, rfl⟩

theorem model_applyFilter_flags (L : GoLib) (m : model) :
    (m.applyFilter L).filtering = m.filtering ∧ (m.applyFilter L).filterText = m.filterText ∧
    (m.applyFilter L).exit = m.exit ∧ (m.applyFilter L).table.height = m.table.height ∧
    (m.applyFilter L).tableHeight = m.tableHeight ∧
    (m.applyFilter L).table.rows = (m.applyFilter L).filteredRows := by
  unfold model.applyFilter
  simp only
  split_ifs <;> exact ⟨rfl, rfl, rfl, rfl, rfl, rfl⟩

end interactive

namespace interactive

/-- C27 (counterexample): while the record picker is filtering on `BET`, the
key `q` does not clear the filter: it is added to the filter text and the picker
goes on filtering. -/
theorem C27_counterexample :
    betSession.filtering = true ∧
    (betSession.Update asciiLib settings.freshState (.KeyMsg (tea.keyRune 'q'))).map
      (fun r => (r.1.filtering, r.1.filterText, r.2.1)) =
      some (true, str "BETq", .nil) :=
  ⟨by decide, by decide⟩

theorem quit_keys_spec (L : GoLib) (m : model) (st : settings.State) (k : tea.KeyMsg) :
    (m.filtering = true → k.Alt = false → (k.Type_ = tea.KeyEsc ∨ k.Type_ = tea.KeyCtrlC) →
      m.Update L st (.KeyMsg k) = some (m.stopFiltering L, .nil, st) ∧
      (m.stopFiltering L).filtering = false ∧ (m.stopFiltering L).filterText = [] ∧
      (m.stopFiltering L).filteredRows = m.allRows ∧ (m.stopFiltering L).allRows = m.allRows ∧
      (m.stopFiltering L).table.rows = m.allRows ∧ (m.stopFiltering L).exit = m.exit) ∧
    (m.filtering = true → k.Type_ = .KeyRunes →
      ∃ m1, m.Update L st (.KeyMsg k) = some (m1, .nil, st) ∧ m1.filtering = true ∧
        m1.filterText = m.filterText ++ tea.runesString k.Runes ∧ m1.exit = m.exit) ∧
    (m.filtering = false →
      (k.String = str "q" ∨ k.String = str "ctrl+c" ∨ k.String = str "esc") →
      m.Update L st (.KeyMsg k) = some ({ m with exit := true }, .Quit, st) ∧
      (m.choice.Host = [] → Select.outcome { m with exit := true } = .exits 0)) := by
  refine ⟨fun hf ha hk => ?_, fun hf hk => ?_, fun hf hk => ?_⟩
  · have hs : k.String = str "esc" ∨ k.String = str "ctrl+c" := by
      rcases hk with h | h
      · exact Or.inl (KeyMsg_String_named k _ h ha)
      · exact Or.inr (KeyMsg_String_named k _ h ha)
    have h1 : ¬ (m.filtering = true ∧ k.Type_ = .KeyRunes) := by
      rcases hk with h | h <;> simp [h, tea.KeyEsc, tea.KeyCtrlC]
    have h2 : ¬ (m.filtering = true ∧ k.Type_ = tea.KeyBackspace) := by
      rcases hk with h | h <;> rw [h] <;> intro hc <;> exact absurd hc.2 (by decide)
    have hq : m.updateKeyQuit L = (m.stopFiltering L, .nil) := by
      unfold model.updateKeyQuit
      rw [if_pos hf]
    refine ⟨?_, (model_stopFiltering_spec L m).1, (model_stopFiltering_spec L m).2.1,
      (model_stopFiltering_spec L m).2.2.1, (model_stopFiltering_spec L m).2.2.2.1,
      (model_stopFiltering_spec L m).2.2.2.2.1, (model_stopFiltering_spec L m).2.2.2.2.2.1⟩
    rw [model_Update_quit L m st k h1 h2 (by tauto), hq]
  · refine ⟨_, model_Update_runes L m st k hf hk, ?_, ?_, ?_⟩
    · rw [(model_applyFilter_flags L _).1]; exact hf
    · rw [(model_applyFilter_flags L _).2.1]
    · rw [(model_applyFilter_flags L _).2.2.1]
  · have hq : m.updateKeyQuit L = ({ m with exit := true }, .Quit) := by
      unfold model.updateKeyQuit
      rw [if_neg (by simp [hf])]
    refine ⟨?_, fun hc => ?_⟩
    · rw [model_Update_quit L m st k (by simp [hf]) (by simp [hf]) hk, hq]
    · simp [Select.outcome, hc]

/-- C27 (amended): while the record picker is filtering, each of esc and ctrl+c
clears the filter text, restores `filteredRows = allRows` (also in the table)
and leaves filtering without ending the session, whereas a character key such
as `q` is added to the filter text and the picker goes on filtering; while it is
not filtering, each of `q`, ctrl+c and esc sets the exit flag and quits, and
`Select` ends without a choice. -/
theorem C27_quit_keys (L : GoLib) (m : model) (st : settings.State) (k : tea.KeyMsg) :
    (m.filtering = true → k.Alt = false → (k.Type_ = tea.KeyEsc ∨ k.Type_ = tea.KeyCtrlC) →
      m.Update L st (.KeyMsg k) = some (m.stopFiltering L, .nil, st) ∧
      (m.stopFiltering L).filtering = false ∧ (m.stopFiltering L).filterText = [] ∧
      (m.stopFiltering L).filteredRows = m.allRows ∧ (m.stopFiltering L).allRows = m.allRows ∧
      (m.stopFiltering L).table.rows = m.allRows ∧ (m.stopFiltering L).exit = m.exit) ∧
    (m.filtering = true → k.Type_ = .KeyRunes →
      ∃ m1, m.Update L st (.KeyMsg k) = some (m1, .nil, st) ∧ m1.filtering = true ∧
        m1.filterText = m.filterText ++ tea.runesString k.Runes ∧ m1.exit = m.exit) ∧
    (m.filtering = false →
      (k.String = str "q" ∨ k.String = str "ctrl+c" ∨ k.String = str "esc") →
      m.Update L st (.KeyMsg k) = some ({ m with exit := true }, .Quit, st) ∧
      (m.choice.Host = [] → Select.outcome { m with exit := true } = .exits 0)) :=
  quit_keys_spec L m st k

theorem C27_quit_keys_witness :
    (betSession.Update asciiLib settings.freshState (.KeyMsg escKey) =
        some (betSession.stopFiltering asciiLib, .nil, settings.freshState) ∧
      (betSession.stopFiltering asciiLib).filtering = false ∧
      (betSession.stopFiltering asciiLib).filterText = [] ∧
      (betSession.stopFiltering asciiLib).filteredRows = betSession.allRows ∧
      (betSession.stopFiltering asciiLib).allRows = betSession.allRows ∧
      (betSession.stopFiltering asciiLib).table.rows = betSession.allRows ∧
      (betSession.stopFiltering asciiLib).exit = betSession.exit) ∧
    (∃ m1, betSession.Update asciiLib settings.freshState (.KeyMsg (tea.keyRune 'q')) =
        some (m1, .nil, settings.freshState) ∧ m1.filtering = true ∧
        m1.filterText = betSession.filterText ++ tea.runesString (tea.keyRune 'q').Runes ∧
        m1.exit = betSession.exit) ∧
    (historySession.Update asciiLib settings.freshState (.KeyMsg (tea.keyRune 'q')) =
        some ({ historySession with exit := true }, .Quit, settings.freshState) ∧
      (historySession.choice.Host = [] →
        Select.outcome { historySession with exit := true } = .exits 0)) :=
  ⟨(C27_quit_keys asciiLib betSession settings.freshState escKey).1 (by decide) (by decide)
      (Or.inl (by decide)),
   (C27_quit_keys asciiLib betSession settings.freshState (tea.keyRune 'q')).2.1 (by decide)
      (by decide),
   (C27_quit_keys asciiLib historySession settings.freshState (tea.keyRune 'q')).2.2 (by decide)
      (Or.inl (by decide))⟩

/-- C23 (counterexample): on a highlighted row whose host field is empty, enter
stores the row's fields as the choice and quits, but `Select` takes the empty
host for "no choice" and returns the empty configuration. -/
theorem C23_counterexample :
    hostlessSession.table.SelectedRow = some hostlessRec ∧
    (hostlessSession.Update asciiLib settings.freshState (.KeyMsg enterKey)).map
      (fun r => (r.1.choice, r.2.1)) =
      some ({ Name := str "alias", Host := str "", Port := str "22", User := str "root",
              Key := str "" }, .Quit) ∧
    (hostlessSession.Update asciiLib settings.freshState (.KeyMsg enterKey)).map
      (fun r => Select.outcome r.1) = some (.returns {}) :=
  ⟨by decide, by decide, by decide⟩

theorem enter_returns_row (L : GoLib) (m : model) (st : settings.State) (k : tea.KeyMsg)
    (name host port user key : GoString) (rest : List GoString)
    (hk : k.Type_ = tea.KeyEnter) (ha : k.Alt = false)
    (hsel : m.table.SelectedRow = some (name :: host :: port :: user :: key :: rest))
    (hhost : host ≠ []) :
    m.Update L st (.KeyMsg k) =
      some ({ m with choice :=
        { Name := name, Host := host, Port := port, User := user, Key := key } }, .Quit, st) ∧
    Select.outcome { m with choice :=
        { Name := name, Host := host, Port := port, User := user, Key := key } } =
      .returns { Name := name, Host := host, Port := port, User := user, Key := key } := by
  have hs := KeyMsg_String_named k _ hk ha
  have h1 : ¬ (m.filtering = true ∧ k.Type_ = .KeyRunes) := by simp [hk, tea.KeyEnter]
  have h2 : ¬ (m.filtering = true ∧ k.Type_ = tea.KeyBackspace) := by
    rw [hk]; intro hc; exact absurd hc.2 (by decide)
  constructor
  · rw [model_Update_enter L m st k h1 h2 hs]
    simp [model.updateKeyEnter, hsel, setConfig]
  · simp [Select.outcome, hhost]

/-- C23 (amended): when enter is handled on a highlighted row with at least five
fields whose second field, the host, is not empty, the choice is the
configuration made of the row's first five fields, quit is issued, and `Select`
returns that configuration. -/
theorem C23_enter_returns_row (L : GoLib) (m : model) (st : settings.State) (k : tea.KeyMsg)
    (name host port user key : GoString) (rest : List GoString)
    (hk : k.Type_ = tea.KeyEnter) (ha : k.Alt = false)
    (hsel : m.table.SelectedRow = some (name :: host :: port :: user :: key :: rest))
    (hhost : host ≠ []) :
    m.Update L st (.KeyMsg k) =
      some ({ m with choice :=
        { Name := name, Host := host, Port := port, User := user, Key := key } }, .Quit, st) ∧
    Select.outcome { m with choice :=
        { Name := name, Host := host, Port := port, User := user, Key := key } } =
      .returns { Name := name, Host := host, Port := port, User := user, Key := key } :=
  enter_returns_row L m st k name host port user key rest hk ha hsel hhost

theorem C23_enter_returns_row_witness :
    recordSession.Update asciiLib settings.freshState (.KeyMsg enterKey) =
      some ({ recordSession with choice :=
        { Name := str "db", Host := str "10.0.0.5", Port := str "5432", User := str "root",
          Key := str "" } }, .Quit, settings.freshState) ∧
    Select.outcome { recordSession with choice :=
        { Name := str "db", Host := str "10.0.0.5", Port := str "5432", User := str "root",
          Key := str "" } } =
      .returns { Name := str "db", Host := str "10.0.0.5", Port := str "5432",
                 User := str "root", Key := str "" } :=
  C23_enter_returns_row asciiLib recordSession settings.freshState enterKey (str "db")
    (str "10.0.0.5") (str "5432") (str "root") (str "") [] (by decide) (by decide) (by decide)
    (by decide)

end interactive

namespace interactive

theorem tunnelModel_Update_backspace (L : GoLib) (m : tunnelModel) (st : settings.State)
    (f : tunnel.TunnelFile) (uuid now : GoString) (k : tea.KeyMsg)
    (hform : m.showingForm = false) (hf : m.filtering = true)
    (hk : k.Type_ = tea.KeyBackspace) :
    m.Update L st f uuid now (.KeyMsg k) =
      if m.filterText.length > 0 then
        (({ m with filterText := m.filterText.dropLast }).applyFilter L).map
          (fun m => (m, .nil, st, f))
      else some (m, .nil, st, f) := by
  unfold tunnelModel.Update
  rw [if_neg (by simp [hform])]
  simp only
  rw [if_neg (by rw [hk]; simp [tea.KeyBackspace]), if_pos ⟨hf, hk⟩]

theorem model_run_step (L : GoLib) (m m1 : model) (st : settings.State) (msg : tea.Msg)
    (rest : List tea.Msg) (h : m.Update L st msg = some (m1, .nil, st)) :
    model.run L m st (msg :: rest) = model.run L m1 st rest := by
  rw [model.run]
  simp only [h]
  rw [if_neg (by decide)]

/-- C28: in Filtering, backspace drops the last byte of a non-empty filter
text and filters again, in both pickers, and leaves an empty filter text as it
is; so after `é`, which takes two bytes, is typed into an empty filter, one
backspace leaves the first of the two bytes in the filter text. -/
theorem C28_backspace_drops_a_byte :
    (∀ (L : GoLib) (m : model) (st : settings.State) (k : tea.KeyMsg),
      m.filtering = true → k.Type_ = tea.KeyBackspace →
        m.Update L st (.KeyMsg k) =
          if m.filterText.length > 0 then
            some (({ m with filterText := m.filterText.dropLast }).applyFilter L, .nil, st)
          else some (m, .nil, st)) ∧
    (∀ (L : GoLib) (m : tunnelModel) (st : settings.State) (f : tunnel.TunnelFile)
      (uuid now : GoString) (k : tea.KeyMsg),
      m.showingForm = false → m.filtering = true → k.Type_ = tea.KeyBackspace →
        m.Update L st f uuid now (.KeyMsg k) =
          if m.filterText.length > 0 then
            (({ m with filterText := m.filterText.dropLast }).applyFilter L).map
              (fun m => (m, .nil, st, f))
          else some (m, .nil, st, f)) ∧
    (∀ (L : GoLib) (m : model), (m.applyFilter L).filtering = m.filtering ∧
      (m.applyFilter L).filterText = m.filterText) ∧
    (tea.runesString ['é'] = [195, 169] ∧ runeCount 0 (tea.runesString ['é']) = 1 ∧
      (model.run asciiLib slashSession settings.freshState
        [.KeyMsg (tea.keyRune 'é')]).map (fun r => r.1.filterText) = some [195, 169] ∧
      (model.run asciiLib slashSession settings.freshState
        [.KeyMsg (tea.keyRune 'é'), .KeyMsg tea.keyBackspace]).map
          (fun r => (r.1.filterText, r.1.filtering)) = some ([195], true)) :=
  ⟨model_Update_backspace, tunnelModel_Update_backspace,
    fun L m => ⟨(model_applyFilter_flags L m).1, (model_applyFilter_flags L m).2.1⟩,
    by decide, by decide, by decide, by decide⟩

theorem model_Update_typed (L : GoLib) (m : model) (st : settings.State) (c : Char)
    (hf : m.filtering = true) :
    ∃ m1, m.Update L st (.KeyMsg (tea.keyRune c)) = some (m1, .nil, st) ∧
      m1.filtering = true ∧ m1.allRows = m.allRows ∧
      m1.filterText = m.filterText ++ tea.runesString [c] ∧
      m1.filteredRows =
        if m.filterText ++ tea.runesString [c] = [] then m.allRows
        else m.allRows.filter
          (fun row => rowHas L row (strings.ToLower L (m.filterText ++ tea.runesString [c]))) := by
  refine ⟨_, model_Update_runes L m st (tea.keyRune c) hf rfl, ?_, ?_, ?_, ?_⟩
  · rw [(model_applyFilter_flags L _).1]; exact hf
  · rw [model_applyFilter_allRows]
  · rw [(model_applyFilter_flags L _).2.1]; rfl
  · rw [model_applyFilter_filteredRows]; rfl

theorem model_Update_erased (L : GoLib) (m : model) (st : settings.State)
    (hf : m.filtering = true) (hne : m.filterText ≠ []) :
    ∃ m1, m.Update L st (.KeyMsg tea.keyBackspace) = some (m1, .nil, st) ∧
      m1.filtering = true ∧ m1.allRows = m.allRows ∧
      m1.filterText = m.filterText.dropLast ∧
      m1.filteredRows =
        if m.filterText.dropLast = [] then m.allRows
        else m.allRows.filter
          (fun row => rowHas L row (strings.ToLower L m.filterText.dropLast)) := by
  have hlen : m.filterText.length > 0 := List.length_pos.mpr hne
  refine ⟨_, (model_Update_backspace L m st tea.keyBackspace hf rfl).trans (if_pos hlen),
    ?_, ?_, ?_, ?_⟩
  · rw [(model_applyFilter_flags L _).1]; exact hf
  · rw [model_applyFilter_allRows]
  · rw [(model_applyFilter_flags L _).2.1]
  · rw [model_applyFilter_filteredRows]; rfl

theorem model_Update_slashed (L : GoLib) (m : model) (st : settings.State)
    (hf : m.filtering = false) :
    ∃ m1, m.Update L st (.KeyMsg (tea.keyRune '/')) = some (m1, .nil, st) ∧
      m1.filtering = true ∧ m1.allRows = m.allRows ∧ m1.filterText = [] ∧
      m1.filteredRows = m.allRows := by
  have hs : m.updateKeySlash L =
      (({ m with filtering := true, filterText := [] }).applyFilter L, .nil) := by
    unfold model.updateKeySlash
    rw [if_pos (by simp [hf])]
  refine ⟨_, (model_Update_slash L m st (tea.keyRune '/') hf (by decide)).trans (by rw [hs]),
    ?_, ?_, ?_, ?_⟩
  · rw [(model_applyFilter_flags L _).1]
  · rw [model_applyFilter_allRows]
  · rw [(model_applyFilter_flags L _).2.1]
  · rw [model_applyFilter_filteredRows]; rfl

theorem rowHas_d_of_db (L : GoLib) (row : Row) (h : rowHas L row (str "db") = true) :
    rowHas L row (str "d") = true := by
  unfold rowHas at h ⊢
  rw [strings.Contains_iff] at h ⊢
  exact List.IsInfix.trans ⟨[], str "b", by decide⟩ h

theorem filter_scenario (L : GoLib) (m : model) (st : settings.State) (dbRow webRow : Row)
    (hf : m.filtering = false) (hrows : m.allRows = [dbRow, webRow])
    (h1 : rowHas L dbRow (str "db") = true) (h2 : rowHas L webRow (str "db") = false) :
    (∃ m1, model.run L m st
        [.KeyMsg (tea.keyRune '/'), .KeyMsg (tea.keyRune 'd'), .KeyMsg (tea.keyRune 'b')] =
          some (m1, st, false) ∧
      m1.filterText = str "db" ∧ m1.filteredRows = [dbRow]) ∧
    (∃ m2, model.run L m st
        [.KeyMsg (tea.keyRune '/'), .KeyMsg (tea.keyRune 'd'), .KeyMsg (tea.keyRune 'b'),
          .KeyMsg tea.keyBackspace] = some (m2, st, false) ∧
      m2.filterText = str "d" ∧
      m2.filteredRows = if rowHas L webRow (str "d") = true then [dbRow, webRow] else [dbRow]) ∧
    (∃ m3, model.run L m st
        [.KeyMsg (tea.keyRune '/'), .KeyMsg (tea.keyRune 'd'), .KeyMsg (tea.keyRune 'b'),
          .KeyMsg tea.keyBackspace, .KeyMsg tea.keyBackspace] = some (m3, st, false) ∧
      m3.filterText = [] ∧ m3.filteredRows = [dbRow, webRow]) := by
  obtain ⟨a, ha, af, ar, at_, _⟩ := model_Update_slashed L m st hf
  obtain ⟨b, hb, bf, br, bt, _⟩ := model_Update_typed L a st 'd' af
  obtain ⟨c, hc, cf, cr, ct, cfr⟩ := model_Update_typed L b st 'b' bf
  have ct2 : c.filterText = str "db" := by rw [ct, bt, at_]; decide
  have cne : c.filterText ≠ [] := by rw [ct2]; decide
  obtain ⟨d, hd, df, dr, dt, dfr⟩ := model_Update_erased L c st cf cne
  have dt2 : d.filterText = str "d" := by rw [dt, ct2]; decide
  have dne : d.filterText ≠ [] := by rw [dt2]; decide
  obtain ⟨e, he, _, _, et, efr⟩ := model_Update_erased L d st df dne
  have et2 : e.filterText = [] := by rw [et, dt2]; decide
  have hall : ∀ x : model, x.allRows = m.allRows → x.allRows = [dbRow, webRow] :=
    fun x hx => hx.trans hrows
  have hlow1 : strings.ToLower L (str "db") = str "db" := rfl
  have hlow2 : strings.ToLower L (str "d") = str "d" := rfl
  have h3 := rowHas_d_of_db L dbRow h1
  have r1 : model.run L m st
      [.KeyMsg (tea.keyRune '/'), .KeyMsg (tea.keyRune 'd'), .KeyMsg (tea.keyRune 'b')] =
        some (c, st, false) := by
    rw [model_run_step L m a st _ _ ha, model_run_step L a b st _ _ hb,
      model_run_step L b c st _ _ hc]
    rfl
  have r2 : model.run L m st
      [.KeyMsg (tea.keyRune '/'), .KeyMsg (tea.keyRune 'd'), .KeyMsg (tea.keyRune 'b'),
        .KeyMsg tea.keyBackspace] = some (d, st, false) := by
    rw [model_run_step L m a st _ _ ha, model_run_step L a b st _ _ hb,
      model_run_step L b c st _ _ hc, model_run_step L c d st _ _ hd]
    rfl
  have r3 : model.run L m st
      [.KeyMsg (tea.keyRune '/'), .KeyMsg (tea.keyRune 'd'), .KeyMsg (tea.keyRune 'b'),
        .KeyMsg tea.keyBackspace, .KeyMsg tea.keyBackspace] = some (e, st, false) := by
    rw [model_run_step L m a st _ _ ha, model_run_step L a b st _ _ hb,
      model_run_step L b c st _ _ hc, model_run_step L c d st _ _ hd,
      model_run_step L d e st _ _ he]
    rfl
  refine ⟨⟨c, r1, ct2, ?_⟩, ⟨d, r2, dt2, ?_⟩, ⟨e, r3, et2, ?_⟩⟩
  · rw [cfr, ← ct, ct2, if_neg (by decide), hlow1, hall b (br.trans ar)]
    simp [List.filter, h1, h2]
  · rw [dfr, ← dt, dt2, if_neg (by decide), hlow2, hall c (cr.trans (br.trans ar))]
    by_cases hw : rowHas L webRow (str "d") = true
    · simp [List.filter, h3, hw]
    · simp [List.filter, h3, hw]
  · rw [efr, ← et, et2, if_pos rfl, hall d (dr.trans (cr.trans (br.trans ar)))]

end interactive

namespace interactive

/-- C29 (counterexample): over the rows `db` and `web`, of which only the first
contains a `d`, typing `/`, `d`, `b` leaves the `db` row, and one backspace
after that leaves the filter text `d` and still only the `db` row. -/
theorem C29_counterexample :
    (model.run asciiLib recordSession settings.freshState
      [.KeyMsg (tea.keyRune '/'), .KeyMsg (tea.keyRune 'd'), .KeyMsg (tea.keyRune 'b')]).map
        (fun r => r.1.filteredRows) = some [dbRec] ∧
    (model.run asciiLib recordSession settings.freshState
      [.KeyMsg (tea.keyRune '/'), .KeyMsg (tea.keyRune 'd'), .KeyMsg (tea.keyRune 'b'),
        .KeyMsg tea.keyBackspace]).map (fun r => (r.1.filterText, r.1.filteredRows)) =
      some (str "d", [dbRec]) ∧
    [dbRec] ≠ recordSession.allRows :=
  ⟨by decide, by decide, by decide⟩

/-- C29 (amended): in a record picker that is not filtering, over two rows of
which the first contains `db` and the second does not, typing `/`, `d`, `b`
leaves `filteredRows` = [the first row]; one backspace after that leaves the
filter text `d` and the rows that contain `d`, the first row and, only if it
contains a `d`, the second; a second backspace empties the filter text and
restores both rows. -/
theorem C29_filter_scenario (L : GoLib) (m : model) (st : settings.State) (dbRow webRow : Row)
    (hf : m.filtering = false) (hrows : m.allRows = [dbRow, webRow])
    (h1 : rowHas L dbRow (str "db") = true) (h2 : rowHas L webRow (str "db") = false) :
    (∃ m1, model.run L m st
        [.KeyMsg (tea.keyRune '/'), .KeyMsg (tea.keyRune 'd'), .KeyMsg (tea.keyRune 'b')] =
          some (m1, st, false) ∧
      m1.filterText = str "db" ∧ m1.filteredRows = [dbRow]) ∧
    (∃ m2, model.run L m st
        [.KeyMsg (tea.keyRune '/'), .KeyMsg (tea.keyRune 'd'), .KeyMsg (tea.keyRune 'b'),
          .KeyMsg tea.keyBackspace] = some (m2, st, false) ∧
      m2.filterText = str "d" ∧
      m2.filteredRows = if rowHas L webRow (str "d") = true then [dbRow, webRow] else [dbRow]) ∧
    (∃ m3, model.run L m st
        [.KeyMsg (tea.keyRune '/'), .KeyMsg (tea.keyRune 'd'), .KeyMsg (tea.keyRune 'b'),
          .KeyMsg tea.keyBackspace, .KeyMsg tea.keyBackspace] = some (m3, st, false) ∧
      m3.filterText = [] ∧ m3.filteredRows = [dbRow, webRow]) :=
  filter_scenario L m st dbRow webRow hf hrows h1 h2

theorem C29_filter_scenario_witness :
    (∃ m1, model.run asciiLib recordSession settings.freshState
        [.KeyMsg (tea.keyRune '/'), .KeyMsg (tea.keyRune 'd'), .KeyMsg (tea.keyRune 'b')] =
          some (m1, settings.freshState, false) ∧
      m1.filterText = str "db" ∧ m1.filteredRows = [dbRec]) ∧
    (∃ m2, model.run asciiLib recordSession settings.freshState
        [.KeyMsg (tea.keyRune '/'), .KeyMsg (tea.keyRune 'd'), .KeyMsg (tea.keyRune 'b'),
          .KeyMsg tea.keyBackspace] = some (m2, settings.freshState, false) ∧
      m2.filterText = str "d" ∧
      m2.filteredRows =
        if rowHas asciiLib webRec (str "d") = true then [dbRec, webRec] else [dbRec]) ∧
    (∃ m3, model.run asciiLib recordSession settings.freshState
        [.KeyMsg (tea.keyRune '/'), .KeyMsg (tea.keyRune 'd'), .KeyMsg (tea.keyRune 'b'),
          .KeyMsg tea.keyBackspace, .KeyMsg tea.keyBackspace] =
            some (m3, settings.freshState, false) ∧
      m3.filterText = [] ∧ m3.filteredRows = [dbRec, webRec]) :=
  C29_filter_scenario asciiLib recordSession settings.freshState dbRec webRec (by decide)
    (by decide) (by decide) (by decide)

theorem updateWindowSize_height (m : model) (st : settings.State) (w h : Int) :
    (m.updateWindowSize st w h).1.table.height =
      theme.GetTableHeight (settings.Get st).Fullscreen (m.updateWindowSize st w h).1.tableHeight
        (m.updateWindowSize st w h).1.filteredRows.length := by
  unfold model.updateWindowSize
  simp only
  split_ifs <;> rfl

theorem filter_keys_keep_height (L : GoLib) (m : model) (st : settings.State) (k : tea.KeyMsg)
    (hf : m.filtering = true) (hk : k.Type_ = .KeyRunes ∨ k.Type_ = tea.KeyBackspace) :
    ∃ m1, m.Update L st (.KeyMsg k) = some (m1, .nil, st) ∧
      m1.table.height = m.table.height ∧ m1.tableHeight = m.tableHeight := by
  rcases hk with hk | hk
  · exact ⟨_, model_Update_runes L m st k hf hk, (model_applyFilter_flags L _).2.2.2.1,
      (model_applyFilter_flags L _).2.2.2.2.1⟩
  · rw [model_Update_backspace L m st k hf hk]
    split_ifs
    · exact ⟨_, rfl, (model_applyFilter_flags L _).2.2.2.1,
        (model_applyFilter_flags L _).2.2.2.2.1⟩
    · exact ⟨_, rfl, rfl, rfl⟩

set_option maxRecDepth 8000 in
theorem history_resize_then_filter :
    (model.run asciiLib historySession settings.freshState [.WindowSizeMsg 100 24]).map
        (fun r => (r.1.table.height, r.1.filteredRows.length)) = some (4, 2) ∧
      (model.run asciiLib historySession settings.freshState [.WindowSizeMsg 100 24]).map
        (fun r => theme.GetTableHeight (settings.Get r.2.1).Fullscreen r.1.tableHeight
          r.1.filteredRows.length) = some 4 ∧
      (model.run asciiLib historySession settings.freshState
        [.WindowSizeMsg 100 24, .KeyMsg (tea.keyRune '/'), .KeyMsg (tea.keyRune 'B')]).map
        (fun r => (r.1.table.height, r.1.filteredRows.length)) = some (4, 1) ∧
      (model.run asciiLib historySession settings.freshState
        [.WindowSizeMsg 100 24, .KeyMsg (tea.keyRune '/'), .KeyMsg (tea.keyRune 'B')]).map
        (fun r => theme.GetTableHeight (settings.Get r.2.1).Fullscreen r.1.tableHeight
          r.1.filteredRows.length) = some 3 :=
  ⟨by decide, by decide, by decide, by decide⟩

/-- C30: a resize sets the table's height to `GetTableHeight` of the new table
height and the number of filtered rows, but the filter keys do not: a character
or a backspace in Filtering leaves the table's height as it was.  Over the two
history rows, after a resize to 100 by 24 the height is 4, and after `/` and
`B`, which leave one row, it is still 4 where `GetTableHeight` gives 3. -/
theorem C30_height_not_recomputed :
    (∀ (m : model) (st : settings.State) (w h : Int),
      (m.updateWindowSize st w h).1.table.height =
        theme.GetTableHeight (settings.Get st).Fullscreen
          (m.updateWindowSize st w h).1.tableHeight
          (m.updateWindowSize st w h).1.filteredRows.length) ∧
    (∀ (L : GoLib) (m : model) (st : settings.State) (k : tea.KeyMsg),
      m.filtering = true → (k.Type_ = .KeyRunes ∨ k.Type_ = tea.KeyBackspace) →
        ∃ m1, m.Update L st (.KeyMsg k) = some (m1, .nil, st) ∧
          m1.table.height = m.table.height ∧ m1.tableHeight = m.tableHeight) ∧
    ((model.run asciiLib historySession settings.freshState [.WindowSizeMsg 100 24]).map
        (fun r => (r.1.table.height, r.1.filteredRows.length)) = some (4, 2) ∧
      (model.run asciiLib historySession settings.freshState [.WindowSizeMsg 100 24]).map
        (fun r => theme.GetTableHeight (settings.Get r.2.1).Fullscreen r.1.tableHeight
          r.1.filteredRows.length) = some 4 ∧
      (model.run asciiLib historySession settings.freshState
        [.WindowSizeMsg 100 24, .KeyMsg (tea.keyRune '/'), .KeyMsg (tea.keyRune 'B')]).map
        (fun r => (r.1.table.height, r.1.filteredRows.length)) = some (4, 1) ∧
      (model.run asciiLib historySession settings.freshState
        [.WindowSizeMsg 100 24, .KeyMsg (tea.keyRune '/'), .KeyMsg (tea.keyRune 'B')]).map
        (fun r => theme.GetTableHeight (settings.Get r.2.1).Fullscreen r.1.tableHeight
          r.1.filteredRows.length) = some 3) :=
  ⟨updateWindowSize_height, filter_keys_keep_height, history_resize_then_filter⟩

end interactive

/-! ## Fullscreen toggle, keys without a selection, resize (select.go, tunnel_select.go) -/

namespace interactive

theorem model_updateKeyW_eq (m : model) (st : settings.State) :
    m.updateKeyW st =
      match st.writeError with
      | some _ => (m, .nil, st)
      | none =>
        let st1 : settings.State :=
          { st with
            file := some (settings.MarshalIndent ⟨!(settings.Get st).Fullscreen⟩),
            S := ⟨!(settings.Get st).Fullscreen⟩ }
        (m.resetTableHeight st1,
          if !(settings.Get st).Fullscreen then .EnterAltScreen else .ExitAltScreen, st1) := by
  unfold model.updateKeyW settings.Save
  cases h : st.writeError <;> rfl

theorem tunnelModel_updateKeyW_eq (L : GoLib) (m : tunnelModel) (st : settings.State) :
    m.updateKeyW L st =
      match st.writeError with
      | some _ => some (m, .nil, st)
      | none =>
        let st1 : settings.State :=
          { st with
            file := some (settings.MarshalIndent ⟨!(settings.Get st).Fullscreen⟩),
            S := ⟨!(settings.Get st).Fullscreen⟩ }
        (m.resetTableHeight L st1).map (fun m1 =>
          (m1, if !(settings.Get st).Fullscreen then .EnterAltScreen else .ExitAltScreen, st1)) := by
  unfold tunnelModel.updateKeyW settings.Save
  cases h : st.writeError <;> rfl

theorem UpdateViewport_width (t : TableModel) (w : Int) :
    ({ t with width := w } : TableModel).UpdateViewport
      = (t.UpdateViewport).map (fun t => { t with width := w }) := by
  unfold table.Model.UpdateViewport
  by_cases h : (t.renderedRows.all (fun row => decide (row.length ≤ t.cols.length))) = true
  · rw [if_pos h]
    exact if_pos h
  · rw [if_neg h]
    exact if_neg h

theorem resetTable_aux (m : tunnelModel) (H V : Int) :
    (match ({ m.table with height := H, viewportHeight := V } : TableModel).UpdateViewport with
      | none => none
      | some t => (t.SetWidth m.tableWidth).map (fun t => ({ m with table := t } : tunnelModel)))
      = (({ m.table with height := H, viewportHeight := V } : TableModel).UpdateViewport).map
          (fun t => { m with table := { t with width := m.tableWidth } }) := by
  cases hu : ({ m.table with height := H, viewportHeight := V } : TableModel).UpdateViewport with
  | none => rfl
  | some t =>
    have ht := table.UpdateViewport_some _ _ hu
    subst ht
    have hw := UpdateViewport_width
      ({ m.table with height := H, viewportHeight := V } : TableModel) m.tableWidth
    rw [hu] at hw
    exact congrArg (Option.map (fun t => ({ m with table := t } : tunnelModel))) hw

/-- The tunnel picker's `resetTableHeight`: it returns, with the height, the
viewport and the width of the table set, when the table renders its rows under
the new height. -/
theorem tunnelModel_resetTableHeight_eq (L : GoLib) (st : settings.State) (m : tunnelModel) :
    m.resetTableHeight L st
      = (({ m.table with
            height := theme.GetTableHeight (settings.Get st).Fullscreen m.tableHeight
              m.filteredRows.length,
            viewportHeight := wrapInt64
              (theme.GetTableHeight (settings.Get st).Fullscreen m.tableHeight
                m.filteredRows.length - L.headerHeight m.table.cols) }
          : TableModel).UpdateViewport).map
          (fun t => { m with table := { t with width := m.tableWidth } }) :=
  resetTable_aux m _ _

/-- On a table without rows the tunnel picker's `resetTableHeight` returns. -/
theorem tunnelModel_resetTableHeight_nil (L : GoLib) (st : settings.State) (m : tunnelModel)
    (h : m.table.rows = []) : ∃ m1, m.resetTableHeight L st = some m1 := by
  rw [tunnelModel_resetTableHeight_eq,
    table.UpdateViewport_nil ({ m.table with
      height := theme.GetTableHeight (settings.Get st).Fullscreen m.tableHeight
        m.filteredRows.length,
      viewportHeight := wrapInt64
        (theme.GetTableHeight (settings.Get st).Fullscreen m.tableHeight
          m.filteredRows.length - L.headerHeight m.table.cols) } : TableModel) h]
  exact ⟨_, rfl⟩

/-- C31 (counterexample): with a settings file that cannot be written, the key
`w` in the record picker leaves the fullscreen preference that `settings.Get`
returns as it was (off): it is not flipped. -/
theorem C31_counterexample :
    (settings.Get settings.readOnlyState).Fullscreen = false ∧
    (historySession.Update asciiLib settings.readOnlyState (.KeyMsg (tea.keyRune 'w'))).map
      (fun r => (settings.Get r.2.2).Fullscreen) = some false := by
  refine ⟨rfl, ?_⟩
  rw [model_Update_browse _ _ _ _ rfl, if_neg (by decide), if_neg (by decide),
    if_neg (by decide), if_pos (by decide), model_updateKeyW_eq]
  rfl

/-- C31: in Browse the key `w` of either picker tries to save the flipped
fullscreen preference.  When the file can be written, the preference that
`settings.Get` returns afterwards is the flipped one and the file holds it; the
record picker returns with the table height reset and the command that enters or
leaves the alternate screen, and so does the tunnel picker when its
`resetTableHeight` returns, as it does on a table without rows: it panics when
the table, rendering its rows under the new height, reads a column that it does
not have.  When writing fails, the preference of `settings.Get` is left as it
was (not flipped), the session and the settings are unchanged, and no command is
returned, so the session goes on. -/
theorem C31_toggle_fullscreen (L : GoLib) (m : model) (tm : tunnelModel) (st : settings.State)
    (f : tunnel.TunnelFile) (uuid now : GoString) (k : tea.KeyMsg)
    (hk : k.String = str "w") (hm : m.filtering = false) (htm : tm.filtering = false)
    (hform : tm.showingForm = false) :
    (st.writeError = none →
      ∃ st1 cmd, m.Update L st (.KeyMsg k) = some (m.resetTableHeight st1, cmd, st1) ∧
        tm.Update L st f uuid now (.KeyMsg k)
          = (tm.resetTableHeight L st1).map (fun tm1 => (tm1, cmd, st1, f)) ∧
        (tm.table.rows = [] →
          ∃ tm1, tm.Update L st f uuid now (.KeyMsg k) = some (tm1, cmd, st1, f)) ∧
        (settings.Get st1).Fullscreen = !(settings.Get st).Fullscreen ∧
        st1.file = some (settings.MarshalIndent (settings.Get st1)) ∧
        cmd = (if (settings.Get st1).Fullscreen then .EnterAltScreen else .ExitAltScreen)) ∧
    (∀ e, st.writeError = some e →
      m.Update L st (.KeyMsg k) = some (m, .nil, st) ∧
      tm.Update L st f uuid now (.KeyMsg k) = some (tm, .nil, st, f)) := by
  have h1 : m.Update L st (.KeyMsg k) = some (m.updateKeyW st) := by
    rw [model_Update_browse L m st k hm, hk, if_neg (by decide), if_neg (by decide),
      if_neg (by decide), if_pos rfl]
  have h2 : tm.Update L st f uuid now (.KeyMsg k) =
      (tm.updateKeyW L st).map (fun r => (r.1, r.2.1, r.2.2, f)) := by
    rw [tunnelModel_Update_browse L tm st f uuid now k hform htm, hk, if_neg (by decide),
      if_neg (by decide), if_neg (by decide), if_neg (by decide), if_neg (by decide),
      if_pos rfl]
  rw [h1, h2, model_updateKeyW_eq, tunnelModel_updateKeyW_eq]
  constructor
  · intro hw
    rw [hw]
    refine ⟨_, _, rfl, ?_, ?_, rfl, rfl, rfl⟩
    · simp only [Option.map_map]
      rfl
    · intro hrows
      obtain ⟨tm1, h3⟩ := tunnelModel_resetTableHeight_nil L
        { st with
          file := some (settings.MarshalIndent ⟨!(settings.Get st).Fullscreen⟩),
          S := ⟨!(settings.Get st).Fullscreen⟩ } tm hrows
      refine ⟨tm1, ?_⟩
      rw [hw] at h3
      simp only [h3]
      rfl
  · intro e hw
    rw [hw]
    exact ⟨rfl, rfl⟩

set_option maxRecDepth 8000 in
theorem tunnel_toggle_evaluated :
    drawnSession.Update asciiLib settings.freshState tunnelStore [] []
      (.KeyMsg (tea.keyRune 'w')) = none ∧
    (emptyTunnelSession.Update asciiLib settings.freshState tunnelStore [] []
      (.KeyMsg (tea.keyRune 'w'))).map
        (fun r => (r.1.table.height, r.1.table.viewportHeight, r.2.1,
          (settings.Get r.2.2.1).Fullscreen))
      = some (3, 1, .EnterAltScreen, true) :=
  ⟨by decide, by decide⟩

/-- The record picker over two rows and the tunnel picker over no rows, with a
settings file that can be written and with one that cannot; on the drawn tunnel
picker over two rows the key `w` panics in the table. -/
theorem C31_toggle_fullscreen_witness :
    (drawnSession.Update asciiLib settings.freshState tunnelStore [] []
        (.KeyMsg (tea.keyRune 'w')) = none ∧
      (emptyTunnelSession.Update asciiLib settings.freshState tunnelStore [] []
        (.KeyMsg (tea.keyRune 'w'))).map
          (fun r => (r.1.table.height, r.1.table.viewportHeight, r.2.1,
            (settings.Get r.2.2.1).Fullscreen))
        = some (3, 1, .EnterAltScreen, true)) ∧
    (∃ st1 cmd, historySession.Update asciiLib settings.freshState (.KeyMsg (tea.keyRune 'w')) =
        some (historySession.resetTableHeight st1, cmd, st1) ∧
      emptyTunnelSession.Update asciiLib settings.freshState tunnelStore [] []
          (.KeyMsg (tea.keyRune 'w'))
        = (emptyTunnelSession.resetTableHeight asciiLib st1).map
            (fun tm1 => (tm1, cmd, st1, tunnelStore)) ∧
      (emptyTunnelSession.table.rows = [] →
        ∃ tm1, emptyTunnelSession.Update asciiLib settings.freshState tunnelStore [] []
          (.KeyMsg (tea.keyRune 'w')) = some (tm1, cmd, st1, tunnelStore)) ∧
      (settings.Get st1).Fullscreen = !(settings.Get settings.freshState).Fullscreen ∧
      st1.file = some (settings.MarshalIndent (settings.Get st1)) ∧
      cmd = (if (settings.Get st1).Fullscreen then .EnterAltScreen else .ExitAltScreen)) ∧
    (historySession.Update asciiLib settings.readOnlyState (.KeyMsg (tea.keyRune 'w')) =
        some (historySession, .nil, settings.readOnlyState) ∧
      emptyTunnelSession.Update asciiLib settings.readOnlyState tunnelStore [] []
        (.KeyMsg (tea.keyRune 'w'))
          = some (emptyTunnelSession, .nil, settings.readOnlyState, tunnelStore)) :=
  ⟨tunnel_toggle_evaluated,
    (C31_toggle_fullscreen asciiLib historySession emptyTunnelSession settings.freshState
      tunnelStore [] [] (tea.keyRune 'w') (by decide) rfl rfl rfl).1 rfl,
    (C31_toggle_fullscreen asciiLib historySession emptyTunnelSession settings.readOnlyState
      tunnelStore [] [] (tea.keyRune 'w') (by decide) rfl rfl rfl).2 _ rfl⟩

end interactive

namespace interactive

theorem model_updateRemove_none (L : GoLib) (col : Nat) (m : model)
    (h : m.table.SelectedRow = none) : m.updateRemove L col = some (m, .nil) := by
  unfold model.updateRemove
  rw [h]

theorem tunnelModel_updateKeyEnter_none (m : tunnelModel) (h : m.table.SelectedRow = none) :
    m.updateKeyEnter = some (m, .Quit) := by
  unfold tunnelModel.updateKeyEnter
  rw [h]
  split_ifs <;> rfl

/-- C32 (counterexample): in a tunnel picker over no tunnels no row is
highlighted, and the confirm key (enter) returns `tea.Quit`: the session ends,
and `SelectTunnels` returns no tunnel. -/
theorem C32_counterexample :
    emptyTunnelSession.table.SelectedRow = none ∧
    (emptyTunnelSession.Update asciiLib settings.freshState {} [] [] (.KeyMsg enterKey)).map
      (fun r => r.2.1) = some .Quit ∧
    (emptyTunnelSession.Update asciiLib settings.freshState {} [] [] (.KeyMsg enterKey)).map
      (fun r => SelectTunnels.returned r.1) = some [] :=
  ⟨by decide, by decide, by decide⟩

/-- C32: in Browse, when the table has no highlighted row, the delete keys
(`d`, `r`) and the confirm key (enter) of the record picker, and the delete key
(`d`) and the edit key (`e`) of the tunnel picker, change nothing and return no
command; the confirm key (enter) of the tunnel picker also leaves the session
and the store as they are, but it returns `tea.Quit`, so the session ends with
the tunnels toggled so far (none, when none was toggled). -/
theorem C32_no_selection (L : GoLib) (m : model) (tm : tunnelModel) (st : settings.State)
    (f : tunnel.TunnelFile) (uuid now : GoString) (k : tea.KeyMsg)
    (hm : m.table.SelectedRow = none) (htm : tm.table.SelectedRow = none)
    (hmf : m.filtering = false) (htf : tm.filtering = false) (hform : tm.showingForm = false) :
    ((k.String = str "d" ∨ k.String = str "r" ∨ k.String = str "enter") →
      m.Update L st (.KeyMsg k) = some (m, .nil, st)) ∧
    ((k.String = str "d" ∨ k.String = str "e") →
      tm.Update L st f uuid now (.KeyMsg k) = some (tm, .nil, st, f)) ∧
    (k.String = str "enter" →
      tm.Update L st f uuid now (.KeyMsg k) = some (tm, .Quit, st, f) ∧
      (tm.exit = false →
        SelectTunnels.returned tm = tm.tunnels.filter (fun t => decide (t.ID ∈ tm.selectedIDs)))) := by
  rw [model_Update_browse L m st k hmf, tunnelModel_Update_browse L tm st f uuid now k hform htf]
  refine ⟨?_, ?_, ?_⟩
  · rintro (hk | hk | hk) <;> rw [hk]
    · rw [if_neg (by decide), if_pos rfl, model.updateKeyD, model_updateRemove_none L 1 m hm]
      rfl
    · rw [if_neg (by decide), if_neg (by decide), if_pos rfl, model.updateKeyR,
        model_updateRemove_none L 0 m hm]
      rfl
    · rw [if_neg (by decide), if_neg (by decide), if_neg (by decide), if_neg (by decide),
        if_neg (by decide), if_pos rfl]
      unfold model.updateKeyEnter
      rw [hm]
      rfl
  · rintro (hk | hk) <;> rw [hk]
    · rw [if_neg (by decide), if_neg (by decide), if_neg (by decide), if_pos rfl]
      unfold tunnelModel.updateKeyD
      rw [htm]
      rfl
    · rw [if_neg (by decide), if_neg (by decide), if_pos rfl]
      unfold tunnelModel.updateKeyE
      rw [htm]
      rfl
  · intro hk
    rw [hk]
    rw [if_neg (by decide), if_neg (by decide), if_neg (by decide), if_neg (by decide),
      if_neg (by decide), if_neg (by decide), if_neg (by decide), if_pos rfl,
      tunnelModel_updateKeyEnter_none tm htm]
    refine ⟨rfl, fun he => ?_⟩
    unfold SelectTunnels.returned
    rw [if_neg (by simp [he])]

/-- The two pickers over no rows, with the key `d` and with the key enter. -/
theorem C32_no_selection_witness :
    (emptyRecordSession.Update asciiLib settings.freshState (.KeyMsg (tea.keyRune 'd')) =
        some (emptyRecordSession, .nil, settings.freshState)) ∧
    (emptyTunnelSession.Update asciiLib settings.freshState {} [] [] (.KeyMsg (tea.keyRune 'd')) =
        some (emptyTunnelSession, .nil, settings.freshState, {})) ∧
    (emptyTunnelSession.Update asciiLib settings.freshState {} [] [] (.KeyMsg enterKey) =
        some (emptyTunnelSession, .Quit, settings.freshState, {})) :=
  ⟨(C32_no_selection asciiLib emptyRecordSession emptyTunnelSession settings.freshState {} [] []
      (tea.keyRune 'd') (by decide) (by decide) rfl rfl rfl).1 (Or.inl (by decide)),
    (C32_no_selection asciiLib emptyRecordSession emptyTunnelSession settings.freshState {} [] []
      (tea.keyRune 'd') (by decide) (by decide) rfl rfl rfl).2.1 (Or.inl (by decide)),
    ((C32_no_selection asciiLib emptyRecordSession emptyTunnelSession settings.freshState {} [] []
      enterKey (by decide) (by decide) rfl rfl rfl).2.2 (by decide)).1⟩

theorem model_updateWindowSize_spec (st : settings.State) (m : model) (w h : Int) :
    (m.updateWindowSize st w h).1.tableWidth = (theme.AdjustTableDimensions m.table.cols w h).1 ∧
    (m.updateWindowSize st w h).1.tableHeight =
      (theme.AdjustTableDimensions m.table.cols w h).2.1 ∧
    (m.updateWindowSize st w h).1.table.cols =
      (theme.AdjustTableDimensions m.table.cols w h).2.2 ∧
    (m.updateWindowSize st w h).1.table.width = (theme.AdjustTableDimensions m.table.cols w h).1 ∧
    (m.updateWindowSize st w h).1.filtering = m.filtering ∧
    (m.updateWindowSize st w h).1.filterText = m.filterText ∧
    (m.updateWindowSize st w h).1.allRows = m.allRows ∧
    (m.updateWindowSize st w h).1.filteredRows = m.filteredRows ∧
    (m.updateWindowSize st w h).1.table.rows = m.table.rows ∧
    (m.updateWindowSize st w h).2 ≠ .Quit := by
  unfold model.updateWindowSize
  simp only
  split_ifs <;> exact ⟨rfl, rfl, rfl, rfl, rfl, rfl, rfl, rfl, rfl, by simp⟩

/-- The tunnel picker's resize handler: it returns, with the layout recomputed,
when the table renders its rows under the new columns and then under the new
height. -/
theorem tunnelModel_updateWindowSize_eq (L : GoLib) (st : settings.State) (m : tunnelModel)
    (w h : Int) :
    m.updateWindowSize L st w h
      = (m.table.SetColumns (theme.AdjustTableDimensions m.table.cols w h).2.2).bind (fun t =>
          (({ m with
                windowWidth := w, windowHeight := h,
                tableWidth := (theme.AdjustTableDimensions m.table.cols w h).1,
                tableHeight := (theme.AdjustTableDimensions m.table.cols w h).2.1,
                table := t } : tunnelModel).resetTableHeight L st).map (fun m1 =>
            (m1, if (settings.Get st).Fullscreen then tea.Cmd.EnterAltScreen
              else tea.Cmd.ExitAltScreen))) := by
  unfold tunnelModel.updateWindowSize
  simp only
  cases h1 : m.table.SetColumns (theme.AdjustTableDimensions m.table.cols w h).2.2 with
  | none => rfl
  | some t =>
    simp only [Option.some_bind]
    cases h2 : ({ m with
                  windowWidth := w, windowHeight := h,
                  tableWidth := (theme.AdjustTableDimensions m.table.cols w h).1,
                  tableHeight := (theme.AdjustTableDimensions m.table.cols w h).2.1,
                  table := t } : tunnelModel).resetTableHeight L st with
    | none => rfl
    | some m1 =>
      simp only [Option.map_some']
      split_ifs <;> rfl

theorem tunnelModel_updateWindowSize_spec (L : GoLib) (st : settings.State) (m : tunnelModel)
    (w h : Int) (m1 : tunnelModel) (cmd : tea.Cmd)
    (hr : m.updateWindowSize L st w h = some (m1, cmd)) :
    m1.tableWidth = (theme.AdjustTableDimensions m.table.cols w h).1 ∧
    m1.tableHeight = (theme.AdjustTableDimensions m.table.cols w h).2.1 ∧
    m1.table.cols = (theme.AdjustTableDimensions m.table.cols w h).2.2 ∧
    m1.table.width = (theme.AdjustTableDimensions m.table.cols w h).1 ∧
    m1.filtering = m.filtering ∧ m1.filterText = m.filterText ∧ m1.allRows = m.allRows ∧
    m1.filteredRows = m.filteredRows ∧ m1.table.rows = m.table.rows ∧
    m1.selectedIDs = m.selectedIDs ∧ m1.tunnels = m.tunnels ∧
    m1.showingForm = m.showingForm ∧ m1.formModel = m.formModel ∧ cmd ≠ .Quit := by
  rw [tunnelModel_updateWindowSize_eq] at hr
  cases h1 : m.table.SetColumns (theme.AdjustTableDimensions m.table.cols w h).2.2 with
  | none => simp [h1] at hr
  | some t =>
    have ht := table.UpdateViewport_some _ _ h1
    subst ht
    rw [h1, Option.some_bind, tunnelModel_resetTableHeight_eq] at hr
    cases h2 : ({ ({ m.table with
              cols := (theme.AdjustTableDimensions m.table.cols w h).2.2 } : TableModel) with
          height := theme.GetTableHeight (settings.Get st).Fullscreen
            (theme.AdjustTableDimensions m.table.cols w h).2.1 m.filteredRows.length,
          viewportHeight := wrapInt64
            (theme.GetTableHeight (settings.Get st).Fullscreen
              (theme.AdjustTableDimensions m.table.cols w h).2.1 m.filteredRows.length
              - L.headerHeight (theme.AdjustTableDimensions m.table.cols w h).2.2) }
          : TableModel).UpdateViewport with
    | none =>
      rw [h2] at hr
      simp at hr
    | some t2 =>
      have ht2 := table.UpdateViewport_some _ _ h2
      subst ht2
      rw [h2] at hr
      simp only [Option.map_some', Option.some.injEq, Prod.mk.injEq] at hr
      obtain ⟨rfl, rfl⟩ := hr
      refine ⟨rfl, rfl, rfl, rfl, rfl, rfl, rfl, rfl, rfl, rfl, rfl, rfl, rfl, ?_⟩
      split_ifs <;> simp

/-- On a table without rows the tunnel picker's resize handler returns. -/
theorem tunnelModel_updateWindowSize_nil (L : GoLib) (st : settings.State) (m : tunnelModel)
    (w h : Int) (hrows : m.table.rows = []) :
    ∃ m1 cmd, m.updateWindowSize L st w h = some (m1, cmd) := by
  rw [tunnelModel_updateWindowSize_eq]
  have h1 : m.table.SetColumns (theme.AdjustTableDimensions m.table.cols w h).2.2
      = some { m.table with cols := (theme.AdjustTableDimensions m.table.cols w h).2.2 } :=
    table.UpdateViewport_nil
      ({ m.table with cols := (theme.AdjustTableDimensions m.table.cols w h).2.2 } : TableModel)
      hrows
  rw [h1, Option.some_bind]
  obtain ⟨m1, h2⟩ := tunnelModel_resetTableHeight_nil L st
    ({ m with
        windowWidth := w, windowHeight := h,
        tableWidth := (theme.AdjustTableDimensions m.table.cols w h).1,
        tableHeight := (theme.AdjustTableDimensions m.table.cols w h).2.1,
        table := { m.table with
          cols := (theme.AdjustTableDimensions m.table.cols w h).2.2 } } : tunnelModel)
    hrows
  rw [h2]
  exact ⟨_, _, rfl⟩

theorem tunnelModel_Update_form_resize (L : GoLib) (m : tunnelModel) (st : settings.State)
    (f : tunnel.TunnelFile) (uuid now : GoString) (w h : Int) (form : tunnelFormModel)
    (hs : m.showingForm = true) (hform : m.formModel = some form)
    (hdone : form.submitted = false ∧ form.cancelled = false) :
    m.Update L st f uuid now (.WindowSizeMsg w h) = some (m, .nil, st, f) := by
  unfold tunnelModel.Update
  rw [if_pos (by simp [hs, hform])]
  unfold tunnelModel.updateForm
  rw [hform]
  simp only [tunnelFormModel.Update]
  rw [if_neg (by simp [hdone.1, hdone.2])]
  rw [← hform]
  rfl

set_option maxRecDepth 8000 in
theorem formSession_resize :
    (formSession.Update asciiLib settings.freshState tunnelStore [] []
      (.WindowSizeMsg 120 40)).map (fun r => (r.1.tableWidth, r.1.tableHeight)) = some (0, 0) ∧
    (theme.AdjustTableDimensions formSession.table.cols 120 40).1 = 117 ∧
    (theme.AdjustTableDimensions formSession.table.cols 120 40).2.1 = 37 :=
  ⟨by decide, by decide, by decide⟩

/-- C33 (counterexample): while the form is shown, a resize to 120 by 40 leaves
the table width and the table height of the session at 0 and 0, although
`AdjustTableDimensions` of the columns and (120, 40) gives 117 and 37. -/
theorem C33_counterexample :
    formSession.showingForm = true ∧
    (formSession.Update asciiLib settings.freshState tunnelStore [] []
      (.WindowSizeMsg 120 40)).map (fun r => (r.1.tableWidth, r.1.tableHeight)) = some (0, 0) ∧
    (theme.AdjustTableDimensions formSession.table.cols 120 40).1 = 117 ∧
    (theme.AdjustTableDimensions formSession.table.cols 120 40).2.1 = 37 :=
  ⟨rfl, formSession_resize⟩

/-- C33: in Browse and in Filtering of the record picker, a resize to `(w, h)`
sets the table width, the table height and the columns of the session to
`AdjustTableDimensions` of the current columns and `(w, h)`, and leaves the
filtering flag, the filter text, both row caches and the rows of the table as
they are, without ending the session.  In Browse and in Filtering of the tunnel
picker (the form not shown) the resize is handled by `updateWindowSize`, which
returns on a table without rows and panics when the table, rendering its rows
under the new columns or the new height, reads a column that it does not have;
when it returns, the layout is set in the same way and the filtering flag, the
filter text, both row caches, the rows of the table, the selected set, the
tunnels and the form flag are as they were.  While the form is shown
(FormEditing), the resize goes to the form, which ignores it, and nothing in the
session changes: the layout is not recomputed. -/
theorem C33_resize (L : GoLib) (m : model) (tm : tunnelModel) (st : settings.State)
    (f : tunnel.TunnelFile) (uuid now : GoString) (w h : Int) :
    (∃ m1 cmd, m.Update L st (.WindowSizeMsg w h) = some (m1, cmd, st) ∧ cmd ≠ .Quit ∧
      m1.tableWidth = (theme.AdjustTableDimensions m.table.cols w h).1 ∧
      m1.tableHeight = (theme.AdjustTableDimensions m.table.cols w h).2.1 ∧
      m1.table.cols = (theme.AdjustTableDimensions m.table.cols w h).2.2 ∧
      m1.table.width = (theme.AdjustTableDimensions m.table.cols w h).1 ∧
      m1.filtering = m.filtering ∧ m1.filterText = m.filterText ∧ m1.allRows = m.allRows ∧
      m1.filteredRows = m.filteredRows ∧ m1.table.rows = m.table.rows) ∧
    (¬ (tm.showingForm = true ∧ tm.formModel ≠ none) →
      tm.Update L st f uuid now (.WindowSizeMsg w h)
        = (tm.updateWindowSize L st w h).map (fun r => (r.1, r.2, st, f)) ∧
      (tm.table.rows = [] →
        ∃ m1 cmd, tm.Update L st f uuid now (.WindowSizeMsg w h) = some (m1, cmd, st, f)) ∧
      (∀ m1 cmd st1 f1, tm.Update L st f uuid now (.WindowSizeMsg w h) = some (m1, cmd, st1, f1) →
        st1 = st ∧ f1 = f ∧ cmd ≠ .Quit ∧
        m1.tableWidth = (theme.AdjustTableDimensions tm.table.cols w h).1 ∧
        m1.tableHeight = (theme.AdjustTableDimensions tm.table.cols w h).2.1 ∧
        m1.table.cols = (theme.AdjustTableDimensions tm.table.cols w h).2.2 ∧
        m1.table.width = (theme.AdjustTableDimensions tm.table.cols w h).1 ∧
        m1.filtering = tm.filtering ∧ m1.filterText = tm.filterText ∧ m1.allRows = tm.allRows ∧
        m1.filteredRows = tm.filteredRows ∧ m1.table.rows = tm.table.rows ∧
        m1.selectedIDs = tm.selectedIDs ∧ m1.tunnels = tm.tunnels ∧
        m1.showingForm = tm.showingForm ∧ m1.formModel = tm.formModel)) ∧
    (∀ form, tm.showingForm = true → tm.formModel = some form →
      form.submitted = false ∧ form.cancelled = false →
        tm.Update L st f uuid now (.WindowSizeMsg w h) = some (tm, .nil, st, f)) := by
  refine ⟨?_, ?_, ?_⟩
  · obtain ⟨h1, h2, h3, h4, h5, h6, h7, h8, h9, h10⟩ := model_updateWindowSize_spec st m w h
    exact ⟨_, _, rfl, h10, h1, h2, h3, h4, h5, h6, h7, h8, h9⟩
  · intro hform
    have hU : tm.Update L st f uuid now (.WindowSizeMsg w h)
        = (tm.updateWindowSize L st w h).map (fun r => (r.1, r.2, st, f)) := by
      unfold tunnelModel.Update
      rw [if_neg hform]
    refine ⟨hU, fun hrows => ?_, fun m1 cmd st1 f1 hr => ?_⟩
    · obtain ⟨m1, cmd, h1⟩ := tunnelModel_updateWindowSize_nil L st tm w h hrows
      exact ⟨m1, cmd, by rw [hU, h1]; rfl⟩
    · rw [hU] at hr
      cases h1 : tm.updateWindowSize L st w h with
      | none => simp [h1] at hr
      | some r =>
        rw [h1] at hr
        simp only [Option.map_some', Option.some.injEq, Prod.mk.injEq] at hr
        obtain ⟨rfl, rfl, rfl, rfl⟩ := hr
        obtain ⟨h2, h3, h4, h5, h6, h7, h8, h9, h10, h11, h12, h13, h14, h15⟩ :=
          tunnelModel_updateWindowSize_spec L st tm w h r.1 r.2 h1
        exact ⟨rfl, rfl, h15, h2, h3, h4, h5, h6, h7, h8, h9, h10, h11, h12, h13, h14⟩
  · intro form hs hform hdone
    exact tunnelModel_Update_form_resize L tm st f uuid now w h form hs hform hdone

set_option maxRecDepth 8000 in
theorem tunnel_resize_evaluated :
    (emptyTunnelSession.Update asciiLib settings.freshState emptyStore [] []
      (.WindowSizeMsg 120 40)).map
        (fun r => (r.1.tableWidth, r.1.tableHeight, r.1.table.height, r.1.table.viewportHeight))
      = some (117, 37, 3, 1) ∧
    drawnSession.Update asciiLib settings.freshState tunnelStore [] []
      (.WindowSizeMsg 120 40) = none :=
  ⟨by decide, by decide⟩

/-- The tunnel picker with the form for `cache` open, resized to 120 by 40; the
tunnel picker over no rows, where the resize sets the layout; and the drawn
tunnel picker over two rows, where it panics in the table. -/
theorem C33_resize_witness :
    formSession.Update asciiLib settings.freshState tunnelStore [] [] (.WindowSizeMsg 120 40) =
      some (formSession, .nil, settings.freshState, tunnelStore) ∧
    (emptyTunnelSession.Update asciiLib settings.freshState emptyStore [] []
      (.WindowSizeMsg 120 40)).map
        (fun r => (r.1.tableWidth, r.1.tableHeight, r.1.table.height, r.1.table.viewportHeight))
      = some (117, 37, 3, 1) ∧
    drawnSession.Update asciiLib settings.freshState tunnelStore [] []
      (.WindowSizeMsg 120 40) = none :=
  ⟨(C33_resize asciiLib historySession formSession settings.freshState tunnelStore [] [] 120
      40).2.2 cacheForm rfl rfl ⟨rfl, rfl⟩,
    tunnel_resize_evaluated⟩

end interactive
/-! ## Focus of the tunnel form (tunnel_form.go) -/

namespace interactive

theorem KeyMsg_String_alt (k : tea.KeyMsg) (h : k.Alt = true) :
    ∃ rest, k.String = str "alt+" ++ rest := by
  unfold tea.KeyMsg.String
  rw [if_pos h]
  exact ⟨_, rfl⟩

theorem KeyMsg_enter_not_alt (k : tea.KeyMsg) (h : k.String = str "enter") : k.Alt = false := by
  cases hA : k.Alt with
  | false => rfl
  | true =>
    obtain ⟨rest, hr⟩ := KeyMsg_String_alt k hA
    rw [hr] at h
    have h1 : str "alt+" = [97, 108, 116, 43] := by decide
    have h2 : str "enter" = [101, 110, 116, 101, 114] := by decide
    rw [h1, h2] at h
    simp at h

theorem inputs_of_length_seven (l : List formInput) (h : l.length = 7) :
    ∃ i0 i1 i2 i3 i4 i5 i6, l = [i0, i1, i2, i3, i4, i5, i6] := by
  match l, h with
  | [i0, i1, i2, i3, i4, i5, i6], _ => exact ⟨i0, i1, i2, i3, i4, i5, i6, rfl⟩

theorem focusNext_eq (m : tunnelFormModel) (hlen : m.inputs.length = 7)
    (h0 : 0 ≤ m.focusIndex) (h6 : m.focusIndex ≤ 6) :
    m.focusNext = some { m with focusIndex := (m.focusIndex + 1) % 7 } := by
  unfold tunnelFormModel.focusNext
  rw [if_neg (by omega), hlen, wrapInt64_id (by omega) (by omega),
    Int.tmod_eq_emod (by omega) (by norm_num)]
  rfl

theorem form_Update_next (m : tunnelFormModel) (f : tunnel.TunnelFile) (uuid now : GoString)
    (k : tea.KeyMsg) (hlen : m.inputs.length = 7) (h0 : 0 ≤ m.focusIndex)
    (h6 : m.focusIndex ≤ 6)
    (hk : k.String = str "tab" ∨ k.String = str "down" ∨ k.String = str "enter") :
    m.Update f uuid now (.KeyMsg k) =
      some ({ m with focusIndex := (m.focusIndex + 1) % 7 }, .nil, f) := by
  unfold tunnelFormModel.Update
  simp only
  rcases hk with hk | hk | hk
  · rw [hk, if_neg (by decide), if_pos (by decide), focusNext_eq m hlen h0 h6]
    rfl
  · rw [hk, if_neg (by decide), if_pos (by decide), focusNext_eq m hlen h0 h6]
    rfl
  · rw [KeyMsg_enter_not_alt k hk, hk, if_neg (by decide), if_neg (by decide),
      if_neg (by decide), if_pos rfl, if_neg (by decide), focusNext_eq m hlen h0 h6]
    rfl

theorem form_Update_prev (m : tunnelFormModel) (f : tunnel.TunnelFile) (uuid now : GoString)
    (k : tea.KeyMsg) (hlen : m.inputs.length = 7) (h0 : 0 ≤ m.focusIndex)
    (h6 : m.focusIndex ≤ 6) (hk : k.String = str "shift+tab" ∨ k.String = str "up") :
    m.Update f uuid now (.KeyMsg k) =
      some ({ m with focusIndex := (m.focusIndex - 1) % 7 }, .nil, f) := by
  have hw : wrapInt64 (m.focusIndex - 1) = m.focusIndex - 1 :=
    wrapInt64_id (by omega) (by omega)
  unfold tunnelFormModel.Update
  simp only
  have hgo : (if k.String = str "shift+tab" ∨ k.String = str "up" then
        some ((if wrapInt64 (m.focusIndex - 1) < 0 then
            { m with focusIndex := (m.inputs.length : Int) - 1 }
          else { m with focusIndex := wrapInt64 (m.focusIndex - 1) }), tea.Cmd.nil, f)
      else none) =
      some ({ m with focusIndex := (m.focusIndex - 1) % 7 }, .nil, f) := by
    rw [if_pos hk, hw, hlen]
    by_cases hz : m.focusIndex - 1 < 0
    · rw [if_pos hz]
      have : (m.focusIndex - 1) % 7 = 6 := by omega
      rw [this]
      rfl
    · rw [if_neg hz]
      have : (m.focusIndex - 1) % 7 = m.focusIndex - 1 := by omega
      rw [this]
  rcases hk with hk | hk
  · rw [hk] at hgo ⊢
    rw [if_neg (by decide), if_neg (by decide), if_pos (by decide)]
    rw [if_pos (by decide)] at hgo
    exact hgo
  · rw [hk] at hgo ⊢
    rw [if_neg (by decide), if_neg (by decide), if_pos (by decide)]
    rw [if_pos (by decide)] at hgo
    exact hgo

theorem editFocused_inv (m : tunnelFormModel) (g : GoString → GoString)
    (hlen : m.inputs.length = 7) (h0 : 0 ≤ m.focusIndex) (h6 : m.focusIndex ≤ 6) :
    ∃ m1, m.editFocused g = some m1 ∧ m1.inputs.length = 7 ∧ m1.focusIndex = m.focusIndex := by
  unfold tunnelFormModel.editFocused
  rw [if_neg (by omega)]
  have hlt : m.focusIndex.toNat < m.inputs.length := by omega
  rw [List.get?_eq_get hlt]
  exact ⟨_, rfl, by simp [hlen], rfl⟩

/-- Every message leaves a form with seven inputs and the focus on one of them
such a form, and is handled without a panic. -/
theorem form_Update_inv (m : tunnelFormModel) (f : tunnel.TunnelFile) (uuid now : GoString)
    (msg : tea.Msg) (hlen : m.inputs.length = 7) (h0 : 0 ≤ m.focusIndex)
    (h6 : m.focusIndex ≤ 6) :
    ∃ m1 cmd f1, m.Update f uuid now msg = some (m1, cmd, f1) ∧
      m1.inputs.length = 7 ∧ 0 ≤ m1.focusIndex ∧ m1.focusIndex ≤ 6 := by
  have hsub : ∃ m1 cmd f1, m.submit f uuid now = some (m1, cmd, f1) ∧
      m1.inputs.length = 7 ∧ 0 ≤ m1.focusIndex ∧ m1.focusIndex ≤ 6 := by
    obtain ⟨i0, i1, i2, i3, i4, i5, i6, hi⟩ := inputs_of_length_seven m.inputs hlen
    rcases submit_cases m f uuid now i0 i1 i2 i3 i4 i5 i6 hi with ⟨e, he⟩ | ⟨f1, he⟩
    · exact ⟨_, _, _, he, hlen, h0, h6⟩
    · exact ⟨_, _, _, he, hlen, h0, h6⟩
  have hmod : 0 ≤ (m.focusIndex + 1) % 7 ∧ (m.focusIndex + 1) % 7 ≤ 6 := by omega
  have hmod2 : 0 ≤ (m.focusIndex - 1) % 7 ∧ (m.focusIndex - 1) % 7 ≤ 6 := by omega
  cases msg with
  | WindowSizeMsg w h => exact ⟨m, .nil, f, rfl, hlen, h0, h6⟩
  | KeyMsg k =>
    by_cases hc : k.String = str "ctrl+c" ∨ k.String = str "esc"
    · exact ⟨_, _, _, form_Update_cancel m f uuid now k (by tauto), hlen, h0, h6⟩
    by_cases hn : k.String = str "tab" ∨ k.String = str "down" ∨ k.String = str "enter"
    · exact ⟨_, _, _, form_Update_next m f uuid now k hlen h0 h6 hn, hlen, hmod.1, hmod.2⟩
    by_cases hp : k.String = str "shift+tab" ∨ k.String = str "up"
    · exact ⟨_, _, _, form_Update_prev m f uuid now k hlen h0 h6 hp, hlen, hmod2.1, hmod2.2⟩
    by_cases hs : k.String = str "ctrl+s"
    · rw [form_Update_submit m f uuid now k hs]
      exact hsub
    have hrest : m.Update f uuid now (.KeyMsg k) =
        if k.String = str "backspace" then
          (m.editFocused (fun value => value.dropLast)).map
            (fun m => ({ m with err := [] }, .nil, f))
        else if k.Runes.length > 0 then
          (m.editFocused (fun value => value ++ tea.runesString k.Runes)).map
            (fun m => ({ m with err := [] }, .nil, f))
        else some (m, .nil, f) := by
      unfold tunnelFormModel.Update
      simp only
      rw [if_neg hc, if_neg (by tauto), if_neg hp, if_neg (by tauto), if_neg hs]
    rw [hrest]
    split_ifs
    · obtain ⟨m1, h1, h2, h3⟩ := editFocused_inv m (fun value => value.dropLast) hlen h0 h6
      rw [h1]
      exact ⟨_, _, _, rfl, h2, by rw [← h3] at h0; exact h0, by rw [← h3] at h6; exact h6⟩
    · obtain ⟨m1, h1, h2, h3⟩ :=
        editFocused_inv m (fun value => value ++ tea.runesString k.Runes) hlen h0 h6
      rw [h1]
      exact ⟨_, _, _, rfl, h2, by rw [← h3] at h0; exact h0, by rw [← h3] at h6; exact h6⟩
    · exact ⟨_, _, _, rfl, hlen, h0, h6⟩

theorem form_run_inv (uuid now : GoString) (msgs : List tea.Msg) :
    ∀ (m : tunnelFormModel) (f : tunnel.TunnelFile), m.inputs.length = 7 → 0 ≤ m.focusIndex →
      m.focusIndex ≤ 6 →
      ∃ m1 f1 q, tunnelFormModel.run uuid now m f msgs = some (m1, f1, q) ∧
        m1.inputs.length = 7 ∧ 0 ≤ m1.focusIndex ∧ m1.focusIndex ≤ 6 := by
  induction msgs with
  | nil => intro m f hlen h0 h6; exact ⟨m, f, false, rfl, hlen, h0, h6⟩
  | cons msg rest ih =>
    intro m f hlen h0 h6
    obtain ⟨m1, cmd, f1, hu, h1, h2, h3⟩ := form_Update_inv m f uuid now msg hlen h0 h6
    rw [tunnelFormModel.run]
    simp only [hu]
    by_cases hq : cmd = .Quit
    · rw [if_pos hq]
      exact ⟨m1, f1, true, rfl, h1, h2, h3⟩
    · rw [if_neg hq]
      exact ih m1 f1 h1 h2 h3

theorem newTunnelForm_shape (t : Option tunnel.Tunnel) :
    (newTunnelForm t).inputs.length = 7 ∧ (newTunnelForm t).focusIndex = 0 := by
  cases t <;> exact ⟨rfl, rfl⟩

/-- C34 (counterexample): in the form of a dynamic tunnel with the focus on the
local port, the key tab puts the focus on the remote host (index 3); with the
focus on the bind address, the key up puts it on the remote port (index 4). -/
theorem C34_counterexample :
    socksForm.valueAt inputType = some (str "dynamic") ∧ socksForm.focusIndex = inputLocalPort ∧
    (socksForm.Update {} [] [] (.KeyMsg tabKey)).map (fun r => r.1.focusIndex)
      = some (inputRemoteHost : Int) ∧
    (({ socksForm with focusIndex := inputBindAddress } : tunnelFormModel).Update {} [] []
      (.KeyMsg upKey)).map (fun r => r.1.focusIndex) = some (inputRemotePort : Int) :=
  ⟨by decide, by decide, by decide, by decide⟩

/-- C34 (amended): in a form with its seven inputs whose type reads `dynamic`,
the remote host and the remote port are skipped where the form is drawn (`View`)
and not in navigation: tab, down and enter move the focus from the local port
(index 2) to the remote host (index 3), and shift+tab and up move it from the
bind address (index 5) to the remote port (index 4). -/
theorem C34_navigation_reaches_hidden_inputs (m : tunnelFormModel) (f : tunnel.TunnelFile)
    (uuid now : GoString) (k : tea.KeyMsg) (hlen : m.inputs.length = 7)
    (hdyn : m.valueAt inputType = some (str "dynamic")) :
    m.skippedInView inputRemoteHost = some true ∧ m.skippedInView inputRemotePort = some true ∧
    (m.focusIndex = inputLocalPort →
      (k.String = str "tab" ∨ k.String = str "down" ∨ k.String = str "enter") →
        m.Update f uuid now (.KeyMsg k) =
          some ({ m with focusIndex := inputRemoteHost }, .nil, f)) ∧
    (m.focusIndex = inputBindAddress → (k.String = str "shift+tab" ∨ k.String = str "up") →
        m.Update f uuid now (.KeyMsg k) =
          some ({ m with focusIndex := inputRemotePort }, .nil, f)) := by
  refine ⟨?_, ?_, ?_, ?_⟩
  · simp [tunnelFormModel.skippedInView, hdyn]
  · simp [tunnelFormModel.skippedInView, hdyn]
  · intro hfoc hk
    have h2 : m.focusIndex = 2 := hfoc
    rw [form_Update_next m f uuid now k hlen (by omega) (by omega) hk, h2]
    rfl
  · intro hfoc hk
    have h5 : m.focusIndex = 5 := hfoc
    rw [form_Update_prev m f uuid now k hlen (by omega) (by omega) hk, h5]
    rfl

/-- The form of a dynamic tunnel with the focus on the local port, and the key tab. -/
theorem C34_navigation_witness :
    socksForm.skippedInView inputRemoteHost = some true ∧
    socksForm.Update {} [] [] (.KeyMsg tabKey) =
      some ({ socksForm with focusIndex := inputRemoteHost }, .nil, {}) :=
  ⟨(C34_navigation_reaches_hidden_inputs socksForm {} [] [] tabKey rfl rfl).1,
    (C34_navigation_reaches_hidden_inputs socksForm {} [] [] tabKey rfl rfl).2.2.1 rfl
      (Or.inl (by decide))⟩

/-- C35: a form made by `newTunnelForm` has seven inputs and the focus on the
first.  In a form with seven inputs and the focus `i` in 0..6, tab and down move
the focus to `(i + 1) mod 7` and shift+tab and up to `(i - 1) mod 7` (0 goes to
6), and nothing else changes; every sequence of messages is handled without a
panic and leaves seven inputs and the focus in 0..6, so the focused input
exists; and tab or down followed by shift+tab or up gives the form back. -/
theorem C35_focus_wraps (m : tunnelFormModel) (f : tunnel.TunnelFile) (uuid now : GoString)
    (hlen : m.inputs.length = 7) (h0 : 0 ≤ m.focusIndex) (h6 : m.focusIndex ≤ 6) :
    (∀ t, (newTunnelForm t).inputs.length = 7 ∧ (newTunnelForm t).focusIndex = 0) ∧
    (∀ k : tea.KeyMsg, k.String = str "tab" ∨ k.String = str "down" →
      m.Update f uuid now (.KeyMsg k) =
        some ({ m with focusIndex := (m.focusIndex + 1) % 7 }, .nil, f)) ∧
    (∀ k : tea.KeyMsg, k.String = str "shift+tab" ∨ k.String = str "up" →
      m.Update f uuid now (.KeyMsg k) =
        some ({ m with focusIndex := (m.focusIndex - 1) % 7 }, .nil, f)) ∧
    (∀ msgs, ∃ m1 f1 q, tunnelFormModel.run uuid now m f msgs = some (m1, f1, q) ∧
      m1.inputs.length = 7 ∧ 0 ≤ m1.focusIndex ∧ m1.focusIndex ≤ 6 ∧
      (m1.inputs.get? m1.focusIndex.toNat).isSome = true) ∧
    (∀ k1 k2 : tea.KeyMsg, k1.String = str "tab" ∨ k1.String = str "down" →
      k2.String = str "shift+tab" ∨ k2.String = str "up" →
        (m.Update f uuid now (.KeyMsg k1)).bind
          (fun r => r.1.Update r.2.2 uuid now (.KeyMsg k2)) = some (m, .nil, f)) := by
  refine ⟨newTunnelForm_shape, ?_, ?_, ?_, ?_⟩
  · intro k hk
    exact form_Update_next m f uuid now k hlen h0 h6 (by tauto)
  · intro k hk
    exact form_Update_prev m f uuid now k hlen h0 h6 hk
  · intro msgs
    obtain ⟨m1, f1, q, hr, h1, h2, h3⟩ := form_run_inv uuid now msgs m f hlen h0 h6
    refine ⟨m1, f1, q, hr, h1, h2, h3, ?_⟩
    have hlt : m1.focusIndex.toNat < m1.inputs.length := by omega
    rw [List.get?_eq_get hlt]
    rfl
  · intro k1 k2 hk1 hk2
    rw [form_Update_next m f uuid now k1 hlen h0 h6 (by tauto)]
    simp only [Option.some_bind]
    have hp := form_Update_prev { m with focusIndex := (m.focusIndex + 1) % 7 } f uuid now k2 hlen
      (show 0 ≤ (m.focusIndex + 1) % 7 by omega) (show (m.focusIndex + 1) % 7 ≤ 6 by omega) hk2
    have hback : ((m.focusIndex + 1) % 7 - 1) % 7 = m.focusIndex := by omega
    simp only [hback] at hp
    exact hp

/-- The empty form on its last input: tab wraps to the first, and a run of keys
that types, erases and moves is handled. -/
theorem C35_focus_wraps_witness :
    ({ newTunnelForm none with focusIndex := 6 } : tunnelFormModel).Update {} [] []
        (.KeyMsg tabKey) = some ({ newTunnelForm none with focusIndex := (6 + 1) % 7 }, .nil, {}) ∧
    (newTunnelForm none).Update {} [] [] (.KeyMsg shiftTabKey) =
      some ({ newTunnelForm none with focusIndex := (0 - 1) % 7 }, .nil, {}) ∧
    (∃ m1 f1 q, tunnelFormModel.run [] [] (newTunnelForm none) {}
        [.KeyMsg upKey, .KeyMsg (tea.keyRune 'x'), .KeyMsg tea.keyBackspace, .KeyMsg downKey] =
          some (m1, f1, q) ∧
      m1.inputs.length = 7 ∧ 0 ≤ m1.focusIndex ∧ m1.focusIndex ≤ 6 ∧
      (m1.inputs.get? m1.focusIndex.toNat).isSome = true) :=
  ⟨(C35_focus_wraps { newTunnelForm none with focusIndex := 6 } {} [] [] rfl (by decide)
      (by decide)).2.1 tabKey (Or.inl (by decide)),
    (C35_focus_wraps (newTunnelForm none) {} [] [] rfl (by decide) (by decide)).2.2.1
      shiftTabKey (Or.inl (by decide)),
    (C35_focus_wraps (newTunnelForm none) {} [] [] rfl (by decide) (by decide)).2.2.2.1 _⟩

end interactive

/-! ## The form against the record validator and the store -/

namespace tunnel

theorem SaveTunnels_error {f : TunnelFile} {ts : List Tunnel} {e : GoString}
    (h : (SaveTunnels f ts).1 = .error e) : f.saveError = some e := by
  unfold SaveTunnels at h
  cases hs : f.saveError with
  | none => simp [hs] at h
  | some e1 =>
    simp only [hs, Except.error.injEq] at h
    rw [h]

theorem LoadTunnels_cases (f : TunnelFile) :
    (∃ e, f.loadError = some e ∧ LoadTunnels f = .error e) ∨
      (f.loadError = none ∧ LoadTunnels f = .ok f.tunnels) := by
  unfold LoadTunnels
  cases f.loadError with
  | none => exact Or.inr ⟨rfl, rfl⟩
  | some e => exact Or.inl ⟨e, rfl, rfl⟩

theorem updateLoop_not_found (t : Tunnel) :
    ∀ l : List Tunnel, (updateLoop t l).2 = false → ∀ s ∈ l, s.ID ≠ t.ID := by
  intro l
  induction l with
  | nil => intro _ s hs; simp at hs
  | cons a rest ih =>
    intro h s hs
    unfold updateLoop at h
    by_cases ha : a.ID = t.ID
    · simp [ha] at h
    · simp only [ha, if_false] at h
      rcases List.mem_cons.mp hs with rfl | hs
      · exact ha
      · exact ih h s hs

/-- The errors of `Create` on a record that `Validate` accepts: the file cannot
be read, the name is taken, or the file cannot be written. -/
theorem Create_error_cases (f : TunnelFile) (uuid now : GoString) (t : Tunnel) (e : GoString)
    (hv : t.Validate = .ok ()) (h : (Create f uuid now t).1 = .error e) :
    f.loadError = some e ∨
      (f.loadError = none ∧ (∃ s ∈ f.tunnels, s.Name = t.Name) ∧
        e = str "tunnel with name '" ++ t.Name ++ str "' already exists") ∨
      (f.loadError = none ∧ f.saveError = some e) := by
  unfold Create at h
  simp only [hv] at h
  rcases LoadTunnels_cases f with ⟨e1, hl, hL⟩ | ⟨hl, hL⟩
  · simp only [hL, Except.error.injEq] at h
    left
    rw [hl, h]
  · simp only [hL] at h
    split_ifs at h with hd
    · simp only [Except.error.injEq] at h
      obtain ⟨s, hs, hn⟩ := List.any_eq_true.mp hd
      exact Or.inr (Or.inl ⟨hl, ⟨s, hs, by simpa using hn⟩, h.symm⟩)
    · exact Or.inr (Or.inr ⟨hl, SaveTunnels_error h⟩)

/-- The errors of `Update` on a record that `Validate` accepts: the file cannot
be read, no stored tunnel has the identifier, or the file cannot be written. -/
theorem Update_error_cases (f : TunnelFile) (t : Tunnel) (e : GoString)
    (hv : t.Validate = .ok ()) (h : (Update f t).1 = .error e) :
    f.loadError = some e ∨
      (f.loadError = none ∧ (∀ s ∈ f.tunnels, s.ID ≠ t.ID) ∧
        e = str "tunnel not found: " ++ t.ID) ∨
      (f.loadError = none ∧ f.saveError = some e) := by
  unfold Update at h
  simp only [hv] at h
  rcases LoadTunnels_cases f with ⟨e1, hl, hL⟩ | ⟨hl, hL⟩
  · simp only [hL, Except.error.injEq] at h
    left
    rw [hl, h]
  · simp only [hL] at h
    split_ifs at h with hd
    · simp only [Except.error.injEq] at h
      refine Or.inr (Or.inl ⟨hl, updateLoop_not_found t f.tunnels (by simpa using hd), h.symm⟩)
    · exact Or.inr (Or.inr ⟨hl, SaveTunnels_error h⟩)

end tunnel

namespace interactive

/-- What it means that no rule of the form fails. -/
theorem firstFailure_none_iff (name kind localPort remoteHost remotePort : GoString) :
    firstFailure name kind localPort remoteHost remotePort = none ↔
      name ≠ [] ∧ (kind = str "local" ∨ kind = str "remote" ∨ kind = str "dynamic") ∧
        localPort ≠ [] ∧ isPortText localPort = true ∧
        ((kind = str "local" ∨ kind = str "remote") →
          remoteHost ≠ [] ∧ remotePort ≠ [] ∧ isPortText remotePort = true) := by
  unfold firstFailure formRules
  rw [Option.map_eq_none', List.find?_eq_none]
  by_cases hk : kind = str "local" ∨ kind = str "remote"
  · rw [if_pos hk]
    simp only [List.cons_append, List.nil_append, List.forall_mem_cons, List.not_mem_nil,
      Bool.not_eq_true', Bool.not_eq_false', decide_eq_true_eq, Bool.not_eq_true,
      Bool.not_eq_false, ne_eq, IsEmpty.forall_iff, implies_true, and_true, Bool.not_not]
    constructor
    · rintro ⟨a1, a2, a3, a4, a5, a6, a7⟩
      exact ⟨a1, a2, a3, a4, fun _ => ⟨a5, a6, a7⟩⟩
    · rintro ⟨a1, a2, a3, a4, a5⟩
      exact ⟨a1, a2, a3, a4, a5 hk⟩
  · rw [if_neg hk]
    simp only [List.append_nil, List.forall_mem_cons, List.not_mem_nil,
      Bool.not_eq_true', Bool.not_eq_false', decide_eq_true_eq, Bool.not_eq_true,
      Bool.not_eq_false, ne_eq, IsEmpty.forall_iff, implies_true, and_true, Bool.not_not]
    constructor
    · rintro ⟨a1, a2, a3, a4⟩
      exact ⟨a1, a2, a3, a4, fun hc => absurd hc hk⟩
    · rintro ⟨a1, a2, a3, a4, _⟩
      exact ⟨a1, a2, a3, a4⟩

/-- The record that `submit` builds from inputs that pass the form's rules is
accepted by `Validate`, whatever identifier and creation time it is given. -/
theorem built_record_valid (name kind lpText host rpText bind desc id created : GoString)
    (lp rp : Int)
    (hok : firstFailure name kind lpText host rpText = none)
    (hlp : strconv.Atoi lpText = some lp)
    (hrp : (kind = str "local" ∨ kind = str "remote") → strconv.Atoi rpText = some rp) :
    ({ Name := name, Type_ := kind, LocalPort := lp, RemoteHost := host, RemotePort := rp,
       BindAddress := bind, Description := desc, ID := id, CreatedAt := created } :
      tunnel.Tunnel).Validate = .ok () := by
  obtain ⟨h1, h2, _, h4, h5⟩ := (firstFailure_none_iff _ _ _ _ _).mp hok
  obtain ⟨v, hv, hrange⟩ := (isPortText_eq _).mp h4
  rw [hlp] at hv
  cases hv
  rw [tunnel.validate_ok_iff]
  refine ⟨h1, h2, ⟨by simp only; omega, by simp only; omega⟩, fun hk => ?_⟩
  obtain ⟨h6, _, h8⟩ := h5 hk
  obtain ⟨w, hw, hwrange⟩ := (isPortText_eq _).mp h8
  rw [hrp hk] at hw
  cases hw
  exact ⟨h6, by simp only; omega, by simp only; omega⟩

/-- C40: for a form with its seven inputs that pass every rule of `submit`, the
ports are read as integers (the remote port is 0 for a dynamic forwarding), the
record that `submit` builds is accepted by `Tunnel.Validate`, with or without the
identifier and the creation time of an edited tunnel, and `submit` ends as the
store call on this record ends; so an error of `Create` is that the file cannot
be read, that the name is taken or that the file cannot be written, and an error
of `Update` is that the file cannot be read, that no stored tunnel has the
identifier or that the file cannot be written: it is never `invalid tunnel`. -/
theorem C40_form_refines_validate (m : tunnelFormModel) (f : tunnel.TunnelFile)
    (uuid now : GoString) (i0 i1 i2 i3 i4 i5 i6 : formInput)
    (h : m.inputs = [i0, i1, i2, i3, i4, i5, i6])
    (hok : firstFailure i0.value i1.value i2.value i3.value i4.value = none) :
    ∃ localPort remotePort, strconv.Atoi i2.value = some localPort ∧
      ((i1.value = str "local" ∨ i1.value = str "remote") →
        strconv.Atoi i4.value = some remotePort) ∧
      (¬ (i1.value = str "local" ∨ i1.value = str "remote") → remotePort = 0) ∧
      (∀ id created,
        ({ Name := i0.value, Type_ := i1.value, LocalPort := localPort,
           RemoteHost := i3.value, RemotePort := remotePort, BindAddress := i5.value,
           Description := i6.value, ID := id, CreatedAt := created } :
          tunnel.Tunnel).Validate = .ok ()) ∧
      m.submit f uuid now =
        some (
          match (match m.editing, m.tunnel with
            | true, some old =>
              tunnel.Update f
                { Name := i0.value, Type_ := i1.value, LocalPort := localPort,
                  RemoteHost := i3.value, RemotePort := remotePort, BindAddress := i5.value,
                  Description := i6.value, ID := old.ID, CreatedAt := old.CreatedAt }
            | _, _ =>
              tunnel.Create f uuid now
                { Name := i0.value, Type_ := i1.value, LocalPort := localPort,
                  RemoteHost := i3.value, RemotePort := remotePort, BindAddress := i5.value,
                  Description := i6.value }) with
          | (.error err, f1) => ({ m with err := err }, tea.Cmd.nil, f1)
          | (.ok (), f1) => ({ m with submitted := true }, tea.Cmd.Quit, f1)) ∧
      (∀ e,
        (tunnel.Create f uuid now
          { Name := i0.value, Type_ := i1.value, LocalPort := localPort,
            RemoteHost := i3.value, RemotePort := remotePort, BindAddress := i5.value,
            Description := i6.value }).1 = .error e →
          f.loadError = some e ∨
            (f.loadError = none ∧ (∃ s ∈ f.tunnels, s.Name = i0.value) ∧
              e = str "tunnel with name '" ++ i0.value ++ str "' already exists") ∨
            (f.loadError = none ∧ f.saveError = some e)) ∧
      (∀ id created e,
        (tunnel.Update f
          { Name := i0.value, Type_ := i1.value, LocalPort := localPort,
            RemoteHost := i3.value, RemotePort := remotePort, BindAddress := i5.value,
            Description := i6.value, ID := id, CreatedAt := created }).1 = .error e →
          f.loadError = some e ∨
            (f.loadError = none ∧ (∀ s ∈ f.tunnels, s.ID ≠ id) ∧
              e = str "tunnel not found: " ++ id) ∨
            (f.loadError = none ∧ f.saveError = some e)) := by
  obtain ⟨lp, rp, h1, h2, h3, h4⟩ := submit_success m f uuid now i0 i1 i2 i3 i4 i5 i6 h hok
  have hvalid : ∀ id created,
      ({ Name := i0.value, Type_ := i1.value, LocalPort := lp,
         RemoteHost := i3.value, RemotePort := rp, BindAddress := i5.value,
         Description := i6.value, ID := id, CreatedAt := created } :
        tunnel.Tunnel).Validate = .ok () :=
    fun id created => built_record_valid _ _ _ _ _ _ _ id created lp rp hok h1 h2
  refine ⟨lp, rp, h1, h2, h3, hvalid, ?_, ?_, ?_⟩
  · exact h4.trans (store_eq m f uuid now i1.value lp rp i0 i1 i2 i3 i4 i5 i6 h)
  · intro e he
    exact tunnel.Create_error_cases f uuid now _ e (hvalid [] []) he
  · intro id created e he
    exact tunnel.Update_error_cases f _ e (hvalid id created) he

end interactive

namespace interactive

/-- The form over a concrete new tunnel: its inputs pass the rules, and the
record built from them is valid under any identifier. -/
theorem C40_form_refines_validate_witness :
    firstFailure (str "cache") (str "local") (str "6379") (str "localhost") (str "6379") = none ∧
    ∃ localPort remotePort, strconv.Atoi (str "6379") = some localPort ∧
      (∀ id created,
        ({ Name := str "cache", Type_ := str "local", LocalPort := localPort,
           RemoteHost := str "localhost", RemotePort := remotePort, BindAddress := [],
           Description := [], ID := id, CreatedAt := created } : tunnel.Tunnel).Validate
          = .ok ()) := by
  refine ⟨by decide, ?_⟩
  obtain ⟨lp, rp, h1, _, _, h4, _⟩ :=
    C40_form_refines_validate cacheForm tunnelStore [] [] _ _ _ _ _ _ _ rfl (by decide)
  exact ⟨lp, rp, h1, h4⟩

/-- The inputs that `newTunnelForm` fills in from a valid tunnel pass every rule
of the form. -/
theorem edit_form_passes (t : tunnel.Tunnel) (hv : t.Validate = .ok ()) :
    firstFailure t.Name t.Type_ (strconv.Itoa t.LocalPort) t.RemoteHost
      (strconv.Itoa t.RemotePort) = none := by
  obtain ⟨h1, h2, h3, h4⟩ := (tunnel.validate_ok_iff t).mp hv
  rw [firstFailure_none_iff]
  refine ⟨h1, h2, Itoa_ne_nil _ (by omega), ?_, fun hk => ?_⟩
  · exact (isPortText_eq _).mpr ⟨t.LocalPort, strconv.Atoi_Itoa _ (by omega) (by omega), by omega⟩
  · obtain ⟨h5, h6, h7⟩ := h4 hk
    exact ⟨h5, Itoa_ne_nil _ (by omega),
      (isPortText_eq _).mpr ⟨t.RemotePort, strconv.Atoi_Itoa _ (by omega) (by omega), by omega⟩⟩

theorem asRead_split {pre post : List tunnel.Tunnel} {t : tunnel.Tunnel}
    (h : tunnel.asRead (pre ++ t :: post)) :
    pre.map tunnel.Tunnel.roundTrip = pre ∧ t.roundTrip = t ∧
      post.map tunnel.Tunnel.roundTrip = post := by
  have h2 : (pre ++ t :: post).map tunnel.Tunnel.roundTrip = pre ++ t :: post := h
  rw [List.map_append, List.map_cons] at h2
  have h3 := List.append_inj h2 (by simp)
  exact ⟨h3.1, (List.cons.inj h3.2).1, (List.cons.inj h3.2).2⟩

/-- Submitting the edit form of a stored valid tunnel as it was opened: the
record stored in its place. -/
theorem edit_unchanged_submit (f : tunnel.TunnelFile) (t : tunnel.Tunnel)
    (pre post : List tunnel.Tunnel) (uuid now : GoString)
    (hv : t.Validate = .ok ()) (hl : f.loadError = none) (hs : f.saveError = none)
    (hst : tunnel.asRead f.tunnels)
    (hf : f.tunnels = pre ++ t :: post) (hpre : ∀ s ∈ pre, s.ID ≠ t.ID) :
    (newTunnelForm (some t)).submit f uuid now =
      some ({ newTunnelForm (some t) with submitted := true }, .Quit,
        { f with tunnels := pre ++
          { t with
            LastUsed := [],
            RemotePort := if t.Type_ = str "local" ∨ t.Type_ = str "remote" then t.RemotePort
              else 0 } :: post }) := by
  have hok := edit_form_passes t hv
  obtain ⟨lp, rp, h1, h2, h3, h4⟩ :=
    submit_success (newTunnelForm (some t)) f uuid now _ _ _ _ _ _ _ rfl hok
  obtain ⟨_, _, hrange, h8⟩ := (tunnel.validate_ok_iff t).mp hv
  have hlp : lp = t.LocalPort := by
    have := strconv.Atoi_Itoa t.LocalPort (by omega) (by omega)
    exact Option.some.inj (h1.symm.trans this)
  have hrp : rp = if t.Type_ = str "local" ∨ t.Type_ = str "remote" then t.RemotePort else 0 := by
    by_cases hk : t.Type_ = str "local" ∨ t.Type_ = str "remote"
    · rw [if_pos hk]
      have h9 := (h8 hk).2
      have := strconv.Atoi_Itoa t.RemotePort (by omega) (by omega)
      exact Option.some.inj ((h2 hk).symm.trans this)
    · rw [if_neg hk]
      exact h3 hk
  have hvalid := built_record_valid t.Name t.Type_ (strconv.Itoa t.LocalPort) t.RemoteHost
    (strconv.Itoa t.RemotePort) t.BindAddress t.Description t.ID t.CreatedAt lp rp hok h1 h2
  have hup := tunnel.Update_found f _ t pre post hvalid hl hs hf hpre rfl
  rw [hf] at hst
  obtain ⟨hpre2, ht, hpost2⟩ := asRead_split hst
  have hrec : tunnel.Tunnel.roundTrip
        { Name := t.Name, Type_ := t.Type_, LocalPort := lp, RemoteHost := t.RemoteHost,
          RemotePort := rp, BindAddress := t.BindAddress, Description := t.Description,
          ID := t.ID, CreatedAt := t.CreatedAt }
      = { Name := t.Name, Type_ := t.Type_, LocalPort := lp, RemoteHost := t.RemoteHost,
          RemotePort := rp, BindAddress := t.BindAddress, Description := t.Description,
          ID := t.ID, CreatedAt := t.CreatedAt } := by
    have ht2 := ht
    cases t
    simp only [tunnel.Tunnel.roundTrip, tunnel.Tunnel.mk.injEq] at ht2 ⊢
    simp only [ht2, and_self, true_and]
    rfl
  rw [List.map_append, List.map_cons, hpre2, hpost2, hrec] at hup
  rw [h4, store_eq (newTunnelForm (some t)) f uuid now t.Type_ lp rp _ _ _ _ _ _ _ rfl]
  refine congrArg some ?_
  change (match tunnel.Update f
      { Name := t.Name, Type_ := t.Type_, LocalPort := lp, RemoteHost := t.RemoteHost,
        RemotePort := rp, BindAddress := t.BindAddress, Description := t.Description,
        ID := t.ID, CreatedAt := t.CreatedAt } with
    | (.error err, f1) => ({ newTunnelForm (some t) with err := err }, tea.Cmd.nil, f1)
    | (.ok (), f1) => ({ newTunnelForm (some t) with submitted := true }, tea.Cmd.Quit, f1)) = _
  rw [hup, hlp, hrp]

/-- C39 (counterexample): the stored valid tunnel `db`, used on 1 May 2024, is
opened in the edit form and submitted with ctrl+s, nothing typed: the submit
succeeds and the record stored under the ID of `db` has no last-used time, so it
is not equal to the tunnel in every field. -/
theorem C39_counterexample :
    tunnel.usedDb ∈ tunnel.usedStore.tunnels ∧ tunnel.usedDb.Validate = .ok () ∧
    tunnel.usedDb.LastUsed = str "2024-05-01T10:00:00Z" ∧
    ((newTunnelForm (some tunnel.usedDb)).Update tunnel.usedStore [] [] (.KeyMsg ctrlS)).map
      (fun r => (r.1.submitted,
        (r.2.2.tunnels.filter (fun t => decide (t.ID = tunnel.usedDb.ID))).map
          (fun t => (t.Name, t.LastUsed))))
      = some (true, [(str "db", [])]) :=
  ⟨by decide, by decide, by decide, by decide⟩

/-- C39 (amended): for a store that can be read and written, whose records are as
they were read from the file, and a stored valid tunnel `t` (the first with its
identifier), opening the edit form on `t` and submitting it with ctrl+s, nothing
typed, passes the form's rules and the validator and stores in the place of `t`
the record with the identifier, name, kind, local port, remote host, bind
address, description and creation time of `t`, but with an empty last-used time,
and with the remote port 0 when `t` is dynamic; so the stored record equals `t`
only when `t` was never used and, if dynamic, has the remote port 0. -/
theorem C39_edit_resets_last_used (f : tunnel.TunnelFile) (t : tunnel.Tunnel)
    (pre post : List tunnel.Tunnel) (uuid now : GoString) (k : tea.KeyMsg)
    (hk : k.String = str "ctrl+s")
    (hv : t.Validate = .ok ()) (hl : f.loadError = none) (hs : f.saveError = none)
    (hst : tunnel.asRead f.tunnels)
    (hf : f.tunnels = pre ++ t :: post) (hpre : ∀ s ∈ pre, s.ID ≠ t.ID) :
    (newTunnelForm (some t)).Update f uuid now (.KeyMsg k) =
      some ({ newTunnelForm (some t) with submitted := true }, .Quit,
        { f with tunnels := pre ++
          { t with
            LastUsed := [],
            RemotePort := if t.Type_ = str "local" ∨ t.Type_ = str "remote" then t.RemotePort
              else 0 } :: post }) ∧
    (({ t with
        LastUsed := [],
        RemotePort := if t.Type_ = str "local" ∨ t.Type_ = str "remote" then t.RemotePort
          else 0 } : tunnel.Tunnel) = t ↔
      t.LastUsed = [] ∧ (¬ (t.Type_ = str "local" ∨ t.Type_ = str "remote") → t.RemotePort = 0)) := by
  refine ⟨?_, ?_⟩
  · rw [form_Update_submit _ f uuid now k hk]
    exact edit_unchanged_submit f t pre post uuid now hv hl hs hst hf hpre
  · cases t with
    | mk ID Name Description Type_ LocalPort RemoteHost RemotePort BindAddress CreatedAt LastUsed =>
      simp only [tunnel.Tunnel.mk.injEq, true_and, and_true]
      constructor
      · rintro ⟨h1, h2⟩
        refine ⟨h2.symm, fun hk => ?_⟩
        rw [if_neg hk] at h1
        exact h1.symm
      · rintro ⟨h1, h2⟩
        refine ⟨?_, h1.symm⟩
        split_ifs with hk
        · rfl
        · exact (h2 hk).symm

/-- The stored tunnel `cache`, never used, edited without a change: the record
stored in its place is the tunnel as it was; and the stored tunnel `db`, used on
1 May 2024: the record stored in its place has no last-used time. -/
theorem C39_edit_resets_last_used_witness :
    (newTunnelForm (some tunnel.neverCache)).Update tunnel.usedStore [] [] (.KeyMsg ctrlS) =
      some ({ newTunnelForm (some tunnel.neverCache) with submitted := true }, .Quit,
        { tunnel.usedStore with tunnels :=
          [] ++
            { tunnel.neverCache with
              LastUsed := [],
              RemotePort := if tunnel.neverCache.Type_ = str "local" ∨
                tunnel.neverCache.Type_ = str "remote" then tunnel.neverCache.RemotePort else 0 } ::
            [tunnel.usedDb, tunnel.neverApi, tunnel.usedWeb] }) ∧
    (newTunnelForm (some tunnel.neverCache)).Update tunnel.usedStore [] [] (.KeyMsg ctrlS) =
      some ({ newTunnelForm (some tunnel.neverCache) with submitted := true }, .Quit,
        tunnel.usedStore) ∧
    (newTunnelForm (some tunnel.usedDb)).Update tunnel.usedStore [] [] (.KeyMsg ctrlS) =
      some ({ newTunnelForm (some tunnel.usedDb) with submitted := true }, .Quit,
        { tunnel.usedStore with tunnels :=
          [tunnel.neverCache] ++
            { tunnel.usedDb with
              LastUsed := [],
              RemotePort := if tunnel.usedDb.Type_ = str "local" ∨
                tunnel.usedDb.Type_ = str "remote" then tunnel.usedDb.RemotePort else 0 } ::
            [tunnel.neverApi, tunnel.usedWeb] }) :=
  ⟨(C39_edit_resets_last_used tunnel.usedStore tunnel.neverCache []
    [tunnel.usedDb, tunnel.neverApi, tunnel.usedWeb] [] [] ctrlS (by decide) (by decide) rfl rfl
    (by decide) rfl (by decide)).1,
   by decide,
   (C39_edit_resets_last_used tunnel.usedStore tunnel.usedDb [tunnel.neverCache]
    [tunnel.neverApi, tunnel.usedWeb] [] [] ctrlS (by decide) (by decide) rfl rfl (by decide) rfl
    (by decide)).1⟩

end interactive

/-! ## The surplus policies of `AdjustTableDimensions` (tables.go) -/

namespace theme

/-- The config and history surplus loop in closed form: it ends with no
leftover; the Key column first takes what brings it to 15, then one unit of
every two up to 30, and the Name column takes the rest. -/
theorem keyNameLoop_spec (fuel : Nat) : ∀ l k n : Int, l.toNat ≤ fuel → 0 ≤ l → 0 ≤ k →
    k ≤ 30 →
    keyNameLoop fuel l k n =
      (0,
        k + min l (max 0 (15 - k)) +
          min (30 - k - min l (max 0 (15 - k))) ((l - min l (max 0 (15 - k))) / 2),
        n + l - min l (max 0 (15 - k)) -
          min (30 - k - min l (max 0 (15 - k))) ((l - min l (max 0 (15 - k))) / 2)) := by
  induction fuel with
  | zero =>
    intro l k n hf hl hk hk30
    have h0 : l = 0 := by omega
    subst h0
    simp only [keyNameLoop]
    refine Prod.ext rfl (Prod.ext ?_ ?_) <;> simp only <;> omega
  | succ fuel ih =>
    intro l k n hf hl hk hk30
    unfold keyNameLoop
    simp only [preferredKeyExtraWidth, maxKeyExtraWidth]
    split_ifs with h1 h2 h3
    · rw [ih _ _ _ (by omega) (by omega) (by omega) (by omega)]
      refine Prod.ext rfl (Prod.ext ?_ ?_) <;> simp only <;> omega
    · rw [ih _ _ _ (by omega) (by omega) (by omega) (by omega)]
      refine Prod.ext rfl (Prod.ext ?_ ?_) <;> simp only <;> omega
    · rw [ih _ _ _ (by omega) (by omega) (by omega) (by omega)]
      refine Prod.ext rfl (Prod.ext ?_ ?_) <;> simp only <;> omega
    · refine Prod.ext ?_ (Prod.ext ?_ ?_) <;> simp only <;> omega

/-- The tunnel surplus loop in closed form: Description takes the upper half
and Remote the lower half of the leftover. -/
theorem descRemoteLoop_spec (fuel : Nat) : ∀ l d r : Int, l.toNat ≤ fuel → 0 ≤ l →
    descRemoteLoop fuel l d r = (0, d + (l + 1) / 2, r + l / 2) := by
  induction fuel with
  | zero =>
    intro l d r hf hl
    have h0 : l = 0 := by omega
    subst h0
    simp only [descRemoteLoop]
    refine Prod.ext rfl (Prod.ext ?_ ?_) <;> simp only <;> omega
  | succ fuel ih =>
    intro l d r hf hl
    unfold descRemoteLoop
    split_ifs with h1 h2
    · rw [ih _ _ _ (by omega) (by omega)]
      refine Prod.ext rfl (Prod.ext ?_ ?_) <;> simp only <;> omega
    · rw [ih _ _ _ (by omega) (by omega)]
      refine Prod.ext rfl (Prod.ext ?_ ?_) <;> simp only <;> omega
    · refine Prod.ext ?_ (Prod.ext ?_ ?_) <;> simp only <;> omega

theorem keyNameLoop_start (s : Int) (hs : 0 ≤ s) :
    keyNameLoop s.toNat s 0 0 = (0, keyShare s, s - keyShare s) := by
  rw [keyNameLoop_spec s.toNat s 0 0 (le_refl _) hs (le_refl _) (by norm_num)]
  unfold keyShare
  refine Prod.ext rfl (Prod.ext ?_ ?_) <;> simp only <;> split_ifs <;> omega

theorem keyShare_le (s : Int) (hs : 0 ≤ s) : 0 ≤ keyShare s ∧ keyShare s ≤ 30 ∧ keyShare s ≤ s := by
  unfold keyShare
  split_ifs <;> omega

/-- C36: for a column set with the config or the history profile and a
surplus `s = contentWidth - 60 ≥ 0`, the surplus loop ends, within its `s`
rounds, with no leftover, `keyShare s` for the Key column (`s` when `s ≤ 15`,
otherwise `15 + min(15, (s - 15) / 2)`, never more than 30) and the rest,
`s - keyShare s`, for the Name column; the returned widths are the base widths
with these two additions, so Host, Port, User and Last login keep 20, 5, 10 and
15, and the widths sum to the content width. -/
theorem C36_record_surplus (cols : List table.Column) (p : TableStyle) (w h : Int)
    (hp : profileOf cols = some p) (hrec : p = .ConfigTable ∨ p = .HistoryTable)
    (hs : 0 ≤ widthForTableContent w - 60) :
    keyNameLoop (widthForTableContent w - 60).toNat (widthForTableContent w - 60) 0 0 =
      (0, keyShare (widthForTableContent w - 60),
        widthForTableContent w - 60 - keyShare (widthForTableContent w - 60)) ∧
    widthsOf (AdjustTableDimensions cols w h) =
      (match p with
        | .HistoryTable =>
          [10 + (widthForTableContent w - 60 - keyShare (widthForTableContent w - 60)), 20, 5, 10,
            0 + keyShare (widthForTableContent w - 60), 15]
        | _ =>
          [15 + (widthForTableContent w - 60 - keyShare (widthForTableContent w - 60)), 20, 5, 10,
            10 + keyShare (widthForTableContent w - 60)]) ∧
    keyShare (widthForTableContent w - 60) ≤ 30 ∧
    (widthsOf (AdjustTableDimensions cols w h)).sum = widthForTableContent w := by
  have hloop := keyNameLoop_start (widthForTableContent w - 60) hs
  have hk := keyShare_le (widthForTableContent w - 60) hs
  have hwidths : widthsOf (AdjustTableDimensions cols w h) =
      (match p with
        | .HistoryTable =>
          [10 + (widthForTableContent w - 60 - keyShare (widthForTableContent w - 60)), 20, 5, 10,
            0 + keyShare (widthForTableContent w - 60), 15]
        | _ =>
          [15 + (widthForTableContent w - 60 - keyShare (widthForTableContent w - 60)), 20, 5, 10,
            10 + keyShare (widthForTableContent w - 60)]) := by
    rw [widthsOf_adjust cols p w h hp]
    rcases hrec with rfl | rfl
    · rw [if_pos (by simp only [totalBaseOf]; omega)]
      simp only [hloop]
    · rw [if_pos (by simp only [totalBaseOf]; omega)]
      simp only [hloop]
  refine ⟨hloop, hwidths, hk.2.1, ?_⟩
  rw [hwidths]
  rcases hrec with rfl | rfl
  · simp only [List.sum_cons, List.sum_nil]
    omega
  · simp only [List.sum_cons, List.sum_nil]
    omega

set_option maxRecDepth 8000 in
theorem surplus_examples :
    widthForTableContent 100 - 60 = 25 ∧ widthForTableContent 200 - 60 = 125 ∧
    keyShare 25 = 20 ∧ keyShare 125 = 30 ∧ widthForTableContent 110 - 80 = 15 :=
  ⟨by decide, by decide, by decide, by decide, by decide⟩

/-- The config columns in a window 100 wide (surplus 25: Key gets 20, Name 5)
and the history columns in a window 200 wide (surplus 125: Key gets 30, Name
95). -/
theorem C36_record_surplus_witness :
    widthsOf (AdjustTableDimensions (GetColumns .ConfigTable) 100 24) =
      [15 + (widthForTableContent 100 - 60 - keyShare (widthForTableContent 100 - 60)), 20, 5, 10,
        10 + keyShare (widthForTableContent 100 - 60)] ∧
    widthsOf (AdjustTableDimensions (GetColumns .HistoryTable) 200 24) =
      [10 + (widthForTableContent 200 - 60 - keyShare (widthForTableContent 200 - 60)), 20, 5, 10,
        0 + keyShare (widthForTableContent 200 - 60), 15] ∧
    (widthsOf (AdjustTableDimensions (GetColumns .HistoryTable) 200 24)).sum =
      widthForTableContent 200 :=
  ⟨(C36_record_surplus (GetColumns .ConfigTable) .ConfigTable 100 24 (profileOf_GetColumns _)
      (Or.inl rfl) (by rw [surplus_examples.1]; norm_num)).2.1,
    (C36_record_surplus (GetColumns .HistoryTable) .HistoryTable 200 24 (profileOf_GetColumns _)
      (Or.inr rfl) (by rw [surplus_examples.2.1]; norm_num)).2.1,
    (C36_record_surplus (GetColumns .HistoryTable) .HistoryTable 200 24 (profileOf_GetColumns _)
      (Or.inr rfl) (by rw [surplus_examples.2.1]; norm_num)).2.2.2⟩

theorem descRemoteLoop_start (s : Int) (hs : 0 ≤ s) :
    descRemoteLoop s.toNat s 0 0 = (0, (s + 1) / 2, s / 2) := by
  rw [descRemoteLoop_spec s.toNat s 0 0 (le_refl _) hs]
  simp

/-- With room for the base widths of the tunnel table, the tunnel branch
overwrites every width that the config branch has set. -/
theorem adjustTunnel_after_record (a b c d e : table.Column) (cw : Int) (h80 : cw ≥ 80) :
    adjustTunnel (adjustRecord [15, 20, 5, 10, 10] false [a, b, c, d, e] cw) cw =
      adjustTunnel [a, b, c, d, e] cw := by
  have h60 : cw ≥ 60 := by omega
  unfold adjustTunnel adjustRecord
  simp only [if_pos h80, if_pos h60]
  rfl

theorem adjust_tunnel_direct (cols : List table.Column) (w h : Int)
    (hp : profileOf cols = some .TunnelTable) (hs : 0 ≤ widthForTableContent w - 80) :
    (AdjustTableDimensions cols w h).2.2 = adjustTunnel cols (widthForTableContent w) := by
  have hcw : max (wrapInt64 (w - marginWidth)) minTableWidth - contentExtraMargin
      = widthForTableContent w := rfl
  unfold profileOf at hp
  split_ifs at hp with ht h5 h6
  · have hl := isTunnelTable_length ht
    match cols, hl with
    | [a, b, c, d, e], _ =>
      have ht1 : isTunnelTable (adjustRecord [15, 20, 5, 10, 10] false [a, b, c, d, e]
          (widthForTableContent w)) = true := by
        rw [isTunnelTable_congr (adjustRecord_titles _ _ _ _)]
        exact ht
      simp only [AdjustTableDimensions, List.length_cons, List.length_nil, hcw, ht1, if_true]
      exact adjustTunnel_after_record a b c d e _ (by omega)
  · cases hp
  · cases hp

/-- C37: for a column set with the tunnel profile (five columns titled Name,
Type, ...) and a surplus `s = contentWidth - 80 ≥ 0`, the surplus loop ends,
within its `s` rounds, with no leftover, the upper half of `s` for Description
and the lower half for Remote; the returned widths are 15, 10, 10,
`20 + s / 2` and `25 + (s + 1) / 2` and sum to the content width; and the
returned columns are what the tunnel branch alone makes of the columns given,
so the config branch, which runs first on these five columns, leaves no trace. -/
theorem C37_tunnel_surplus (cols : List table.Column) (w h : Int)
    (hp : profileOf cols = some .TunnelTable) (hs : 0 ≤ widthForTableContent w - 80) :
    descRemoteLoop (widthForTableContent w - 80).toNat (widthForTableContent w - 80) 0 0 =
      (0, (widthForTableContent w - 80 + 1) / 2, (widthForTableContent w - 80) / 2) ∧
    widthsOf (AdjustTableDimensions cols w h) =
      [15, 10, 10, 20 + (widthForTableContent w - 80) / 2,
        25 + (widthForTableContent w - 80 + 1) / 2] ∧
    (widthsOf (AdjustTableDimensions cols w h)).sum = widthForTableContent w ∧
    (AdjustTableDimensions cols w h).2.2 = adjustTunnel cols (widthForTableContent w) ∧
    (AdjustTableDimensions cols w h).2.2.map (·.Title) = cols.map (·.Title) := by
  have hloop := descRemoteLoop_start (widthForTableContent w - 80) hs
  have hwidths : widthsOf (AdjustTableDimensions cols w h) =
      [15, 10, 10, 20 + (widthForTableContent w - 80) / 2,
        25 + (widthForTableContent w - 80 + 1) / 2] := by
    rw [widthsOf_adjust cols .TunnelTable w h hp, if_pos (by simp only [totalBaseOf]; omega)]
    simp only [hloop]
  have hdirect := adjust_tunnel_direct cols w h hp hs
  refine ⟨hloop, hwidths, ?_, hdirect, ?_⟩
  · rw [hwidths]
    simp only [List.sum_cons, List.sum_nil]
    omega
  · rw [hdirect]
    unfold adjustTunnel
    simp only
    split_ifs <;> simp only [setWidth_titles, scaleFrom_titles]

/-- The tunnel columns in a window 110 wide, where the surplus is 15: Remote
gets 7 and Description 8. -/
theorem C37_tunnel_surplus_witness :
    widthsOf (AdjustTableDimensions (GetColumns .TunnelTable) 110 24) =
      [15, 10, 10, 20 + (widthForTableContent 110 - 80) / 2,
        25 + (widthForTableContent 110 - 80 + 1) / 2] ∧
    (widthsOf (AdjustTableDimensions (GetColumns .TunnelTable) 110 24)).sum =
      widthForTableContent 110 :=
  ⟨(C37_tunnel_surplus (GetColumns .TunnelTable) 110 24 (profileOf_GetColumns _)
      (by rw [surplus_examples.2.2.2.2]; norm_num)).2.1,
    (C37_tunnel_surplus (GetColumns .TunnelTable) 110 24 (profileOf_GetColumns _)
      (by rw [surplus_examples.2.2.2.2]; norm_num)).2.2.1⟩

end theme

/-! ## The rows and the tunnels of the tunnel picker stay aligned (tunnel_select.go) -/

namespace interactive

theorem mem_tunnelsToRows {tunnels : List tunnel.Tunnel} {row : Row}
    (h : row ∈ tunnelsToRows tunnels) : ∃ t ∈ tunnels, row.getLast? = some t.ID := by
  unfold tunnelsToRows at h
  obtain ⟨t, ht, rfl⟩ := List.mem_map.mp h
  exact ⟨t, ht, rfl⟩

theorem tunnelsToRows_last (tunnels : List tunnel.Tunnel) :
    (tunnelsToRows tunnels).map (fun row => row.getLast?) = tunnels.map (fun t => some t.ID) := by
  unfold tunnelsToRows
  rw [List.map_map]
  rfl

theorem tunnelsToRows_append (a b : List tunnel.Tunnel) :
    tunnelsToRows (a ++ b) = tunnelsToRows a ++ tunnelsToRows b := by
  unfold tunnelsToRows
  exact List.map_append _ _ _

theorem tunnelsToRows_filter (tunnels : List tunnel.Tunnel) (id : GoString) :
    tunnelsToRows (tunnels.filter (fun t => decide (t.ID ≠ id))) =
      (tunnelsToRows tunnels).filter (fun row => decide (row.getLast? ≠ some id)) := by
  induction tunnels with
  | nil => rfl
  | cons t rest ih =>
    have hrow : tunnelsToRows (t :: rest) = (tunnelsToRows [t]) ++ tunnelsToRows rest :=
      tunnelsToRows_append [t] rest
    by_cases h : t.ID = id
    · rw [List.filter_cons_of_neg (by simpa using h), ih, hrow, List.filter_append]
      have : (tunnelsToRows [t]).filter (fun row => decide (row.getLast? ≠ some id)) = [] := by
        simp [tunnelsToRows, h]
      rw [this]
      rfl
    · rw [List.filter_cons_of_pos (by simpa using h), hrow, List.filter_append]
      have : (tunnelsToRows [t]).filter (fun row => decide (row.getLast? ≠ some id)) =
          tunnelsToRows [t] := by
        simp [tunnelsToRows, h]
      rw [this, ← ih]
      exact tunnelsToRows_append [t] _

/-- Over rows that are those of the tunnels, the delete loop keeps the tunnels
whose ID differs from the deleted one, and their rows. -/
theorem deleteLoop_aligned (id : GoString) :
    ∀ (suf pre : List tunnel.Tunnel) (rows : List Row) (newTunnels : List tunnel.Tunnel),
      tunnelModel.deleteLoop id (pre ++ suf) pre.length (tunnelsToRows suf) rows newTunnels =
        some (rows ++ tunnelsToRows (suf.filter (fun t => decide (t.ID ≠ id))),
          newTunnels ++ suf.filter (fun t => decide (t.ID ≠ id))) := by
  intro suf
  induction suf with
  | nil =>
    intro pre rows newTunnels
    simp [tunnelsToRows, tunnelModel.deleteLoop]
  | cons t rest ih =>
    intro pre rows newTunnels
    have hget : (pre ++ t :: rest).get? pre.length = some t := by
      rw [List.get?_eq_getElem?, List.getElem?_append_right (le_refl _)]
      simp
    have hnext := ih (pre ++ [t])
    simp only [List.append_assoc, List.singleton_append, List.length_append, List.length_singleton]
      at hnext
    have hrow : tunnelsToRows (t :: rest) = (tunnelsToRows [t]) ++ tunnelsToRows rest :=
      tunnelsToRows_append [t] rest
    have hone : ∃ row, tunnelsToRows [t] = [row] ∧ row.getLast? = some t.ID := ⟨_, rfl, rfl⟩
    obtain ⟨row, hr1, hr2⟩ := hone
    rw [hrow, hr1]
    simp only [List.singleton_append]
    unfold tunnelModel.deleteLoop
    simp only [hr2, hget]
    by_cases h : t.ID = id
    · rw [if_neg (by simpa using h), hnext, List.filter_cons_of_neg (by simpa using h)]
    · rw [if_pos h, hnext, List.filter_cons_of_pos (by simpa using h)]
      have : tunnelsToRows (t :: rest.filter (fun t => decide (t.ID ≠ id))) =
          [row] ++ tunnelsToRows (rest.filter (fun t => decide (t.ID ≠ id))) := by
        rw [← hr1]
        exact tunnelsToRows_append [t] _
      rw [this]
      simp

theorem tunnelModel_applyFilter_spec (L : GoLib) (m : tunnelModel)
    (hrows : ∀ row ∈ m.allRows, row ≠ []) (m2 : tunnelModel) (h : m.applyFilter L = some m2) :
    m2.allRows = m.allRows ∧ m2.tunnels = m.tunnels ∧
      m2.filtering = m.filtering ∧ m2.formModel = m.formModel ∧
      (∀ row ∈ m2.table.rows, row ∈ m.allRows) ∧
      (m.filterText = [] → m2.table.rows = m.allRows) := by
  rw [tunnelModel_applyFilter_eq L m (fun _ => hrows)] at h
  obtain ⟨t, ht, rfl⟩ := Option.map_eq_some'.mp h
  have ht2 := table.UpdateViewport_some _ _ ht
  subst ht2
  refine ⟨rfl, rfl, rfl, rfl, ?_, ?_⟩
  · intro row hr
    have hr2 : row ∈ (if m.filterText = [] then m.allRows
        else m.allRows.filter (fun row =>
          strings.Contains (strings.ToLower L (strings.Join row.dropLast (str " ")))
            (strings.ToLower L m.filterText))) := hr
    split_ifs at hr2
    · exact hr2
    · exact (List.mem_filter.mp hr2).1
  · intro hc
    show (if m.filterText = [] then m.allRows
        else m.allRows.filter (fun row =>
          strings.Contains (strings.ToLower L (strings.Join row.dropLast (str " ")))
            (strings.ToLower L m.filterText))) = m.allRows
    rw [if_pos hc]

theorem consistent_rows {m : tunnelModel} (hc : m.consistent) :
    (∀ row ∈ m.allRows, row ≠ []) ∧ (∀ row ∈ m.table.rows, ∃ id, row.getLast? = some id) := by
  obtain ⟨h1, _, h3, _⟩ := hc
  have hall : ∀ row ∈ m.allRows, ∃ id, row.getLast? = some id := by
    intro row hr
    rw [h1] at hr
    obtain ⟨t, _, ht⟩ := mem_tunnelsToRows hr
    exact ⟨_, ht⟩
  refine ⟨fun row hr hnil => ?_, fun row hr => hall row (h3 row hr)⟩
  obtain ⟨id, hid⟩ := hall row hr
  rw [hnil] at hid
  cases hid

theorem selected_last {m : tunnelModel} (hc : m.consistent) {sel : Row}
    (hsel : m.table.SelectedRow = some sel) : ∃ id, sel.getLast? = some id :=
  (consistent_rows hc).2 sel (SelectedRow_mem hsel)

theorem applyFilter_consistent (L : GoLib) (m : tunnelModel)
    (h1 : m.allRows = tunnelsToRows m.tunnels) (h4 : m.formInRange = true)
    (hfilt : m.filtering = true ∨ m.filterText = []) (m2 : tunnelModel)
    (hm2 : m.applyFilter L = some m2) : m2.consistent := by
  have hall : ∀ row ∈ m.allRows, row ≠ [] := by
    intro row hr hnil
    rw [h1] at hr
    obtain ⟨t, _, ht⟩ := mem_tunnelsToRows hr
    rw [hnil] at ht
    cases ht
  obtain ⟨a1, a2, a3, a4, a5, a6⟩ := tunnelModel_applyFilter_spec L m hall m2 hm2
  refine ⟨?_, ?_, ?_, ?_⟩
  · rw [a1, a2, h1]
  · intro hf
    rw [a3] at hf
    rcases hfilt with hfilt | hfilt
    · rw [hfilt] at hf
      cases hf
    · rw [a6 hfilt, a1]
  · intro row hr
    rw [a1]
    exact a5 row hr
  · unfold tunnelModel.formInRange at h4 ⊢
    rw [a4]
    exact h4

theorem tunnelModel_updateKeyD_none (L : GoLib) (m : tunnelModel) (f : tunnel.TunnelFile)
    (h : m.table.SelectedRow = none) : m.updateKeyD L f = some (m, .nil, f) := by
  unfold tunnelModel.updateKeyD
  rw [h]

/-- In a consistent session outside Filtering, the delete loop stays in range and
keeps the tunnels with another ID and their rows; the handler hands the rows to
the table, and what it returns is consistent. -/
theorem updateKeyD_consistent (L : GoLib) (m : tunnelModel) (f : tunnel.TunnelFile)
    (hc : m.consistent) (hf : m.filtering = false) :
    (∀ m1 cmd f1, m.updateKeyD L f = some (m1, cmd, f1) → m1.consistent) ∧
    (∀ id, tunnelModel.deleteLoop id m.tunnels 0 m.table.Rows [] [] =
      some (m.table.rows.filter (fun row => decide (row.getLast? ≠ some id)),
        m.tunnels.filter (fun t => decide (t.ID ≠ id))) ∧
      m.table.rows.filter (fun row => decide (row.getLast? ≠ some id))
        = tunnelsToRows (m.tunnels.filter (fun t => decide (t.ID ≠ id)))) ∧
    (∀ sel id, m.table.SelectedRow = some sel → sel.getLast? = some id →
      (tunnel.Delete f id).1 = .ok () →
        m.updateKeyD L f =
          if m.table.rows.filter (fun row => decide (row.getLast? ≠ some id)) = [] then
            some ({ m with allRows := [],
                           tunnels := m.tunnels.filter (fun t => decide (t.ID ≠ id)),
                           table := m.table.withRows L [], exit := true },
              tea.Cmd.Quit, (tunnel.Delete f id).2)
          else
            (m.table.SetRows L
                (m.table.rows.filter
                  (fun row => decide (row.getLast? ≠ some id)))).map
              (fun t =>
                ({ m with
                    allRows := m.table.rows.filter (fun row => decide (row.getLast? ≠ some id)),
                    tunnels := m.tunnels.filter (fun t => decide (t.ID ≠ id)), table := t },
                  tea.Cmd.nil, (tunnel.Delete f id).2))) := by
  have hc0 := hc
  obtain ⟨h1, h2, h3, h4⟩ := hc
  have hrows : m.table.rows = tunnelsToRows m.tunnels := (h2 hf).trans h1
  have hkept : ∀ id, m.table.rows.filter (fun row => decide (row.getLast? ≠ some id))
      = tunnelsToRows (m.tunnels.filter (fun t => decide (t.ID ≠ id))) := by
    intro id
    rw [tunnelsToRows_filter, hrows]
  have hloop : ∀ id, tunnelModel.deleteLoop id m.tunnels 0 m.table.Rows [] [] =
      some (m.table.rows.filter (fun row => decide (row.getLast? ≠ some id)),
        m.tunnels.filter (fun t => decide (t.ID ≠ id))) := by
    intro id
    have := deleteLoop_aligned id m.tunnels [] [] []
    simp only [List.nil_append, List.length_nil] at this
    rw [hkept id, table.Model.Rows, hrows]
    exact this
  have hne : ∀ row ∈ m.table.rows, row ≠ [] := by
    intro row hr hnil
    obtain ⟨id, hid⟩ := (consistent_rows hc0).2 row hr
    rw [hnil] at hid
    cases hid
  have hlen : m.table.rows.length ≤ m.tunnels.length := by
    rw [hrows]
    unfold tunnelsToRows
    rw [List.length_map]
  have hexact : ∀ sel id, m.table.SelectedRow = some sel → sel.getLast? = some id →
      (tunnel.Delete f id).1 = .ok () →
        m.updateKeyD L f =
          if m.table.rows.filter (fun row => decide (row.getLast? ≠ some id)) = [] then
            some ({ m with allRows := [],
                           tunnels := m.tunnels.filter (fun t => decide (t.ID ≠ id)),
                           table := m.table.withRows L [], exit := true },
              tea.Cmd.Quit, (tunnel.Delete f id).2)
          else
            (m.table.SetRows L
                (m.table.rows.filter
                  (fun row => decide (row.getLast? ≠ some id)))).map
              (fun t =>
                ({ m with
                    allRows := m.table.rows.filter (fun row => decide (row.getLast? ≠ some id)),
                    tunnels := m.tunnels.filter (fun t => decide (t.ID ≠ id)), table := t },
                  tea.Cmd.nil, (tunnel.Delete f id).2)) := by
    intro sel id hsel hid hok
    obtain ⟨newTunnels, hl, hD⟩ := tunnelModel_updateKeyD_eq L m f sel id hsel hid hok hne hlen
    have hl2 := hloop id
    rw [table.Model.Rows] at hl2
    rw [hl2] at hl
    have hnt : m.tunnels.filter (fun t => decide (t.ID ≠ id)) = newTunnels := by
      simpa using hl
    rw [hnt]
    exact hD
  refine ⟨?_, fun id => ⟨hloop id, hkept id⟩, hexact⟩
  intro m1 cmd f1 hU
  cases hsel : m.table.SelectedRow with
  | none =>
    rw [tunnelModel_updateKeyD_none L m f hsel] at hU
    simp only [Option.some.injEq, Prod.mk.injEq] at hU
    obtain ⟨rfl, _, _⟩ := hU
    exact hc0
  | some sel =>
    obtain ⟨id, hid⟩ := selected_last hc0 hsel
    cases hres : (tunnel.Delete f id).1 with
    | error e =>
      rw [tunnelModel_updateKeyD_delete_error L m f sel id e hsel hid hres] at hU
      simp only [Option.some.injEq, Prod.mk.injEq] at hU
      obtain ⟨rfl, _, _⟩ := hU
      exact hc0
    | ok u =>
      rw [hexact sel id hsel hid hres] at hU
      by_cases he : m.table.rows.filter (fun row => decide (row.getLast? ≠ some id)) = []
      · rw [if_pos he] at hU
        simp only [Option.some.injEq, Prod.mk.injEq] at hU
        obtain ⟨rfl, _, _⟩ := hU
        refine ⟨?_, fun _ => rfl, fun row hr => hr, h4⟩
        show [] = tunnelsToRows (m.tunnels.filter (fun t => decide (t.ID ≠ id)))
        rw [← hkept id, he]
      · rw [if_neg he] at hU
        obtain ⟨t, ht, hm1⟩ := Option.map_eq_some'.mp hU
        have ht2 := table.UpdateViewport_some _ _ ht
        subst ht2
        simp only [Prod.mk.injEq] at hm1
        obtain ⟨rfl, _, _⟩ := hm1
        exact ⟨hkept id, fun _ => rfl, fun row hr => hr, h4⟩

theorem updateForm_consistent (L : GoLib) (m : tunnelModel) (f : tunnel.TunnelFile)
    (uuid now : GoString) (msg : tea.Msg) (form : tunnelFormModel) (hc : m.consistent)
    (hfm : m.formModel = some form) (m1 : tunnelModel) (cmd : tea.Cmd) (f1 : tunnel.TunnelFile)
    (hU : m.updateForm L f uuid now msg = some (m1, cmd, f1)) : m1.consistent := by
  obtain ⟨h1, h2, h3, h4⟩ := hc
  have hin : form.inputs.length = 7 ∧ 0 ≤ form.focusIndex ∧ form.focusIndex ≤ 6 := by
    unfold tunnelModel.formInRange at h4
    rw [hfm] at h4
    simpa using h4
  obtain ⟨form1, cmd1, f2, hu, i1, i2, i3⟩ :=
    form_Update_inv form f uuid now msg hin.1 hin.2.1 hin.2.2
  unfold tunnelModel.updateForm at hU
  simp only [hfm, hu] at hU
  by_cases hdone : form1.submitted = true ∨ form1.cancelled = true
  · rw [if_pos hdone] at hU
    by_cases hsub : form1.submitted = true
    · simp only [hsub, if_true] at hU
      cases hfa : tunnel.FetchAll f2 with
      | ok ts =>
        simp only [hfa, Option.map_map] at hU
        obtain ⟨t, ht, hm1⟩ := Option.map_eq_some'.mp hU
        have ht2 := table.UpdateViewport_some _ _ ht
        subst ht2
        simp only [Function.comp, Prod.mk.injEq] at hm1
        obtain ⟨rfl, _, _⟩ := hm1
        exact ⟨rfl, fun _ => rfl, fun row hr => hr, rfl⟩
      | error e =>
        simp only [hfa, Option.map_some', Option.some.injEq, Prod.mk.injEq] at hU
        obtain ⟨rfl, _, _⟩ := hU
        exact ⟨h1, h2, h3, rfl⟩
    · simp only [hsub, Bool.false_eq_true, if_false, Option.map_some', Option.some.injEq,
        Prod.mk.injEq] at hU
      obtain ⟨rfl, _, _⟩ := hU
      exact ⟨h1, h2, h3, rfl⟩
  · rw [if_neg hdone] at hU
    simp only [Option.some.injEq, Prod.mk.injEq] at hU
    obtain ⟨rfl, _, _⟩ := hU
    refine ⟨h1, h2, h3, ?_⟩
    show decide (form1.inputs.length = 7 ∧ 0 ≤ form1.focusIndex ∧ form1.focusIndex ≤ 6) = true
    exact decide_eq_true ⟨i1, i2, i3⟩

theorem newTunnelForm_inRange (t : Option tunnel.Tunnel) :
    decide ((newTunnelForm t).inputs.length = 7 ∧ 0 ≤ (newTunnelForm t).focusIndex ∧
      (newTunnelForm t).focusIndex ≤ 6) = true := by
  cases t <;> rfl

theorem tunnelModel_resetTableHeight_consistent (L : GoLib) (st : settings.State)
    (m m1 : tunnelModel) (hc : m.consistent) (h : m.resetTableHeight L st = some m1) :
    m1.consistent := by
  rw [tunnelModel_resetTableHeight_eq] at h
  obtain ⟨t, ht, rfl⟩ := Option.map_eq_some'.mp h
  have ht2 := table.UpdateViewport_some _ _ ht
  subst ht2
  exact hc

/-- Every message that the terminal reader makes and that a consistent session
handles without a panic leaves it consistent. -/
theorem tunnelModel_Update_consistent (L : GoLib) (m : tunnelModel) (st : settings.State)
    (f : tunnel.TunnelFile) (uuid now : GoString) (msg : tea.Msg) (hc : m.consistent)
    (hmsg : msg.fromTerminal) (m1 : tunnelModel) (cmd : tea.Cmd) (st1 : settings.State)
    (f1 : tunnel.TunnelFile) (hU : m.Update L st f uuid now msg = some (m1, cmd, st1, f1)) :
    m1.consistent := by
  have hc0 := hc
  obtain ⟨h1, h2, h3, h4⟩ := hc
  unfold tunnelModel.Update at hU
  by_cases hform : m.showingForm = true ∧ m.formModel ≠ none
  · rw [if_pos hform] at hU
    obtain ⟨form, hfm⟩ := Option.ne_none_iff_exists'.mp hform.2
    obtain ⟨r, hr, hm1⟩ := Option.map_eq_some'.mp hU
    simp only [Prod.mk.injEq] at hm1
    obtain ⟨rfl, _, _, _⟩ := hm1
    exact updateForm_consistent L m f uuid now msg form hc0 hfm r.1 r.2.1 r.2.2 hr
  rw [if_neg hform] at hU
  cases msg with
  | WindowSizeMsg w h =>
    simp only at hU
    obtain ⟨r, hr, hm1⟩ := Option.map_eq_some'.mp hU
    simp only [Prod.mk.injEq] at hm1
    obtain ⟨rfl, _, _, _⟩ := hm1
    obtain ⟨_, _, _, _, a5, _, a7, _, a9, _, a11, _, a13, _⟩ :=
      tunnelModel_updateWindowSize_spec L st m w h r.1 r.2 hr
    refine ⟨?_, ?_, ?_, ?_⟩
    · rw [a7, a11, h1]
    · intro hf
      rw [a5] at hf
      rw [a9, a7]
      exact h2 hf
    · intro row hr
      rw [a9] at hr
      rw [a7]
      exact h3 row hr
    · unfold tunnelModel.formInRange at h4 ⊢
      rw [a13]
      exact h4
  | KeyMsg k =>
    simp only at hU
    by_cases hr : m.filtering = true ∧ k.Type_ = .KeyRunes
    · rw [if_pos hr] at hU
      obtain ⟨m2, hm2, hm1⟩ := Option.map_eq_some'.mp hU
      simp only [Prod.mk.injEq] at hm1
      obtain ⟨rfl, _, _, _⟩ := hm1
      exact applyFilter_consistent L
        { m with filterText := m.filterText ++ tea.runesString k.Runes } h1 h4 (Or.inl hr.1)
        m2 hm2
    rw [if_neg hr] at hU
    by_cases hb : m.filtering = true ∧ k.Type_ = tea.KeyBackspace
    · rw [if_pos hb] at hU
      split_ifs at hU
      · obtain ⟨m2, hm2, hm1⟩ := Option.map_eq_some'.mp hU
        simp only [Prod.mk.injEq] at hm1
        obtain ⟨rfl, _, _, _⟩ := hm1
        exact applyFilter_consistent L
          { m with filterText := m.filterText.dropLast } h1 h4 (Or.inl hb.1) m2 hm2
      · simp only [Option.some.injEq, Prod.mk.injEq] at hU
        obtain ⟨rfl, _, _, _⟩ := hU
        exact hc0
    rw [if_neg hb] at hU
    by_cases k1 : k.String = str "/"
    · rw [if_pos k1] at hU
      obtain ⟨r, hr2, hm1⟩ := Option.map_eq_some'.mp hU
      simp only [Prod.mk.injEq] at hm1
      obtain ⟨rfl, _, _, _⟩ := hm1
      unfold tunnelModel.updateKeySlash at hr2
      split_ifs at hr2 with hnf
      · obtain ⟨m2, hm2, hm1⟩ := Option.map_eq_some'.mp hr2
        rw [← hm1]
        exact applyFilter_consistent L
          { m with filtering := true, filterText := [] } h1 h4 (Or.inl rfl) m2 hm2
      · simp only [Option.some.injEq] at hr2
        rw [← hr2]
        exact hc0
    rw [if_neg k1] at hU
    by_cases k2 : k.String = str "n"
    · rw [if_pos k2] at hU
      simp only [Option.some.injEq, Prod.mk.injEq] at hU
      obtain ⟨rfl, _, _, _⟩ := hU
      exact ⟨h1, h2, h3, newTunnelForm_inRange none⟩
    rw [if_neg k2] at hU
    by_cases k3 : k.String = str "e"
    · rw [if_pos k3] at hU
      obtain ⟨r, hr2, hm1⟩ := Option.map_eq_some'.mp hU
      simp only [Prod.mk.injEq] at hm1
      obtain ⟨rfl, _, _, _⟩ := hm1
      unfold tunnelModel.updateKeyE at hr2
      cases hsel : m.table.SelectedRow with
      | none =>
        simp only [hsel, Option.some.injEq] at hr2
        rw [← hr2]
        exact hc0
      | some sel =>
        obtain ⟨id, hid⟩ := selected_last hc0 hsel
        simp only [hsel, hid] at hr2
        cases hfind : m.tunnels.find? (fun t => decide (t.ID = id)) with
        | none =>
          simp only [hfind, Option.some.injEq] at hr2
          rw [← hr2]
          exact hc0
        | some t =>
          simp only [hfind, Option.some.injEq] at hr2
          rw [← hr2]
          exact ⟨h1, h2, h3, newTunnelForm_inRange (some t)⟩
    rw [if_neg k3] at hU
    by_cases k4 : k.String = str "d"
    · rw [if_pos k4] at hU
      have hrune : k.Type_ = .KeyRunes := hmsg k4
      have hnf : m.filtering = false := by
        cases hfl : m.filtering with
        | false => rfl
        | true => exact absurd ⟨hfl, hrune⟩ hr
      obtain ⟨r, hr2, hm1⟩ := Option.map_eq_some'.mp hU
      simp only [Prod.mk.injEq] at hm1
      obtain ⟨rfl, _, _, _⟩ := hm1
      exact (updateKeyD_consistent L m f hc0 hnf).1 r.1 r.2.1 r.2.2 hr2
    rw [if_neg k4] at hU
    by_cases k5 : k.String = str " "
    · rw [if_pos k5] at hU
      obtain ⟨r, hr2, hm1⟩ := Option.map_eq_some'.mp hU
      simp only [Prod.mk.injEq] at hm1
      obtain ⟨rfl, _, _, _⟩ := hm1
      unfold tunnelModel.updateKeySpace at hr2
      split_ifs at hr2 with hmulti
      · cases hsel : m.table.SelectedRow with
        | none =>
          simp only [hsel, Option.some.injEq] at hr2
          rw [← hr2]
          exact hc0
        | some sel =>
          obtain ⟨id, hid⟩ := selected_last hc0 hsel
          simp only [hsel, hid] at hr2
          split_ifs at hr2
          · simp only [Option.some.injEq] at hr2
            rw [← hr2]
            exact ⟨h1, h2, h3, h4⟩
          · simp only [Option.some.injEq] at hr2
            rw [← hr2]
            exact ⟨h1, h2, h3, h4⟩
      · simp only [Option.some.injEq] at hr2
        rw [← hr2]
        exact hc0
    rw [if_neg k5] at hU
    by_cases k6 : k.String = str "w"
    · rw [if_pos k6] at hU
      obtain ⟨r, hr2, hm1⟩ := Option.map_eq_some'.mp hU
      simp only [Prod.mk.injEq] at hm1
      obtain ⟨rfl, _, _, _⟩ := hm1
      rw [tunnelModel_updateKeyW_eq] at hr2
      cases hw : st.writeError with
      | none =>
        simp only [hw] at hr2
        obtain ⟨m2, hm2, hm1⟩ := Option.map_eq_some'.mp hr2
        rw [← hm1]
        exact tunnelModel_resetTableHeight_consistent L _ m m2 hc0 hm2
      | some e =>
        simp only [hw, Option.some.injEq] at hr2
        rw [← hr2]
        exact hc0
    rw [if_neg k6] at hU
    by_cases k7 : k.String = str "q" ∨ k.String = str "ctrl+c" ∨ k.String = str "esc"
    · rw [if_pos k7] at hU
      obtain ⟨r, hr2, hm1⟩ := Option.map_eq_some'.mp hU
      simp only [Prod.mk.injEq] at hm1
      obtain ⟨rfl, _, _, _⟩ := hm1
      unfold tunnelModel.updateKeyQuit at hr2
      split_ifs at hr2
      · obtain ⟨m2, hm2, hm1⟩ := Option.map_eq_some'.mp hr2
        rw [← hm1]
        unfold tunnelModel.stopFiltering at hm2
        obtain ⟨t, ht, hm3⟩ := Option.map_eq_some'.mp hm2
        have ht2 := table.UpdateViewport_some _ _ ht
        subst ht2
        rw [← hm3]
        exact ⟨h1, fun _ => rfl, fun row hr => hr, h4⟩
      · simp only [Option.some.injEq] at hr2
        rw [← hr2]
        exact ⟨h1, h2, h3, h4⟩
    rw [if_neg k7] at hU
    by_cases k8 : k.String = str "enter"
    · rw [if_pos k8] at hU
      obtain ⟨r, hr2, hm1⟩ := Option.map_eq_some'.mp hU
      simp only [Prod.mk.injEq] at hm1
      obtain ⟨rfl, _, _, _⟩ := hm1
      unfold tunnelModel.updateKeyEnter at hr2
      split_ifs at hr2 with hmulti
      · simp only [Option.some.injEq] at hr2
        rw [← hr2]
        exact hc0
      · cases hsel : m.table.SelectedRow with
        | none =>
          simp only [hsel, Option.some.injEq] at hr2
          rw [← hr2]
          exact hc0
        | some sel =>
          obtain ⟨id, hid⟩ := selected_last hc0 hsel
          simp only [hsel, hid, Option.some.injEq] at hr2
          rw [← hr2]
          exact ⟨h1, h2, h3, h4⟩
    rw [if_neg k8] at hU
    obtain ⟨t, ht, hm1⟩ := Option.map_eq_some'.mp hU
    simp only [Prod.mk.injEq] at hm1
    obtain ⟨rfl, _, _, _⟩ := hm1
    have ht3 : t.rows = m.table.rows := by
      unfold table.Model.Update at ht
      split_ifs at ht
      · have ht2 := table.UpdateViewport_some _ _ ht
        rw [ht2]
        rfl
      · simp only [Option.some.injEq] at ht
        rw [← ht]
        rfl
    refine ⟨h1, fun hf => ?_, fun row hr => ?_, h4⟩
    · show t.rows = m.allRows
      rw [ht3]
      exact h2 hf
    · have hr2 : row ∈ t.rows := hr
      rw [ht3] at hr2
      exact h3 row hr2

theorem initial_consistent (multiSelect : Bool) (tunnels : List tunnel.Tunnel)
    (m0 : tunnelModel) (h : SelectTunnels.initial multiSelect tunnels = some m0) :
    m0.consistent := by
  unfold SelectTunnels.initial at h
  simp only at h
  cases h1 : table.New (theme.GetColumns .TunnelTable) (tunnelsToRows tunnels) with
  | none => simp [h1] at h
  | some t =>
    have ht := table.UpdateViewport_some _ _ h1
    simp only [h1] at h
    cases h2 : t.SetStyles with
    | none => simp [h2] at h
    | some t2 =>
      have ht2 := table.UpdateViewport_some _ _ h2
      simp only [h2, Option.some.injEq] at h
      subst h
      subst ht2
      subst ht
      exact ⟨rfl, fun _ => rfl, fun _ hr => hr, rfl⟩

theorem tunnelModel_run_consistent (L : GoLib) (uuid now : GoString) (msgs : List tea.Msg) :
    ∀ (m : tunnelModel) (st : settings.State) (f : tunnel.TunnelFile), m.consistent →
      (∀ msg ∈ msgs, msg.fromTerminal) →
      ∀ m1 st1 f1 q, tunnelModel.run L uuid now m st f msgs = some (m1, st1, f1, q) →
        m1.consistent := by
  induction msgs with
  | nil =>
    intro m st f hc _ m1 st1 f1 q hrun
    rw [tunnelModel.run] at hrun
    simp only [Option.some.injEq, Prod.mk.injEq] at hrun
    obtain ⟨rfl, _, _, _⟩ := hrun
    exact hc
  | cons msg rest ih =>
    intro m st f hc hmsgs m1 st1 f1 q hrun
    rw [tunnelModel.run] at hrun
    cases hu : m.Update L st f uuid now msg with
    | none => simp [hu] at hrun
    | some r =>
      have hc1 := tunnelModel_Update_consistent L m st f uuid now msg hc
        (hmsgs msg (List.mem_cons_self _ _)) r.1 r.2.1 r.2.2.1 r.2.2.2 hu
      simp only [hu] at hrun
      by_cases hq : r.2.1 = .Quit
      · rw [if_pos hq] at hrun
        simp only [Option.some.injEq, Prod.mk.injEq] at hrun
        obtain ⟨rfl, _, _, _⟩ := hrun
        exact hc1
      · rw [if_neg hq] at hrun
        exact ih r.1 r.2.2.1 r.2.2.2 hc1 (fun x hx => hmsgs x (List.mem_cons_of_mem _ hx))
          m1 st1 f1 q hrun

end interactive

namespace interactive

theorem tunnelModel_Update_d (L : GoLib) (m : tunnelModel) (st : settings.State)
    (f : tunnel.TunnelFile) (uuid now : GoString) (k : tea.KeyMsg)
    (hform : ¬ (m.showingForm = true ∧ m.formModel ≠ none)) (hf : m.filtering = false)
    (hk : k.String = str "d") :
    m.Update L st f uuid now (.KeyMsg k) =
      (m.updateKeyD L f).map (fun r => (r.1, r.2.1, st, r.2.2)) := by
  unfold tunnelModel.Update
  rw [if_neg hform]
  simp only
  rw [if_neg (by simp [hf]), if_neg (by simp [hf]), hk, if_neg (by decide), if_neg (by decide),
    if_neg (by decide), if_pos rfl]

theorem tunnelModel_Update_runes (L : GoLib) (m : tunnelModel) (st : settings.State)
    (f : tunnel.TunnelFile) (uuid now : GoString) (k : tea.KeyMsg)
    (hform : ¬ (m.showingForm = true ∧ m.formModel ≠ none)) (hf : m.filtering = true)
    (hk : k.Type_ = .KeyRunes) :
    m.Update L st f uuid now (.KeyMsg k) =
      (({ m with filterText := m.filterText ++ tea.runesString k.Runes }).applyFilter L).map
        (fun m => (m, .nil, st, f)) := by
  unfold tunnelModel.Update
  rw [if_neg hform]
  simp only
  rw [if_pos ⟨hf, hk⟩]

theorem rowsAligned_of_rows {m : tunnelModel} (h : m.table.rows = tunnelsToRows m.tunnels) :
    m.rowsAligned = true := by
  unfold tunnelModel.rowsAligned
  rw [h, tunnelsToRows_last]
  exact beq_self_eq_true _

/-- C38: the model with which `SelectTunnels` starts, when `table.New` returns
it, is consistent (its rows are those of its tunnels), and in every state that
the program reaches from a consistent state by messages of the terminal reader
(keys and resizes), a key `d` arriving with the form closed does the following.
In Filtering it is added to the filter text and does not reach the delete
handler.  Outside Filtering it runs the delete handler, and then the rows of the
table are those of the session's tunnels, so they are index-aligned with them
(as many tunnels as rows, the row at each index ending in the ID of the tunnel
at that index); the loop of the handler reads no index out of range and keeps
the tunnels with another ID than the deleted one and exactly their rows; and
when the store deletes the highlighted tunnel, the handler hands these rows to
the table and returns these tunnels with them, aligned again, unless the table
panics in rendering them. -/
theorem C38_delete_rows_aligned (L : GoLib) (uuid now : GoString) (m : tunnelModel)
    (st : settings.State) (f : tunnel.TunnelFile) (msgs : List tea.Msg)
    (m1 : tunnelModel) (st1 : settings.State) (f1 : tunnel.TunnelFile) (q : Bool)
    (hm : m.consistent) (hmsgs : ∀ msg ∈ msgs, msg.fromTerminal)
    (hrun : tunnelModel.run L uuid now m st f msgs = some (m1, st1, f1, q)) :
    (∀ multiSelect tunnels m0, SelectTunnels.initial multiSelect tunnels = some m0 →
      m0.consistent) ∧
    ∀ k : tea.KeyMsg, (tea.Msg.KeyMsg k).fromTerminal → k.String = str "d" →
      ¬ (m1.showingForm = true ∧ m1.formModel ≠ none) →
      (m1.filtering = true →
        m1.Update L st1 f1 uuid now (.KeyMsg k) =
          (({ m1 with filterText := m1.filterText ++ tea.runesString k.Runes }).applyFilter
            L).map (fun m => (m, .nil, st1, f1))) ∧
      (m1.filtering = false →
        m1.Update L st1 f1 uuid now (.KeyMsg k) =
          (m1.updateKeyD L f1).map (fun r => (r.1, r.2.1, st1, r.2.2)) ∧
        m1.table.rows = tunnelsToRows m1.tunnels ∧ m1.rowsAligned = true ∧
        ∀ sel id, m1.table.SelectedRow = some sel → sel.getLast? = some id →
          tunnelModel.deleteLoop id m1.tunnels 0 m1.table.Rows [] [] =
            some (m1.table.rows.filter (fun row => decide (row.getLast? ≠ some id)),
              m1.tunnels.filter (fun t => decide (t.ID ≠ id))) ∧
          m1.table.rows.filter (fun row => decide (row.getLast? ≠ some id))
            = tunnelsToRows (m1.tunnels.filter (fun t => decide (t.ID ≠ id))) ∧
          ((tunnel.Delete f1 id).1 = .ok () →
            (∀ m2 cmd f2, m1.updateKeyD L f1 = some (m2, cmd, f2) →
              f2 = (tunnel.Delete f1 id).2 ∧
              m2.tunnels = m1.tunnels.filter (fun t => decide (t.ID ≠ id)) ∧
              m2.table.rows =
                m1.table.rows.filter (fun row => decide (row.getLast? ≠ some id)) ∧
              m2.rowsAligned = true) ∧
            (m1.updateKeyD L f1).isSome =
              (m1.table.SetRows L
                (m1.table.rows.filter
                  (fun row => decide (row.getLast? ≠ some id)))).isSome)) := by
  have hc := tunnelModel_run_consistent L uuid now msgs m st f hm hmsgs m1 st1 f1 q hrun
  refine ⟨initial_consistent, fun k hk hd hform => ⟨fun hf => ?_, fun hf => ?_⟩⟩
  · exact tunnelModel_Update_runes L m1 st1 f1 uuid now k hform hf (hk hd)
  · have hrows : m1.table.rows = tunnelsToRows m1.tunnels := (hc.2.1 hf).trans hc.1
    obtain ⟨_, hloop, hexact⟩ := updateKeyD_consistent L m1 f1 hc hf
    refine ⟨tunnelModel_Update_d L m1 st1 f1 uuid now k hform hf hd, hrows,
      rowsAligned_of_rows hrows, fun sel id hsel hid => ⟨(hloop id).1, (hloop id).2,
        fun hok => ⟨fun m2 cmd f2 hU => ?_, ?_⟩⟩⟩
    · rw [hexact sel id hsel hid hok] at hU
      by_cases he : m1.table.rows.filter (fun row => decide (row.getLast? ≠ some id)) = []
      · rw [if_pos he] at hU
        simp only [Option.some.injEq, Prod.mk.injEq] at hU
        obtain ⟨rfl, _, rfl⟩ := hU
        refine ⟨rfl, rfl, ?_, ?_⟩
        · rw [he]
          rfl
        · apply rowsAligned_of_rows
          show [] = tunnelsToRows (m1.tunnels.filter (fun t => decide (t.ID ≠ id)))
          rw [← (hloop id).2, he]
      · rw [if_neg he] at hU
        obtain ⟨t, ht, hm2⟩ := Option.map_eq_some'.mp hU
        have ht2 := table.UpdateViewport_some _ _ ht
        subst ht2
        simp only [Prod.mk.injEq] at hm2
        obtain ⟨rfl, _, rfl⟩ := hm2
        exact ⟨rfl, rfl, rfl, rowsAligned_of_rows (hloop id).2⟩
    · rw [hexact sel id hsel hid hok]
      by_cases he : m1.table.rows.filter (fun row => decide (row.getLast? ≠ some id)) = []
      · rw [if_pos he, he, table.SetRows_nil]
        rfl
      · rw [if_neg he, Option.isSome_map']

/-- The tunnel picker over the stored tunnels `db` and `web`, whose table draws
no row, after the keys `/`, `w`, esc, down and `d`, which filter on `w`, leave
the filter, move to `web` and delete it; the model with which `SelectTunnels`
starts exists over no tunnels and not over these two, on whose rows `table.New`
panics. -/
theorem C38_delete_rows_aligned_witness :
    (SelectTunnels.initial false []).isSome = true ∧
    SelectTunnels.initial false [dbStored, webStored] = none ∧
    tunnelSession.consistent ∧
    tunnelModel.run asciiLib [] [] tunnelSession settings.freshState tunnelStore deleteWebKeys
      = some (afterDeleteSession, settings.freshState, lastStore, false) ∧
    (∀ multiSelect tunnels m0, SelectTunnels.initial multiSelect tunnels = some m0 →
      m0.consistent) ∧
    ∀ k : tea.KeyMsg, (tea.Msg.KeyMsg k).fromTerminal → k.String = str "d" →
      ¬ (afterDeleteSession.showingForm = true ∧ afterDeleteSession.formModel ≠ none) →
      (afterDeleteSession.filtering = true →
        afterDeleteSession.Update asciiLib settings.freshState lastStore [] [] (.KeyMsg k) =
          (({ afterDeleteSession with
              filterText := afterDeleteSession.filterText ++ tea.runesString k.Runes }).applyFilter
            asciiLib).map (fun m => (m, .nil, settings.freshState, lastStore))) ∧
      (afterDeleteSession.filtering = false →
        afterDeleteSession.Update asciiLib settings.freshState lastStore [] [] (.KeyMsg k) =
          (afterDeleteSession.updateKeyD asciiLib lastStore).map
            (fun r => (r.1, r.2.1, settings.freshState, r.2.2)) ∧
        afterDeleteSession.table.rows = tunnelsToRows afterDeleteSession.tunnels ∧
        afterDeleteSession.rowsAligned = true ∧
        ∀ sel id, afterDeleteSession.table.SelectedRow = some sel → sel.getLast? = some id →
          tunnelModel.deleteLoop id afterDeleteSession.tunnels 0 afterDeleteSession.table.Rows
              [] [] =
            some (afterDeleteSession.table.rows.filter
                (fun row => decide (row.getLast? ≠ some id)),
              afterDeleteSession.tunnels.filter (fun t => decide (t.ID ≠ id))) ∧
          afterDeleteSession.table.rows.filter (fun row => decide (row.getLast? ≠ some id))
            = tunnelsToRows (afterDeleteSession.tunnels.filter (fun t => decide (t.ID ≠ id))) ∧
          ((tunnel.Delete lastStore id).1 = .ok () →
            (∀ m2 cmd f2, afterDeleteSession.updateKeyD asciiLib lastStore = some (m2, cmd, f2) →
              f2 = (tunnel.Delete lastStore id).2 ∧
              m2.tunnels = afterDeleteSession.tunnels.filter (fun t => decide (t.ID ≠ id)) ∧
              m2.table.rows =
                afterDeleteSession.table.rows.filter
                  (fun row => decide (row.getLast? ≠ some id)) ∧
              m2.rowsAligned = true) ∧
            (afterDeleteSession.updateKeyD asciiLib lastStore).isSome =
              (afterDeleteSession.table.SetRows asciiLib
                (afterDeleteSession.table.rows.filter
                  (fun row => decide (row.getLast? ≠ some id)))).isSome)) :=
  ⟨by decide, by decide, by decide, by decide,
    C38_delete_rows_aligned asciiLib [] [] tunnelSession settings.freshState tunnelStore
      deleteWebKeys afterDeleteSession settings.freshState lastStore false (by decide)
      (by decide) (by decide)⟩

end interactive
